import Mathlib

/-!
# A shallow embedding of the backend of the C compiler

The development follows the sources of the repository:

* `backend/MachineOperand.hpp`, `backend/MachineInstruction.cpp`,
  `backend/MachineFunction.hpp`: the low-level IR data model;
* `backend/TargetArchs/AArch64/AArch64TargetMachine.cpp`: constant
  materialization and instruction selection;
* `backend/IRtoLLIR.cpp`: the lowering of the mid-level IR.

Machine integers are natural numbers taken modulo `2^32` (`unsigned`) or
`2^64` (`uint64_t`); a signed reading is given by `toInt64`.
Pointers to instructions and blocks are positions in lists.
-/

set_option maxRecDepth 4096

/-! ## Target opcodes (`AArch64InstructionDefinitions.hpp`) -/

namespace AArch64

/-- The enumeration `AArch64::Opcodes`. -/
inductive Opcodes
  | ADD_rrr | ADD_rri | AND_rrr | AND_rri | ORR_rrr | ORR_rri | EOR_rrr | EOR_rri
  | LSL_rrr | LSL_rri | LSR_rrr | LSR_rri | SUB_rrr | SUB_rri | SUBS
  | MUL_rri | MUL_rrr | SDIV_rri | SDIV_rrr | UDIV_rrr | CMP_ri | CMP_rr
  | CSET_eq | CSET_ne | CSET_lt | CSET_le | CSET_gt | CSET_ge
  | SXTB | SXTH | SXTW | UXTB | UXTH | UXTW
  | MOV_rc | MOV_rr | MOVK_ri | MVN_rr
  | FADD_rrr | FSUB_rrr | FMUL_rrr | FDIV_rrr | FMOV_rr | FMOV_ri
  | FCMP_rr | FCMP_ri | SCVTF_rr | FCVTZS_rr
  | ADRP | LDR | LDRB | LDRH | STR | STRB | STRH
  | BEQ | BNE | BGE | BGT | BLE | BLT | B | BL | RET
  deriving DecidableEq, Repr

end AArch64

/-! ## Low-level IR data model -/

/-- The opcode of a `MachineInstruction`: one of the generic opcodes (the
names that `MachineInstruction::Print` switches over) or a target opcode. -/
inductive OperationCode
  | AND | OR | XOR | LSL | LSR | ADD | SUB | MUL | DIV | DIVU | MOD | MODU
  | CMP | ADDF | SUBF | MULF | DIVF | CMPF | SEXT | ZEXT | TRUNC | FTOI | ITOF
  | BITCAST | SEXT_LOAD | ZEXT_LOAD | STACK_ADDRESS | GLOBAL_ADDRESS | LOAD_IMM
  | MOV | MOVF | STORE | LOAD | JUMP | BRANCH | CALL | RET
  | ADDS | ADDC | MULHU | MERGE | SPLIT | INVALID_OP
  | target (o : AArch64.Opcodes)
  deriving DecidableEq, Repr

/-- The tag of a `LowLevelType`. -/
inductive LLTKind
  | INVALID | SCALAR | POINTER
  deriving DecidableEq, Repr

/-- Modelled from the spec: `LowLevelType.hpp` is not among the sources; a
low-level type is a tagged value, scalar(bits), pointer(bits) or invalid. -/
structure LowLevelType where
  Kind : LLTKind := LLTKind.INVALID
  BitWidth : Nat := 0
  deriving DecidableEq, Repr

namespace LowLevelType

def CreateScalar (BitWidth : Nat) : LowLevelType := { Kind := LLTKind.SCALAR, BitWidth := BitWidth }

def CreatePTR (BitWidth : Nat) : LowLevelType := { Kind := LLTKind.POINTER, BitWidth := BitWidth }

def SetBitWidth (T : LowLevelType) (BitWidth : Nat) : LowLevelType := { T with BitWidth := BitWidth }

def IsPointer (T : LowLevelType) : Bool := T.Kind == LLTKind.POINTER

end LowLevelType

/-- The enumeration `MachineOperand::MOKind`. -/
inductive MOKind
  | NONE | REGISTER | INT_IMMEDIATE | FP_IMMEDIATE | MEMORY_ADDRESS | STACK_ACCESS
  | PARAMETER | LABEL | FUNCTION_NAME | GLOBAL_SYMBOL
  deriving DecidableEq, Repr

/-- The class `MachineOperand`.  The members `IntVal` and `FloatVal` of the C++
union are the one field `IntVal`, a `uint64_t`: `FloatVal` reads it as the bit
pattern of the double.  The third member of the union, the pointer `Label`, is
kept apart as the text it points to, with `LabelIsNull` for the null pointer;
the integer reading of a label pointer is not modelled. -/
structure MachineOperand where
  Kind : MOKind := MOKind.NONE
  IntVal : Nat := 0
  Label : String := ""
  LabelIsNull : Bool := false
  Offset : Int := 0
  LLT : LowLevelType := {}
  GlobalSymbol : String := ""
  Virtual : Bool := false
  RegisterClass : Nat := 4294967295
  deriving DecidableEq, Repr

namespace MachineOperand

/-- The member `FloatVal` of the union: the bits of `IntVal` read as a
double. -/
def FloatVal (MO : MachineOperand) : Nat := MO.IntVal

def GetReg (MO : MachineOperand) : Nat := MO.IntVal

def GetSlot (MO : MachineOperand) : Nat := MO.IntVal

def GetImmediate (MO : MachineOperand) : Nat := MO.IntVal

def SetValue (MO : MachineOperand) (V : Nat) : MachineOperand := { MO with IntVal := V % 2 ^ 64 }

def SetReg (MO : MachineOperand) (V : Nat) : MachineOperand := MO.SetValue V

def SetOffset (MO : MachineOperand) (o : Int) : MachineOperand := { MO with Offset := o }

def SetRegClass (MO : MachineOperand) (rc : Nat) : MachineOperand := { MO with RegisterClass := rc }

def SetType (MO : MachineOperand) (LLT : LowLevelType) : MachineOperand := { MO with LLT := LLT }

def GetSize (MO : MachineOperand) : Nat := MO.LLT.BitWidth

def IsRegister (MO : MachineOperand) : Bool := MO.Kind == MOKind.REGISTER && !MO.Virtual

def IsVirtualReg (MO : MachineOperand) : Bool := MO.Kind == MOKind.REGISTER && MO.Virtual

def IsImmediate (MO : MachineOperand) : Bool :=
  MO.Kind == MOKind.INT_IMMEDIATE || MO.Kind == MOKind.FP_IMMEDIATE

def IsStackAccess (MO : MachineOperand) : Bool := MO.Kind == MOKind.STACK_ACCESS

def IsMemory (MO : MachineOperand) : Bool := MO.Kind == MOKind.MEMORY_ADDRESS

def IsGlobalSymbol (MO : MachineOperand) : Bool := MO.Kind == MOKind.GLOBAL_SYMBOL

def IsLabel (MO : MachineOperand) : Bool := MO.Kind == MOKind.LABEL

def CreateRegister (Reg : Nat) (BitWidth : Nat) : MachineOperand :=
  { Kind := MOKind.REGISTER, Virtual := false, IntVal := Reg % 2 ^ 64,
    LLT := LowLevelType.CreateScalar BitWidth }

def CreateVirtualRegister (Reg : Nat) (BitWidth : Nat) : MachineOperand :=
  { Kind := MOKind.REGISTER, Virtual := true, IntVal := Reg % 2 ^ 64,
    LLT := LowLevelType.CreateScalar BitWidth }

def CreateImmediate (Val : Nat) (BitWidth : Nat) : MachineOperand :=
  { Kind := MOKind.INT_IMMEDIATE, IntVal := Val % 2 ^ 64,
    LLT := LowLevelType.CreateScalar BitWidth }

/-- `CreateFPImmediate(double, BitWidth)`; `Val` is the bit pattern of the
double, which `SetFPValue` writes into the union. -/
def CreateFPImmediate (Val : Nat) (BitWidth : Nat) : MachineOperand :=
  { Kind := MOKind.FP_IMMEDIATE, IntVal := Val % 2 ^ 64,
    LLT := LowLevelType.CreateScalar BitWidth }

def CreateMemory (Id : Nat) (Offset : Int) (BitWidth : Nat) : MachineOperand :=
  { Kind := MOKind.MEMORY_ADDRESS, Virtual := true, Offset := Offset, IntVal := Id % 2 ^ 64,
    LLT := LowLevelType.CreatePTR BitWidth }

def CreateStackAccess (Slot : Nat) (Offset : Int) : MachineOperand :=
  { Kind := MOKind.STACK_ACCESS, Offset := Offset, IntVal := Slot % 2 ^ 64 }

def CreateParameter (Val : Nat) : MachineOperand :=
  { Kind := MOKind.PARAMETER, IntVal := Val % 2 ^ 64 }

def CreateGlobalSymbol (Symbol : String) : MachineOperand :=
  { Kind := MOKind.GLOBAL_SYMBOL, GlobalSymbol := Symbol }

def CreateLabel (L : String) : MachineOperand := { Kind := MOKind.LABEL, Label := L }

/-- `CreateLabel(const char *)` for a pointer that may be null (`none`). -/
def CreateLabelPtr : Option String → MachineOperand
  | some L => CreateLabel L
  | none => { Kind := MOKind.LABEL, LabelIsNull := true }

def CreateFunctionName (L : String) : MachineOperand := { Kind := MOKind.FUNCTION_NAME, Label := L }

end MachineOperand

/-- The attribute flags of a `MachineInstruction`. -/
inductive MIAttribute
  | IS_LOAD | IS_STORE | IS_CALL | IS_JUMP | IS_RETURN | FALLTHROUGH_BRANCH
  deriving DecidableEq, Repr

/-- Modelled from the spec: `MachineInstruction.hpp` is not among the sources.
The compare relation of a `CMP` / `CMPF`; the six relations are the ones
`SelectBRANCH` names, `INVALID` is the value of an instruction that carries no
relation and `OTHER` stands for every further enumerator of the header. -/
inductive CMPRelation
  | INVALID | EQ | NE | LT | GT | LE | GE | OTHER
  deriving DecidableEq, Repr

/-- The class `MachineInstruction`: an opcode, the ordered operands, the
attribute set and the compare relation (the parent pointer is the position of
the instruction). -/
structure MachineInstruction where
  Opcode : OperationCode := OperationCode.INVALID_OP
  Operands : List MachineOperand := []
  Attributes : List MIAttribute := []
  Relation : CMPRelation := CMPRelation.INVALID
  deriving DecidableEq, Repr

namespace MachineInstruction

def AddAttribute (MI : MachineInstruction) (a : MIAttribute) : MachineInstruction :=
  if a ∈ MI.Attributes then MI else { MI with Attributes := MI.Attributes ++ [a] }

/-- `MachineInstruction::UpdateAttributes` (`MachineInstruction.cpp`). -/
def UpdateAttributes (MI : MachineInstruction) : MachineInstruction :=
  match MI.Opcode with
  | OperationCode.LOAD => MI.AddAttribute MIAttribute.IS_LOAD
  | OperationCode.SEXT_LOAD => MI.AddAttribute MIAttribute.IS_LOAD
  | OperationCode.ZEXT_LOAD => MI.AddAttribute MIAttribute.IS_LOAD
  | OperationCode.STORE => MI.AddAttribute MIAttribute.IS_STORE
  | OperationCode.RET => MI.AddAttribute MIAttribute.IS_RETURN
  | OperationCode.JUMP => MI.AddAttribute MIAttribute.IS_JUMP
  | OperationCode.CALL => MI.AddAttribute MIAttribute.IS_CALL
  | _ => MI

/-- Modelled from the spec: `MachineInstruction.hpp` is not among the sources.
The constructor `MachineInstruction(Opcode, Parent)` sets the opcode and
derives the attributes from it. -/
def create (Op : OperationCode) : MachineInstruction := UpdateAttributes { Opcode := Op }

/-- Modelled from the spec: `SetOpcode` of the missing header; it replaces the
opcode and derives the attributes again. -/
def SetOpcode (MI : MachineInstruction) (Op : OperationCode) : MachineInstruction :=
  UpdateAttributes { MI with Opcode := Op }

def IsInvalid (MI : MachineInstruction) : Bool := MI.Opcode == OperationCode.INVALID_OP

def IsReturn (MI : MachineInstruction) : Bool := MIAttribute.IS_RETURN ∈ MI.Attributes

/-- Modelled from the spec: `IsFallThroughBranch` of the missing header; the
spec lists `FALLTHROUGH_BRANCH` among the attribute flags. -/
def IsFallThroughBranch (MI : MachineInstruction) : Bool :=
  MIAttribute.FALLTHROUGH_BRANCH ∈ MI.Attributes

/-- Modelled from the spec: `GetRelation` of the missing header. -/
def GetRelation (MI : MachineInstruction) : CMPRelation := MI.Relation

/-- Modelled from the spec: `SetAttributes(relation)` of the missing header, as
the lowering of a compare calls it: it records the compare relation. -/
def SetAttributes (MI : MachineInstruction) (R : CMPRelation) : MachineInstruction :=
  { MI with Relation := R }

def GetOperandsNumber (MI : MachineInstruction) : Nat := MI.Operands.length

/-- An in-place update of operand `k`, as in `MI->GetOperand(k)->SetValue(..)`. -/
def ModifyOperand (MI : MachineInstruction) (k : Nat) (f : MachineOperand → MachineOperand) :
    MachineInstruction :=
  { MI with Operands := MI.Operands.modify f k }

def GetOperand (MI : MachineInstruction) (i : Nat) : Option MachineOperand := MI.Operands.get? i

/-- The definition of a defining instruction is its first operand. -/
def GetDef (MI : MachineInstruction) : Option MachineOperand := MI.Operands.head?

def AddOperand (MI : MachineInstruction) (MO : MachineOperand) : MachineInstruction :=
  { MI with Operands := MI.Operands ++ [MO] }

def RemoveOperand (MI : MachineInstruction) (i : Nat) : MachineInstruction :=
  { MI with Operands := MI.Operands.eraseIdx i }

def AddRegister (MI : MachineInstruction) (Reg BitWidth : Nat) : MachineInstruction :=
  MI.AddOperand (MachineOperand.CreateRegister Reg BitWidth)

def AddVirtualRegister (MI : MachineInstruction) (Reg BitWidth : Nat) : MachineInstruction :=
  MI.AddOperand (MachineOperand.CreateVirtualRegister Reg BitWidth)

def AddImmediate (MI : MachineInstruction) (Num : Nat) (BitWidth : Nat) : MachineInstruction :=
  MI.AddOperand (MachineOperand.CreateImmediate Num BitWidth)

def AddMemory (MI : MachineInstruction) (Id : Nat) (Offset : Int) (BitWidth : Nat) :
    MachineInstruction :=
  MI.AddOperand (MachineOperand.CreateMemory Id Offset BitWidth)

def AddStackAccess (MI : MachineInstruction) (Slot : Nat) (Offset : Int) : MachineInstruction :=
  MI.AddOperand (MachineOperand.CreateStackAccess Slot Offset)

def AddGlobalSymbol (MI : MachineInstruction) (Symbol : String) : MachineInstruction :=
  MI.AddOperand (MachineOperand.CreateGlobalSymbol Symbol)

def AddLabel (MI : MachineInstruction) (L : String) : MachineInstruction :=
  MI.AddOperand (MachineOperand.CreateLabel L)

/-- `AddLabel(const char *)` for a pointer that may be null. -/
def AddLabelPtr (MI : MachineInstruction) (L : Option String) : MachineInstruction :=
  MI.AddOperand (MachineOperand.CreateLabelPtr L)

def AddFunctionName (MI : MachineInstruction) (L : String) : MachineInstruction :=
  MI.AddOperand (MachineOperand.CreateFunctionName L)

/-- Replace the register id of the defining (first) operand:
`GetDef()->SetReg(r)`. -/
def SetDefReg (MI : MachineInstruction) (r : Nat) : MachineInstruction :=
  match MI.Operands with
  | [] => MI
  | d :: rest => { MI with Operands := d.SetReg r :: rest }

end MachineInstruction

/-- Modelled from the spec: `MachineBasicBlock.hpp` is not among the sources; a
block is a named ordered sequence of instructions that supports append and
insertion before or after a given instruction. -/
structure MachineBasicBlock where
  Name : String := ""
  Instructions : List MachineInstruction := []
  deriving DecidableEq, Repr

namespace MachineBasicBlock

def InsertInstr (BB : MachineBasicBlock) (MI : MachineInstruction) : MachineBasicBlock :=
  { BB with Instructions := BB.Instructions ++ [MI] }

/-- Insert `MIs` before the instruction at position `pos`; the second
component is the new position of that instruction. -/
def InsertBefore (BB : MachineBasicBlock) (MIs : List MachineInstruction) (pos : Nat) :
    MachineBasicBlock × Nat :=
  ({ BB with Instructions := BB.Instructions.take pos ++ MIs ++ BB.Instructions.drop pos },
    pos + MIs.length)

/-- Insert `MIs` after the instruction at position `pos`, which stays where
it is. -/
def InsertAfter (BB : MachineBasicBlock) (MIs : List MachineInstruction) (pos : Nat) :
    MachineBasicBlock × Nat :=
  ({ BB with Instructions :=
      BB.Instructions.take (pos + 1) ++ MIs ++ BB.Instructions.drop (pos + 1) }, pos)

end MachineBasicBlock

/-- One entry of the stack frame. -/
structure StackSlot where
  ID : Nat
  Size : Nat
  Align : Nat
  deriving DecidableEq, Repr

/-- Modelled from the spec: `StackFrame.hpp` is not among the sources; the
frame is an ordered map from slot id to size and alignment. -/
structure StackFrame where
  StackSlots : List StackSlot := []
  deriving DecidableEq, Repr

namespace StackFrame

def IsStackSlot (SF : StackFrame) (ID : Nat) : Bool := SF.StackSlots.any (fun s => s.ID == ID)

/-- Modelled from the spec: the insertion into the ordered map of
`StackFrame.hpp`, which is not among the sources; an id that is already
present keeps its entry. -/
def InsertStackSlot (SF : StackFrame) (ID Size Align : Nat) : StackFrame :=
  if SF.IsStackSlot ID then SF
  else { SF with StackSlots := SF.StackSlots ++ [{ ID := ID, Size := Size, Align := Align }] }

def GetSize (SF : StackFrame) (ID : Nat) : Nat :=
  match SF.StackSlots.find? (fun s => s.ID == ID) with
  | some s => s.Size
  | none => 0

end StackFrame

/-- One entry of `MachineFunction::ParamList`. -/
structure MachineParameter where
  ID : Nat
  LLT : LowLevelType
  ImplStructPtr : Bool := false
  IsFP : Bool := false
  deriving DecidableEq, Repr

/-- The class `MachineFunction` (`MachineFunction.hpp`). -/
structure MachineFunction where
  Name : String := ""
  Parameters : List MachineParameter := []
  SF : StackFrame := {}
  BasicBlocks : List MachineBasicBlock := []
  NextVReg : Nat := 0
  HasCall : Bool := false
  UsedCalleSavedRegs : List Nat := []
  deriving DecidableEq, Repr

namespace MachineFunction

/-- `MachineFunction::InsertStackSlot`; `NextVReg` is an `unsigned`. -/
def InsertStackSlot (MF : MachineFunction) (ID Size Align : Nat) : MachineFunction :=
  let MF1 := if MF.NextVReg ≤ ID then { MF with NextVReg := (ID + 1) % 2 ^ 32 } else MF
  { MF1 with SF := MF1.SF.InsertStackSlot ID Size Align }

def InsertParameter (MF : MachineFunction) (ID : Nat) (LLT : LowLevelType)
    (ImplStructPtr IsFP : Bool) : MachineFunction :=
  { MF with Parameters := MF.Parameters ++
      [{ ID := ID, LLT := LLT, ImplStructPtr := ImplStructPtr, IsFP := IsFP }] }

def IsStackSlot (MF : MachineFunction) (ID : Nat) : Bool := MF.SF.IsStackSlot ID

/-- `GetStackObjectSize(unsigned ID)` of `MachineFunction.hpp`. -/
def GetStackObjectSize (MF : MachineFunction) (ID : Nat) : Nat := MF.SF.GetSize ID

def SetToCaller (MF : MachineFunction) : MachineFunction := { MF with HasCall := true }

def IsCaller (MF : MachineFunction) : Bool := MF.HasCall

/-- Modelled from the spec: `MachineFunction::GetNextAvailableVReg` is declared
in `MachineFunction.hpp` but defined in a file that is not among the sources.
The function owns a next-available virtual-register counter: the call hands
out the counter and advances it. -/
def GetNextAvailableVReg (MF : MachineFunction) : Nat × MachineFunction :=
  (MF.NextVReg, { MF with NextVReg := (MF.NextVReg + 1) % 2 ^ 32 })

/-- The instruction at position `i` of block `b`. -/
def instrAt (MF : MachineFunction) (b i : Nat) : Option MachineInstruction :=
  match MF.BasicBlocks.get? b with
  | some BB => BB.Instructions.get? i
  | none => none

/-- Replace block `b`. -/
def setBlock (MF : MachineFunction) (b : Nat) (BB : MachineBasicBlock) : MachineFunction :=
  { MF with BasicBlocks := MF.BasicBlocks.set b BB }

/-- `BB->InsertInstr(MI)` for the block at position `b`. -/
def InsertInstr (MF : MachineFunction) (b : Nat) (MI : MachineInstruction) : MachineFunction :=
  { MF with BasicBlocks := MF.BasicBlocks.modify (fun BB => BB.InsertInstr MI) b }

end MachineFunction

/-- The bit pattern of a double is a NaN: the exponent bits are all ones and
the fraction is not zero. -/
def DoubleIsNaN (x : Nat) : Bool := x / 2 ^ 52 % 2 ^ 11 == 2047 && x % 2 ^ 52 != 0

/-- The comparison `==` of two doubles (IEEE 754 binary64), on their bit
patterns: a NaN is equal to nothing, the two zeros are equal, and otherwise
equal doubles have equal patterns. -/
def DoubleEq (x y : Nat) : Bool :=
  !DoubleIsNaN x && !DoubleIsNaN y &&
    (x % 2 ^ 64 == y % 2 ^ 64 || (x % 2 ^ 63 == 0 && y % 2 ^ 63 == 0))

/-- `MachineOperand::operator==` (`MachineOperand.hpp`, lines 173-201).  The
result is `none` where the code runs into `assert(!"Unreachable")`, and where
it builds a `std::string` from a `Label` that is the null pointer. -/
def MachineOperand.operatorEq (a RHS : MachineOperand) : Option Bool :=
  if a.Kind != RHS.Kind then some false
  else
    match a.Kind with
    | MOKind.REGISTER =>
      some (a.IntVal == RHS.IntVal && a.Virtual == RHS.Virtual &&
        a.RegisterClass == RHS.RegisterClass)
    | MOKind.INT_IMMEDIATE => some (a.IntVal == RHS.IntVal)
    | MOKind.FP_IMMEDIATE => some (DoubleEq a.FloatVal RHS.FloatVal)
    | MOKind.MEMORY_ADDRESS =>
      some (a.IntVal == RHS.IntVal && a.Virtual == RHS.Virtual &&
        a.RegisterClass == RHS.RegisterClass && a.Offset == RHS.Offset)
    | MOKind.STACK_ACCESS =>
      some (a.IntVal == RHS.IntVal && a.Virtual == RHS.Virtual &&
        a.RegisterClass == RHS.RegisterClass && a.Offset == RHS.Offset)
    | MOKind.PARAMETER => some false
    | MOKind.LABEL =>
      if a.LabelIsNull || RHS.LabelIsNull then none else some (a.Label == RHS.Label)
    | MOKind.FUNCTION_NAME =>
      if a.LabelIsNull || RHS.LabelIsNull then none else some (a.Label == RHS.Label)
    | MOKind.GLOBAL_SYMBOL => some (a.GlobalSymbol == RHS.GlobalSymbol)
    | MOKind.NONE => none

/-- `MachineOperand::operator!=` (lines 203-205). -/
def MachineOperand.operatorNe (a RHS : MachineOperand) : Option Bool :=
  (a.operatorEq RHS).map (fun r => !r)

/-- `MachineOperand::operator<` (`MachineOperand.hpp`, lines 82-84): the
comparison of the two `IntVal`, whatever the kinds of the operands; for a
floating-point immediate that is the bit pattern of the double.  For a label or
a function name the C++ member holds the pointer, which the model does not
keep: the order of two such operands is outside the model. -/
def MachineOperand.operatorLt (a rhs : MachineOperand) : Bool := decide (a.IntVal < rhs.IntVal)

/-! ## Target description -/

/-- A physical register of the target: id, bit width and sub-register ids. -/
structure TargetRegister where
  ID : Nat
  BitWidth : Nat
  SubRegs : List Nat := []
  deriving DecidableEq, Repr

/-- The facts of the target that the embedded code reads.  The target
description classes are not among the sources, so they are a parameter of
every function that consults them. -/
structure TargetMachine where
  PointerSize : Nat
  ArgumentRegisters : List TargetRegister
  ReturnRegisters : List TargetRegister
  FirstFPRetRegIdx : Nat
  StructPtrRegister : Nat
  Registers : List TargetRegister
  GetRegisterClass : Nat → Bool → Nat
  MaxStructSizePassedByValue : Nat
  MemcpySupported : Bool
  /-- `GetIntSize()`, the bit width of `int`. -/
  IntSize : Nat := 32
  /-- `GetLongSize()`, the bit width of `long`. -/
  LongSize : Nat := 64

namespace TargetMachine

/-- `RegInfo->GetRegisterByID`. -/
def GetRegisterByID (TM : TargetMachine) (ID : Nat) : Option TargetRegister :=
  TM.Registers.find? (fun r => r.ID == ID)

end TargetMachine

/-! ## Constant materialization (`AArch64TargetMachine.cpp`) -/

/-- The signed reading of a `uint64_t` bit pattern (the conversion to
`int64_t`). -/
def toInt64 (x : Nat) : Int :=
  if x % 2 ^ 64 < 2 ^ 63 then ((x % 2 ^ 64 : Nat) : Int) else ((x % 2 ^ 64 : Nat) : Int) - 2 ^ 64

/-- Modelled from the spec: `Support.hpp` is not among the sources;
`IsInt<N>(v)` tells whether the number fits in `N` bits signed. -/
def IsInt (N : Nat) (v : Int) : Bool := decide (-(2 : Int) ^ (N - 1) ≤ v ∧ v ≤ 2 ^ (N - 1) - 1)

/-- The immediate of the leading `MOV_rc` (lines 48-51 and 56-59): the low 16
bits when the constant does not fit in 16 bits signed, else the constant. -/
def MOVImmediate (Constant : Nat) : Nat :=
  if !IsInt 16 (toInt64 Constant) then Constant % 2 ^ 16 else Constant

/-- A `MOVK_ri VReg, Imm, Shift` as the code builds it. -/
def MakeMOVK (VReg : MachineOperand) (Imm Shift : Nat) : MachineInstruction :=
  (((MachineInstruction.SetOpcode {} (OperationCode.target AArch64.Opcodes.MOVK_ri)).AddOperand
    VReg).AddImmediate Imm 32).AddImmediate Shift 32

/-- The `MOVK_ri` instructions pushed to `MIs` by lines 62-85. -/
def MaterializeMOVKs (Constant : Nat) (VReg : MachineOperand) : List MachineInstruction :=
  if !IsInt 16 (toInt64 Constant) then
    MakeMOVK VReg (Constant % 2 ^ 32 / 2 ^ 16) 16 ::
      (if !IsInt 32 (toInt64 Constant) then
        [MakeMOVK VReg (Constant / 2 ^ 32 % 2 ^ 16) 32, MakeMOVK VReg (Constant / 2 ^ 48) 48]
      else [])
  else []

/-- The leading `MOV_rc VReg, Imm` of insert mode (lines 45-52). -/
def MakeMOV (VReg : MachineOperand) (Imm : Nat) : MachineInstruction :=
  ((MachineInstruction.SetOpcode {} (OperationCode.target AArch64.Opcodes.MOV_rc)).AddOperand
    VReg).AddImmediate Imm 32

/-- The out operand of insert mode (lines 32-37): virtual register `Reg` with
the integer register class of the width of the destination `Op0` of `MI`. -/
def MaterializeDest (TM : TargetMachine) (Reg : Nat) (Op0 : MachineOperand) : MachineOperand :=
  (MachineOperand.CreateVirtualRegister Reg 32).SetRegClass (TM.GetRegisterClass Op0.GetSize false)

/-- What `MaterializeConstant` leaves behind: the function, the out operand
`VReg` and the position of the returned instruction. -/
structure Materialized where
  MF : MachineFunction
  VReg : MachineOperand
  MI : Nat
  deriving DecidableEq, Repr

/-- `AArch64TargetMachine::MaterializeConstant`.  The instruction `MI` is the
one at position `i` of block `b` of `MF`; `Constant` is a `uint64_t`. -/
def MaterializeConstant (TM : TargetMachine) (MF : MachineFunction) (b i : Nat)
    (Constant : Nat) (VReg : MachineOperand) (UseVRegAndMI : Bool) : Option Materialized :=
  match MF.BasicBlocks.get? b with
  | none => none
  | some MBB =>
    match MBB.Instructions.get? i with
    | none => none
    | some MI =>
      if !UseVRegAndMI then
        match MI.GetOperand 0 with
        | none => none
        | some Op0 =>
          let VReg1 := MaterializeDest TM MF.GetNextAvailableVReg.1 Op0
          let MF1 := MF.GetNextAvailableVReg.2
          let MIs := MakeMOV VReg1 (MOVImmediate Constant) :: MaterializeMOVKs Constant VReg1
          let R := MBB.InsertBefore MIs i
          some { MF := MF1.setBlock b R.1, VReg := VReg1, MI := R.2 }
      else
        let MI1 := ((MI.SetOpcode (OperationCode.target AArch64.Opcodes.MOV_rc)).RemoveOperand
          1).AddImmediate (MOVImmediate Constant) 32
        let MBB0 : MachineBasicBlock := { MBB with Instructions := MBB.Instructions.set i MI1 }
        let MIs := MaterializeMOVKs Constant VReg
        let R := MBB0.InsertAfter MIs i
        some { MF := MF.setBlock b R.1, VReg := VReg, MI := R.2 }

/-- The instructions of block `b` that a materialization at position `i`
produced: in replace mode the rewritten instruction and what follows it, in
insert mode what was put before the triggering instruction. -/
def MaterializedSequence (MF : MachineFunction) (r : Materialized) (b i : Nat)
    (UseVRegAndMI : Bool) : List MachineInstruction :=
  match MF.BasicBlocks.get? b, r.MF.BasicBlocks.get? b with
  | some Old, some New =>
    let n := New.Instructions.length - Old.Instructions.length
    if UseVRegAndMI then (New.Instructions.drop i).take (n + 1)
    else (New.Instructions.drop i).take n
  | _, _ => []

/-- Replace the 16-bit slice of `reg` at bit `shift` by the low 16 bits of
`imm`. -/
def writeSlice (reg shift imm : Nat) : Nat :=
  reg - reg / 2 ^ shift % 2 ^ 16 * 2 ^ shift + imm % 2 ^ 16 * 2 ^ shift

/-- The effect of one materialization instruction on a destination register
of `W` bits: `MOV_rc` writes its immediate, a 64-bit two's-complement
number, to the whole register; `MOVK_ri` overwrites only the 16-bit slice at
its shift. -/
def execMI (W : Nat) (reg : Nat) (MI : MachineInstruction) : Nat :=
  match MI.Opcode, MI.Operands with
  | OperationCode.target AArch64.Opcodes.MOV_rc, [_, imm] => imm.IntVal % 2 ^ W
  | OperationCode.target AArch64.Opcodes.MOVK_ri, [_, imm, sh] =>
    writeSlice reg sh.IntVal imm.IntVal % 2 ^ W
  | _, _ => reg

/-- Run a sequence of materialization instructions on the register. -/
def execSeq (W : Nat) (reg : Nat) (MIs : List MachineInstruction) : Nat :=
  MIs.foldl (execMI W) reg

/-! ## Instruction selection (`AArch64TargetMachine.cpp`)

A selector works on the instruction `MI` in place.  The selectors that touch
nothing but `MI` are functions of the instruction (and of the function, where
they read the stack frame); the ones that may materialize a constant work on
the instruction at position `i` of block `b`.  A failed `assert` is `none`. -/

/-- Modelled from the spec: `Support.hpp` is not among the sources;
`IsUInt<N>(v)` tells whether the number fits in `N` bits unsigned. -/
def IsUInt (N : Nat) (v : Int) : Bool := decide (0 ≤ v ∧ v < 2 ^ N)

/-- `ExtendRegSize` (lines 11-14): an operand narrower than 32 bits gets the
width `BitWidth`. -/
def ExtendRegSize (MO : MachineOperand) (BitWidth : Nat) : MachineOperand :=
  if MO.GetSize < 32 then { MO with LLT := MO.LLT.SetBitWidth BitWidth } else MO

/-- The two calls `ExtendRegSize(MI->GetOperand(0))` and
`ExtendRegSize(MI->GetOperand(1))` that open the three-address selectors. -/
def ExtendDefAndFirstSource (MI : MachineInstruction) : MachineInstruction :=
  (MI.ModifyOperand 0 (fun MO => ExtendRegSize MO 32)).ModifyOperand 1
    (fun MO => ExtendRegSize MO 32)

/-- An in-place update of the instruction at position `i` of block `b`. -/
def MachineFunction.ModifyInstr (MF : MachineFunction) (b i : Nat)
    (f : MachineInstruction → MachineInstruction) : MachineFunction :=
  { MF with BasicBlocks := (MF.BasicBlocks.modify
      (fun BB => { BB with Instructions := BB.Instructions.modify f i }) b) }

/-- Modelled from the spec: the default of the parameter `ImmSize` of
`SelectThreeAddressInstruction` is declared in `AArch64TargetMachine.hpp`,
which is not among the sources; the spec speaks of the 12-bit immediate
field. -/
def DefaultImmSize : Nat := 12

/-- `AArch64TargetMachine::SelectThreeAddressInstruction` (lines 95-117) for
the instruction at position `i` of block `b`: the returned flag and the
function afterwards. -/
def SelectThreeAddressInstruction (TM : TargetMachine) (MF : MachineFunction) (b i : Nat)
    (rrr rri : AArch64.Opcodes) (ImmSize : Nat) : Option (Bool × MachineFunction) :=
  match MF.instrAt b i with
  | none => none
  | some MI =>
    match MI.GetOperand 2 with
    | none => none
    | some ImmMO =>
      if ImmMO.IsImmediate then
        if IsInt ImmSize (toInt64 ImmMO.GetImmediate) then
          some (true, MF.ModifyInstr b i (fun M => M.SetOpcode (OperationCode.target rri)))
        else
          match MaterializeConstant TM MF b i ImmMO.GetImmediate {} false with
          | none => none
          | some r =>
            some (true, r.MF.ModifyInstr b r.MI (fun M =>
              ((M.SetOpcode (OperationCode.target rrr)).RemoveOperand 2).AddOperand r.VReg))
      else if ImmMO.IsRegister || ImmMO.IsVirtualReg then
        some (true, MF.ModifyInstr b i (fun M => M.SetOpcode (OperationCode.target rrr)))
      else some (false, MF)

/-- The common body of `SelectAND`, `SelectOR`, `SelectLSL` and `SelectLSR`
(lines 119-185): three operands are asserted, the first two are widened and
the three-address selection must succeed. -/
def SelectThreeAddress (TM : TargetMachine) (MF : MachineFunction) (b i : Nat)
    (rrr rri : AArch64.Opcodes) : Option MachineFunction :=
  match MF.instrAt b i with
  | none => none
  | some MI =>
    if MI.GetOperandsNumber != 3 then none
    else
      match SelectThreeAddressInstruction TM (MF.ModifyInstr b i ExtendDefAndFirstSource) b i
          rrr rri DefaultImmSize with
      | some (true, MF1) => some MF1
      | _ => none

def SelectAND (TM : TargetMachine) (MF : MachineFunction) (b i : Nat) : Option MachineFunction :=
  SelectThreeAddress TM MF b i AArch64.Opcodes.AND_rrr AArch64.Opcodes.AND_rri

def SelectOR (TM : TargetMachine) (MF : MachineFunction) (b i : Nat) : Option MachineFunction :=
  SelectThreeAddress TM MF b i AArch64.Opcodes.ORR_rrr AArch64.Opcodes.ORR_rri

def SelectLSL (TM : TargetMachine) (MF : MachineFunction) (b i : Nat) : Option MachineFunction :=
  SelectThreeAddress TM MF b i AArch64.Opcodes.LSL_rrr AArch64.Opcodes.LSL_rri

def SelectLSR (TM : TargetMachine) (MF : MachineFunction) (b i : Nat) : Option MachineFunction :=
  SelectThreeAddress TM MF b i AArch64.Opcodes.LSR_rrr AArch64.Opcodes.LSR_rri

/-- `AArch64TargetMachine::SelectXOR` (lines 143-161); the comparison with
`-1` is on the `int64_t` reading of the immediate. -/
def SelectXOR (TM : TargetMachine) (MF : MachineFunction) (b i : Nat) : Option MachineFunction :=
  match MF.instrAt b i with
  | none => none
  | some MI =>
    if MI.GetOperandsNumber != 3 then none
    else
      match MI.GetOperand 2 with
      | none => none
      | some Op2 =>
        if Op2.IsImmediate && toInt64 Op2.GetImmediate == -1 then
          some (MF.ModifyInstr b i (fun M =>
            ((ExtendDefAndFirstSource M).RemoveOperand 2).SetOpcode
              (OperationCode.target AArch64.Opcodes.MVN_rr)))
        else
          match SelectThreeAddressInstruction TM (MF.ModifyInstr b i ExtendDefAndFirstSource) b i
              AArch64.Opcodes.EOR_rrr AArch64.Opcodes.EOR_rri DefaultImmSize with
          | some (true, MF1) => some MF1
          | _ => none

/-- `AArch64TargetMachine::SelectSUB` (lines 225-247). -/
def SelectSUB (MI : MachineInstruction) : Option MachineInstruction :=
  if MI.GetOperandsNumber != 3 then none
  else
    let MI1 := ExtendDefAndFirstSource MI
    match MI1.GetOperand 2 with
    | none => none
    | some ImmMO =>
      if ImmMO.IsImmediate then
        if IsUInt 12 (toInt64 ImmMO.GetImmediate) then
          some (MI1.SetOpcode (OperationCode.target AArch64.Opcodes.SUB_rri))
        else none
      else some (MI1.SetOpcode (OperationCode.target AArch64.Opcodes.SUB_rrr))

/-- `AArch64TargetMachine::SelectADD` (lines 187-223).  The negated immediate
is `((int64_t)imm) * -1`, stored back as a `uint64_t`. -/
def SelectADD (MI : MachineInstruction) : Option MachineInstruction :=
  if MI.GetOperandsNumber != 3 then none
  else
    let MI1 := ExtendDefAndFirstSource MI
    match MI1.GetOperand 2 with
    | none => none
    | some ImmMO =>
      if ImmMO.IsGlobalSymbol then
        some (MI1.SetOpcode (OperationCode.target AArch64.Opcodes.ADD_rri))
      else if ImmMO.IsImmediate then
        if toInt64 ImmMO.GetImmediate < 0 then
          SelectSUB ((MI1.SetOpcode (OperationCode.target AArch64.Opcodes.SUB_rri)).ModifyOperand 2
            (fun MO => MO.SetValue (-(toInt64 ImmMO.GetImmediate)).toNat))
        else if IsUInt 12 (toInt64 ImmMO.GetImmediate) then
          some (MI1.SetOpcode (OperationCode.target AArch64.Opcodes.ADD_rri))
        else none
      else some (MI1.SetOpcode (OperationCode.target AArch64.Opcodes.ADD_rrr))

/-- `AArch64TargetMachine::SelectMUL` (lines 249-271). -/
def SelectMUL (MI : MachineInstruction) : Option MachineInstruction :=
  if MI.GetOperandsNumber != 3 then none
  else
    let MI1 := ExtendDefAndFirstSource MI
    match MI1.GetOperand 2 with
    | none => none
    | some ImmMO =>
      if ImmMO.IsImmediate then
        if IsUInt 12 (toInt64 ImmMO.GetImmediate) then
          some (MI1.SetOpcode (OperationCode.target AArch64.Opcodes.MUL_rri))
        else none
      else some (MI1.SetOpcode (OperationCode.target AArch64.Opcodes.MUL_rrr))

/-- `AArch64TargetMachine::SelectDIV` (lines 273-295). -/
def SelectDIV (MI : MachineInstruction) : Option MachineInstruction :=
  if MI.GetOperandsNumber != 3 then none
  else
    let MI1 := ExtendDefAndFirstSource MI
    match MI1.GetOperand 2 with
    | none => none
    | some ImmMO =>
      if ImmMO.IsImmediate then
        if IsUInt 12 (toInt64 ImmMO.GetImmediate) then
          some (MI1.SetOpcode (OperationCode.target AArch64.Opcodes.SDIV_rri))
        else none
      else some (MI1.SetOpcode (OperationCode.target AArch64.Opcodes.SDIV_rrr))

/-- `AArch64TargetMachine::SelectCMP` (lines 324-353) for the instruction at
position `i` of block `b`: the function afterwards and the position of the
compare in its block. -/
def SelectCMP (TM : TargetMachine) (MF : MachineFunction) (b i : Nat) :
    Option (MachineFunction × Nat) :=
  match MF.instrAt b i with
  | none => none
  | some MI =>
    if MI.GetOperandsNumber != 3 then none
    else
      let MF1 := MF.ModifyInstr b i ExtendDefAndFirstSource
      match MI.GetOperand 2 with
      | none => none
      | some ImmMO =>
        if ImmMO.IsImmediate then
          if IsInt 12 (toInt64 ImmMO.GetImmediate) then
            some (MF1.ModifyInstr b i (fun M =>
              (M.SetOpcode (OperationCode.target AArch64.Opcodes.CMP_ri)).RemoveOperand 0), i)
          else
            match MaterializeConstant TM MF1 b i ImmMO.GetImmediate {} false with
            | none => none
            | some r =>
              some (r.MF.ModifyInstr b r.MI (fun M =>
                (((M.SetOpcode (OperationCode.target AArch64.Opcodes.CMP_rr)).RemoveOperand
                  2).AddOperand r.VReg).RemoveOperand 0), r.MI)
        else
          some (MF1.ModifyInstr b i (fun M =>
            (M.SetOpcode (OperationCode.target AArch64.Opcodes.CMP_rr)).RemoveOperand 0), i)

/-- `AArch64TargetMachine::SelectSEXT` (lines 449-470). -/
def SelectSEXT (MI : MachineInstruction) : Option MachineInstruction :=
  if MI.GetOperandsNumber != 2 then none
  else
    let MI1 := MI.ModifyOperand 0 (fun MO => ExtendRegSize MO 32)
    match MI1.GetOperand 1 with
    | none => none
    | some Src =>
      if Src.IsImmediate then some (MI1.SetOpcode (OperationCode.target AArch64.Opcodes.MOV_rc))
      else if Src.LLT.BitWidth == 8 then
        some (MI1.SetOpcode (OperationCode.target AArch64.Opcodes.SXTB))
      else if Src.LLT.BitWidth == 16 then
        some (MI1.SetOpcode (OperationCode.target AArch64.Opcodes.SXTH))
      else if Src.LLT.BitWidth == 32 then
        some (MI1.SetOpcode (OperationCode.target AArch64.Opcodes.SXTW))
      else none

/-- `AArch64TargetMachine::SelectZEXT` (lines 472-496). -/
def SelectZEXT (MI : MachineInstruction) : Option MachineInstruction :=
  if MI.GetOperandsNumber != 2 then none
  else
    let MI1 := MI.ModifyOperand 0 (fun MO => ExtendRegSize MO 32)
    match MI1.GetOperand 1 with
    | none => none
    | some Src =>
      if Src.IsImmediate then some (MI1.SetOpcode (OperationCode.target AArch64.Opcodes.MOV_rc))
      else if Src.LLT.BitWidth == 32 then
        some (MI1.SetOpcode (OperationCode.target AArch64.Opcodes.UXTW))
      else if Src.LLT.BitWidth == 8 then
        some (MI1.SetOpcode (OperationCode.target AArch64.Opcodes.UXTB))
      else if Src.LLT.BitWidth == 16 then
        some (MI1.SetOpcode (OperationCode.target AArch64.Opcodes.UXTH))
      else if Src.LLT.BitWidth == 64 then
        some (MI1.SetOpcode (OperationCode.target AArch64.Opcodes.MOV_rr))
      else none

/-- The body shared by the two narrow cases of `SelectTRUNC` (lines 501-516
with the mask `0xFF`, lines 517-532 with the mask `0xFFFF`): an immediate
source is replaced by `immediate & Mask` and moved, any other source is
and-ed with the mask; the destination is widened afterwards. -/
def TruncNarrow (MI : MachineInstruction) (Src : MachineOperand) (Mask : Nat) :
    MachineInstruction :=
  let MI1 :=
    if Src.IsImmediate then
      (MI.ModifyOperand 1 (fun MO => MO.SetValue (Src.GetImmediate &&& Mask))).SetOpcode
        (OperationCode.target AArch64.Opcodes.MOV_rc)
    else
      (MI.SetOpcode (OperationCode.target AArch64.Opcodes.AND_rri)).AddImmediate Mask 32
  MI1.ModifyOperand 0 (fun MO => ExtendRegSize MO 32)

/-- `AArch64TargetMachine::SelectTRUNC` (lines 498-549). -/
def SelectTRUNC (MI : MachineInstruction) : Option MachineInstruction :=
  if MI.GetOperandsNumber != 2 then none
  else
    match MI.GetOperand 0, MI.GetOperand 1 with
    | some Dst, some Src =>
      if Dst.LLT.BitWidth == 8 then some (TruncNarrow MI Src 0xFF)
      else if Dst.LLT.BitWidth == 16 then some (TruncNarrow MI Src 0xFFFF)
      else if Dst.LLT.BitWidth == 32 && Src.LLT.BitWidth == 64 && !Src.IsImmediate then
        some (MI.SetOpcode (OperationCode.target AArch64.Opcodes.MOV_rr))
      else none
    | _, _ => none

/-- `AArch64TargetMachine::SelectZEXT_LOAD` (lines 551-564). -/
def SelectZEXT_LOAD (MI : MachineInstruction) : Option MachineInstruction :=
  if MI.GetOperandsNumber != 3 then none
  else
    match MI.GetOperand 1 with
    | none => none
    | some Src =>
      let SourceSize := Src.LLT.BitWidth
      let MI1 := MI.RemoveOperand 1
      if SourceSize == 8 then some (MI1.SetOpcode (OperationCode.target AArch64.Opcodes.LDRB))
      else some (MI1.SetOpcode (OperationCode.target AArch64.Opcodes.LDR))

/-- `AArch64TargetMachine::SelectLOAD` (lines 605-643); `MF` is the parent
function of `MI`, whose frame gives the size of a stack slot.  The slot id is
passed as an `unsigned`. -/
def SelectLOAD (MF : MachineFunction) (MI : MachineInstruction) : Option MachineInstruction :=
  if !(MI.GetOperandsNumber == 2 || MI.GetOperandsNumber == 3) then none
  else
    match MI.GetOperand 0, MI.GetOperand 1 with
    | some Op0, some Op1 =>
      if Op0.LLT.BitWidth == 8 && !Op0.LLT.IsPointer then
        some ((MI.SetOpcode (OperationCode.target AArch64.Opcodes.LDRB)).ModifyOperand 0
          (fun MO => ExtendRegSize MO 32))
      else if Op1.IsStackAccess then
        match MF.GetStackObjectSize (Op1.GetSlot % 2 ^ 32) with
        | 1 =>
          some ((MI.SetOpcode (OperationCode.target AArch64.Opcodes.LDRB)).ModifyOperand 0
            (fun MO => ExtendRegSize MO 32))
        | 2 =>
          some ((MI.SetOpcode (OperationCode.target AArch64.Opcodes.LDRH)).ModifyOperand 0
            (fun MO => ExtendRegSize MO 32))
        | _ => some (MI.SetOpcode (OperationCode.target AArch64.Opcodes.LDR))
      else some (MI.SetOpcode (OperationCode.target AArch64.Opcodes.LDR))
    | _, _ => none

/-- The test of lines 656-657 and 660-661 of `SelectSTORE`: the store has two
operands and its first operand names a stack slot of `Size` bytes. -/
def StoresToSlotOfSize (MF : MachineFunction) (MI : MachineInstruction) (Op0 : MachineOperand)
    (Size : Nat) : Bool :=
  MI.GetOperandsNumber == 2 && MF.IsStackSlot (Op0.GetSlot % 2 ^ 32) &&
    MF.GetStackObjectSize (Op0.GetSlot % 2 ^ 32) == Size

/-- `AArch64TargetMachine::SelectSTORE` (lines 645-668). -/
def SelectSTORE (MF : MachineFunction) (MI : MachineInstruction) : Option MachineInstruction :=
  if !(MI.GetOperandsNumber == 2 || MI.GetOperandsNumber == 3) then none
  else
    match MI.GetOperand 0, MI.GetOperand (MI.GetOperandsNumber - 1) with
    | some Op0, some OpLast =>
      let MI1 :=
        if OpLast.LLT.BitWidth == 8 || StoresToSlotOfSize MF MI Op0 1 then
          MI.SetOpcode (OperationCode.target AArch64.Opcodes.STRB)
        else if OpLast.LLT.BitWidth == 16 || StoresToSlotOfSize MF MI Op0 2 then
          MI.SetOpcode (OperationCode.target AArch64.Opcodes.STRH)
        else MI.SetOpcode (OperationCode.target AArch64.Opcodes.STR)
      some (MI1.ModifyOperand 1 (fun MO => ExtendRegSize MO 32))
    | _, _ => none

/-- The `switch` of `SelectBRANCH` (lines 697-721) over the relation of the
preceding instruction. -/
def BranchOpcode : CMPRelation → AArch64.Opcodes
  | CMPRelation.EQ => AArch64.Opcodes.BEQ
  | CMPRelation.NE => AArch64.Opcodes.BNE
  | CMPRelation.LE => AArch64.Opcodes.BLE
  | CMPRelation.LT => AArch64.Opcodes.BLT
  | CMPRelation.GE => AArch64.Opcodes.BGE
  | CMPRelation.GT => AArch64.Opcodes.BGT
  | _ => AArch64.Opcodes.BEQ

/-- `AArch64TargetMachine::SelectBRANCH` (lines 677-728) for the instruction at
position `i` of block `b`: the returned flag and the function afterwards.
The preceding instruction is the one at position `i - 1`; there is none when
`i` is 0. -/
def SelectBRANCH (MF : MachineFunction) (b i : Nat) : Option (Bool × MachineFunction) :=
  match MF.instrAt b i with
  | none => none
  | some MI =>
    let PrecedingMI := if 0 < i then MF.instrAt b (i - 1) else none
    if MI.IsFallThroughBranch then
      match PrecedingMI with
      | none => none
      | some P =>
        some (true, MF.ModifyInstr b i (fun M =>
          (M.SetOpcode (OperationCode.target (BranchOpcode P.GetRelation))).RemoveOperand 0))
    else some (false, MF)

/-! ## Mid-level IR (the input of the lowering)

The headers of the mid-level IR (`Value.hpp`, `Type.hpp`, `Instructions.hpp`)
are not among the sources.  A value and a type are records of what the
lowering asks of them. -/

/-- What `IRtoLLIR.cpp` asks of an IR type. -/
structure IRType where
  PointerLevel : Nat := 0
  IsStruct : Bool := false
  IsFP : Bool := false
  IsVoid : Bool := false
  BitSize : Nat := 32
  ByteSize : Nat := 4
  BaseTypeByteSize : Nat := 4
  ElemSize : Nat := 4
  ElemByteOffsets : List Nat := []
  StructMaxAlignment : Nat := 4
  deriving DecidableEq, Repr

namespace IRType

def IsPTR (T : IRType) : Bool := decide (0 < T.PointerLevel)

/-- `CalcElemSize(0)`. -/
def CalcElemSize (T : IRType) : Nat := T.ElemSize

/-- `GetElemByteOffset(Index)`. -/
def GetElemByteOffset (T : IRType) (Index : Nat) : Nat := (T.ElemByteOffsets.get? Index).getD 0

end IRType

/-- The kinds of IR values that the lowering tells apart. -/
inductive ValueKind
  | REGISTER | PARAM | CONST | GLOBALVAR | LABEL
  deriving DecidableEq, Repr

/-- What `IRtoLLIR.cpp` asks of an IR value.  `IsStackAllocation` stands for
`dynamic_cast<StackAllocationInstruction *>(Val) != nullptr`; `IntValue` is
the 64-bit pattern of an integer constant, `FloatValue` that of a
floating-point constant. -/
structure Value where
  Kind : ValueKind := ValueKind.REGISTER
  ID : Nat := 0
  Ty : IRType := {}
  BitWidth : Nat := 32
  IsStackAllocation : Bool := false
  Name : String := ""
  IsFPConst : Bool := false
  IntValue : Nat := 0
  FloatValue : Nat := 0
  deriving DecidableEq, Repr

namespace Value

def IsRegister (V : Value) : Bool := V.Kind == ValueKind.REGISTER

def IsParameter (V : Value) : Bool := V.Kind == ValueKind.PARAM

def IsConstant (V : Value) : Bool := V.Kind == ValueKind.CONST

def IsGlobalVar (V : Value) : Bool := V.Kind == ValueKind.GLOBALVAR

def IsFPType (V : Value) : Bool := V.Ty.IsFP

end Value

/-- The fields of a `CallInstruction`: its own id and (return) type, the
callee name, the arguments and the index of the implicit struct argument
(-1 when there is none). -/
structure CallInstruction where
  ID : Nat
  Ty : IRType
  Name : String
  Args : List Value
  ImplicitStructArgIndex : Int := -1
  deriving DecidableEq, Repr

/-- The fields of a `LoadInstruction`: the instruction as a value (its id
and type) and the memory location. -/
structure LoadInstruction where
  Self : Value
  MemoryLocation : Value
  deriving DecidableEq, Repr

/-- The fields of a `GetElementPointerInstruction`: the instruction as a
value (its id and pointer type), the source and the index. -/
structure GetElementPointerInstruction where
  Self : Value
  Source : Value
  Index : Value
  deriving DecidableEq, Repr

/-- Modelled from the spec: the kinds of a `BinaryInstruction` (the header
`Instructions.hpp` is not among the sources); they are the three-address
generic opcodes. -/
inductive BinaryKind
  | AND | OR | XOR | LSL | LSR | ADD | SUB | MUL | DIV | DIVU | MOD | MODU
  | ADDF | SUBF | MULF | DIVF
  deriving DecidableEq, Repr

/-- Modelled from the spec: the kinds of a `UnaryInstruction`; they are the
two-address generic opcodes. -/
inductive UnaryKind
  | SEXT | ZEXT | TRUNC | FTOI | ITOF | BITCAST
  deriving DecidableEq, Repr

/-- The generic opcode that `(unsigned)Operation + (1 << 16)` (line 154) gives
for a binary instruction: the opcode of the same name. -/
def BinaryKind.toOpcode : BinaryKind → OperationCode
  | BinaryKind.AND => OperationCode.AND
  | BinaryKind.OR => OperationCode.OR
  | BinaryKind.XOR => OperationCode.XOR
  | BinaryKind.LSL => OperationCode.LSL
  | BinaryKind.LSR => OperationCode.LSR
  | BinaryKind.ADD => OperationCode.ADD
  | BinaryKind.SUB => OperationCode.SUB
  | BinaryKind.MUL => OperationCode.MUL
  | BinaryKind.DIV => OperationCode.DIV
  | BinaryKind.DIVU => OperationCode.DIVU
  | BinaryKind.MOD => OperationCode.MOD
  | BinaryKind.MODU => OperationCode.MODU
  | BinaryKind.ADDF => OperationCode.ADDF
  | BinaryKind.SUBF => OperationCode.SUBF
  | BinaryKind.MULF => OperationCode.MULF
  | BinaryKind.DIVF => OperationCode.DIVF

/-- The generic opcode of the same name as the kind of a unary instruction. -/
def UnaryKind.toOpcode : UnaryKind → OperationCode
  | UnaryKind.SEXT => OperationCode.SEXT
  | UnaryKind.ZEXT => OperationCode.ZEXT
  | UnaryKind.TRUNC => OperationCode.TRUNC
  | UnaryKind.FTOI => OperationCode.FTOI
  | UnaryKind.ITOF => OperationCode.ITOF
  | UnaryKind.BITCAST => OperationCode.BITCAST

/-- The fields of a `BinaryInstruction`: the instruction as a value and its two
operands. -/
structure BinaryInstruction where
  Kind : BinaryKind
  Self : Value
  LHS : Value
  RHS : Value
  deriving DecidableEq, Repr

/-- The fields of a `UnaryInstruction`. -/
structure UnaryInstruction where
  Kind : UnaryKind
  Self : Value
  Operand : Value
  deriving DecidableEq, Repr

/-- The fields of a `StoreInstruction`.  For the saved value,
`dynamic_cast<FunctionParameter *>` succeeds when the value is a parameter and
`dynamic_cast<StackAllocationInstruction *>` when `IsStackAllocation` is set. -/
structure StoreInstruction where
  MemoryLocation : Value
  SavedValue : Value
  deriving DecidableEq, Repr

/-- The fields of a `JumpInstruction`. -/
structure JumpInstruction where
  TargetLabelName : String
  deriving DecidableEq, Repr

/-- The fields of a `BranchInstruction`; `FalseLabelName` is `none` when
`HasFalseLabel()` is false. -/
structure BranchInstruction where
  Condition : Value
  TrueLabelName : String
  FalseLabelName : Option String := none
  deriving DecidableEq, Repr

/-- The fields of a `CompareInstruction`; `IsFP` tells the kind `CMPF` from the
kind `CMP`. -/
structure CompareInstruction where
  Self : Value
  LHS : Value
  RHS : Value
  Relation : CMPRelation
  IsFP : Bool := false
  deriving DecidableEq, Repr

/-- The fields of a `ReturnInstruction`: the instruction as a value (its type
and bit width) and the returned value, `none` for `nullptr`. -/
structure ReturnInstruction where
  Self : Value
  RetVal : Option Value := none
  deriving DecidableEq, Repr

/-- The fields of a `MemoryCopyInstruction`. -/
structure MemoryCopyInstruction where
  Destination : Value
  Source : Value
  Size : Nat
  deriving DecidableEq, Repr

/-- The fields of a `StackAllocationInstruction`: its id and `ReferredType`,
the type of the instruction after `DecrementPointerLevel()` (the type of what
is allocated). -/
structure StackAllocationInstruction where
  ID : Nat
  ReferredType : IRType
  deriving DecidableEq, Repr

/-- An instruction of the mid-level IR, by the class that
`ConvertToMachineInstr` recognizes with `dynamic_cast`. -/
inductive Instruction
  | Binary (I : BinaryInstruction)
  | Unary (I : UnaryInstruction)
  | Store (I : StoreInstruction)
  | Load (I : LoadInstruction)
  | GetElementPointer (I : GetElementPointerInstruction)
  | Jump (I : JumpInstruction)
  | Branch (I : BranchInstruction)
  | Compare (I : CompareInstruction)
  | Call (I : CallInstruction)
  | Return (I : ReturnInstruction)
  | MemoryCopy (I : MemoryCopyInstruction)
  | StackAllocation (I : StackAllocationInstruction)
  deriving DecidableEq, Repr

/-- `Instruction::IsStackAllocation`. -/
def Instruction.IsStackAllocation : Instruction → Bool
  | Instruction.StackAllocation _ => true
  | _ => false

/-- A basic block of the mid-level IR (`BasicBlock.hpp`). -/
structure BasicBlock where
  Name : String
  Instructions : List Instruction := []
  deriving DecidableEq, Repr

/-- What the lowering asks of a function parameter. -/
structure FunctionParameter where
  Self : Value
  IsImplicitStructPtr : Bool := false
  deriving DecidableEq, Repr

/-- What the lowering asks of a `Function` of the mid-level IR. -/
structure Function where
  Name : String
  Parameters : List FunctionParameter := []
  BasicBlocks : List BasicBlock := []
  IsDeclarationOnly : Bool := false
  deriving DecidableEq, Repr

/-- The functions of a `Module` of the mid-level IR (the name `Module` is
taken by the library). -/
structure IRModule where
  Functions : List Function := []
  deriving DecidableEq, Repr

/-! ## MIR to LLIR lowering (`IRtoLLIR.cpp`) -/

/-- The state of an `IRtoLLIR` instance while one function is lowered: the
machine function under construction and the side tables of `IRtoLLIR.hpp`.
A table `std::map<K, V>` is a function to `Option V`; a table of vectors is a
function to lists, the empty list standing for a missing key. -/
structure IRtoLLIR where
  MF : MachineFunction := {}
  StructToRegMap : String → List Nat := fun _ => []
  StructByIDToRegMap : Nat → List Nat := fun _ => []
  ParamByIDToRegMap : Nat → List Nat := fun _ => []
  IRVregToLLIRVreg : Nat → Option Nat := fun _ => none
  SpilledReturnValuesIDToStackID : Nat → Option Nat := fun _ => none

namespace IRtoLLIR

/-- `BB->InsertInstr(MI)` for the block at position `bb` of the function. -/
def InsertInstr (S : IRtoLLIR) (bb : Nat) (MI : MachineInstruction) : IRtoLLIR :=
  { S with MF := S.MF.InsertInstr bb MI }

/-- `MF->GetNextAvailableVReg()`. -/
def NextAvailableVReg (S : IRtoLLIR) : Nat × IRtoLLIR :=
  (S.MF.GetNextAvailableVReg.1, { S with MF := S.MF.GetNextAvailableVReg.2 })

/-- The instructions of block `bb`. -/
def Instrs (S : IRtoLLIR) (bb : Nat) : List MachineInstruction :=
  match S.MF.BasicBlocks.get? bb with
  | some BB => BB.Instructions
  | none => []

end IRtoLLIR

/-- Assignment `Map[Key] = V` on a table. -/
def MapSet (M : Nat → Option Nat) (Key V : Nat) : Nat → Option Nat :=
  fun k => if k = Key then some V else M k

/-- `Map[Key].push_back(V)` on a table of vectors. -/
def MapPush (M : Nat → List Nat) (Key V : Nat) : Nat → List Nat :=
  fun k => if k = Key then M k ++ [V] else M k

/-- The `LOAD VReg, [stack slot]` that `GetMachineOperandFromValue` appends
for a value that lives on the stack; the fresh register is returned. -/
def EmitLoadFromSlot (S : IRtoLLIR) (bb BitWidth Slot : Nat) : Nat × IRtoLLIR :=
  let R := S.NextAvailableVReg
  (R.1, R.2.InsertInstr bb
    (((MachineInstruction.create OperationCode.LOAD).AddVirtualRegister R.1 BitWidth).AddStackAccess
      Slot 0))

/-- The register case of `GetMachineOperandFromValue` (lines 31-63): the
virtual register that stands for the IR register `Val`, after a `LOAD` from
its stack slot, from the table, after a `LOAD` from the slot of a spilled
call result, or freshly allocated and recorded. -/
def GetVRegForValue (S : IRtoLLIR) (Val : Value) (bb : Nat) (IsDef : Bool) (BitWidth : Nat) :
    Nat × IRtoLLIR :=
  if !IsDef && (S.IRVregToLLIRVreg Val.ID).isNone && S.MF.IsStackSlot Val.ID &&
      (S.SpilledReturnValuesIDToStackID Val.ID).isNone then
    EmitLoadFromSlot S bb BitWidth Val.ID
  else
    match S.IRVregToLLIRVreg Val.ID with
    | some Mapped =>
      if !IsDef && S.MF.IsStackSlot Mapped &&
          (S.SpilledReturnValuesIDToStackID Mapped).isNone then
        EmitLoadFromSlot S bb BitWidth Mapped
      else (Mapped, S)
    | none =>
      match S.SpilledReturnValuesIDToStackID Val.ID with
      | some Slot => EmitLoadFromSlot S bb BitWidth Slot
      | none =>
        (S.NextAvailableVReg.1, { S.NextAvailableVReg.2 with
          IRVregToLLIRVreg := MapSet S.NextAvailableVReg.2.IRVregToLLIRVreg Val.ID
            S.NextAvailableVReg.1 })

/-- `IRtoLLIR::GetMachineOperandFromValue`.  The result is `none` where the
code runs into `assert(!"Unhandled MO case")`. -/
def GetMachineOperandFromValue (TM : TargetMachine) (S : IRtoLLIR) (Val : Value) (bb : Nat)
    (IsDef : Bool) : Option (MachineOperand × IRtoLLIR) :=
  if Val.IsRegister then
    let BitWidth :=
      if Val.Ty.IsPTR && !Val.IsStackAllocation then TM.PointerSize else Val.BitWidth
    let R := GetVRegForValue S Val bb IsDef BitWidth
    let VReg := MachineOperand.CreateVirtualRegister R.1 32
    if Val.Ty.IsPTR then
      some (VReg.SetType (LowLevelType.CreatePTR TM.PointerSize), R.2)
    else
      some (VReg.SetType (LowLevelType.CreateScalar BitWidth), R.2)
  else if Val.IsParameter then
    let Result := MachineOperand.CreateParameter Val.ID
    if Val.Ty.IsPTR then
      some (Result.SetType (LowLevelType.CreatePTR TM.PointerSize), S)
    else
      some (Result.SetType (LowLevelType.CreateScalar Val.BitWidth), S)
  else if Val.IsConstant then
    let Result :=
      if Val.IsFPConst then MachineOperand.CreateFPImmediate Val.FloatValue 32
      else MachineOperand.CreateImmediate Val.IntValue 32
    some (Result.SetType (LowLevelType.CreateScalar Val.BitWidth), S)
  else if Val.IsGlobalVar then
    let N := S.NextAvailableVReg
    let Instr := ((MachineInstruction.create OperationCode.GLOBAL_ADDRESS).AddVirtualRegister N.1
      TM.PointerSize).AddGlobalSymbol Val.Name
    some ((MachineOperand.CreateVirtualRegister N.1 32).SetType
      (LowLevelType.CreatePTR TM.PointerSize), N.2.InsertInstr bb Instr)
  else none

/-- `IRtoLLIR::GetIDFromValue`. -/
def GetIDFromValue (S : IRtoLLIR) (Val : Value) : Nat :=
  match S.IRVregToLLIRVreg Val.ID with
  | some Mapped => Mapped
  | none => Val.ID

/-- `HandleStackAllocation` for the stack allocation with id `ID`;
`ReferredType` is the type of the instruction after `DecrementPointerLevel()`.
No instruction is emitted. -/
def HandleStackAllocation (TM : TargetMachine) (ID : Nat) (ReferredType : IRType)
    (Func : MachineFunction) : MachineFunction :=
  let IsPTR := decide (0 < ReferredType.PointerLevel)
  let Alignment :=
    if IsPTR then TM.PointerSize / 8
    else if ReferredType.IsStruct then ReferredType.StructMaxAlignment
    else ReferredType.BaseTypeByteSize
  let Size := if IsPTR then TM.PointerSize / 8 else ReferredType.ByteSize
  Func.InsertStackSlot ID Size Alignment

/-- Modelled from the spec: `GetNextAlignedValue` of `Support.hpp`, which is
not among the sources; the value rounded up to a multiple of the alignment,
so that the quotient is the number of register-sized chunks. -/
def GetNextAlignedValue (Val Alignment : Nat) : Nat := (Val + Alignment - 1) / Alignment * Alignment

/-- The `MOV` instructions of a by-value struct argument (lines 589-598): one
per register that holds a part of the struct, into consecutive argument
registers starting at `ParamCounter`. -/
def LowerStructArg (TM : TargetMachine) (S : IRtoLLIR) (bb : Nat) :
    List Nat → Nat → Option (IRtoLLIR × Nat)
  | [], ParamCounter => some (S, ParamCounter)
  | VReg :: rest, ParamCounter =>
    match TM.ArgumentRegisters.get? ParamCounter with
    | none => none
    | some Reg =>
      LowerStructArg TM (S.InsertInstr bb
        (((MachineInstruction.create OperationCode.MOV).AddRegister Reg.ID
          Reg.BitWidth).AddVirtualRegister VReg TM.PointerSize)) bb rest (ParamCounter + 1)

/-- The address of a global or of a stack slot goes to an argument register
(lines 601-629), or to the struct-pointer register when the register counter
equals the index of the implicit struct argument. -/
def LowerAddressArg (TM : TargetMachine) (I : CallInstruction) (bb : Nat) (S : IRtoLLIR)
    (ParamCounter : Nat) (Param : Value) : Option (IRtoLLIR × Nat) :=
  match TM.ArgumentRegisters.get? ParamCounter with
  | none => none
  | some Reg =>
    let DestinationReg :=
      if (ParamCounter : Int) = I.ImplicitStructArgIndex then TM.StructPtrRegister else Reg.ID
    let Instr :=
      if Param.IsGlobalVar then
        ((MachineInstruction.create OperationCode.GLOBAL_ADDRESS).AddRegister DestinationReg
          Reg.BitWidth).AddGlobalSymbol Param.Name
      else
        ((MachineInstruction.create OperationCode.STACK_ADDRESS).AddRegister DestinationReg
          Reg.BitWidth).AddStackAccess Param.ID 0
    some (S.InsertInstr bb Instr, ParamCounter + 1)

/-- The instruction of the default case before its operands are added (lines
632-638): a `MOV`, turned into a `MOVF` for a floating-point argument. -/
def ArgMoveInstr (Param : Value) : MachineInstruction :=
  if Param.IsFPType then
    (MachineInstruction.create OperationCode.MOV).SetOpcode OperationCode.MOVF
  else MachineInstruction.create OperationCode.MOV

/-- The index `ParamIdx` into the argument registers (lines 633-638). -/
def ArgRegIndex (TM : TargetMachine) (ParamCounter : Nat) (Param : Value) : Nat :=
  if Param.IsFPType then ParamCounter + TM.FirstFPRetRegIdx else ParamCounter

/-- The physical destination of the default case (lines 641-650): the
argument register, or its first sub-register when the source is narrower. -/
def ArgDestination (TM : TargetMachine) (ParamIdx : Nat) (Src : MachineOperand) :
    Option MachineOperand :=
  match TM.ArgumentRegisters.get? ParamIdx with
  | none => none
  | some Reg =>
    if Src.GetSize < Reg.BitWidth && !Reg.SubRegs.isEmpty then
      match Reg.SubRegs.head? with
      | none => none
      | some Sub =>
        match TM.GetRegisterByID Sub with
        | none => none
        | some SubReg => some (MachineOperand.CreateRegister Sub SubReg.BitWidth)
    else some (MachineOperand.CreateRegister Reg.ID Reg.BitWidth)

/-- The default case of the loop over the arguments (lines 631-657). -/
def LowerScalarArg (TM : TargetMachine) (bb : Nat) (S : IRtoLLIR) (ParamCounter : Nat)
    (Param : Value) : Option (IRtoLLIR × Nat) :=
  match GetMachineOperandFromValue TM S Param bb false with
  | none => none
  | some (Src, S1) =>
    match ArgDestination TM (ArgRegIndex TM ParamCounter Param) Src with
    | none => none
    | some Dest =>
      some (S1.InsertInstr bb (((ArgMoveInstr Param).AddOperand Dest).AddOperand Src),
        ParamCounter + 1)

/-- The body of the loop over the arguments of a call (lines 579-658).  The
result is `none` where the code reads past the argument registers or fails
an assertion. -/
def LowerCallArg (TM : TargetMachine) (I : CallInstruction) (bb : Nat) (S : IRtoLLIR)
    (ParamCounter : Nat) (Param : Value) : Option (IRtoLLIR × Nat) :=
  if Param.Ty.IsStruct && !Param.Ty.IsPTR && !Param.IsGlobalVar then
    if (S.StructByIDToRegMap Param.ID).isEmpty then none
    else LowerStructArg TM S bb (S.StructByIDToRegMap Param.ID) ParamCounter
  else if Param.Ty.IsPTR && (Param.IsGlobalVar || S.MF.IsStackSlot Param.ID) then
    LowerAddressArg TM I bb S ParamCounter Param
  else LowerScalarArg TM bb S ParamCounter Param

/-- The loop over the arguments of a call. -/
def LowerCallArgs (TM : TargetMachine) (I : CallInstruction) (bb : Nat) :
    IRtoLLIR → Nat → List Value → Option (IRtoLLIR × Nat)
  | S, ParamCounter, [] => some (S, ParamCounter)
  | S, ParamCounter, Param :: rest =>
    match LowerCallArg TM I bb S ParamCounter Param with
    | none => none
    | some (S1, ParamCounter1) => LowerCallArgs TM I bb S1 ParamCounter1 rest

/-- The `STORE` of chunk `i` of a returned value (lines 685-705): the return
register of the chunk, or its first sub-register when fewer bits than a
pointer remain, goes to the slot at byte offset `i * (MaxRegSize / 8)`. -/
def MakeReturnStore (TM : TargetMachine) (I : CallInstruction) (StackSlot RetBitSize i : Nat) :
    Option MachineInstruction :=
  let MaxRegSize := TM.PointerSize
  let Store := (MachineInstruction.create OperationCode.STORE).AddOperand
    (MachineOperand.CreateStackAccess StackSlot (i * (MaxRegSize / 8) : Nat))
  let ParamIdx := if I.Ty.IsFP then i + TM.FirstFPRetRegIdx else i
  match TM.ReturnRegisters.get? ParamIdx with
  | none => none
  | some Reg =>
    if min RetBitSize MaxRegSize ≥ TM.PointerSize then
      some (Store.AddRegister Reg.ID (min RetBitSize MaxRegSize))
    else
      match Reg.SubRegs.head? with
      | none => none
      | some Sub => some (Store.AddRegister Sub (min RetBitSize MaxRegSize))

/-- The loop that spills the return registers (lines 682-711); `n` is the
number of chunks still to store, `i` the index of the next one.  The last
`STORE` is returned, the others are appended to the block. -/
def SpillReturnValue (TM : TargetMachine) (I : CallInstruction) (bb StackSlot : Nat) :
    Nat → Nat → Nat → IRtoLLIR → Option (MachineInstruction × IRtoLLIR)
  | 0, _, _, _ => none
  | n + 1, i, RetBitSize, S =>
    match MakeReturnStore TM I StackSlot RetBitSize i with
    | none => none
    | some Store =>
      if n = 0 then some (Store, S)
      else SpillReturnValue TM I bb StackSlot n (i + 1)
        ((RetBitSize + 2 ^ 32 - TM.PointerSize) % 2 ^ 32) (S.InsertInstr bb Store)

/-- The `CallInstruction` case of `IRtoLLIR::ConvertToMachineInstr` (lines
570-712).  The instruction that the function returns is the first component;
the caller appends it to the block. -/
def ConvertCall (TM : TargetMachine) (S : IRtoLLIR) (I : CallInstruction) (bb : Nat) :
    Option (MachineInstruction × IRtoLLIR) :=
  let ResultMI := MachineInstruction.create OperationCode.CALL
  let S0 : IRtoLLIR := { S with MF := S.MF.SetToCaller }
  match LowerCallArgs TM I bb S0 0 I.Args with
  | none => none
  | some (S1, _) =>
    let ResultMI := ResultMI.AddFunctionName I.Name
    if I.Ty.IsVoid then some (ResultMI, S1)
    else
      let S2 := S1.InsertInstr bb ResultMI
      let RetBitSize := I.Ty.ByteSize * 8 % 2 ^ 32
      let MaxRegSize := TM.PointerSize
      let RegsCount := GetNextAlignedValue RetBitSize MaxRegSize / MaxRegSize
      if 0 < RegsCount ∧ RegsCount ≤ 2 then
        let N := S2.NextAvailableVReg
        let StackSlot := N.1
        let S3 : IRtoLLIR := { N.2 with
          SpilledReturnValuesIDToStackID := MapSet N.2.SpilledReturnValuesIDToStackID I.ID StackSlot }
        let S4 : IRtoLLIR := { S3 with
          MF := S3.MF.InsertStackSlot StackSlot (RetBitSize / 8) (RetBitSize / 8) }
        SpillReturnValue TM I bb StackSlot RegsCount 0 RetBitSize S4
      else none

/-- What `GenerateLLIRFromIR` does with a lowered instruction: the returned
machine instruction is appended to the block (line 1054). -/
def LowerCall (TM : TargetMachine) (S : IRtoLLIR) (I : CallInstruction) (bb : Nat) :
    Option IRtoLLIR :=
  match ConvertCall TM S I bb with
  | none => none
  | some (MI, S1) => some (S1.InsertInstr bb MI)

/-- The loop of the by-value struct load (lines 360-373): one `LOAD` per
register-sized chunk into a fresh register that is pushed to
`StructByIDToRegMap`; the last `LOAD` is returned.  `n` chunks remain, `i` is
the index of the next one. -/
def LoadStructChunks (TM : TargetMachine) (I : LoadInstruction) (bb AddressReg : Nat) :
    Nat → Nat → IRtoLLIR → Option (MachineInstruction × IRtoLLIR)
  | 0, _, _ => none
  | n + 1, i, S =>
    let N := S.NextAvailableVReg
    let CurrentLoad := ((MachineInstruction.create OperationCode.LOAD).AddVirtualRegister N.1
      TM.PointerSize).AddStackAccess AddressReg (i * TM.PointerSize / 8 : Nat)
    let S1 : IRtoLLIR := { N.2 with
      StructByIDToRegMap := MapPush N.2.StructByIDToRegMap I.Self.ID N.1 }
    if n = 0 then some (CurrentLoad, S1)
    else LoadStructChunks TM I bb AddressReg n (i + 1) (S1.InsertInstr bb CurrentLoad)

/-- The `LoadInstruction` case of `ConvertToMachineInstr` (lines 325-375).
The result is `none` where the code fails an assertion. -/
def ConvertLoad (TM : TargetMachine) (S : IRtoLLIR) (I : LoadInstruction) (bb : Nat) :
    Option (MachineInstruction × IRtoLLIR) :=
  if !(I.MemoryLocation.IsRegister || I.MemoryLocation.IsGlobalVar) then none
  else
    let A : Nat × IRtoLLIR :=
      if I.MemoryLocation.IsGlobalVar then
        let N := S.NextAvailableVReg
        (N.1, N.2.InsertInstr bb
          (((MachineInstruction.create OperationCode.GLOBAL_ADDRESS).AddVirtualRegister N.1
            TM.PointerSize).AddGlobalSymbol I.MemoryLocation.Name))
      else (GetIDFromValue S I.MemoryLocation, S)
    let AddressReg := A.1
    let ResultMI := (MachineInstruction.create OperationCode.LOAD).AddAttribute MIAttribute.IS_LOAD
    match GetMachineOperandFromValue TM A.2 I.Self bb true with
    | none => none
    | some (Dest, S1) =>
      let ResultMI := ResultMI.AddOperand Dest
      let ResultMI :=
        if S1.MF.IsStackSlot AddressReg then ResultMI.AddStackAccess AddressReg 0
        else ResultMI.AddMemory AddressReg 0 TM.PointerSize
      if I.Self.Ty.IsStruct && !I.Self.Ty.IsPTR then
        let RegsCount :=
          GetNextAlignedValue (I.Self.Ty.ByteSize * 8 % 2 ^ 32) TM.PointerSize / TM.PointerSize
        if RegsCount = 0 then some (ResultMI, S1)
        else LoadStructChunks TM I bb AddressReg RegsCount 0 S1
      else some (ResultMI, S1)

/-- The load is lowered and the returned instruction is appended to the block
(line 1054). -/
def LowerLoad (TM : TargetMachine) (S : IRtoLLIR) (I : LoadInstruction) (bb : Nat) :
    Option IRtoLLIR :=
  match ConvertLoad TM S I bb with
  | none => none
  | some (MI, S1) => some (S1.InsertInstr bb MI)

/-- The conversion of an `unsigned` to `int`. -/
def toInt32 (x : Nat) : Int :=
  if x % 2 ^ 32 < 2 ^ 31 then ((x % 2 ^ 32 : Nat) : Int) else ((x % 2 ^ 32 : Nat) : Int) - 2 ^ 32

/-- `BB->GetInstructions()[Idx]` is replaced by `f` of it. -/
def IRtoLLIR.ModifyInstr (S : IRtoLLIR) (bb Idx : Nat)
    (f : MachineInstruction → MachineInstruction) : IRtoLLIR :=
  { S with MF := { S.MF with BasicBlocks := (S.MF.BasicBlocks.modify
      (fun BB => { BB with Instructions := BB.Instructions.modify f Idx }) bb) } }

/-- The scaled index of a GEP with a register index (lines 438-486): the id
of the register that holds `index * Multiplier` and the state after the
instructions that compute it. -/
def LowerScaledIndex (TM : TargetMachine) (S : IRtoLLIR) (bb Multiplier : Nat)
    (IndexReg : MachineOperand) : Nat × IRtoLLIR :=
  if Multiplier = 1 then
    let N := S.NextAvailableVReg
    let MOV := ((MachineInstruction.create OperationCode.MOV).AddVirtualRegister N.1
      TM.PointerSize).AddOperand IndexReg
    let MOV := if IndexReg.GetSize < TM.PointerSize then MOV.SetOpcode OperationCode.SEXT else MOV
    (N.1, N.2.InsertInstr bb MOV)
  else
    let N := S.NextAvailableVReg
    let S1 := N.2.InsertInstr bb (((MachineInstruction.create OperationCode.MOV).AddVirtualRegister
      N.1 TM.PointerSize).AddImmediate Multiplier 32)
    if IndexReg.GetSize < TM.PointerSize then
      let X := S1.NextAvailableVReg
      let S2 := X.2.InsertInstr bb (((MachineInstruction.create
        OperationCode.SEXT).AddVirtualRegister X.1 TM.PointerSize).AddOperand IndexReg)
      let M := S2.NextAvailableVReg
      (M.1, M.2.InsertInstr bb ((((MachineInstruction.create
        OperationCode.MUL).AddVirtualRegister M.1 TM.PointerSize).AddVirtualRegister X.1
          TM.PointerSize).AddVirtualRegister N.1 TM.PointerSize))
    else
      let M := S1.NextAvailableVReg
      (M.1, M.2.InsertInstr bb ((((MachineInstruction.create
        OperationCode.MUL).AddVirtualRegister M.1 TM.PointerSize).AddOperand
          IndexReg).AddVirtualRegister N.1 TM.PointerSize))

/-- The renaming of the definition of the address instruction (lines
496-503), done for a global source only: of `GoalInstr` itself when the index
is a constant, of the copy already in the block when it is in a register. -/
def RenameGoalDef (S : IRtoLLIR) (bb : Nat) (GoalInstr : MachineInstruction)
    (GoalInstrIdx : Option Nat) (IsGlobal IndexIsInReg : Bool) :
    Option (MachineInstruction × IRtoLLIR) :=
  if IsGlobal then
    if !IndexIsInReg then
      some (GoalInstr.SetDefReg S.NextAvailableVReg.1, S.NextAvailableVReg.2)
    else
      match GoalInstrIdx with
      | none => none
      | some Idx =>
        some (GoalInstr, S.NextAvailableVReg.2.ModifyInstr bb Idx
          (fun MI => MI.SetDefReg S.NextAvailableVReg.1))
  else some (GoalInstr, S)

/-- The end of the GEP case (lines 493-528): the renaming, the insertion of
the address instruction and the final `ADD`, which is returned. -/
def FinishGEP (TM : TargetMachine) (S : IRtoLLIR) (I : GetElementPointerInstruction) (bb : Nat)
    (Dest : MachineOperand) (GoalInstr : MachineInstruction) (GoalInstrIdx : Option Nat)
    (IndexIsInReg : Bool) (MULResVReg ConstantIndexPart : Nat) (IsGlobal IsReg : Bool) :
    Option (MachineInstruction × IRtoLLIR) :=
  match RenameGoalDef S bb GoalInstr GoalInstrIdx IsGlobal IndexIsInReg with
  | none => none
  | some (Goal1, S1) =>
    let S2 := if !Goal1.IsInvalid && !IndexIsInReg then S1.InsertInstr bb Goal1 else S1
    let ADD := (MachineInstruction.create OperationCode.ADD).AddOperand Dest
    let Base : Option (MachineOperand × IRtoLLIR) :=
      if IsReg then GetMachineOperandFromValue TM S2 I.Source bb false
      else
        match GoalInstrIdx with
        | some Idx =>
          match (S2.Instrs bb).get? Idx with
          | some MI => MI.GetDef.map (fun d => (d, S2))
          | none => none
        | none => Goal1.GetDef.map (fun d => (d, S2))
    match Base with
    | none => none
    | some (B, S3) =>
      let ADD := ADD.AddOperand B
      if IndexIsInReg then some (ADD.AddVirtualRegister MULResVReg TM.PointerSize, S3)
      else some (ADD.AddImmediate ConstantIndexPart Dest.GetSize, S3)

/-- The `GetElementPointerInstruction` case of `ConvertToMachineInstr` (lines
382-529).  The result is `none` where the code fails an assertion. -/
def ConvertGEP (TM : TargetMachine) (S : IRtoLLIR) (I : GetElementPointerInstruction)
    (bb : Nat) : Option (MachineInstruction × IRtoLLIR) :=
  let SourceID := GetIDFromValue S I.Source
  let IsGlobal := I.Source.IsGlobalVar
  let IsStack := S.MF.IsStackSlot SourceID
  let IsReg := !IsGlobal && !IsStack
  let Goal0 : MachineInstruction :=
    if IsGlobal then MachineInstruction.create OperationCode.GLOBAL_ADDRESS
    else if IsStack then MachineInstruction.create OperationCode.STACK_ADDRESS
    else {}
  match GetMachineOperandFromValue TM S I.Self bb true with
  | none => none
  | some (Dest, S1) =>
    let Goal1 := Goal0.AddOperand Dest
    let GoalInstr :=
      if IsGlobal then Goal1.AddGlobalSymbol I.Source.Name
      else if IsStack then Goal1.AddStackAccess SourceID 0
      else Goal1
    match GetMachineOperandFromValue TM S1 I.Index bb false with
    | none => none
    | some (IndexReg, S2) =>
      if I.Index.IsConstant then
        let ConstantIndexPart :=
          if !I.Source.Ty.IsStruct then I.Source.Ty.CalcElemSize * I.Index.IntValue % 2 ^ 32
          else I.Source.Ty.GetElemByteOffset I.Index.IntValue % 2 ^ 32
        if ConstantIndexPart = 0 ∧ GoalInstr.IsInvalid = false then some (GoalInstr, S2)
        else if IsStack then
          some ({ GoalInstr with Operands := (GoalInstr.Operands.modify
            (fun MO => MO.SetOffset (toInt32 ConstantIndexPart)) 1) }, S2)
        else
          FinishGEP TM S2 I bb Dest GoalInstr none false 0 ConstantIndexPart IsGlobal IsReg
      else
        if !I.Source.Ty.IsStruct || decide (I.Source.Ty.PointerLevel > 2) then
          let S3 := if !GoalInstr.IsInvalid then S2.InsertInstr bb GoalInstr else S2
          let GoalInstrIdx : Option Nat :=
            if !GoalInstr.IsInvalid then some ((S3.Instrs bb).length - 1) else none
          let R := LowerScaledIndex TM S3 bb I.Source.Ty.CalcElemSize IndexReg
          FinishGEP TM R.2 I bb Dest GoalInstr GoalInstrIdx true R.1 0 IsGlobal IsReg
        else none

/-- The GEP is lowered and the returned instruction is appended to the block
(line 1054). -/
def LowerGEP (TM : TargetMachine) (S : IRtoLLIR) (I : GetElementPointerInstruction) (bb : Nat) :
    Option IRtoLLIR :=
  match ConvertGEP TM S I bb with
  | none => none
  | some (MI, S1) => some (S1.InsertInstr bb MI)

/-- `IRtoLLIR::MaterializeAddress` (lines 120-146): the operand that holds the
address of `Val` and the state after the instruction that computes it. -/
def MaterializeAddress (TM : TargetMachine) (S : IRtoLLIR) (Val : Value) (bb : Nat) :
    Option (MachineOperand × IRtoLLIR) :=
  let ValID := GetIDFromValue S Val
  let IsGlobal := Val.IsGlobalVar
  let IsStack := S.MF.IsStackSlot ValID
  if IsGlobal || IsStack then
    let Addr := MachineInstruction.create
      (if IsGlobal then OperationCode.GLOBAL_ADDRESS else OperationCode.STACK_ADDRESS)
    let N := S.NextAvailableVReg
    let AddrDest := MachineOperand.CreateVirtualRegister N.1 TM.PointerSize
    let Addr := Addr.AddOperand AddrDest
    let Addr := if IsGlobal then Addr.AddGlobalSymbol Val.Name else Addr.AddStackAccess ValID 0
    some (AddrDest, N.2.InsertInstr bb Addr)
  else GetMachineOperandFromValue TM S Val bb false

/-- The `BinaryInstruction` case of `ConvertToMachineInstr` (lines 156-165). -/
def ConvertBinary (TM : TargetMachine) (S : IRtoLLIR) (I : BinaryInstruction) (bb : Nat) :
    Option (MachineInstruction × IRtoLLIR) :=
  match GetMachineOperandFromValue TM S I.Self bb true with
  | none => none
  | some (Result, S1) =>
    match GetMachineOperandFromValue TM S1 I.LHS bb false with
    | none => none
    | some (FirstSrcOp, S2) =>
      match GetMachineOperandFromValue TM S2 I.RHS bb false with
      | none => none
      | some (SecondSrcOp, S3) =>
        some ((((MachineInstruction.create I.Kind.toOpcode).AddOperand Result).AddOperand
          FirstSrcOp).AddOperand SecondSrcOp, S3)

/-- The source operand of a `BITCAST` and the opcode it gets (lines 171-196).
The flag handed to `GetMachineOperandFromValue` in the move case compares the
number of the instruction kind with the number of the generic opcode, which
is that number plus `1 << 16`: it is false. -/
def ConvertBitcastOperand (TM : TargetMachine) (S : IRtoLLIR) (I : UnaryInstruction) (bb : Nat) :
    Option ((OperationCode × MachineOperand) × IRtoLLIR) :=
  if I.Self.Ty.IsPTR && I.Operand.Ty.IsPTR &&
      I.Self.Ty.PointerLevel == I.Operand.Ty.PointerLevel &&
      S.MF.IsStackSlot I.Operand.ID then
    if S.SpilledReturnValuesIDToStackID I.Operand.ID == none then
      some ((OperationCode.STACK_ADDRESS, MachineOperand.CreateStackAccess I.Operand.ID 0), S)
    else
      some ((OperationCode.LOAD,
        MachineOperand.CreateStackAccess (GetIDFromValue S I.Operand) 0), S)
  else
    match GetMachineOperandFromValue TM S I.Operand bb false with
    | none => none
    | some (Op, S1) => some ((OperationCode.MOV, Op), S1)

/-- The `UnaryInstruction` case of `ConvertToMachineInstr` (lines 167-203). -/
def ConvertUnary (TM : TargetMachine) (S : IRtoLLIR) (I : UnaryInstruction) (bb : Nat) :
    Option (MachineInstruction × IRtoLLIR) :=
  match GetMachineOperandFromValue TM S I.Self bb true with
  | none => none
  | some (Result, S1) =>
    if I.Kind == UnaryKind.BITCAST then
      match ConvertBitcastOperand TM S1 I bb with
      | none => none
      | some ((Op, MO), S2) =>
        some ((((MachineInstruction.create I.Kind.toOpcode).SetOpcode Op).AddOperand
          Result).AddOperand MO, S2)
    else
      match GetMachineOperandFromValue TM S1 I.Operand bb false with
      | none => none
      | some (MO, S2) =>
        some (((MachineInstruction.create I.Kind.toOpcode).AddOperand Result).AddOperand MO, S2)

/-- The name of the first machine block called `Name`, as the loops of lines
532-536 and 543-551 find it. -/
def FindLabel (S : IRtoLLIR) (Name : String) : Option String :=
  (S.MF.BasicBlocks.find? (fun BB => Name == BB.Name)).map (fun BB => BB.Name)

/-- The `JumpInstruction` case of `ConvertToMachineInstr` (lines 530-537): the
label of the target block is the only operand; it is missing when no block
has the name. -/
def ConvertJump (S : IRtoLLIR) (I : JumpInstruction) : Option (MachineInstruction × IRtoLLIR) :=
  match FindLabel S I.TargetLabelName with
  | some L => some ((MachineInstruction.create OperationCode.JUMP).AddLabel L, S)
  | none => some (MachineInstruction.create OperationCode.JUMP, S)

/-- The `BranchInstruction` case of `ConvertToMachineInstr` (lines 538-556).
When a false label is present the true label is added once more (line 555).
A true label that names no block leaves the null pointer, which is added as
the label all the same. -/
def ConvertBranch (TM : TargetMachine) (S : IRtoLLIR) (I : BranchInstruction) (bb : Nat) :
    Option (MachineInstruction × IRtoLLIR) :=
  let LabelTrue := FindLabel S I.TrueLabelName
  match GetMachineOperandFromValue TM S I.Condition bb false with
  | none => none
  | some (Cond, S1) =>
    let ResultMI := ((MachineInstruction.create OperationCode.BRANCH).AddOperand
      Cond).AddLabelPtr LabelTrue
    some (if I.FalseLabelName.isSome then ResultMI.AddLabelPtr LabelTrue else ResultMI, S1)

/-- The `CompareInstruction` case of `ConvertToMachineInstr` (lines 557-568). -/
def ConvertCompare (TM : TargetMachine) (S : IRtoLLIR) (I : CompareInstruction) (bb : Nat) :
    Option (MachineInstruction × IRtoLLIR) :=
  match GetMachineOperandFromValue TM S I.Self bb true with
  | none => none
  | some (Result, S1) =>
    match GetMachineOperandFromValue TM S1 I.LHS bb false with
    | none => none
    | some (FirstSrcOp, S2) =>
      match GetMachineOperandFromValue TM S2 I.RHS bb false with
      | none => none
      | some (SecondSrcOp, S3) =>
        some (((((MachineInstruction.create
          (if I.IsFP then OperationCode.CMPF else OperationCode.CMP)).AddOperand Result).AddOperand
            FirstSrcOp).AddOperand SecondSrcOp).SetAttributes I.Relation, S3)

/-- The loops of lines 248-257 and 290-299: one `STORE` per register of the
list into the slot `AddressReg` at byte offset `Counter * RegSize / 8`; all
but the last are appended to the block, the last is returned.  The loop is
entered with a non-empty list only. -/
def StoreRegisterChunks (bb AddressReg RegSize : Nat) :
    List Nat → Nat → IRtoLLIR → Option (MachineInstruction × IRtoLLIR)
  | [], _, _ => none
  | ParamID :: rest, Counter, S =>
    let CurrentStore := ((MachineInstruction.create OperationCode.STORE).AddStackAccess AddressReg
      (Counter * RegSize / 8 : Nat)).AddVirtualRegister ParamID RegSize
    if rest.isEmpty then some (CurrentStore, S)
    else StoreRegisterChunks bb AddressReg RegSize rest (Counter + 1) (S.InsertInstr bb CurrentStore)

/-- The loop of lines 272-279: the `STORE` of return register `i` into the
slot `AddressReg`; `n` stores remain.  The last one is returned. -/
def StoreReturnedStruct (TM : TargetMachine) (bb AddressReg : Nat) :
    Nat → Nat → IRtoLLIR → Option (MachineInstruction × IRtoLLIR)
  | 0, _, _ => none
  | n + 1, i, S =>
    match TM.ReturnRegisters.get? i with
    | none => none
    | some Reg =>
      let Store := ((MachineInstruction.create OperationCode.STORE).AddStackAccess AddressReg
        ((TM.PointerSize / 8) * i : Nat)).AddRegister Reg.ID TM.PointerSize
      if n = 0 then some (Store, S)
      else StoreReturnedStruct TM bb AddressReg n (i + 1) (S.InsertInstr bb Store)

/-- The address part of the `StoreInstruction` case (lines 211-231): the
register or slot that holds the address and the `STORE` with its first
operand. -/
def ConvertStoreAddress (TM : TargetMachine) (S : IRtoLLIR) (I : StoreInstruction) (bb : Nat) :
    (Nat × MachineInstruction) × IRtoLLIR :=
  let A : Nat × IRtoLLIR :=
    if I.MemoryLocation.IsGlobalVar then
      let N := S.NextAvailableVReg
      (N.1, N.2.InsertInstr bb
        (((MachineInstruction.create OperationCode.GLOBAL_ADDRESS).AddVirtualRegister N.1
          TM.PointerSize).AddGlobalSymbol I.MemoryLocation.Name))
    else (GetIDFromValue S I.MemoryLocation, S)
  let ResultMI := (MachineInstruction.create OperationCode.STORE).AddAttribute MIAttribute.IS_STORE
  let ResultMI :=
    if A.2.MF.IsStackSlot A.1 then ResultMI.AddStackAccess A.1 0
    else ResultMI.AddMemory A.1 0 TM.PointerSize
  ((A.1, ResultMI), A.2)

/-- The store of a by-value struct (lines 234-281): from the registers of a
struct parameter, or from the return registers. -/
def ConvertStructStore (TM : TargetMachine) (S : IRtoLLIR) (I : StoreInstruction) (bb : Nat)
    (AddressReg : Nat) (ResultMI : MachineInstruction) : Option (MachineInstruction × IRtoLLIR) :=
  if I.SavedValue.IsParameter then
    if (S.StructToRegMap I.SavedValue.Name).isEmpty then none
    else StoreRegisterChunks bb AddressReg TM.PointerSize (S.StructToRegMap I.SavedValue.Name) 0 S
  else
    let StructBitSize := I.SavedValue.Ty.BaseTypeByteSize * 8 % 2 ^ 32
    let RegsCount := GetNextAlignedValue StructBitSize TM.PointerSize / TM.PointerSize
    if RegsCount > TM.ReturnRegisters.length then none
    else if RegsCount = 0 then some (ResultMI, S)
    else StoreReturnedStruct TM bb AddressReg RegsCount 0 S

/-- The source part of a plain store (lines 301-322): the address of a global
or of a stack allocation is materialized first, any other value becomes an
operand as it is. -/
def ConvertStoreSource (TM : TargetMachine) (S : IRtoLLIR) (I : StoreInstruction) (bb : Nat)
    (ResultMI : MachineInstruction) : Option (MachineInstruction × IRtoLLIR) :=
  if I.SavedValue.IsGlobalVar then
    let N := S.NextAvailableVReg
    some (ResultMI.AddVirtualRegister N.1 TM.PointerSize, N.2.InsertInstr bb
      (((MachineInstruction.create OperationCode.GLOBAL_ADDRESS).AddVirtualRegister N.1
        TM.PointerSize).AddGlobalSymbol I.SavedValue.Name))
  else if I.SavedValue.IsStackAllocation then
    if !S.MF.IsStackSlot I.SavedValue.ID then none
    else
      let N := S.NextAvailableVReg
      some (ResultMI.AddVirtualRegister N.1 TM.PointerSize, N.2.InsertInstr bb
        (((MachineInstruction.create OperationCode.STACK_ADDRESS).AddVirtualRegister N.1
          TM.PointerSize).AddStackAccess I.SavedValue.ID 0))
  else
    match GetMachineOperandFromValue TM S I.SavedValue bb false with
    | none => none
    | some (MO, S1) => some (ResultMI.AddOperand MO, S1)

/-- The `StoreInstruction` case of `ConvertToMachineInstr` (lines 205-323). -/
def ConvertStore (TM : TargetMachine) (S : IRtoLLIR) (I : StoreInstruction) (bb : Nat) :
    Option (MachineInstruction × IRtoLLIR) :=
  if !(I.MemoryLocation.IsRegister || I.MemoryLocation.IsGlobalVar) then none
  else
    let A := ConvertStoreAddress TM S I bb
    if I.SavedValue.Ty.IsStruct && !I.SavedValue.Ty.IsPTR then
      ConvertStructStore TM A.2 I bb A.1.1 A.1.2
    else if !(A.2.ParamByIDToRegMap I.SavedValue.ID).isEmpty then
      if !I.SavedValue.IsParameter then none
      else StoreRegisterChunks bb A.1.1 TM.PointerSize (A.2.ParamByIDToRegMap I.SavedValue.ID) 0 A.2
    else ConvertStoreSource TM A.2 I bb A.1.2

/-- The loop of lines 731-741: a `MOV` of each register that holds a part of
the returned struct into the next return register. -/
def ReturnStructRegisters (TM : TargetMachine) (bb : Nat) :
    List Nat → Nat → IRtoLLIR → Option IRtoLLIR
  | [], _, S => some S
  | VReg :: rest, RetRegCounter, S =>
    match TM.ReturnRegisters.get? RetRegCounter with
    | none => none
    | some Reg =>
      ReturnStructRegisters TM bb rest (RetRegCounter + 1)
        (S.InsertInstr bb (((MachineInstruction.create OperationCode.MOV).AddRegister Reg.ID
          Reg.BitWidth).AddVirtualRegister VReg TM.PointerSize))

/-- The destination of the `LOAD_IMM` / `MOVF` of a returned constant (lines
756-768). -/
def ReturnConstantRegister (TM : TargetMachine) (I : ReturnInstruction) (RetVal : Value)
    (RetRegIdx : Nat) : Option MachineOperand :=
  match TM.ReturnRegisters.get? 0, TM.ReturnRegisters.get? RetRegIdx with
  | some Reg0, some Reg =>
    if Reg0.BitWidth == I.Self.BitWidth then some (MachineOperand.CreateRegister Reg.ID Reg.BitWidth)
    else if RetVal.Ty.BitSize ≤ TM.PointerSize && !Reg.SubRegs.isEmpty then
      match Reg.SubRegs.head? with
      | none => none
      | some Sub =>
        match TM.GetRegisterByID Sub with
        | none => none
        | some SubReg => some (MachineOperand.CreateRegister Sub SubReg.BitWidth)
    else none
  | _, _ => none

/-- The number of return registers of a value wider than a register (lines
785-788 and 827-830). -/
def ReturnRegsCount (TM : TargetMachine) (I : ReturnInstruction) : Nat :=
  GetNextAlignedValue (I.Self.Ty.ByteSize * 8 % 2 ^ 32) TM.PointerSize / TM.PointerSize

/-- The returned constant (lines 742-804): one `LOAD_IMM` or `MOVF` into the
return register, which becomes the operand of the `RET`, or, for a constant
wider than a register, two `LOAD_IMM` of its 32-bit halves into the first two
return registers. -/
def ConvertReturnConstant (TM : TargetMachine) (S : IRtoLLIR) (I : ReturnInstruction)
    (RetVal : Value) (bb : Nat) (ResultMI : MachineInstruction) :
    Option (MachineInstruction × IRtoLLIR) :=
  let IsFP := RetVal.Ty.IsFP
  if RetVal.Ty.BitSize ≤ TM.PointerSize then
    let LoadImm := MachineInstruction.create
      (if IsFP then OperationCode.MOVF else OperationCode.LOAD_IMM)
    let RetRegIdx := if IsFP then TM.FirstFPRetRegIdx else 0
    match ReturnConstantRegister TM I RetVal RetRegIdx with
    | none => none
    | some Dest =>
      match GetMachineOperandFromValue TM S RetVal bb false with
      | none => none
      | some (MO, S1) =>
        some (ResultMI.AddOperand Dest, S1.InsertInstr bb ((LoadImm.AddOperand Dest).AddOperand MO))
  else
    if ReturnRegsCount TM I != 2 then none
    else if IsFP then none
    else
      match GetMachineOperandFromValue TM S RetVal bb false with
      | none => none
      | some (_, S1) =>
        match TM.ReturnRegisters.get? 0, TM.ReturnRegisters.get? 1 with
        | some Reg0, some Reg1 =>
          some (ResultMI, (S1.InsertInstr bb
            (((MachineInstruction.create OperationCode.LOAD_IMM).AddRegister Reg0.ID
              Reg0.BitWidth).AddImmediate (RetVal.IntValue % 2 ^ 64 % 2 ^ 32) 32)).InsertInstr bb
            (((MachineInstruction.create OperationCode.LOAD_IMM).AddRegister Reg1.ID
              Reg1.BitWidth).AddImmediate (RetVal.IntValue % 2 ^ 64 / 2 ^ 32 % 2 ^ 32) 32))
        | _, _ => none

/-- The returned value wider than a register (lines 808-841): a `SPLIT` into
two fresh registers, each moved into a return register. -/
def ConvertReturnSplit (TM : TargetMachine) (S : IRtoLLIR) (I : ReturnInstruction)
    (RetVal : Value) (bb : Nat) (ResultMI : MachineInstruction) :
    Option (MachineInstruction × IRtoLLIR) :=
  if RetVal.Ty.BitSize > 64 then none
  else
    let NLo := S.NextAvailableVReg
    let NHi := NLo.2.NextAvailableVReg
    let Lo32 := MachineOperand.CreateVirtualRegister NLo.1 32
    let Hi32 := MachineOperand.CreateVirtualRegister NHi.1 32
    match GetMachineOperandFromValue TM NHi.2 RetVal bb false with
    | none => none
    | some (MO, S1) =>
      let S2 := S1.InsertInstr bb ((((MachineInstruction.create OperationCode.SPLIT).AddOperand
        Lo32).AddOperand Hi32).AddOperand MO)
      if ReturnRegsCount TM I != 2 then none
      else
        match TM.ReturnRegisters.get? 0, TM.ReturnRegisters.get? 1 with
        | some Reg0, some Reg1 =>
          some (ResultMI, (S2.InsertInstr bb
            (((MachineInstruction.create OperationCode.MOV).AddRegister Reg0.ID
              Reg0.BitWidth).AddOperand Lo32)).InsertInstr bb
            (((MachineInstruction.create OperationCode.MOV).AddRegister Reg1.ID
              Reg1.BitWidth).AddOperand Hi32))
        | _, _ => none

/-- The `ReturnInstruction` case of `ConvertToMachineInstr` (lines 713-846).
Whatever the case, the returned instruction is the `RET` built at line 154. -/
def ConvertReturn (TM : TargetMachine) (S : IRtoLLIR) (I : ReturnInstruction) (bb : Nat) :
    Option (MachineInstruction × IRtoLLIR) :=
  let ResultMI := MachineInstruction.create OperationCode.RET
  match I.RetVal with
  | none => some (ResultMI, S)
  | some RetVal =>
    if RetVal.Ty.IsStruct && !RetVal.Ty.IsPTR then
      if (S.StructByIDToRegMap RetVal.ID).length > 2 then none
      else
        match ReturnStructRegisters TM bb (S.StructByIDToRegMap RetVal.ID) 0 S with
        | none => none
        | some S1 => some (ResultMI, S1)
    else if RetVal.IsConstant then ConvertReturnConstant TM S I RetVal bb ResultMI
    else if RetVal.Ty.BitSize > TM.PointerSize then ConvertReturnSplit TM S I RetVal bb ResultMI
    else
      match GetMachineOperandFromValue TM S RetVal bb false with
      | none => none
      | some (Result, S1) => some (ResultMI.AddOperand Result, S1)

/-- The `LOAD` / `STORE` pairs of an inline memory copy (lines 914-938): pair
`i` loads a fresh 32-bit register from byte offset `4 * i` of the source and
stores it to the same offset of the destination; `n` pairs remain.  The last
`STORE` is returned. -/
def CopyChunks (TM : TargetMachine) (bb SrcId DestId : Nat) :
    Nat → Nat → IRtoLLIR → Option (MachineInstruction × IRtoLLIR)
  | 0, _, _ => none
  | n + 1, i, S =>
    let N := S.NextAvailableVReg
    let Load := (MachineInstruction.create OperationCode.LOAD).AddVirtualRegister N.1 32
    let Load :=
      if N.2.MF.IsStackSlot SrcId then Load.AddStackAccess SrcId (i * 4 : Nat)
      else Load.AddMemory SrcId (i * 4 : Nat) TM.PointerSize
    let S1 := N.2.InsertInstr bb Load
    let Store := MachineInstruction.create OperationCode.STORE
    let Store :=
      if S1.MF.IsStackSlot DestId then Store.AddStackAccess DestId (i * 4 : Nat)
      else (Store.AddMemory DestId 0 TM.PointerSize).ModifyOperand 0
        (fun MO => MO.SetOffset (i * 4 : Nat))
    let Store := Store.AddVirtualRegister N.1 32
    if n = 0 then some (Store, S1)
    else CopyChunks TM bb SrcId DestId n (i + 1) (S1.InsertInstr bb Store)

/-- The call of `memcpy` (lines 853-893): the addresses of the destination and
of the source and the size are moved into the first three argument
registers. -/
def ConvertMemcpyCall (TM : TargetMachine) (S : IRtoLLIR) (I : MemoryCopyInstruction) (bb : Nat)
    (ResultMI : MachineInstruction) : Option (MachineInstruction × IRtoLLIR) :=
  let S0 : IRtoLLIR := { S with MF := S.MF.SetToCaller }
  let ResultMI := ResultMI.SetOpcode OperationCode.CALL
  match TM.ArgumentRegisters.get? 0, TM.ArgumentRegisters.get? 1, TM.ArgumentRegisters.get? 2 with
  | some A0, some A1, some A2 =>
    match MaterializeAddress TM S0 I.Destination bb with
    | none => none
    | some (Dest, S1) =>
      let S2 := S1.InsertInstr bb
        (((MachineInstruction.create OperationCode.MOV).AddRegister A0.ID A0.BitWidth).AddOperand Dest)
      match MaterializeAddress TM S2 I.Source bb with
      | none => none
      | some (Src, S3) =>
        let S4 := S3.InsertInstr bb
          (((MachineInstruction.create OperationCode.MOV).AddRegister A1.ID
            A1.BitWidth).AddOperand Src)
        match A2.SubRegs.head? with
        | none => none
        | some Sub =>
          some (ResultMI.AddFunctionName "memcpy", S4.InsertInstr bb
            (((MachineInstruction.create OperationCode.MOV).AddRegister Sub A2.BitWidth).AddImmediate
              I.Size 32))
  | _, _, _ => none

/-- The address of one side of an inline memory copy (lines 900-911): a
value without an entry in the register table has its address materialized
first; the id is then read from the table, if the value has an entry by now,
and from the materialized operand otherwise. -/
def CopyAddress (TM : TargetMachine) (S : IRtoLLIR) (Val : Value) (bb : Nat) :
    Option (MachineOperand × IRtoLLIR) :=
  if S.IRVregToLLIRVreg Val.ID == none then MaterializeAddress TM S Val bb
  else some ({}, S)

/-- The `MemoryCopyInstruction` case of `ConvertToMachineInstr` (lines
847-941).  `ResultMI` carries the number of the instruction kind plus
`1 << 16` as its opcode; no generic opcode has the name of that kind, so the
opcode is `INVALID_OP` here until line 856 sets it to `CALL`. -/
def ConvertMemoryCopy (TM : TargetMachine) (S : IRtoLLIR) (I : MemoryCopyInstruction) (bb : Nat) :
    Option (MachineInstruction × IRtoLLIR) :=
  let ResultMI := MachineInstruction.create OperationCode.INVALID_OP
  if I.Size ≥ 32 && TM.MemcpySupported then ConvertMemcpyCall TM S I bb ResultMI
  else
    match CopyAddress TM S I.Source bb with
    | none => none
    | some (Src, S1) =>
      match CopyAddress TM S1 I.Destination bb with
      | none => none
      | some (Dest, S2) =>
        let SrcId :=
          if S2.IRVregToLLIRVreg I.Source.ID == none then Src.GetReg
          else GetIDFromValue S2 I.Source
        let DestId :=
          if S2.IRVregToLLIRVreg I.Destination.ID == none then Dest.GetReg
          else GetIDFromValue S2 I.Destination
        if I.Size / 4 = 0 then some (ResultMI, S2)
        else CopyChunks TM bb SrcId DestId (I.Size / 4) 0 S2

/-- `IRtoLLIR::ConvertToMachineInstr` (lines 148-944) for an instruction that
is not a stack allocation: the dispatch over the class of the instruction.
The result is the returned instruction and the state; `none` stands for a
failed assertion (a stack allocation ends in "Unimplemented instruction!"). -/
def ConvertToMachineInstr (TM : TargetMachine) (S : IRtoLLIR) (Instr : Instruction) (bb : Nat) :
    Option (MachineInstruction × IRtoLLIR) :=
  match Instr with
  | Instruction.Binary I => ConvertBinary TM S I bb
  | Instruction.Unary I => ConvertUnary TM S I bb
  | Instruction.Store I => ConvertStore TM S I bb
  | Instruction.Load I => ConvertLoad TM S I bb
  | Instruction.GetElementPointer I => ConvertGEP TM S I bb
  | Instruction.Jump I => ConvertJump S I
  | Instruction.Branch I => ConvertBranch TM S I bb
  | Instruction.Compare I => ConvertCompare TM S I bb
  | Instruction.Call I => ConvertCall TM S I bb
  | Instruction.Return I => ConvertReturn TM S I bb
  | Instruction.MemoryCopy I => ConvertMemoryCopy TM S I bb
  | Instruction.StackAllocation _ => none

/-- The registers of a parameter that is passed in `n` registers (the loops of
lines 985-990 and 1003-1009): each takes the next virtual register, which is
recorded by `Record` and inserted as a parameter. -/
def SplitParameter (TM : TargetMachine) (Record : IRtoLLIR → Nat → IRtoLLIR)
    (IsStructPtr IsFP : Bool) : Nat → IRtoLLIR → IRtoLLIR
  | 0, S => S
  | n + 1, S =>
    let N := S.NextAvailableVReg
    let S1 := Record N.2 N.1
    SplitParameter TM Record IsStructPtr IsFP n
      { S1 with MF := (S1.MF.InsertParameter N.1 (LowLevelType.CreateScalar TM.PointerSize)
          IsStructPtr IsFP) }

/-- One round of the loop of `IRtoLLIR::HandleFunctionParams` (lines 968-1011). -/
def HandleFunctionParam (TM : TargetMachine) (S : IRtoLLIR) (Param : FunctionParameter) :
    IRtoLLIR :=
  let ParamID := Param.Self.ID
  let ParamSize := Param.Self.BitWidth
  let IsStructPtr := Param.IsImplicitStructPtr
  if Param.Self.Ty.IsStruct && !Param.Self.Ty.IsPTR then
    SplitParameter TM
      (fun T r => { T with StructToRegMap := (fun k =>
        if k = Param.Self.Name then T.StructToRegMap k ++ [r] else T.StructToRegMap k) })
      false false (TM.MaxStructSizePassedByValue / TM.PointerSize) S
  else if Param.Self.Ty.IsPTR then
    { S with MF := (S.MF.InsertParameter ParamID (LowLevelType.CreatePTR TM.PointerSize)
        IsStructPtr false) }
  else if ParamSize ≤ TM.PointerSize then
    { S with MF := (S.MF.InsertParameter ParamID (LowLevelType.CreateScalar ParamSize)
        IsStructPtr Param.Self.Ty.IsFP) }
  else
    SplitParameter TM
      (fun T r => { T with ParamByIDToRegMap := MapPush T.ParamByIDToRegMap ParamID r })
      IsStructPtr Param.Self.Ty.IsFP (ParamSize / TM.PointerSize) S

/-- `IRtoLLIR::HandleFunctionParams`. -/
def HandleFunctionParams (TM : TargetMachine) (S : IRtoLLIR) (F : Function) : IRtoLLIR :=
  F.Parameters.foldl (HandleFunctionParam TM) S

/-- The body of the inner loop of `GenerateLLIRFromIR` (lines 1043-1062) over
the instructions of one block: a stack allocation goes to the frame and emits
nothing, any other instruction is converted and the returned instruction is
appended to block `BBCounter`; the loop ends after an instruction whose
appended machine instruction is a return. -/
def LowerInstructions (TM : TargetMachine) (BBCounter : Nat) :
    List Instruction → IRtoLLIR → Option IRtoLLIR
  | [], S => some S
  | Instr :: rest, S =>
    match Instr with
    | Instruction.StackAllocation SA =>
      LowerInstructions TM BBCounter rest
        { S with MF := HandleStackAllocation TM SA.ID SA.ReferredType S.MF }
    | _ =>
      match ConvertToMachineInstr TM S Instr BBCounter with
      | none => none
      | some (MI, S1) =>
        if MI.IsReturn then some (S1.InsertInstr BBCounter MI)
        else LowerInstructions TM BBCounter rest (S1.InsertInstr BBCounter MI)

/-- The loop of lines 1042-1065 over the blocks of the function, `BBCounter`
being the index of the next one. -/
def LowerBlocks (TM : TargetMachine) : List BasicBlock → Nat → IRtoLLIR → Option IRtoLLIR
  | [], _, S => some S
  | BB :: rest, BBCounter, S =>
    match LowerInstructions TM BBCounter BB.Instructions S with
    | none => none
    | some S1 => LowerBlocks TM rest (BBCounter + 1) S1

/-- The machine function of one function of the module (lines 1029-1065): a
new function with the name of `Fun`, its parameters, one empty block per block
of `Fun` with the same name, then the instructions.  The side tables start
empty (`Reset()`, line 1024). -/
def LowerFunction (TM : TargetMachine) (Fun : Function) : Option MachineFunction :=
  let S0 : IRtoLLIR := { MF := { Name := Fun.Name } }
  let S1 := HandleFunctionParams TM S0 Fun
  let S2 : IRtoLLIR := { S1 with MF := { S1.MF with BasicBlocks := (S1.MF.BasicBlocks ++
    Fun.BasicBlocks.map (fun BB => ({ Name := BB.Name } : MachineBasicBlock))) } }
  (LowerBlocks TM Fun.BasicBlocks 0 S2).map (fun S => S.MF)

/-- The loop of `IRtoLLIR::GenerateLLIRFromIR` over the functions of the module
(lines 1022-1066): the machine functions of the translation unit, in the order
in which `AddNewFunction` appends them.  A declaration is skipped. -/
def LowerFunctions (TM : TargetMachine) : List Function → Option (List MachineFunction)
  | [] => some []
  | Fun :: rest =>
    if Fun.IsDeclarationOnly then LowerFunctions TM rest
    else
      match LowerFunction TM Fun with
      | none => none
      | some MF =>
        match LowerFunctions TM rest with
        | none => none
        | some MFs => some (MF :: MFs)

/-- `IRtoLLIR::GenerateLLIRFromIR`, as far as the functions of the translation
unit go (the second loop, lines 1067-1140, fills the table of global data and
touches no function). -/
def GenerateLLIRFromIR (TM : TargetMachine) (IRM : IRModule) : Option (List MachineFunction) :=
  LowerFunctions TM IRM.Functions

/-! ## Front end: types and implicit casts (`Type.hpp`, `AST.cpp`) -/

/-- The enumeration `Type::VariantKind`. -/
inductive VariantKind
  | Invalid | Composite | Void | Char | UnsignedChar | Short | UnsignedShort | Int | UnsignedInt
  | Long | UnsignedLong | LongLong | UnsignedLongLong | Float | Double
  deriving DecidableEq, Repr

/-- The enumeration `Type::TypeKind`. -/
inductive TypeKind
  | Simple | Array | Struct
  deriving DecidableEq, Repr

/-- The class `Type` of `Type.hpp` as implicit casts read it: kind, variant,
pointer level and array dimensions.  The parameter list of a function type is
left out; the types of this development are not function types. -/
structure ASTType where
  Kind : TypeKind := TypeKind.Simple
  Ty : VariantKind := VariantKind.Invalid
  PointerLevel : Nat := 0
  Dimensions : List Nat := []
  deriving DecidableEq, Repr

namespace ASTType

def IsPointerType (T : ASTType) : Bool := T.PointerLevel != 0

def IsArray (T : ASTType) : Bool := T.Kind == TypeKind.Array

def IsIntegerType (T : ASTType) : Bool :=
  match T.Ty with
  | VariantKind.Char | VariantKind.UnsignedChar | VariantKind.Short | VariantKind.UnsignedShort
  | VariantKind.Int | VariantKind.UnsignedInt | VariantKind.Long | VariantKind.UnsignedLong
  | VariantKind.LongLong | VariantKind.UnsignedLongLong => true
  | _ => false

def IsUnsigned (T : ASTType) : Bool :=
  match T.Ty with
  | VariantKind.UnsignedChar | VariantKind.UnsignedShort | VariantKind.UnsignedInt
  | VariantKind.UnsignedLong | VariantKind.UnsignedLongLong => true
  | _ => false

def IsFloatingPoint (T : ASTType) : Bool :=
  T.Ty == VariantKind.Float || T.Ty == VariantKind.Double

/-- `Type::OnlySigndnessDifference` (`Type.hpp`, lines 141-159). -/
def OnlySigndnessDifference (v1 v2 : VariantKind) : Bool :=
  if (v1 == VariantKind.Int && v2 == VariantKind.UnsignedInt) ||
      (v2 == VariantKind.Int && v1 == VariantKind.UnsignedInt) ||
      (v1 == VariantKind.Char && v2 == VariantKind.UnsignedChar) ||
      (v2 == VariantKind.Char && v1 == VariantKind.UnsignedChar) ||
      (v1 == VariantKind.Short && v2 == VariantKind.UnsignedShort) ||
      (v2 == VariantKind.Short && v1 == VariantKind.UnsignedShort) ||
      ((v1 == VariantKind.Long || v1 == VariantKind.LongLong) &&
        (v2 == VariantKind.UnsignedLong || v2 == VariantKind.UnsignedLongLong)) ||
      ((v2 == VariantKind.Long || v2 == VariantKind.LongLong) &&
        (v1 == VariantKind.UnsignedLong || v1 == VariantKind.UnsignedLongLong)) then true
  else if (v1 == VariantKind.Long && v2 == VariantKind.LongLong) ||
      (v2 == VariantKind.Long && v1 == VariantKind.LongLong) then true
  else false

end ASTType

/-- Modelled from the spec: the header of `IRType` is not among the sources;
the kinds that `GetIRTypeFromVK` names. -/
inductive IRTypeKind
  | SINT | UINT | FP | STRUCT
  deriving DecidableEq, Repr

/-- Modelled from the spec: an `IRType` as `GetIRTypeFromASTType` builds it, a
kind, a bit size and a pointer level. -/
structure IRBaseType where
  Kind : IRTypeKind
  BitSize : Nat := 0
  PointerLevel : Nat := 0
  deriving DecidableEq, Repr

namespace IRBaseType

def IsSInt (T : IRBaseType) : Bool := T.Kind == IRTypeKind.SINT

def IsINT (T : IRBaseType) : Bool := T.Kind == IRTypeKind.SINT || T.Kind == IRTypeKind.UINT

def IsFP (T : IRBaseType) : Bool := T.Kind == IRTypeKind.FP

end IRBaseType

/-- `GetIRTypeFromVK` (`AST.cpp`, lines 9-49); `none` is `assert(!"Invalid
type")`. -/
def GetIRTypeFromVK (VK : VariantKind) (TM : TargetMachine) : Option IRBaseType :=
  match VK with
  | VariantKind.Char => some { Kind := IRTypeKind.SINT, BitSize := 8 }
  | VariantKind.Void => some { Kind := IRTypeKind.SINT, BitSize := 8 }
  | VariantKind.UnsignedChar => some { Kind := IRTypeKind.UINT, BitSize := 8 }
  | VariantKind.Short => some { Kind := IRTypeKind.SINT, BitSize := 16 }
  | VariantKind.UnsignedShort => some { Kind := IRTypeKind.UINT, BitSize := 16 }
  | VariantKind.Int => some { Kind := IRTypeKind.SINT, BitSize := TM.IntSize }
  | VariantKind.UnsignedInt => some { Kind := IRTypeKind.UINT, BitSize := TM.IntSize }
  | VariantKind.Long => some { Kind := IRTypeKind.SINT, BitSize := TM.LongSize }
  | VariantKind.UnsignedLong => some { Kind := IRTypeKind.UINT, BitSize := TM.LongSize }
  | VariantKind.LongLong => some { Kind := IRTypeKind.SINT, BitSize := 64 }
  | VariantKind.UnsignedLongLong => some { Kind := IRTypeKind.UINT, BitSize := 64 }
  | VariantKind.Float => some { Kind := IRTypeKind.FP, BitSize := 32 }
  | VariantKind.Double => some { Kind := IRTypeKind.FP, BitSize := 64 }
  | VariantKind.Composite => some { Kind := IRTypeKind.STRUCT }
  | VariantKind.Invalid => none

/-- `GetIRTypeFromASTType` (`AST.cpp`, lines 51-71), without the names, member
types and dimensions that it copies into the result; `none` is a failed
assertion. -/
def GetIRTypeFromASTType (CT : ASTType) (TM : TargetMachine) : Option IRBaseType :=
  match GetIRTypeFromVK CT.Ty TM with
  | none => none
  | some Result =>
    if CT.Ty != VariantKind.Void || CT.PointerLevel != 0 then
      some { Result with PointerLevel := CT.PointerLevel }
    else none

/-- What `ImplicitCastExpression::IRCodegen` hands back: the value of an
array-to-pointer decay, a new constant, the value of the operand unchanged, or
the value of a new conversion instruction of the given kind and bit size.  The
values of the constants that need double arithmetic are left out. -/
inductive CastCode
  | Decay
  | IntConstant (Val BitSize : Nat)
  | ConvertedConstant (BitSize : Nat)
  | Unchanged
  | Bitcast
  | Unary (K : UnaryKind) (BitSize : Nat)
  deriving DecidableEq, Repr

/-- `ImplicitCastExpression::IRCodegen` (`AST.cpp`, lines 1026-1165) for the
cast of `Val`, the value of the operand, from `SourceType` to `DestType`; `none`
is a failed assertion. -/
def ImplicitCastExpression.IRCodegen (TM : TargetMachine) (SourceType DestType : ASTType)
    (Val : Value) : Option CastCode :=
  match GetIRTypeFromASTType SourceType TM, GetIRTypeFromASTType DestType TM with
  | some SourceIRType, some DestIRType =>
    if SourceType == DestType then none
    else if SourceType.IsArray && DestType.IsPointerType then
      if SourceType.Ty == DestType.Ty then some CastCode.Decay else none
    else if Val.IsConstant then
      let DestBitSize := if DestType.IsPointerType then TM.PointerSize else DestIRType.BitSize
      if !DestType.IsFloatingPoint && !SourceType.IsFloatingPoint then
        let mask := if DestBitSize < 64 then 2 ^ DestBitSize - 1 else 2 ^ 64 - 1
        some (CastCode.IntConstant (Val.IntValue % 2 ^ 64 &&& mask) DestBitSize)
      else if DestType.IsFloatingPoint && !SourceType.IsFloatingPoint then
        some (CastCode.ConvertedConstant DestIRType.BitSize)
      else if !DestType.IsFloatingPoint && SourceType.IsFloatingPoint then
        some (CastCode.ConvertedConstant DestBitSize)
      else if (DestIRType.BitSize == 32 && SourceIRType.BitSize == 64) ||
          (SourceIRType.BitSize == 32 && DestIRType.BitSize == 64) then
        some (CastCode.ConvertedConstant DestBitSize)
      else none
    else if SourceType.IsPointerType && DestType.IsPointerType then some CastCode.Bitcast
    else if DestType.IsIntegerType && SourceType.IsPointerType then
      if TM.PointerSize == DestIRType.BitSize then some CastCode.Unchanged
      else if TM.PointerSize < DestIRType.BitSize then
        some (CastCode.Unary UnaryKind.SEXT DestIRType.BitSize)
      else some (CastCode.Unary UnaryKind.TRUNC DestIRType.BitSize)
    else if ASTType.OnlySigndnessDifference SourceType.Ty DestType.Ty then
      some CastCode.Unchanged
    else if SourceIRType.IsINT && DestIRType.IsINT then
      if DestIRType.BitSize == SourceIRType.BitSize then some CastCode.Unchanged
      else if DestIRType.BitSize > SourceIRType.BitSize then
        if SourceIRType.IsSInt && DestIRType.IsSInt then
          some (CastCode.Unary UnaryKind.SEXT DestIRType.BitSize)
        else some (CastCode.Unary UnaryKind.ZEXT DestIRType.BitSize)
      else some (CastCode.Unary UnaryKind.TRUNC DestIRType.BitSize)
    else if SourceIRType.IsFP && DestIRType.IsINT then
      some (CastCode.Unary UnaryKind.FTOI DestIRType.BitSize)
    else if SourceIRType.IsINT && DestIRType.IsFP then
      some (CastCode.Unary UnaryKind.ITOF DestIRType.BitSize)
    else none
  | _, _ => none

/-- Modelled from the spec: `IRFactory` is not among the sources;
`IRF->CreateSEXT(Val, BitSize)` and its siblings append a unary instruction of
that kind whose operand is `Val` and whose own value is the new register `ID`
of an integer type of `BitSize` bits. -/
def CreateUnary (K : UnaryKind) (ID : Nat) (Val : Value) (BitSize : Nat) : UnaryInstruction :=
  { Kind := K,
    Self := { Kind := ValueKind.REGISTER, ID := ID, BitWidth := BitSize,
              Ty := { BitSize := BitSize, ByteSize := BitSize / 8,
                      BaseTypeByteSize := BitSize / 8 } },
    Operand := Val }

/-! ## The linked-list stack program (`tests/algorithms/stack.c`) -/

/-- The type `struct node`; a pointer is an address and `NULL` is 0. -/
structure Node where
  data : Int := 0
  next : Nat := 0
  pre : Nat := 0
  deriving DecidableEq, Repr

/-- The state of the stack program: the heap, as the record of the blocks
written so far, and the globals `head`, `tmp` and `count`.  `brk` is the next
address that `malloc` hands out. -/
structure StackState where
  blocks : List (Nat × Option Node) := []
  brk : Nat := 1
  head : Nat := 0
  tmp : Nat := 0
  count : Int := 0
  deriving DecidableEq, Repr

namespace StackState

/-- The block at the address `a`: the latest entry for `a` in the record of
the heap, `none` when the address is not allocated. -/
def heap (s : StackState) (a : Nat) : Option Node :=
  match s.blocks.find? (fun e => e.1 == a) with
  | some e => e.2
  | none => none

/-- The heap with the block at `p` replaced. -/
def setBlock (s : StackState) (p : Nat) (v : Option Node) : StackState :=
  { s with blocks := (p, v) :: s.blocks }

/-- Modelled from the spec: `malloc(1 * sizeof(struct node))` of the C library;
it returns a block that is not in use and never fails. -/
def malloc (s : StackState) : Nat × StackState :=
  (s.brk, { s.setBlock s.brk (some {}) with brk := s.brk + 1 })

/-- Modelled from the spec: `free(p)` of the C library; freeing `NULL` does
nothing, freeing a block that is not allocated is undefined (`none`). -/
def free (s : StackState) (p : Nat) : Option StackState :=
  if p = 0 then some s
  else
    match s.heap p with
    | none => none
    | some _ => some (s.setBlock p none)

/-- A read through the pointer `p`; undefined (`none`) for `NULL` and for a
block that is not allocated. -/
def load (s : StackState) (p : Nat) : Option Node :=
  if p = 0 then none else s.heap p

/-- A write `p->field = v` through the pointer `p`. -/
def store (s : StackState) (p : Nat) (f : Node → Node) : Option StackState :=
  match s.load p with
  | none => none
  | some n => some (s.setBlock p (some (f n)))

end StackState

namespace StackC

/-- `void create()` (line 93). -/
def create (s : StackState) : StackState := { s with head := 0 }

/-- `void push(int x)` (lines 98-117); the increment of the `int count` is
undefined (`none`) past `INT_MAX`. -/
def push (s : StackState) (x : Int) : Option StackState :=
  (if s.head = 0 then
    let m := s.malloc
    let s1 : StackState := { m.2 with head := m.1 }
    (s1.store s1.head (fun n => { n with next := 0 })).bind (fun s2 =>
    (s2.store s2.head (fun n => { n with pre := 0 })).bind (fun s3 =>
    s3.store s3.head (fun n => { n with data := x })))
  else
    let m := s.malloc
    let s1 : StackState := { m.2 with tmp := m.1 }
    (s1.store s1.tmp (fun n => { n with data := x })).bind (fun s2 =>
    (s2.store s2.tmp (fun n => { n with next := 0 })).bind (fun s3 =>
    (s3.store s3.tmp (fun n => { n with pre := s3.head })).bind (fun s4 =>
    (s4.store s4.head (fun n => { n with next := s4.tmp })).bind (fun s5 =>
    some { s5 with head := s5.tmp }))))).bind (fun s6 =>
  if s6.count + 1 < 2 ^ 31 then some { s6 with count := s6.count + 1 } else none)

/-- `int pop()` (lines 122-146); `exit(1)` on an empty stack and undefined
behaviour are `none`. -/
def pop (s : StackState) : Option (Int × StackState) :=
  if s.head = 0 then none
  else
    (s.load s.head).bind (fun n =>
    let returnData := n.data
    ((s.load s.head).bind (fun n1 =>
      if n1.pre = 0 then (s.free s.head).map (fun s1 => { s1 with head := 0 })
      else
        let s1 : StackState := { s with head := n1.pre }
        (s1.load s1.head).bind (fun n2 => s1.free n2.next))).bind (fun s2 =>
    if -(2 : Int) ^ 31 ≤ s2.count - 1 then some (returnData, { s2 with count := s2.count - 1 })
    else none))

/-- `int peek()` (lines 151-160). -/
def peek (s : StackState) : Option Int :=
  if s.head != 0 then (s.load s.head).map (fun n => n.data) else none

/-- `int size()` (line 165). -/
def size (s : StackState) : Int := s.count

/-- `int isEmpty()` (lines 170-175). -/
def isEmpty (s : StackState) : Int := if s.count = 0 then 1 else 0

/-- The third part of `int test()` (lines 73-87), from the call `pop()` that
empties the stack on; the calls of `printf` are left out. -/
def testLast (s : StackState) : Option Int :=
  (pop s).bind (fun r0 =>
  (push r0.2 5).bind (fun s1 =>
  (push s1 6).bind (fun s2 =>
  (peek s2).bind (fun x =>
  (push s2 7).bind (fun s3 =>
  (pop s3).bind (fun r1 =>
  (push r1.2 8).bind (fun s4 =>
  (pop s4).bind (fun r2 =>
  if x != 6 || r1.1 != 7 || r2.1 != 8 || size r2.2 != 2 || isEmpty r2.2 != 0 then some 0
  else some 1))))))))

/-- The second part of `int test()` (lines 61-87), from `push(1)` on. -/
def testMiddle (s : StackState) : Option Int :=
  (push s 1).bind (fun s1 =>
  (push s1 2).bind (fun s2 =>
  (push s2 3).bind (fun s3 =>
  (pop s3).bind (fun r1 =>
  (pop r1.2).bind (fun r2 =>
  if r1.1 != 3 || r2.1 != 2 || size r2.2 != 1 || isEmpty r2.2 != 0 then some 0
  else testLast r2.2)))))

/-- `int test()` (lines 48-88) run from the state `s`; the calls of `printf`
are left out. -/
def test (s : StackState) : Option Int :=
  (push (create s) 4).bind (fun s1 =>
  (pop s1).bind (fun r =>
  if r.1 != 4 || size r.2 != 0 || isEmpty r.2 == 0 then some 0
  else testMiddle r.2))

end StackC

/-! ## The lexer (`Lexer.cpp`)

The characters of the source are taken to be ASCII, line and column numbers
to stay far below `2 ^ 32`.  A loop of the code runs on a budget of steps
(`fuel`); the result `none` is an exhausted budget or an abort, never a token. -/

/-- The enumeration `Token::TokenKind`, as far as `Lexer.cpp` names its
members (the header `Token.hpp` is not among the sources). -/
inductive TokenKind
  | EndOfFile | Invalid | Identifier | Integer | Real | CharacterLiteral | StringLiteral
  | Dot | DotDotDot | Comma | Plus | PlusPlus | PlusEqual | Minus | MinusMinus
  | MinusGreaterThan | MinusEqual | Astrix | AstrixEqual | AstrixForwardSlash | ForwardSlash
  | DoubleForwardSlash | ForwardSlashAstrix | ForwardSlashEqual | Percent | PercentEqual
  | Equal | DoubleEqual | LessThan | LessThanLessThan | LessThanLessThanEqual | LessEqual
  | GreaterThan | GreaterThanGreaterThan | GreaterThanGreaterThanEqual | GreaterEqual
  | Bang | BangEqual | QuestionMark | And | DoubleAnd | AndEqual | Or | DoubleOr | OrEqual
  | Caret | CaretEqual | Tilde | Colon | SemiColon | LeftParen | RightParen | LeftBracket
  | RightBracket | LeftCurly | RightCurly | BackSlash
  | Const | Int | Short | Long | Float | Double | Unsigned | Signed | Void | Char | If
  | Switch | Case | Default | Break | Else | For | While | Return | Do | Struct | Sizeof
  | Enum | Typedef | Continue | Bool | Alignas | Alignof | Atomic | Complex | Generic
  | Imaginary | Noreturn | StaticAssert | ThreadLocal
  deriving DecidableEq, Repr

/-- Modelled from the spec: `Token.hpp` is not among the sources; a token is
the record of the arguments that `Lexer.cpp` passes to its constructor: kind,
text, line, column and value.  The text of a view that reaches beyond its line
is cut at the end of the line. -/
structure Token where
  Kind : TokenKind
  StringValue : String := ""
  LineNumber : Nat := 0
  ColumnNumber : Nat := 0
  Value : Nat := 0
  deriving DecidableEq, Repr

/-- The table `Lexer::Keywords` (lines 5-42). -/
def Keywords : List (String × TokenKind) :=
  [("const", TokenKind.Const), ("int", TokenKind.Int), ("short", TokenKind.Short),
   ("long", TokenKind.Long), ("float", TokenKind.Float), ("double", TokenKind.Double),
   ("unsigned", TokenKind.Unsigned), ("signed", TokenKind.Signed), ("void", TokenKind.Void),
   ("char", TokenKind.Char), ("if", TokenKind.If), ("switch", TokenKind.Switch),
   ("case", TokenKind.Case), ("default", TokenKind.Default), ("break", TokenKind.Break),
   ("else", TokenKind.Else), ("for", TokenKind.For), ("while", TokenKind.While),
   ("return", TokenKind.Return), ("do", TokenKind.Do), ("struct", TokenKind.Struct),
   ("sizeof", TokenKind.Sizeof), ("enum", TokenKind.Enum), ("typedef", TokenKind.Typedef),
   ("continue", TokenKind.Continue), ("_Bool", TokenKind.Bool), ("_Alignas", TokenKind.Alignas),
   ("_Alignof", TokenKind.Alignof), ("_Atomic", TokenKind.Atomic),
   ("_Complex", TokenKind.Complex), ("_Generic", TokenKind.Generic),
   ("_Imaginary", TokenKind.Imaginary), ("_Noreturn", TokenKind.Noreturn),
   ("_Static_assert", TokenKind.StaticAssert), ("_Thread_local", TokenKind.ThreadLocal)]

/-- The fields of the class `Lexer`: the lines of the source, the buffer of
the tokens looked ahead, and the position of the next character. -/
structure Lexer where
  Source : List String
  TokenBuffer : List Token := []
  LineIndex : Nat := 0
  ColumnIndex : Nat := 0
  deriving DecidableEq, Repr

namespace Lexer

/-- The characters of `Source[LineIndex]`. -/
def Line (L : Lexer) : List Char := ((L.Source.get? L.LineIndex).getD "").data

/-- The character `Source[LineIndex][ColumnIndex + n]`; at the end of the line
it is the terminating `\0` of the `std::string`. -/
def CharAt (L : Lexer) (n : Nat) : Char := (L.Line.get? (L.ColumnIndex + n)).getD (Char.ofNat 0)

/-- `Lexer::EatNextChar` (lines 76-86). -/
def EatNextChar (L : Lexer) : Lexer :=
  if L.LineIndex < L.Source.length then
    if L.Line.isEmpty || L.ColumnIndex ≥ L.Line.length - 1 then
      { L with ColumnIndex := 0, LineIndex := L.LineIndex + 1 }
    else { L with ColumnIndex := L.ColumnIndex + 1 }
  else L

/-- `Lexer::GetNextChar` (lines 56-66); `none` is `EOF`.  The call steps over
one empty line. -/
def GetNextChar (L : Lexer) : Option Char × Lexer :=
  let L1 := if L.LineIndex < L.Source.length && L.Line.length == 0 then L.EatNextChar else L
  if L1.LineIndex ≥ L1.Source.length ||
      (L1.LineIndex == L1.Source.length - 1 && L1.ColumnIndex == L1.Line.length) then (none, L1)
  else (some (L1.CharAt 0), L1)

/-- `Lexer::GetNextNthCharOnSameLine` (lines 68-74); `none` is `EOF`. -/
def GetNextNthCharOnSameLine (L : Lexer) (n : Nat) : Option Char :=
  if L.LineIndex ≥ L.Source.length || L.ColumnIndex + n ≥ L.Line.length then none
  else some (L.CharAt n)

/-- `EatNextChar()` called `n` times. -/
def EatChars : Nat → Lexer → Lexer
  | 0, L => L
  | n + 1, L => EatChars n L.EatNextChar

/-- The text of the `std::string_view` of `Length` characters that starts at
the given line and column. -/
def View (L : Lexer) (StartLineIndex StartColumnIndex Length : Nat) : String :=
  String.mk ((((L.Source.get? StartLineIndex).getD "").data.drop StartColumnIndex).take Length)

/-- `Lexer::LexKeyword` (lines 173-193). -/
def LexKeyword (L : Lexer) : Option Token × Lexer :=
  let Rest := L.Line.drop L.ColumnIndex
  let WordEnd := Rest.findIdx (fun c => "\t\n\x0b\x0c\r;()\x7b\x7d[]:* ".data.contains c)
  let Word := String.mk (Rest.take WordEnd)
  match Keywords.lookup Word with
  | none => (none, L)
  | some K =>
    (some { Kind := K, StringValue := L.View L.LineIndex L.ColumnIndex Word.length,
            LineNumber := L.LineIndex, ColumnNumber := L.ColumnIndex },
      EatChars Word.length L)

end Lexer

/-- The `switch` of `Lexer::LexSymbol` (lines 285-457): the kind and the size
of the symbol that starts with the character `c`, followed on its line by `n1`
and `n2`. -/
def SymbolKind (c : Char) (n1 n2 : Option Char) : Option (TokenKind × Nat) :=
  if c == '.' then
    if n1 == some '.' && n2 == some '.' then some (TokenKind.DotDotDot, 3)
    else some (TokenKind.Dot, 1)
  else if c == ',' then some (TokenKind.Comma, 1)
  else if c == '+' then
    if n1 == some '+' then some (TokenKind.PlusPlus, 2)
    else if n1 == some '=' then some (TokenKind.PlusEqual, 2)
    else some (TokenKind.Plus, 1)
  else if c == '-' then
    if n1 == some '-' then some (TokenKind.MinusMinus, 2)
    else if n1 == some '>' then some (TokenKind.MinusGreaterThan, 2)
    else if n1 == some '=' then some (TokenKind.MinusEqual, 2)
    else some (TokenKind.Minus, 1)
  else if c == '*' then
    if n1 == some '=' then some (TokenKind.AstrixEqual, 2)
    else if n1 == some '/' then some (TokenKind.AstrixForwardSlash, 2)
    else some (TokenKind.Astrix, 1)
  else if c == '/' then
    if n1 == some '/' then some (TokenKind.DoubleForwardSlash, 2)
    else if n1 == some '*' then some (TokenKind.ForwardSlashAstrix, 2)
    else if n1 == some '=' then some (TokenKind.ForwardSlashEqual, 2)
    else some (TokenKind.ForwardSlash, 1)
  else if c == '%' then
    if n1 == some '=' then some (TokenKind.PercentEqual, 2) else some (TokenKind.Percent, 1)
  else if c == '=' then
    if n1 == some '=' then some (TokenKind.DoubleEqual, 2) else some (TokenKind.Equal, 1)
  else if c == '<' then
    if n1 == some '<' then
      if n2 == some '=' then some (TokenKind.LessThanLessThanEqual, 3)
      else some (TokenKind.LessThanLessThan, 2)
    else if n1 == some '=' then some (TokenKind.LessEqual, 2)
    else some (TokenKind.LessThan, 1)
  else if c == '>' then
    if n1 == some '>' then
      if n2 == some '=' then some (TokenKind.GreaterThanGreaterThanEqual, 3)
      else some (TokenKind.GreaterThanGreaterThan, 2)
    else if n1 == some '=' then some (TokenKind.GreaterEqual, 2)
    else some (TokenKind.GreaterThan, 1)
  else if c == '!' then
    if n1 == some '=' then some (TokenKind.BangEqual, 2) else some (TokenKind.Bang, 1)
  else if c == '?' then some (TokenKind.QuestionMark, 1)
  else if c == '&' then
    if n1 == some '&' then some (TokenKind.DoubleAnd, 2)
    else if n1 == some '=' then some (TokenKind.AndEqual, 2)
    else some (TokenKind.And, 1)
  else if c == '|' then
    if n1 == some '|' then some (TokenKind.DoubleOr, 2)
    else if n1 == some '=' then some (TokenKind.OrEqual, 2)
    else some (TokenKind.Or, 1)
  else if c == '^' then
    if n1 == some '=' then some (TokenKind.CaretEqual, 2) else some (TokenKind.Caret, 1)
  else if c == '~' then some (TokenKind.Tilde, 1)
  else if c == ':' then some (TokenKind.Colon, 1)
  else if c == ';' then some (TokenKind.SemiColon, 1)
  else if c == '(' then some (TokenKind.LeftParen, 1)
  else if c == ')' then some (TokenKind.RightParen, 1)
  else if c == '[' then some (TokenKind.LeftBracket, 1)
  else if c == ']' then some (TokenKind.RightBracket, 1)
  else if c == Char.ofNat 123 then some (TokenKind.LeftCurly, 1)
  else if c == Char.ofNat 125 then some (TokenKind.RightCurly, 1)
  else if c == Char.ofNat 92 then some (TokenKind.BackSlash, 1)
  else none

namespace Lexer

/-- `Lexer::LexSymbol` (lines 283-470). -/
def LexSymbol (L : Lexer) : Option Token × Lexer :=
  let C := L.GetNextChar
  let L1 := C.2
  match C.1 with
  | none => (none, L1)
  | some c =>
    match SymbolKind c (L1.GetNextNthCharOnSameLine 1) (L1.GetNextNthCharOnSameLine 2) with
    | none => (none, L1)
    | some (K, Size) =>
      (some { Kind := K, StringValue := L1.View L1.LineIndex L1.ColumnIndex Size,
              LineNumber := L1.LineIndex, ColumnNumber := L1.ColumnIndex },
        EatChars Size L1)

/-- The loop `while (isdigit(GetNextChar())) { Length++; EatNextChar(); }` of
`LexNumber`: the length and the state after it. -/
def EatDigits : Nat → Lexer → Nat → Option (Nat × Lexer)
  | 0, _, _ => none
  | fuel + 1, L, Length =>
    match L.GetNextChar with
    | (some c, L1) => if c.isDigit then EatDigits fuel L1.EatNextChar (Length + 1)
                      else some (Length, L1)
    | (none, L1) => some (Length, L1)

/-- The loop over the digits of a hexadecimal literal (lines 107-124): the
length, the value (a `uint64_t`) and the state after it. -/
def EatHexDigits : Nat → Lexer → Nat → Nat → Option (Nat × Nat × Lexer)
  | 0, _, _, _ => none
  | fuel + 1, L, Length, value =>
    match L.GetNextChar with
    | (some c, L1) =>
      if c.isDigit || ('a' ≤ c && c ≤ 'f') || ('A' ≤ c && c ≤ 'F') then
        let currDigit :=
          if c.isDigit then c.toNat - 48
          else if c.isLower then c.toNat - 97 + 10
          else c.toNat - 65 + 10
        EatHexDigits fuel L1.EatNextChar (Length + 1) ((value * 16 % 2 ^ 64 + currDigit) % 2 ^ 64)
      else some (Length, value, L1)
    | (none, L1) => some (Length, value, L1)

/-- The end of `LexNumber` (lines 142-148). -/
def NumberToken (L : Lexer) (K : TokenKind) (StartLineIndex StartColumnIndex Length
    TokenValue : Nat) : Option Token :=
  if Length = 0 then none
  else some { Kind := K, StringValue := L.View StartLineIndex StartColumnIndex Length,
              LineNumber := StartLineIndex, ColumnNumber := StartColumnIndex,
              Value := TokenValue }

/-- The part of `LexNumber` from the test for a `.` on (lines 128-148); the
token starts at the given line and column. -/
def LexNumberTail (fuel : Nat) (L : Lexer) (StartLineIndex StartColumnIndex Length : Nat) :
    Option (Option Token × Lexer) :=
  let C := L.GetNextChar
  if C.1 == some '.' then
    let C2 := C.2.EatNextChar.GetNextChar
    if !(C2.1.map Char.isDigit).getD false then some (none, C2.2)
    else
      match EatDigits fuel C2.2 (Length + 1) with
      | none => none
      | some (Length2, L2) =>
        some (NumberToken L2 TokenKind.Real StartLineIndex StartColumnIndex Length2 0, L2)
  else some (NumberToken C.2 TokenKind.Integer StartLineIndex StartColumnIndex Length 0, C.2)

/-- `Lexer::LexNumber` (lines 88-149).  The token value is an `unsigned`. -/
def LexNumber (fuel : Nat) (L : Lexer) : Option (Option Token × Lexer) :=
  match EatDigits fuel L 0 with
  | none => none
  | some (Length, L1) =>
    if Length == 1 then
      let C := L1.GetNextChar
      if C.1 == some 'x' then
        match EatHexDigits fuel C.2.EatNextChar (Length + 1) 0 with
        | none => none
        | some (Length2, value, L2) =>
          some (NumberToken L2 TokenKind.Integer L.LineIndex L.ColumnIndex Length2
            (value % 2 ^ 32), L2)
      else LexNumberTail fuel C.2 L.LineIndex L.ColumnIndex Length
    else LexNumberTail fuel L1 L.LineIndex L.ColumnIndex Length

end Lexer

namespace Lexer

/-- The value of an escaped character (lines 216-236); `none` is the failed
assertion `currentChar < '8'`.  An escape that the code does not know leaves
the initial value `-1` of the `unsigned`. -/
def EscapeValue (currentChar : Option Char) : Option Nat :=
  match currentChar with
  | none => some (2 ^ 32 - 1)
  | some c =>
    if c.isDigit then (if c < '8' then some (c.toNat - 48) else none)
    else if c == 'a' then some 0x07
    else if c == 'b' then some 0x08
    else if c == 'e' then some 0x1B
    else if c == 'f' then some 0x0C
    else if c == 'n' then some 0x0A
    else if c == 'r' then some 0x0D
    else if c == 't' then some 0x0B
    else some (2 ^ 32 - 1)

/-- `Lexer::LexCharLiteral` (lines 195-249); the outer `none` is a failed
assertion.  The character that `GetNextChar` reads at the end of the input is
`EOF`, which as a `char` and then as an `unsigned` is `2 ^ 32 - 1`. -/
def LexCharLiteral (L : Lexer) : Option (Option Token × Lexer) :=
  let C := L.GetNextChar
  if C.1 != some (Char.ofNat 39) then some (none, C.2)
  else
    let L1 := C.2.EatNextChar
    let E := L1.GetNextChar
    let isEscaped := E.1 == some (Char.ofNat 92)
    let L2 := if isEscaped then E.2.EatNextChar else E.2
    let Cur := L2.GetNextChar
    let L3 := Cur.2.EatNextChar
    let value : Option Nat :=
      if isEscaped then EscapeValue Cur.1
      else some ((Cur.1.map Char.toNat).getD (2 ^ 32 - 1))
    match value with
    | none => none
    | some v =>
      let Q := L3.GetNextChar
      if Q.1 != some (Char.ofNat 39) then some (some { Kind := TokenKind.Invalid }, Q.2)
      else
        let L4 := Q.2.EatNextChar
        some (some { Kind := TokenKind.CharacterLiteral,
                     StringValue := L4.View L.LineIndex L.ColumnIndex
                       ((L4.ColumnIndex + 2 ^ 32 - L.ColumnIndex + 1) % 2 ^ 32),
                     LineNumber := L.LineIndex, ColumnNumber := L.ColumnIndex, Value := v }, L4)

/-- The loop of `LexStringLiteral` (lines 262-269): the length and the state
after it. -/
def EatStringChars : Nat → Lexer → Bool → Nat → Option (Nat × Lexer)
  | 0, _, _, _ => none
  | fuel + 1, L, lastCharIsEscape, Length =>
    let C := L.GetNextChar
    if C.1 != some (Char.ofNat 34) then
      let C2 := C.2.GetNextChar
      if C2.1 != none then
        let C3 := C2.2.GetNextChar
        EatStringChars fuel C3.2.EatNextChar (C3.1 == some (Char.ofNat 92)) (Length + 1)
      else some (Length, C2.2)
    else
      let C1 := C.2.GetNextChar
      if C1.1 == some (Char.ofNat 34) && lastCharIsEscape then
        let C2 := C1.2.GetNextChar
        if C2.1 != none then
          let C3 := C2.2.GetNextChar
          EatStringChars fuel C3.2.EatNextChar (C3.1 == some (Char.ofNat 92)) (Length + 1)
        else some (Length, C2.2)
      else some (Length, C1.2)

/-- `Lexer::LexStringLiteral` (lines 251-281). -/
def LexStringLiteral (fuel : Nat) (L : Lexer) : Option (Option Token × Lexer) :=
  let C := L.GetNextChar
  if C.1 != some (Char.ofNat 34) then some (none, C.2)
  else
    match EatStringChars fuel C.2.EatNextChar false 1 with
    | none => none
    | some (Length, L1) =>
      let Q := L1.GetNextChar
      if Q.1 != some (Char.ofNat 34) then some (some { Kind := TokenKind.Invalid }, Q.2)
      else
        some (some { Kind := TokenKind.StringLiteral,
                     StringValue := L.View L.LineIndex L.ColumnIndex (Length + 1),
                     LineNumber := L.LineIndex, ColumnNumber := L.ColumnIndex }, Q.2.EatNextChar)

/-- The loop of `LexIdentifier` (lines 160-163): the length and the state
after it. -/
def EatIdentifierChars : Nat → Lexer → Nat → Option (Nat × Lexer)
  | 0, _, _ => none
  | fuel + 1, L, Length =>
    let C := L.GetNextChar
    if (C.1.map Char.isAlphanum).getD false then
      EatIdentifierChars fuel C.2.EatNextChar (Length + 1)
    else
      let C2 := C.2.GetNextChar
      if C2.1 == some '_' then EatIdentifierChars fuel C2.2.EatNextChar (Length + 1)
      else some (Length, C2.2)

/-- `Lexer::LexIdentifier` (lines 151-171). -/
def LexIdentifier (fuel : Nat) (L : Lexer) : Option (Option Token × Lexer) :=
  let C := L.GetNextChar
  if (C.1.map Char.isDigit).getD false then some (none, C.2)
  else
    match EatIdentifierChars fuel C.2 0 with
    | none => none
    | some (Length, L1) =>
      if Length = 0 then some (none, L1)
      else
        some (some { Kind := TokenKind.Identifier,
                     StringValue := L.View L.LineIndex L.ColumnIndex Length,
                     LineNumber := L.LineIndex, ColumnNumber := L.ColumnIndex }, L1)

/-- One `if (!Result) Result = ...;` of `Lex` (lines 515-526). -/
def OrLex (R : Option (Option Token × Lexer)) (Next : Lexer → Option (Option Token × Lexer)) :
    Option (Option Token × Lexer) :=
  match R with
  | none => none
  | some (some T, L) => some (some T, L)
  | some (none, L) => Next L

/-- The token that `Lex` reads once the white space is consumed (lines
515-526): a keyword, else a symbol, a number, a character literal, a string
literal or an identifier. -/
def LexToken (fuel : Nat) (L : Lexer) : Option (Option Token × Lexer) :=
  OrLex (OrLex (OrLex (OrLex (OrLex (some L.LexKeyword) (fun L1 => some L1.LexSymbol))
    (LexNumber fuel)) LexCharLiteral) (LexStringLiteral fuel)) (LexIdentifier fuel)

/-- The loop of `Lex` that consumes white space (lines 504-509): the character
that ends it and the state there. -/
def EatWhiteSpace : Nat → Lexer → Option (Option Char × Lexer)
  | 0, _ => none
  | fuel + 1, L =>
    let C := L.GetNextChar
    match C.1 with
    | none => some (none, C.2)
    | some c =>
      if "\t\n\x0b\x0c\r ".data.contains c || c == Char.ofNat 0 then
        EatWhiteSpace fuel C.2.EatNextChar
      else some (some c, C.2)

/-- The loop of `Lex` over the body of a comment `/* ... */` (lines 541-544). -/
def EatComment : Nat → Lexer → Option Lexer
  | 0, _ => none
  | fuel + 1, L =>
    let C := L.GetNextChar
    if C.1 == none then some C.2
    else
      let C2 := C.2.GetNextChar
      if C2.1 != some '*' || C2.2.GetNextNthCharOnSameLine 1 != some '/' then
        EatComment fuel C2.2.EatNextChar
      else some C2.2

/-- `Lexer::Lex` (lines 494-556).  The calls `Lex()` after a comment pass the
default argument of the declaration, which is in `Lexer.hpp`, not among the
sources, and is taken to be `false`; with an empty token buffer the argument
makes no difference. -/
def Lex : Nat → Lexer → Bool → Option (Token × Lexer)
  | 0, _, _ => none
  | fuel + 1, L, LookAhead =>
    if L.TokenBuffer.length > 0 && !LookAhead then
      match L.TokenBuffer with
      | T :: rest => some (T, { L with TokenBuffer := rest })
      | [] => none
    else
      match EatWhiteSpace fuel L with
      | none => none
      | some (none, L1) => some ({ Kind := TokenKind.EndOfFile }, L1)
      | some (some _, L1) =>
        match LexToken fuel L1 with
        | none => none
        | some (none, L2) => some ({ Kind := TokenKind.Invalid }, L2)
        | some (some T, L2) =>
          if T.Kind == TokenKind.DoubleForwardSlash then
            Lex fuel { L2 with LineIndex := L2.LineIndex + 1, ColumnIndex := 0 } false
          else if T.Kind == TokenKind.ForwardSlashAstrix then
            match EatComment fuel L2 with
            | none => none
            | some L3 => Lex fuel L3.EatNextChar.EatNextChar false
          else some (T, L2)

/-- `Lexer::LookAhead` (lines 472-478) for an empty token buffer and `n = 1`,
as the constructor calls it: the token that `Lex(true)` reads is pushed to the
buffer and returned. -/
def LookAheadOne (fuel : Nat) (L : Lexer) : Option (Token × Lexer) :=
  match L.TokenBuffer with
  | [] =>
    match Lex fuel L true with
    | none => none
    | some (T, L1) => some (T, { L1 with TokenBuffer := L1.TokenBuffer ++ [T] })
  | T :: _ => some (T, L)

end Lexer

/-! ## Observations on the output and the wording of the specification -/

/-- The opcode and operands of each instruction of a sequence. -/
def seqView (MIs : List MachineInstruction) : List (OperationCode × List MachineOperand) :=
  MIs.map (fun MI => (MI.Opcode, MI.Operands))

/-- The (immediate, shift) pairs of the `MOVK_ri` instructions of a sequence,
in order. -/
def MOVKSlices (MIs : List MachineInstruction) : List (Nat × Nat) :=
  MIs.filterMap (fun MI =>
    match MI.Opcode, MI.Operands with
    | OperationCode.target AArch64.Opcodes.MOVK_ri, [_, imm, sh] => some (imm.IntVal, sh.IntVal)
    | _, _ => none)

/-- The reading of section 4.4 of the specification: the 16-bit slices of `K`
at shifts 16, 32 and 48, without the most-significant slices that are zero. -/
def SpecMOVKSlices (K : Nat) : List (Nat × Nat) :=
  ([(K / 2 ^ 16 % 2 ^ 16, 16), (K / 2 ^ 32 % 2 ^ 16, 32),
    (K / 2 ^ 48 % 2 ^ 16, 48)].reverse.dropWhile (fun p => p.1 == 0)).reverse

/-- The first operand of the instruction is a virtual register. -/
def DefinesVirtual (M : MachineInstruction) : Prop :=
  ∃ d, M.GetDef = some d ∧ d.IsVirtualReg = true

/-- What a step of the lowering that touches only the block `bb`, the counter
and the entry `ID` of the register table leaves untouched. -/
def FrameOK (S S' : IRtoLLIR) (bb ID : Nat) : Prop :=
  S'.SpilledReturnValuesIDToStackID = S.SpilledReturnValuesIDToStackID ∧
  S'.StructByIDToRegMap = S.StructByIDToRegMap ∧
  S'.MF.SF = S.MF.SF ∧
  S'.MF.BasicBlocks.length = S.MF.BasicBlocks.length ∧
  S'.MF.HasCall = S.MF.HasCall ∧
  (∀ k, (k ≠ ID ∨ S.SpilledReturnValuesIDToStackID k ≠ none) →
    S'.IRVregToLLIRVreg k = S.IRVregToLLIRVreg k) ∧
  (bb < S.MF.BasicBlocks.length →
    ∃ extra, S'.Instrs bb = S.Instrs bb ++ extra ∧ ∀ M ∈ extra, DefinesVirtual M)

/-- What the lowering of the arguments of a call leaves untouched: the table
of spilled call results, the table of by-value structs, the stack frame, the
number of blocks, and the entries of the register table for ids other than
the listed ones. -/
def CallFrame (S S' : IRtoLLIR) (IDs : List Nat) : Prop :=
  S'.SpilledReturnValuesIDToStackID = S.SpilledReturnValuesIDToStackID ∧
  S'.StructByIDToRegMap = S.StructByIDToRegMap ∧
  S'.MF.SF = S.MF.SF ∧
  S'.MF.BasicBlocks.length = S.MF.BasicBlocks.length ∧
  (∀ k, k ∉ IDs → S'.IRVregToLLIRVreg k = S.IRVregToLLIRVreg k)

/-- The id `c` is the id of a lowered call whose result was spilled to the
stack slot `Slot`: the table of spilled results says so and the register
table has no entry for `c`. -/
def IsSpilledCallResult (S : IRtoLLIR) (c Slot : Nat) : Prop :=
  S.SpilledReturnValuesIDToStackID c = some Slot ∧ S.IRVregToLLIRVreg c = none

/-- The `CALL` instruction of a lowered call. -/
def CallMI (I : CallInstruction) : MachineInstruction :=
  (MachineInstruction.create OperationCode.CALL).AddFunctionName I.Name

/-- The index of the first return register of the class of the returned
value: `GetFirstFPRetRegIdx()` for a floating-point value, 0 otherwise. -/
def ReturnRegOffset (TM : TargetMachine) (I : CallInstruction) : Nat :=
  if I.Ty.IsFP then TM.FirstFPRetRegIdx else 0

/-- The `STORE` of chunk `i` of a returned value of `b` bits in words: return
register `i + Offset`, or its first sub-register when fewer than
pointer-width bits remain, with the width of what remains, goes to the slot
at byte offset `i * (pointer width / 8)`. -/
def SpecReturnStore (TM : TargetMachine) (Offset Slot b i : Nat) : Option MachineInstruction :=
  match TM.ReturnRegisters.get? (i + Offset) with
  | none => none
  | some Reg =>
    match (if b - i * TM.PointerSize < TM.PointerSize then Reg.SubRegs.head? else some Reg.ID) with
    | none => none
    | some R =>
      some { Opcode := OperationCode.STORE,
             Operands := [MachineOperand.CreateStackAccess Slot (i * (TM.PointerSize / 8) : Nat),
               MachineOperand.CreateRegister R (min (b - i * TM.PointerSize) TM.PointerSize)],
             Attributes := [MIAttribute.IS_STORE] }

/-- The number of instructions of a sequence whose defining (first) operand is
the virtual register `r`. -/
def DefCount (MIs : List MachineInstruction) (r : Nat) : Nat :=
  (MIs.filter (fun MI =>
    match MI.GetDef with
    | some d => d.IsVirtualReg && d.GetReg == r
    | none => false)).length

/-- The control-flow shape of a machine function: its name and the names of
its blocks, in order. -/
def MachineFunction.Shape (MF : MachineFunction) : String × List String :=
  (MF.Name, MF.BasicBlocks.map (fun B => B.Name))

/-- The control-flow shape of a function of the mid-level IR: its name and the
names of its blocks, in order. -/
def Function.Shape (F : Function) : String × List String :=
  (F.Name, F.BasicBlocks.map (fun B => B.Name))

/-- The instructions of a block up to and including its first return
instruction. -/
def CutAfterFirstReturn : List Instruction → List Instruction
  | [] => []
  | Instruction.Return I :: _ => [Instruction.Return I]
  | Instr :: rest => Instr :: CutAfterFirstReturn rest

/-- The module in which every block ends with its first return instruction,
when it has one. -/
def IRModule.CutBlocksAfterReturn (IRM : IRModule) : IRModule :=
  { Functions := IRM.Functions.map (fun F =>
      { F with BasicBlocks := F.BasicBlocks.map (fun BB =>
          { BB with Instructions := CutAfterFirstReturn BB.Instructions }) }) }

/-- The instructions whose lowering fails no assertion whatever the state: a
stack allocation, a jump, a return without a value, and a branch or a compare
on values (not labels); the labels of a jump or a branch need not name a
block. -/
def IsPlainControl : Instruction → Bool
  | Instruction.StackAllocation _ => true
  | Instruction.Jump _ => true
  | Instruction.Return I => I.RetVal.isNone
  | Instruction.Branch I => I.Condition.Kind != ValueKind.LABEL
  | Instruction.Compare I =>
    I.Self.Kind != ValueKind.LABEL && I.LHS.Kind != ValueKind.LABEL &&
      I.RHS.Kind != ValueKind.LABEL
  | _ => false

/-- What a machine function records about calls: the caller flag and the
`CALL` instructions of each block. -/
def MachineFunction.CallView (MF : MachineFunction) : Bool × List (List MachineInstruction) :=
  (MF.HasCall, MF.BasicBlocks.map (fun B =>
    B.Instructions.filter (fun MI => MI.Opcode == OperationCode.CALL)))

/-- Pair `i` of an inline copy in the words of the specification: `Load` loads
a 32-bit virtual register from the source `SrcId` (a stack slot when `SrcSlot`
holds, a pointer register otherwise) at byte offset `4 * i`, and `Store` stores
that same register to the destination `DestId` at byte offset `4 * i`. -/
def IsCopyPair (TM : TargetMachine) (SrcSlot DestSlot : Bool) (SrcId DestId i : Nat)
    (Load Store : MachineInstruction) : Prop :=
  ∃ r, Load.Opcode = OperationCode.LOAD ∧
    Load.Operands = [MachineOperand.CreateVirtualRegister r 32,
      if SrcSlot then MachineOperand.CreateStackAccess SrcId (4 * i : Nat)
      else MachineOperand.CreateMemory SrcId (4 * i : Nat) TM.PointerSize] ∧
    Store.Opcode = OperationCode.STORE ∧
    Store.Operands = [if DestSlot then MachineOperand.CreateStackAccess DestId (4 * i : Nat)
      else MachineOperand.CreateMemory DestId (4 * i : Nat) TM.PointerSize,
      MachineOperand.CreateVirtualRegister r 32]

/-- The sequence `L` is made of the `n` pairs `i`, `i + 1`, ... of an inline
copy, in order, and of nothing else. -/
def CopyPairs (TM : TargetMachine) (SrcSlot DestSlot : Bool) (SrcId DestId : Nat) :
    Nat → Nat → List MachineInstruction → Prop
  | 0, _, L => L = []
  | n + 1, i, Load :: Store :: L =>
    IsCopyPair TM SrcSlot DestSlot SrcId DestId i Load Store ∧
    CopyPairs TM SrcSlot DestSlot SrcId DestId n (i + 1) L
  | _ + 1, _, _ => False

/-- The `LOAD` that `CopyChunks` builds for chunk `i` in the state `S`. -/
def ChunkLoad (TM : TargetMachine) (S : IRtoLLIR) (SrcId i : Nat) : MachineInstruction :=
  if S.MF.IsStackSlot SrcId then
    ((MachineInstruction.create OperationCode.LOAD).AddVirtualRegister S.MF.NextVReg
      32).AddStackAccess SrcId (i * 4 : Nat)
  else ((MachineInstruction.create OperationCode.LOAD).AddVirtualRegister S.MF.NextVReg
      32).AddMemory SrcId (i * 4 : Nat) TM.PointerSize

/-- The `STORE` that `CopyChunks` builds for chunk `i` in the state `S`. -/
def ChunkStore (TM : TargetMachine) (S : IRtoLLIR) (DestId i : Nat) : MachineInstruction :=
  (if S.MF.IsStackSlot DestId then
    (MachineInstruction.create OperationCode.STORE).AddStackAccess DestId (i * 4 : Nat)
  else ((MachineInstruction.create OperationCode.STORE).AddMemory DestId 0
    TM.PointerSize).ModifyOperand 0 (fun MO => MO.SetOffset (i * 4 : Nat))).AddVirtualRegister
    S.MF.NextVReg 32

/-- The scaled index of a GEP in the words of the specification, as opcodes
and operands, and the register that holds it; `r` is the first fresh virtual
register and the counter is 32 bits wide.  For the element size 1: one `MOV`
of the index into a fresh pointer-width register, a `SEXT` instead when the
index is narrower than a pointer.  Otherwise: a `MOV` of the immediate `s` into
a fresh register, a `SEXT` of the index to pointer width if and only if the
index is narrower than a pointer, and a `MUL` of the (extended) index by that
register. -/
def SpecScaledIndex (TM : TargetMachine) (s : Nat) (IndexReg : MachineOperand) (r : Nat) :
    List (OperationCode × List MachineOperand) × Nat :=
  if s = 1 then
    ([(if IndexReg.GetSize < TM.PointerSize then OperationCode.SEXT else OperationCode.MOV,
        [MachineOperand.CreateVirtualRegister r TM.PointerSize, IndexReg])], r)
  else if IndexReg.GetSize < TM.PointerSize then
    ([(OperationCode.MOV, [MachineOperand.CreateVirtualRegister r TM.PointerSize,
          MachineOperand.CreateImmediate s 32]),
      (OperationCode.SEXT, [MachineOperand.CreateVirtualRegister ((r + 1) % 2 ^ 32)
          TM.PointerSize, IndexReg]),
      (OperationCode.MUL, [MachineOperand.CreateVirtualRegister (((r + 1) % 2 ^ 32 + 1) % 2 ^ 32)
          TM.PointerSize,
        MachineOperand.CreateVirtualRegister ((r + 1) % 2 ^ 32) TM.PointerSize,
        MachineOperand.CreateVirtualRegister r TM.PointerSize])],
      ((r + 1) % 2 ^ 32 + 1) % 2 ^ 32)
  else
    ([(OperationCode.MOV, [MachineOperand.CreateVirtualRegister r TM.PointerSize,
          MachineOperand.CreateImmediate s 32]),
      (OperationCode.MUL, [MachineOperand.CreateVirtualRegister ((r + 1) % 2 ^ 32)
          TM.PointerSize, IndexReg,
        MachineOperand.CreateVirtualRegister r TM.PointerSize])],
      (r + 1) % 2 ^ 32)

/-- Two operands of the variant of `a` have equal payload, in the words of the
specification: register id, virtual flag and class for a register; the value
for an immediate; base or slot and offset, with the virtual flag and the class,
for a memory address and a stack access; the ordinal for a parameter; the text
for a label, a function name and a global symbol, where a label or a function
name that is the null pointer has no text. -/
def SamePayload (a b : MachineOperand) : Prop :=
  match a.Kind with
  | MOKind.REGISTER =>
    a.IntVal = b.IntVal ∧ a.Virtual = b.Virtual ∧ a.RegisterClass = b.RegisterClass
  | MOKind.INT_IMMEDIATE => a.IntVal = b.IntVal
  | MOKind.FP_IMMEDIATE => a.FloatVal = b.FloatVal
  | MOKind.MEMORY_ADDRESS =>
    a.IntVal = b.IntVal ∧ a.Offset = b.Offset ∧ a.Virtual = b.Virtual ∧
      a.RegisterClass = b.RegisterClass
  | MOKind.STACK_ACCESS =>
    a.IntVal = b.IntVal ∧ a.Offset = b.Offset ∧ a.Virtual = b.Virtual ∧
      a.RegisterClass = b.RegisterClass
  | MOKind.PARAMETER => a.IntVal = b.IntVal
  | MOKind.LABEL => a.LabelIsNull = false ∧ b.LabelIsNull = false ∧ a.Label = b.Label
  | MOKind.FUNCTION_NAME => a.LabelIsNull = false ∧ b.LabelIsNull = false ∧ a.Label = b.Label
  | MOKind.GLOBAL_SYMBOL => a.GlobalSymbol = b.GlobalSymbol
  | MOKind.NONE => True

/-- A call of one of the functions of the stack program. -/
inductive StackCall
  | create | push (x : Int) | pop | peek | size | isEmpty
  deriving DecidableEq, Repr

/-- The call `c` in the state `s` of the stack program: the value returned, if
the function returns one, and the state after the call; `none` when the program
exits or its behaviour is undefined. -/
def StackCall.exec (s : StackState) : StackCall → Option (Option Int × StackState)
  | StackCall.create => some (none, StackC.create s)
  | StackCall.push x => (StackC.push s x).map (fun s1 => (none, s1))
  | StackCall.pop => (StackC.pop s).map (fun r => (some r.1, r.2))
  | StackCall.peek => (StackC.peek s).map (fun x => (some x, s))
  | StackCall.size => some (some (StackC.size s), s)
  | StackCall.isEmpty => some (some (StackC.isEmpty s), s)

/-- The values returned by a sequence of calls run from the state `s`, with
the state after the last call. -/
def StackCall.run : StackState → List StackCall → Option (List (Option Int) × StackState)
  | s, [] => some ([], s)
  | s, c :: rest =>
    match c.exec s with
    | none => none
    | some (r, s1) =>
      match StackCall.run s1 rest with
      | none => none
      | some (rs, s2) => some (r :: rs, s2)

/-- The stack in the words of the specification: the LIFO list of the values
pushed and not yet popped, most recent first, with the numbers of pushes and
of pops so far. -/
structure LifoStack where
  items : List Int := []
  pushes : Nat := 0
  pops : Nat := 0
  deriving DecidableEq, Repr

/-- A call on the stack of the specification: `create` empties the list, `push`
adds on top, `pop` returns the most recently pushed value not yet popped and
removes it, `peek` returns it without removing it, `size` is pushes minus pops
and `isEmpty` is 1 exactly when that is 0.  `none` is a pop or a peek of an
empty stack. -/
def LifoStack.call (L : LifoStack) : StackCall → Option (Option Int × LifoStack)
  | StackCall.create => some (none, { L with items := [] })
  | StackCall.push x => some (none, { L with items := x :: L.items, pushes := L.pushes + 1 })
  | StackCall.pop =>
    match L.items with
    | [] => none
    | x :: rest => some (some x, { L with items := rest, pops := L.pops + 1 })
  | StackCall.peek =>
    match L.items with
    | [] => none
    | x :: _ => some (some x, L)
  | StackCall.size => some (some ((L.pushes : Int) - L.pops), L)
  | StackCall.isEmpty => some (some (if (L.pushes : Int) - L.pops = 0 then 1 else 0), L)

/-- The values that a sequence of calls returns on the stack of the
specification, with the stack after the last call. -/
def LifoStack.run : LifoStack → List StackCall → Option (List (Option Int) × LifoStack)
  | L, [] => some ([], L)
  | L, c :: rest =>
    match L.call c with
    | none => none
    | some (r, L1) =>
      match LifoStack.run L1 rest with
      | none => none
      | some (rs, L2) => some (r :: rs, L2)

/-- What a call adds to pushes minus pops. -/
def StackCall.delta : StackCall → Int
  | StackCall.push _ => 1
  | StackCall.pop => -1
  | _ => 0

/-- Pushes minus pops stays below `N` during the sequence of calls, `c` being
its value at the start. -/
def SizeStaysBelow (N : Int) : Int → List StackCall → Bool
  | _, [] => true
  | c, call :: rest => decide (c + call.delta < N) && SizeStaysBelow N (c + call.delta) rest

/-- The chain of nodes that starts at the address `a` holds the values `l`,
top first: each node is allocated, its `pre` is a lower address that starts
the chain of the values below, and the `next` of the node below is `a`. -/
def Chain (s : StackState) : Nat → List Int → Prop
  | a, [] => a = 0
  | a, x :: rest =>
    a ≠ 0 ∧ ∃ n, s.heap a = some n ∧ n.data = x ∧ n.pre < a ∧ Chain s n.pre rest ∧
      (n.pre ≠ 0 → ∃ m, s.heap n.pre = some m ∧ m.next = a)

/-- The state `s` of the program stands for the stack `L` of the
specification. -/
def Represents (s : StackState) (L : LifoStack) : Prop :=
  Chain s s.head L.items ∧ s.head < s.brk ∧ 0 < s.brk ∧
    (∀ a, s.brk ≤ a → s.heap a = none) ∧
    s.count = (L.pushes : Int) - L.pops ∧ (L.items.length : Int) ≤ s.count


/-- The calls that `test()` makes when every check passes. -/
def testCalls : List StackCall :=
  [StackCall.create, StackCall.push 4, StackCall.pop, StackCall.size, StackCall.isEmpty,
   StackCall.push 1, StackCall.push 2, StackCall.push 3, StackCall.pop, StackCall.pop,
   StackCall.size, StackCall.isEmpty, StackCall.pop, StackCall.push 5, StackCall.push 6,
   StackCall.peek, StackCall.push 7, StackCall.pop, StackCall.push 8, StackCall.pop,
   StackCall.size, StackCall.isEmpty]

/-- The tokens that successive calls of `Lex` return on a lexer whose token
buffer is empty, up to and without `EndOfFile`; at most `n` calls, each with
the budget `fuel`. -/
def LexAll : Nat → Nat → Lexer → Option (List Token)
  | 0, _, _ => some []
  | n + 1, fuel, L =>
    match L.Lex fuel true with
    | none => none
    | some (T, L1) =>
      if T.Kind == TokenKind.EndOfFile then some []
      else (LexAll n fuel L1).map (fun Ts => T :: Ts)

/-- The kind, the text and the line of a token. -/
def Token.View (T : Token) : TokenKind × String × Nat := (T.Kind, T.StringValue, T.LineNumber)

/-! ## Sample inputs -/

/-- A 64-bit target with eight general-purpose argument registers `0..7`
(sub-registers `32..39`), eight floating-point ones `64..71` (sub-registers
`96..103`) and struct-pointer register `8`. -/
def sampleTM : TargetMachine where
  PointerSize := 64
  ArgumentRegisters :=
    (List.range 8).map (fun k => { ID := k, BitWidth := 64, SubRegs := [32 + k] }) ++
    (List.range 8).map (fun k => { ID := 64 + k, BitWidth := 64, SubRegs := [96 + k] })
  ReturnRegisters :=
    (List.range 8).map (fun k => { ID := k, BitWidth := 64, SubRegs := [32 + k] }) ++
    (List.range 8).map (fun k => { ID := 64 + k, BitWidth := 64, SubRegs := [96 + k] })
  FirstFPRetRegIdx := 8
  StructPtrRegister := 8
  Registers :=
    (List.range 32).map (fun k => { ID := k, BitWidth := 64, SubRegs := [32 + k] }) ++
    (List.range 32).map (fun k => { ID := 32 + k, BitWidth := 32, SubRegs := [] }) ++
    (List.range 32).map (fun k => { ID := 64 + k, BitWidth := 64, SubRegs := [96 + k] }) ++
    (List.range 32).map (fun k => { ID := 96 + k, BitWidth := 32, SubRegs := [] })
  GetRegisterClass := fun w fp => (if fp then 2 else 0) + (if w = 64 then 1 else 0)
  MaxStructSizePassedByValue := 128
  MemcpySupported := true

/-- A `LOAD_IMM` of `Imm` into physical register `Dest` of `W` bits. -/
def sampleLoadImm (Dest W Imm : Nat) : MachineInstruction :=
  ((MachineInstruction.create OperationCode.LOAD_IMM).AddRegister Dest W).AddImmediate Imm 32

/-- A three-address `AND` of virtual registers of `W` bits with an immediate. -/
def sampleAnd (Dest Src W Imm : Nat) : MachineInstruction :=
  (((MachineInstruction.create OperationCode.AND).AddVirtualRegister Dest W).AddVirtualRegister
    Src W).AddImmediate Imm 32

/-- A function whose only block holds the single instruction `MI`; virtual
registers below 10 are taken. -/
def sampleMF (MI : MachineInstruction) : MachineFunction :=
  { Name := "f", BasicBlocks := [{ Name := "entry", Instructions := [MI] }], NextVReg := 10 }

/-- A lowering state for a function `f` with one empty block `entry`; ids
below 10 are taken. -/
def sampleState : IRtoLLIR :=
  { MF := { Name := "f", BasicBlocks := [{ Name := "entry" }], NextVReg := 10 } }

/-- The IR register `ID` of an integer type of `W` bits. -/
def sampleIntReg (ID W : Nat) : Value :=
  { Kind := ValueKind.REGISTER, ID := ID, BitWidth := W,
    Ty := { BitSize := W, ByteSize := W / 8, BaseTypeByteSize := W / 8 } }

/-- The parameter `ID` of an integer type of `W` bits. -/
def sampleIntParam (ID W : Nat) : Value :=
  { Kind := ValueKind.PARAM, ID := ID, BitWidth := W,
    Ty := { BitSize := W, ByteSize := W / 8, BaseTypeByteSize := W / 8 } }

/-- The call `%5 = call g()` with a 32-bit integer result. -/
def sampleIntCall : CallInstruction :=
  { ID := 5, Ty := { BitSize := 32, ByteSize := 4 }, Name := "g", Args := [] }

/-- The state after the call `sampleIntCall` has been lowered into block 0. -/
def sampleStateAfterCall : IRtoLLIR :=
  (LowerCall sampleTM sampleState sampleIntCall 0).getD sampleState

/-- The call `%6 = call h()` with a 64-bit floating-point result. -/
def sampleFPCall : CallInstruction :=
  { ID := 6, Ty := { IsFP := true, BitSize := 64, ByteSize := 8 }, Name := "h", Args := [] }

/-- The by-value struct argument `%4` of 16 bytes. -/
def samplePairArg : Value :=
  { Kind := ValueKind.REGISTER, ID := 4, BitWidth := 128,
    Ty := { IsStruct := true, BitSize := 128, ByteSize := 16 } }

/-- The stack temporary `%3`, a pointer to a struct of 24 bytes. -/
def sampleTempArg : Value :=
  { Kind := ValueKind.REGISTER, ID := 3, BitWidth := 64, IsStackAllocation := true,
    Ty := { PointerLevel := 1, IsStruct := true, BitSize := 64, ByteSize := 8 } }

/-- The instruction `%4 = ld [%1]`, the by-value load of the struct `s` of 16
bytes from its stack slot `%1`. -/
def sampleStructLoad : LoadInstruction :=
  { Self := samplePairArg,
    MemoryLocation := { Kind := ValueKind.REGISTER, ID := 1, BitWidth := 64,
                        IsStackAllocation := true,
                        Ty := { PointerLevel := 1, IsStruct := true, BitSize := 64,
                                ByteSize := 8 } } }

/-- The lowering of the body of `void f() { struct Pair s; struct Big r =
big(s); }` up to the call: the stack allocations `%1` of `s` (16 bytes) and
`%3` of the temporary for the result (24 bytes) have been handled and
`%4 = ld [%1]` has been lowered, which leaves the struct in the virtual
registers 11 and 12. -/
def sampleStructState : IRtoLLIR :=
  (LowerLoad sampleTM
    { sampleState with MF := (HandleStackAllocation sampleTM 3
        { IsStruct := true, BitSize := 192, ByteSize := 24, StructMaxAlignment := 8 }
        (HandleStackAllocation sampleTM 1
          { IsStruct := true, BitSize := 128, ByteSize := 16, StructMaxAlignment := 8 }
          sampleState.MF)) }
    sampleStructLoad 0).getD sampleState

/-- The call `call big(%4, %3)` of a function that returns a struct of 24
bytes through the implicit struct argument `%3`, which `CallExpression`
appends: its index is 1. -/
def sampleStructRetCall : CallInstruction :=
  { ID := 9, Ty := { IsVoid := true, BitSize := 0, ByteSize := 0 }, Name := "big",
    Args := [samplePairArg, sampleTempArg], ImplicitStructArgIndex := 1 }

/-- The call `call big0(%3)` with the implicit struct argument alone. -/
def sampleStructRetCall0 : CallInstruction :=
  { ID := 9, Ty := { IsVoid := true, BitSize := 0, ByteSize := 0 }, Name := "big0",
    Args := [sampleTempArg], ImplicitStructArgIndex := 0 }

/-- The stack allocation `%0` of `int a[4]` as a value: a pointer to an array
of four 32-bit integers. -/
def sampleArray : Value :=
  { Kind := ValueKind.REGISTER, ID := 0, BitWidth := 32, IsStackAllocation := true,
    Ty := { PointerLevel := 1, BitSize := 64, ByteSize := 8, BaseTypeByteSize := 4,
            ElemSize := 4 } }

/-- The instruction `%2 = ld [@g]`, the load of the 32-bit global `g`. -/
def sampleIndexLoad : LoadInstruction :=
  { Self := sampleIntReg 2 32,
    MemoryLocation := { Kind := ValueKind.GLOBALVAR, ID := 1, BitWidth := 32, Name := "g",
                        Ty := { PointerLevel := 1, BitSize := 64, ByteSize := 8 } } }

/-- The instruction `%3 = gep %0, %2` for `a[g]`. -/
def sampleArrayGEP : GetElementPointerInstruction :=
  { Self := { Kind := ValueKind.REGISTER, ID := 3, BitWidth := 32,
              Ty := { PointerLevel := 1, BitSize := 64, ByteSize := 8, BaseTypeByteSize := 4,
                      ElemSize := 4 } },
    Source := sampleArray,
    Index := sampleIntReg 2 32 }

/-- The lowering of the entry block of `int g; int f() { int a[4]; return
a[g]; }` up to the GEP: the stack allocation `%0` of `a` (16 bytes), the load
`%2` of `g`, and `%3 = gep %0, %2`. -/
def sampleArrayLowering : Option IRtoLLIR :=
  match LowerLoad sampleTM
      { sampleState with MF := (HandleStackAllocation sampleTM 0
          { BitSize := 128, ByteSize := 16, BaseTypeByteSize := 4, ElemSize := 4 }
          sampleState.MF) }
      sampleIndexLoad 0 with
  | none => none
  | some S => LowerGEP sampleTM S sampleArrayGEP 0

/-- The three-address instruction `Op %Dest, %Src, #Imm` on virtual registers
of `W` bits; `Imm` is the 64-bit pattern of the immediate. -/
def sampleThreeAddress (Op : OperationCode) (Dest Src W Imm : Nat) : MachineInstruction :=
  (((MachineInstruction.create Op).AddVirtualRegister Dest W).AddVirtualRegister
    Src W).AddImmediate Imm 32

/-- The compare `CMP.EQ %0, Left, Right` with a 32-bit boolean destination. -/
def sampleCompare (Left Right : MachineOperand) : MachineInstruction :=
  ((((MachineInstruction.create OperationCode.CMP).AddVirtualRegister 0 32).AddOperand
    Left).AddOperand Right).SetAttributes CMPRelation.EQ

/-- The conditional branch `BRANCH %0, <then>`.  As a fall-through branch it
has the condition and the true label; otherwise the true label is an operand
twice, as the lowering of a branch with a false label leaves it. -/
def sampleBranch (FallThrough : Bool) : MachineInstruction :=
  if FallThrough then
    (((MachineInstruction.create OperationCode.BRANCH).AddVirtualRegister 0 32).AddLabel
      "then").AddAttribute MIAttribute.FALLTHROUGH_BRANCH
  else
    (((MachineInstruction.create OperationCode.BRANCH).AddVirtualRegister 0 32).AddLabel
      "then").AddLabel "then"

/-- A function whose only block holds a compare of two 32-bit registers with
relation `R`, already selected, and then `sampleBranch FallThrough`. -/
def sampleBranchMF (R : CMPRelation) (FallThrough : Bool) : MachineFunction :=
  let MF0 : MachineFunction :=
    { Name := "f", NextVReg := 10,
      BasicBlocks := [{ Name := "entry", Instructions :=
        [(sampleCompare (MachineOperand.CreateVirtualRegister 1 32)
          (MachineOperand.CreateVirtualRegister 2 32)).SetAttributes R,
          sampleBranch FallThrough] }] }
  ((SelectCMP sampleTM MF0 0 0).map Prod.fst).getD MF0

/-- The two-address instruction `Op %Dest, %Src` from a virtual register of
`SW` bits into one of `DW` bits. -/
def sampleTwoAddress (Op : OperationCode) (Dest DW Src SW : Nat) : MachineInstruction :=
  ((MachineInstruction.create Op).AddVirtualRegister Dest DW).AddVirtualRegister Src SW

/-- The instruction `%5 = ld [%3]`: the load of a 16-bit integer through the
pointer held in register `%3`, as `short x = *p;` gives it. -/
def sampleHalfLoad : LoadInstruction :=
  { Self := sampleIntReg 5 16,
    MemoryLocation := { Kind := ValueKind.REGISTER, ID := 3, BitWidth := 16,
                        Ty := { PointerLevel := 1, BitSize := 64, ByteSize := 8,
                                BaseTypeByteSize := 2 } } }

/-- The function after `sampleHalfLoad` has been lowered into its block. -/
def sampleHalfLoadMF : MachineFunction :=
  ((LowerLoad sampleTM sampleState sampleHalfLoad 0).getD sampleState).MF

/-- The store `STORE [%3], %10` of the 16-bit register `%10` through the same
pointer, as the lowering of a store builds it. -/
def sampleHalfStore : MachineInstruction :=
  ((((MachineInstruction.create OperationCode.STORE).AddAttribute MIAttribute.IS_STORE).AddMemory
    3 0 64).AddVirtualRegister 10 16)

/-- The 32-bit integer constant `V`. -/
def sampleIntConst (V : Nat) : Value :=
  { Kind := ValueKind.CONST, BitWidth := 32, IntValue := V,
    Ty := { BitSize := 32, ByteSize := 4, BaseTypeByteSize := 4 } }

/-- The stack allocation `%0` of an `int` as a value: a pointer to a 32-bit
integer. -/
def sampleLocal : Value :=
  { Kind := ValueKind.REGISTER, ID := 0, BitWidth := 32, IsStackAllocation := true,
    Ty := { PointerLevel := 1, BitSize := 64, ByteSize := 8, BaseTypeByteSize := 4 } }

/-- The function `int main()` of a small program:
`entry: %0 = sa int; store 5, [%0]; %1 = ld [%0]; %2 = cmp.lt %1, 7; br %2, then, done`,
`then: ret 1; jump done` (the jump is dead code),
`done: ret %1`. -/
def sampleMain : Function :=
  { Name := "main",
    BasicBlocks :=
      [{ Name := "entry", Instructions :=
          [Instruction.StackAllocation { ID := 0, ReferredType := { BitSize := 32, ByteSize := 4 } },
           Instruction.Store { MemoryLocation := sampleLocal, SavedValue := sampleIntConst 5 },
           Instruction.Load { Self := sampleIntReg 1 32, MemoryLocation := sampleLocal },
           Instruction.Compare { Self := sampleIntReg 2 1, LHS := sampleIntReg 1 32,
                                 RHS := sampleIntConst 7, Relation := CMPRelation.LT },
           Instruction.Branch { Condition := sampleIntReg 2 1, TrueLabelName := "then",
                                FalseLabelName := some "done" }] },
       { Name := "then", Instructions :=
          [Instruction.Return { Self := sampleIntReg 3 32, RetVal := some (sampleIntConst 1) },
           Instruction.Jump { TargetLabelName := "done" }] },
       { Name := "done", Instructions :=
          [Instruction.Return { Self := sampleIntReg 4 32, RetVal := some (sampleIntReg 1 32) }] }] }

/-- A module with the declaration `int puts(char *)`, the function `main` above
and the function `void nop()` with the single block `entry: ret`. -/
def sampleModule : IRModule :=
  { Functions :=
      [{ Name := "puts", IsDeclarationOnly := true },
       sampleMain,
       { Name := "nop", BasicBlocks :=
          [{ Name := "entry", Instructions := [Instruction.Return { Self := {} }] }] }] }

/-- A module of plain control flow: `void spin()` with the blocks
`entry: %0 = sa int; jump loop`, `loop: jump loop` and `out: ret`. -/
def samplePlainModule : IRModule :=
  { Functions :=
      [{ Name := "spin", BasicBlocks :=
          [{ Name := "entry", Instructions :=
              [Instruction.StackAllocation
                { ID := 0, ReferredType := { BitSize := 32, ByteSize := 4 } },
               Instruction.Jump { TargetLabelName := "loop" }] },
           { Name := "loop", Instructions := [Instruction.Jump { TargetLabelName := "loop" }] },
           { Name := "out", Instructions := [Instruction.Return { Self := {} }] }] }] }

/-- A module whose branch names no block: `void f(int c)` with the blocks
`entry: br c, nowhere, out` and `out: ret`. -/
def sampleDanglingModule : IRModule :=
  { Functions :=
      [{ Name := "f", BasicBlocks :=
          [{ Name := "entry", Instructions :=
              [Instruction.Branch { Condition := sampleIntParam 0 32, TrueLabelName := "nowhere",
                                    FalseLabelName := some "out" }] },
           { Name := "out", Instructions := [Instruction.Return { Self := {} }] }] }] }

/-- A lowering state for a function `f` with the empty blocks `entry`, `then`
and `else`; ids below 10 are taken. -/
def sampleBranchState : IRtoLLIR :=
  { MF := { Name := "f", BasicBlocks := [{ Name := "entry" }, { Name := "then" },
      { Name := "else" }], NextVReg := 10 } }

/-- The branch `br %2, <then>, <else>` on a 32-bit register. -/
def sampleCondBranch : BranchInstruction :=
  { Condition := sampleIntReg 2 32, TrueLabelName := "then", FalseLabelName := some "else" }

/-- A pointer held in the IR register `ID`. -/
def samplePtrReg (ID : Nat) : Value :=
  { Kind := ValueKind.REGISTER, ID := ID, BitWidth := 64,
    Ty := { PointerLevel := 1, BitSize := 64, ByteSize := 8, BaseTypeByteSize := 4 } }

/-- The copy `memcopy %1, %2, n` of `n` bytes between two pointers held in
registers. -/
def sampleMemcpy (n : Nat) : MemoryCopyInstruction :=
  { Destination := samplePtrReg 1, Source := samplePtrReg 2, Size := n }

/-- The lowering state of `sampleState` after the stack allocation `%0` of
`int a[4]` (16 bytes). -/
def sampleSlotState : IRtoLLIR :=
  { sampleState with MF := (HandleStackAllocation sampleTM 0
      { BitSize := 128, ByteSize := 16, BaseTypeByteSize := 4, ElemSize := 4 }
      sampleState.MF) }

/-- The global array `t` of 32-bit integers as a value. -/
def sampleGlobalArray : Value :=
  { Kind := ValueKind.GLOBALVAR, ID := 7, BitWidth := 32, Name := "t",
    Ty := { PointerLevel := 1, BitSize := 64, ByteSize := 8, BaseTypeByteSize := 4,
            ElemSize := 4 } }

/-- The instruction `%3 = gep Source, Index` whose result is a pointer to a
32-bit integer. -/
def sampleGEP (Source Index : Value) : GetElementPointerInstruction :=
  { Self := { Kind := ValueKind.REGISTER, ID := 3, BitWidth := 32,
              Ty := { PointerLevel := 1, BitSize := 64, ByteSize := 8, BaseTypeByteSize := 4,
                      ElemSize := 4 } },
    Source := Source,
    Index := Index }

/-- The 64-bit pattern of the integer constant `-1`. -/
def sampleMinusOne : Value :=
  { Kind := ValueKind.CONST, BitWidth := 32, IntValue := 2 ^ 64 - 1,
    Ty := { BitSize := 32, ByteSize := 4, BaseTypeByteSize := 4 } }

/-- A target like `sampleTM` whose `long` is 32 bits wide. -/
def sampleTM32 : TargetMachine := { sampleTM with LongSize := 32 }

/-- The simple (scalar, non-pointer) type of the variant `VK`. -/
def sampleType (VK : VariantKind) : ASTType := { Ty := VK }

/-- The zero-extending load `ZEXT_LOAD %1(s32), %2(s<SourceSize>), [%3]`: the
destination, the operand that carries the width of the loaded value, and the
address held in register 3. -/
def sampleZextLoad (SourceSize : Nat) : MachineInstruction :=
  (((MachineInstruction.create OperationCode.ZEXT_LOAD).AddVirtualRegister 1 32).AddVirtualRegister
    2 SourceSize).AddMemory 3 0 64

/-- A 32-bit target: pointers and registers of 32 bits, a value of 64 bits is
returned in the registers 10 and 11. -/
def sampleRV32 : TargetMachine :=
  { sampleTM with
    PointerSize := 32
    ReturnRegisters := [{ ID := 10, BitWidth := 32 }, { ID := 11, BitWidth := 32 }]
    LongSize := 32 }

/-- The instruction `ret 0x123456789ABCDEF0` of a function that returns a
64-bit integer. -/
def sampleWideReturn : ReturnInstruction :=
  { Self := { Kind := ValueKind.REGISTER, ID := 9, BitWidth := 64,
              Ty := { BitSize := 64, ByteSize := 8, BaseTypeByteSize := 8 } },
    RetVal := some { Kind := ValueKind.CONST, ID := 0, BitWidth := 64, IntValue := 0x123456789ABCDEF0,
                     Ty := { BitSize := 64, ByteSize := 8, BaseTypeByteSize := 8 } } }

/-- The stack allocation `%1` of the parameter `struct Pair *p` as a value: a
pointer to a pointer to the struct. -/
def samplePointerSlot : Value :=
  { Kind := ValueKind.REGISTER, ID := 1, BitWidth := 64, IsStackAllocation := true,
    Ty := { PointerLevel := 2, IsStruct := true, BitSize := 64, ByteSize := 8 } }

/-- The IR register `%2`, which holds the pointer `p` to a struct of 16
bytes. -/
def samplePairPointer : Value :=
  { Kind := ValueKind.REGISTER, ID := 2, BitWidth := 64,
    Ty := { PointerLevel := 1, IsStruct := true, BitSize := 64, ByteSize := 8 } }

/-- The lowering of the loads of `struct Pair g(struct Pair *p) { return *p; }`:
the stack allocation `%1` of `p` has been handled, `%2 = ld [%1]` loads the
pointer and `%4 = ld [%2]` loads the struct by value through it. -/
def sampleStructThroughPointer : Option IRtoLLIR :=
  (LowerLoad sampleTM
    { sampleState with MF := (HandleStackAllocation sampleTM 1
        { PointerLevel := 1, IsStruct := true, BitSize := 64, ByteSize := 8 } sampleState.MF) }
    { Self := samplePairPointer, MemoryLocation := samplePointerSlot } 0).bind
  (fun S => LowerLoad sampleTM S { Self := samplePairArg, MemoryLocation := samplePairPointer } 0)

/-! # Theorems -/

/-! ## Facts about the data model -/

theorem get?_setBlock_self (MF : MachineFunction) (b : Nat) (X Y : MachineBasicBlock)
    (hb : MF.BasicBlocks.get? b = some Y) : (MF.setBlock b X).BasicBlocks.get? b = some X := by
  have hlt : b < MF.BasicBlocks.length := by
    rcases Nat.lt_or_ge b MF.BasicBlocks.length with h | h
    · exact h
    · rw [List.get?_eq_none.mpr h] at hb; cases hb
  simp [MachineFunction.setBlock, List.getElem?_set, hlt]

theorem get?_length_append_cons {α : Type} (pre post : List α) (x : α) :
    (pre ++ x :: post).get? pre.length = some x := by
  induction pre with
  | nil => rfl
  | cons a t ih => simpa using ih

theorem set_length_append_cons {α : Type} (pre post : List α) (x y : α) :
    (pre ++ x :: post).set pre.length y = pre ++ y :: post := by
  induction pre with
  | nil => rfl
  | cons a t ih => simp [ih]

theorem take_succ_length_append_cons {α : Type} (pre post : List α) (x : α) :
    (pre ++ x :: post).take (pre.length + 1) = pre ++ [x] := by
  induction pre with
  | nil => simp
  | cons a t ih => simp [ih]

theorem drop_succ_length_append_cons {α : Type} (pre post : List α) (x : α) :
    (pre ++ x :: post).drop (pre.length + 1) = post := by
  induction pre with
  | nil => simp
  | cons a t ih => simp

theorem MaterializeConstant_insert (TM : TargetMachine) (MF : MachineFunction) (b : Nat)
    (MBB : MachineBasicBlock) (pre post : List MachineInstruction) (MI : MachineInstruction)
    (Op0 : MachineOperand) (K : Nat) (VReg : MachineOperand)
    (hb : MF.BasicBlocks.get? b = some MBB) (hI : MBB.Instructions = pre ++ MI :: post)
    (h0 : MI.GetOperand 0 = some Op0) :
    MaterializeConstant TM MF b pre.length K VReg false = some
      { MF := (MF.GetNextAvailableVReg.2).setBlock b { MBB with Instructions :=
          pre ++ (MakeMOV (MaterializeDest TM MF.NextVReg Op0) (MOVImmediate K) ::
            MaterializeMOVKs K (MaterializeDest TM MF.NextVReg Op0)) ++ MI :: post },
        VReg := MaterializeDest TM MF.NextVReg Op0,
        MI := pre.length + ((MaterializeMOVKs K (MaterializeDest TM MF.NextVReg Op0)).length + 1) } := by
  have hget := get?_length_append_cons pre post MI
  simp only [MaterializeConstant, hb, hI, hget, h0]
  simp [MachineBasicBlock.InsertBefore, MachineFunction.GetNextAvailableVReg, hI]

theorem MaterializeConstant_replace (TM : TargetMachine) (MF : MachineFunction) (b : Nat)
    (MBB : MachineBasicBlock) (pre post : List MachineInstruction) (MI : MachineInstruction)
    (K : Nat) (VReg : MachineOperand)
    (hb : MF.BasicBlocks.get? b = some MBB) (hI : MBB.Instructions = pre ++ MI :: post) :
    MaterializeConstant TM MF b pre.length K VReg true = some
      { MF := MF.setBlock b { MBB with Instructions :=
          pre ++ (((MI.SetOpcode (OperationCode.target AArch64.Opcodes.MOV_rc)).RemoveOperand
            1).AddImmediate (MOVImmediate K) 32 :: MaterializeMOVKs K VReg) ++ post },
        VReg := VReg, MI := pre.length } := by
  have hget := get?_length_append_cons pre post MI
  simp only [MaterializeConstant, hb, hI, hget, MachineBasicBlock.InsertAfter,
    set_length_append_cons, take_succ_length_append_cons, drop_succ_length_append_cons]
  simp

theorem take_drop_mid {α : Type} (pre mid rest : List α) (n : Nat) (hn : n = mid.length) :
    ((pre ++ mid ++ rest).drop pre.length).take n = mid := by
  subst hn
  simp

theorem MaterializedSequence_insert (TM : TargetMachine) (MF : MachineFunction) (b : Nat)
    (MBB : MachineBasicBlock) (pre post : List MachineInstruction) (MI : MachineInstruction)
    (Op0 : MachineOperand) (K : Nat) (VReg : MachineOperand)
    (hb : MF.BasicBlocks.get? b = some MBB) (hI : MBB.Instructions = pre ++ MI :: post)
    (h0 : MI.GetOperand 0 = some Op0) :
    (MaterializeConstant TM MF b pre.length K VReg false).map
        (fun r => MaterializedSequence MF r b pre.length false) =
      some (MakeMOV (MaterializeDest TM MF.NextVReg Op0) (MOVImmediate K) ::
        MaterializeMOVKs K (MaterializeDest TM MF.NextVReg Op0)) := by
  rw [MaterializeConstant_insert TM MF b MBB pre post MI Op0 K VReg hb hI h0]
  have hb2 : (MachineFunction.setBlock MF.GetNextAvailableVReg.2 b { MBB with Instructions :=
      pre ++ (MakeMOV (MaterializeDest TM MF.NextVReg Op0) (MOVImmediate K) ::
        MaterializeMOVKs K (MaterializeDest TM MF.NextVReg Op0)) ++ MI :: post }).BasicBlocks.get? b
      = some { MBB with Instructions :=
      pre ++ (MakeMOV (MaterializeDest TM MF.NextVReg Op0) (MOVImmediate K) ::
        MaterializeMOVKs K (MaterializeDest TM MF.NextVReg Op0)) ++ MI :: post } :=
    get?_setBlock_self _ b _ MBB (by simpa [MachineFunction.GetNextAvailableVReg] using hb)
  simp only [Option.map_some', MaterializedSequence, hb, hb2, hI]
  simp only [Bool.false_eq_true, if_false]
  refine congrArg some (take_drop_mid _ _ _ _ ?_)
  simp only [List.length_append, List.length_cons]
  omega

theorem MaterializedSequence_replace (TM : TargetMachine) (MF : MachineFunction) (b : Nat)
    (MBB : MachineBasicBlock) (pre post : List MachineInstruction) (MI : MachineInstruction)
    (K : Nat) (VReg : MachineOperand)
    (hb : MF.BasicBlocks.get? b = some MBB) (hI : MBB.Instructions = pre ++ MI :: post) :
    (MaterializeConstant TM MF b pre.length K VReg true).map
        (fun r => MaterializedSequence MF r b pre.length true) =
      some (((MI.SetOpcode (OperationCode.target AArch64.Opcodes.MOV_rc)).RemoveOperand
            1).AddImmediate (MOVImmediate K) 32 :: MaterializeMOVKs K VReg) := by
  rw [MaterializeConstant_replace TM MF b MBB pre post MI K VReg hb hI]
  have hb2 : (MachineFunction.setBlock MF b { MBB with Instructions :=
      pre ++ (((MI.SetOpcode (OperationCode.target AArch64.Opcodes.MOV_rc)).RemoveOperand
            1).AddImmediate (MOVImmediate K) 32 :: MaterializeMOVKs K VReg) ++ post }).BasicBlocks.get? b
      = some { MBB with Instructions :=
      pre ++ (((MI.SetOpcode (OperationCode.target AArch64.Opcodes.MOV_rc)).RemoveOperand
            1).AddImmediate (MOVImmediate K) 32 :: MaterializeMOVKs K VReg) ++ post } :=
    get?_setBlock_self _ b _ MBB hb
  simp only [Option.map_some', MaterializedSequence, hb, hb2, hI]
  simp only [if_true]
  refine congrArg some (take_drop_mid _ _ _ _ ?_)
  simp only [List.length_append, List.length_cons]
  omega

theorem toInt64_of_lt (K : Nat) (hK : K < 2 ^ 64) :
    toInt64 K = if K < 2 ^ 63 then (K : Int) else (K : Int) - 2 ^ 64 := by
  unfold toInt64
  rw [Nat.mod_eq_of_lt hK]

theorem IsInt16_iff (K : Nat) (hK : K < 2 ^ 64) :
    IsInt 16 (toInt64 K) = true ↔ (K < 2 ^ 15 ∨ 2 ^ 64 - 2 ^ 15 ≤ K) := by
  rw [toInt64_of_lt K hK]
  unfold IsInt
  simp only [decide_eq_true_eq]
  norm_num
  split_ifs with h <;> omega

theorem IsInt32_iff (K : Nat) (hK : K < 2 ^ 64) :
    IsInt 32 (toInt64 K) = true ↔ (K < 2 ^ 31 ∨ 2 ^ 64 - 2 ^ 31 ≤ K) := by
  rw [toInt64_of_lt K hK]
  unfold IsInt
  simp only [decide_eq_true_eq]
  norm_num
  split_ifs with h <;> omega

theorem execSeq_materialize_eq (W r K : Nat) (d : MachineOperand) :
    execSeq W r (MakeMOV d (MOVImmediate K) :: MaterializeMOVKs K d) =
      if IsInt 16 (toInt64 K) then K % 2 ^ 64 % 2 ^ W
      else if IsInt 32 (toInt64 K) then
        writeSlice (K % 2 ^ 16 % 2 ^ 64 % 2 ^ W) 16 (K % 2 ^ 32 / 2 ^ 16 % 2 ^ 64) % 2 ^ W
      else
        writeSlice (writeSlice (writeSlice (K % 2 ^ 16 % 2 ^ 64 % 2 ^ W) 16
          (K % 2 ^ 32 / 2 ^ 16 % 2 ^ 64) % 2 ^ W) 32 (K / 2 ^ 32 % 2 ^ 16 % 2 ^ 64) % 2 ^ W) 48
            (K / 2 ^ 48 % 2 ^ 64) % 2 ^ W := by
  cases h16 : IsInt 16 (toInt64 K) <;> cases h32 : IsInt 32 (toInt64 K) <;>
    simp [execSeq, execMI, MakeMOV, MakeMOVK, MaterializeMOVKs, MOVImmediate, h16, h32,
      MachineInstruction.SetOpcode, MachineInstruction.UpdateAttributes,
      MachineInstruction.AddOperand, MachineInstruction.AddImmediate,
      MachineOperand.CreateImmediate]

/-- The round trip holds for a 32-bit destination. -/
theorem execSeq_materialize_32 (r K : Nat) (d : MachineOperand) (hK : K < 2 ^ 64) :
    execSeq 32 r (MakeMOV d (MOVImmediate K) :: MaterializeMOVKs K d) = K % 2 ^ 32 := by
  rw [execSeq_materialize_eq]
  have h16 := IsInt16_iff K hK
  have h32 := IsInt32_iff K hK
  unfold writeSlice
  cases a : IsInt 16 (toInt64 K) <;> cases b : IsInt 32 (toInt64 K) <;>
    simp only [a, b, Bool.false_eq_true, if_false, if_true, false_iff, true_iff] at h16 h32 ⊢ <;>
    norm_num at h16 h32 hK ⊢ <;> omega

/-- The round trip holds for a 64-bit destination except for the constants
that fit in 32 bits signed, do not fit in 16 and are negative. -/
theorem execSeq_materialize_64 (r K : Nat) (d : MachineOperand) (hK : K < 2 ^ 64)
    (h : IsInt 16 (toInt64 K) = true ∨ IsInt 32 (toInt64 K) = false ∨ K < 2 ^ 31) :
    execSeq 64 r (MakeMOV d (MOVImmediate K) :: MaterializeMOVKs K d) = K := by
  rw [execSeq_materialize_eq]
  have h16 := IsInt16_iff K hK
  have h32 := IsInt32_iff K hK
  unfold writeSlice
  cases a : IsInt 16 (toInt64 K) <;> cases b : IsInt 32 (toInt64 K) <;>
    simp only [a, b, Bool.false_eq_true, if_false, if_true, false_iff, true_iff, false_or,
      true_or, or_false, or_true] at h h16 h32 ⊢ <;>
    norm_num at h h16 h32 hK ⊢ <;> omega

theorem MOVKSlices_MaterializeMOVKs (K : Nat) (d : MachineOperand) (hK : K < 2 ^ 64) :
    MOVKSlices (MaterializeMOVKs K d) =
      if IsInt 16 (toInt64 K) then []
      else if IsInt 32 (toInt64 K) then [(K / 2 ^ 16 % 2 ^ 16, 16)]
      else [(K / 2 ^ 16 % 2 ^ 16, 16), (K / 2 ^ 32 % 2 ^ 16, 32), (K / 2 ^ 48 % 2 ^ 16, 48)] := by
  cases h16 : IsInt 16 (toInt64 K) <;> cases h32 : IsInt 32 (toInt64 K) <;>
    simp [MOVKSlices, MakeMOVK, MaterializeMOVKs, h16, h32,
      MachineInstruction.SetOpcode, MachineInstruction.UpdateAttributes,
      MachineInstruction.AddOperand, MachineInstruction.AddImmediate,
      MachineOperand.CreateImmediate] <;> omega

theorem MOVKSlices_cons_MOV (M : MachineInstruction) (MIs : List MachineInstruction)
    (h : M.Opcode = OperationCode.target AArch64.Opcodes.MOV_rc) :
    MOVKSlices (M :: MIs) = MOVKSlices MIs := by
  simp [MOVKSlices, List.filterMap_cons, h]

/-- C1 (the code departs from the claim). The constant -100000, bit pattern
`0xFFFFFFFFFFFE7960`, fits in 32 bits signed but not in 16, so only `MOV` and
one `MOVK` are emitted; run on a 64-bit destination, in insert mode and in
replace mode, the sequence leaves `0x00000000FFFE7960` in the register, which
is not the constant. -/
theorem C1_negative_constant_in_64_bit_register :
    (MaterializeConstant sampleTM (sampleMF (sampleAnd 1 2 64 18446744073709451616)) 0 0
        18446744073709451616 {} false).map
      (fun r => execSeq 64 0 (MaterializedSequence
        (sampleMF (sampleAnd 1 2 64 18446744073709451616)) r 0 0 false)) = some 4294867296 ∧
    (MaterializeConstant sampleTM (sampleMF (sampleLoadImm 0 64 18446744073709451616)) 0 0
        18446744073709451616 (MachineOperand.CreateRegister 0 64) true).map
      (fun r => execSeq 64 0 (MaterializedSequence
        (sampleMF (sampleLoadImm 0 64 18446744073709451616)) r 0 0 true)) = some 4294867296 ∧
    (4294867296 : Nat) ≠ 18446744073709451616 := by
  decide

/-- C2 (counterexample). The constant `0x8000` does not fit in 16 bits signed
and all its slices at shifts 16, 32 and 48 are zero, yet a `MOVK_ri #0, 16` is
emitted; for `2^32` a `MOVK_ri #0, 48` is emitted for the zero top slice. -/
theorem C2_zero_slices_are_emitted :
    IsInt 16 (toInt64 32768) = false ∧
    SpecMOVKSlices 32768 = [] ∧
    (MaterializeConstant sampleTM (sampleMF (sampleAnd 1 2 32 32768)) 0 0 32768 {} false).map
      (fun r => MOVKSlices (MaterializedSequence (sampleMF (sampleAnd 1 2 32 32768)) r 0 0 false))
      = some [(0, 16)] ∧
    SpecMOVKSlices 4294967296 = [(0, 16), (1, 32)] ∧
    (MaterializeConstant sampleTM (sampleMF (sampleAnd 1 2 64 4294967296)) 0 0 4294967296 {}
        false).map
      (fun r => MOVKSlices (MaterializedSequence (sampleMF (sampleAnd 1 2 64 4294967296)) r 0 0
        false)) = some [(0, 16), (1, 32), (0, 48)] := by
  decide

/-- C2 (amended). For a constant `K` that does not fit in 16 bits signed, in
either mode: when `K` does not fit in 32 bits signed the `MOVK_ri`
instructions are exactly three, at shifts 16, 32, 48 in this order, each with
the 16-bit slice of `K` at its shift, zero slices included; when `K` fits in
32 bits signed (`2^15 <= K < 2^31`, or `K` negative and not below `-2^31`)
there is exactly one, at shift 16 with the slice of `K` there, zero included.
So in every case the first `MOVK_ri` is the one at shift 16. -/
theorem C2_movk_slices (TM : TargetMachine) (MF : MachineFunction) (b : Nat)
    (MBB : MachineBasicBlock) (pre post : List MachineInstruction) (MI : MachineInstruction)
    (d : MachineOperand) (rest : List MachineOperand) (K : Nat) (VReg : MachineOperand)
    (UseVRegAndMI : Bool)
    (hK : K < 2 ^ 64) (hb : MF.BasicBlocks.get? b = some MBB)
    (hI : MBB.Instructions = pre ++ MI :: post) (hops : MI.Operands = d :: rest)
    (h16 : IsInt 16 (toInt64 K) = false) :
    ∃ r, MaterializeConstant TM MF b pre.length K VReg UseVRegAndMI = some r ∧
      (IsInt 32 (toInt64 K) = false →
        MOVKSlices (MaterializedSequence MF r b pre.length UseVRegAndMI) =
          [(K / 2 ^ 16 % 2 ^ 16, 16), (K / 2 ^ 32 % 2 ^ 16, 32), (K / 2 ^ 48 % 2 ^ 16, 48)]) ∧
      (IsInt 32 (toInt64 K) = true →
        MOVKSlices (MaterializedSequence MF r b pre.length UseVRegAndMI) =
          [(K / 2 ^ 16 % 2 ^ 16, 16)]) ∧
      (IsInt 32 (toInt64 K) = true ↔ (K < 2 ^ 31 ∨ 2 ^ 64 - 2 ^ 31 ≤ K)) ∧
      (MOVKSlices (MaterializedSequence MF r b pre.length UseVRegAndMI)).head? =
        some (K / 2 ^ 16 % 2 ^ 16, 16) := by
  have h0 : MI.GetOperand 0 = some d := by simp [MachineInstruction.GetOperand, hops]
  have h32 := IsInt32_iff K hK
  have key : ∀ r, MaterializeConstant TM MF b pre.length K VReg UseVRegAndMI = some r →
      MOVKSlices (MaterializedSequence MF r b pre.length UseVRegAndMI) =
        (K / 2 ^ 16 % 2 ^ 16, 16) ::
          (if IsInt 32 (toInt64 K) = true then []
           else [(K / 2 ^ 32 % 2 ^ 16, 32), (K / 2 ^ 48 % 2 ^ 16, 48)]) := by
    intro r hr
    cases UseVRegAndMI with
    | false =>
      have hs := MaterializedSequence_insert TM MF b MBB pre post MI d K VReg hb hI h0
      rw [hr] at hs
      simp only [Option.map_some', Option.some.injEq] at hs
      rw [hs, MOVKSlices_cons_MOV _ _ (by rfl), MOVKSlices_MaterializeMOVKs K _ hK]
      cases h : IsInt 32 (toInt64 K) <;> simp [h16, h]
    | true =>
      have hs := MaterializedSequence_replace TM MF b MBB pre post MI K VReg hb hI
      rw [hr] at hs
      simp only [Option.map_some', Option.some.injEq] at hs
      rw [hs, MOVKSlices_cons_MOV _ _ (by rfl), MOVKSlices_MaterializeMOVKs K _ hK]
      cases h : IsInt 32 (toInt64 K) <;> simp [h16, h]
  have hsome : ∃ r, MaterializeConstant TM MF b pre.length K VReg UseVRegAndMI = some r := by
    cases UseVRegAndMI with
    | false =>
      have hs := MaterializedSequence_insert TM MF b MBB pre post MI d K VReg hb hI h0
      cases hr : MaterializeConstant TM MF b pre.length K VReg false with
      | none => rw [hr] at hs; cases hs
      | some r => exact ⟨r, rfl⟩
    | true =>
      have hs := MaterializedSequence_replace TM MF b MBB pre post MI K VReg hb hI
      cases hr : MaterializeConstant TM MF b pre.length K VReg true with
      | none => rw [hr] at hs; cases hs
      | some r => exact ⟨r, rfl⟩
  obtain ⟨r, hr⟩ := hsome
  have hk := key r hr
  refine ⟨r, hr, ?_, ?_, h32, ?_⟩
  · intro h
    rw [hk]
    simp [h]
  · intro h
    rw [hk]
    simp [h]
  · rw [hk]
    rfl

/-- C2 (amended), at `K = 0x123456789ABC` before a 64-bit `AND`, where the
three instructions carry `0x5678`, `0x1234` and 0, and at `K = -100000`, which
fits in 32 bits signed, where the one instruction carries `0xFFFE`. -/
theorem C2_movk_slices_witness :
    (∃ r, MaterializeConstant sampleTM (sampleMF (sampleAnd 1 2 64 20015998343868)) 0
        ([] : List MachineInstruction).length 20015998343868 {} false = some r ∧
      MOVKSlices (MaterializedSequence (sampleMF (sampleAnd 1 2 64 20015998343868)) r 0
          ([] : List MachineInstruction).length false) =
        [(0x5678, 16), (0x1234, 32), (0, 48)]) ∧
    (∃ r, MaterializeConstant sampleTM (sampleMF (sampleAnd 1 2 64 18446744073709451616)) 0
        ([] : List MachineInstruction).length 18446744073709451616 {} false = some r ∧
      MOVKSlices (MaterializedSequence (sampleMF (sampleAnd 1 2 64 18446744073709451616)) r 0
          ([] : List MachineInstruction).length false) = [(0xFFFE, 16)]) := by
  obtain ⟨r, h1, h2, _, _, _⟩ := C2_movk_slices sampleTM
    (sampleMF (sampleAnd 1 2 64 20015998343868)) 0
    { Name := "entry", Instructions := [sampleAnd 1 2 64 20015998343868] } [] []
    (sampleAnd 1 2 64 20015998343868) (MachineOperand.CreateVirtualRegister 1 64)
    [MachineOperand.CreateVirtualRegister 2 64, MachineOperand.CreateImmediate 20015998343868 32]
    20015998343868 {} false (by decide) (by decide) (by decide) (by decide) (by decide)
  obtain ⟨r', h1', _, h3', _, _⟩ := C2_movk_slices sampleTM
    (sampleMF (sampleAnd 1 2 64 18446744073709451616)) 0
    { Name := "entry", Instructions := [sampleAnd 1 2 64 18446744073709451616] } [] []
    (sampleAnd 1 2 64 18446744073709451616) (MachineOperand.CreateVirtualRegister 1 64)
    [MachineOperand.CreateVirtualRegister 2 64,
      MachineOperand.CreateImmediate 18446744073709451616 32]
    18446744073709451616 {} false (by decide) (by decide) (by decide) (by decide) (by decide)
  exact ⟨⟨r, h1, (h2 (by decide)).trans (by decide)⟩, ⟨r', h1', (h3' (by decide)).trans (by decide)⟩⟩

/-- C3. A constant that fits in 16 bits signed gives exactly one instruction,
`MOV_rc dest, K`; one that fits in 32 bits signed but not in 16 gives exactly
two, `MOV_rc dest, K & 0xffff` and `MOVK_ri dest, (K mod 2^32) >> 16, 16`.
In insert mode `dest` is the allocated register; in replace mode, where the
caller hands in the destination `d` of the two-operand instruction, it is
`d`. -/
theorem C3_short_constants (TM : TargetMachine) (MF : MachineFunction) (b : Nat)
    (MBB : MachineBasicBlock) (pre post : List MachineInstruction) (MI : MachineInstruction)
    (d : MachineOperand) (rest : List MachineOperand) (K : Nat) (VReg : MachineOperand)
    (UseVRegAndMI : Bool)
    (hb : MF.BasicBlocks.get? b = some MBB)
    (hI : MBB.Instructions = pre ++ MI :: post) (hops : MI.Operands = d :: rest)
    (hrep : UseVRegAndMI = true → VReg = d ∧ rest.length = 1) :
    ∃ r, MaterializeConstant TM MF b pre.length K VReg UseVRegAndMI = some r ∧
      (UseVRegAndMI = true → r.VReg = d) ∧
      (IsInt 16 (toInt64 K) = true →
        seqView (MaterializedSequence MF r b pre.length UseVRegAndMI) =
          [(OperationCode.target AArch64.Opcodes.MOV_rc,
            [r.VReg, MachineOperand.CreateImmediate K 32])]) ∧
      (IsInt 16 (toInt64 K) = false → IsInt 32 (toInt64 K) = true →
        seqView (MaterializedSequence MF r b pre.length UseVRegAndMI) =
          [(OperationCode.target AArch64.Opcodes.MOV_rc,
            [r.VReg, MachineOperand.CreateImmediate (K % 2 ^ 16) 32]),
           (OperationCode.target AArch64.Opcodes.MOVK_ri,
            [r.VReg, MachineOperand.CreateImmediate (K % 2 ^ 32 / 2 ^ 16) 32,
              MachineOperand.CreateImmediate 16 32])]) := by
  have h0 : MI.GetOperand 0 = some d := by simp [MachineInstruction.GetOperand, hops]
  cases UseVRegAndMI with
  | false =>
    have he := MaterializeConstant_insert TM MF b MBB pre post MI d K VReg hb hI h0
    have hs := MaterializedSequence_insert TM MF b MBB pre post MI d K VReg hb hI h0
    rw [he] at hs
    simp only [Option.map_some', Option.some.injEq] at hs
    refine ⟨_, he, ?_, ?_, ?_⟩
    · intro h; cases h
    · intro h
      rw [hs]
      simp [seqView, MakeMOV, MaterializeMOVKs, MOVImmediate, h, MachineInstruction.SetOpcode,
        MachineInstruction.UpdateAttributes, MachineInstruction.AddOperand,
        MachineInstruction.AddImmediate]
    · intro h h'
      rw [hs]
      simp [seqView, MakeMOV, MakeMOVK, MaterializeMOVKs, MOVImmediate, h, h',
        MachineInstruction.SetOpcode,
        MachineInstruction.UpdateAttributes, MachineInstruction.AddOperand,
        MachineInstruction.AddImmediate]
  | true =>
    obtain ⟨hV, hlen⟩ := hrep rfl
    obtain ⟨x, hx⟩ : ∃ x, rest = [x] := by
      match rest, hlen with
      | [x], _ => exact ⟨x, rfl⟩
    subst hx
    have he := MaterializeConstant_replace TM MF b MBB pre post MI K VReg hb hI
    have hs := MaterializedSequence_replace TM MF b MBB pre post MI K VReg hb hI
    rw [he] at hs
    simp only [Option.map_some', Option.some.injEq] at hs
    refine ⟨_, he, ?_, ?_, ?_⟩
    · intro _; exact hV
    · intro h
      rw [hs]
      simp [seqView, MaterializeMOVKs, MOVImmediate, h, MachineInstruction.SetOpcode,
        MachineInstruction.UpdateAttributes, MachineInstruction.AddOperand,
        MachineInstruction.AddImmediate, MachineInstruction.RemoveOperand, hops, hV]
    · intro h h'
      rw [hs]
      simp [seqView, MakeMOVK, MaterializeMOVKs, MOVImmediate, h, h',
        MachineInstruction.SetOpcode,
        MachineInstruction.UpdateAttributes, MachineInstruction.AddOperand,
        MachineInstruction.AddImmediate, MachineInstruction.RemoveOperand, hops, hV]

/-- C3, at `K = 0x12345678` for the `LOAD_IMM` of `return 0x12345678` in
replace mode: the immediates are `0x5678` and `0x1234`, the shift is 16. -/
theorem C3_short_constants_witness :
    (∃ r, MaterializeConstant sampleTM (sampleMF (sampleLoadImm 32 32 305419896)) 0
        ([] : List MachineInstruction).length 305419896 (MachineOperand.CreateRegister 32 32)
        true = some r ∧
      (true = true → r.VReg = MachineOperand.CreateRegister 32 32) ∧
      (IsInt 16 (toInt64 305419896) = true →
        seqView (MaterializedSequence (sampleMF (sampleLoadImm 32 32 305419896)) r 0
          ([] : List MachineInstruction).length true) =
          [(OperationCode.target AArch64.Opcodes.MOV_rc,
            [r.VReg, MachineOperand.CreateImmediate 305419896 32])]) ∧
      (IsInt 16 (toInt64 305419896) = false → IsInt 32 (toInt64 305419896) = true →
        seqView (MaterializedSequence (sampleMF (sampleLoadImm 32 32 305419896)) r 0
          ([] : List MachineInstruction).length true) =
          [(OperationCode.target AArch64.Opcodes.MOV_rc,
            [r.VReg, MachineOperand.CreateImmediate (305419896 % 2 ^ 16) 32]),
           (OperationCode.target AArch64.Opcodes.MOVK_ri,
            [r.VReg, MachineOperand.CreateImmediate (305419896 % 2 ^ 32 / 2 ^ 16) 32,
              MachineOperand.CreateImmediate 16 32])])) ∧
    IsInt 16 (toInt64 305419896) = false ∧ IsInt 32 (toInt64 305419896) = true ∧
    305419896 % 2 ^ 16 = 0x5678 ∧ 305419896 % 2 ^ 32 / 2 ^ 16 = 0x1234 :=
  ⟨C3_short_constants sampleTM (sampleMF (sampleLoadImm 32 32 305419896)) 0
    { Name := "entry", Instructions := [sampleLoadImm 32 32 305419896] } [] []
    (sampleLoadImm 32 32 305419896) (MachineOperand.CreateRegister 32 32)
    [MachineOperand.CreateImmediate 305419896 32] 305419896 (MachineOperand.CreateRegister 32 32)
    true (by decide) (by decide) (by decide) (fun _ => ⟨rfl, rfl⟩),
   by decide, by decide, by decide, by decide⟩

/-- C4. Replace mode, with the destination `d` of the instruction handed in
as `VReg`: the instruction at the position becomes a `MOV_rc` whose operand 0
is still `d`, the `MOVK_ri` instructions follow it directly and all have
destination `d`, the rest of the function, the counter included, is
untouched.  Insert mode: the counter hands out one register, returned in
`VReg`; every emitted instruction has it as destination; they stand directly
before the triggering instruction, which is unchanged and is the returned
one. -/
theorem C4_replace_and_insert_modes (TM : TargetMachine) (MF : MachineFunction) (b : Nat)
    (MBB : MachineBasicBlock) (pre post : List MachineInstruction) (MI : MachineInstruction)
    (d : MachineOperand) (rest : List MachineOperand) (K : Nat) (VReg : MachineOperand)
    (hb : MF.BasicBlocks.get? b = some MBB)
    (hI : MBB.Instructions = pre ++ MI :: post) (hops : MI.Operands = d :: rest) :
    (VReg = d → ∃ r MI1 MOVKs,
      MaterializeConstant TM MF b pre.length K VReg true = some r ∧
      r.MF = MF.setBlock b { MBB with Instructions := pre ++ MI1 :: MOVKs ++ post } ∧
      r.MF.NextVReg = MF.NextVReg ∧ r.VReg = VReg ∧
      MI1.Opcode = OperationCode.target AArch64.Opcodes.MOV_rc ∧
      MI1.GetOperand 0 = MI.GetOperand 0 ∧
      ∀ M ∈ MOVKs, M.Opcode = OperationCode.target AArch64.Opcodes.MOVK_ri ∧
        M.GetOperand 0 = MI.GetOperand 0) ∧
    (∃ r Seq,
      MaterializeConstant TM MF b pre.length K VReg false = some r ∧
      r.MF = (MF.GetNextAvailableVReg.2).setBlock b
        { MBB with Instructions := pre ++ Seq ++ MI :: post } ∧
      r.MF.instrAt b r.MI = some MI ∧
      r.VReg.IsVirtualReg = true ∧ r.VReg.GetReg = MF.GetNextAvailableVReg.1 % 2 ^ 64 ∧
      r.MF.NextVReg = (MF.NextVReg + 1) % 2 ^ 32 ∧
      Seq ≠ [] ∧ ∀ M ∈ Seq, M.GetOperand 0 = some r.VReg) := by
  have h0 : MI.GetOperand 0 = some d := by simp [MachineInstruction.GetOperand, hops]
  constructor
  · intro hV
    refine ⟨_, ((MI.SetOpcode (OperationCode.target AArch64.Opcodes.MOV_rc)).RemoveOperand
        1).AddImmediate (MOVImmediate K) 32, MaterializeMOVKs K VReg,
      MaterializeConstant_replace TM MF b MBB pre post MI K VReg hb hI, ?_, rfl, rfl, ?_, ?_, ?_⟩
    · simp
    · simp [MachineInstruction.SetOpcode, MachineInstruction.UpdateAttributes,
        MachineInstruction.AddImmediate, MachineInstruction.AddOperand,
        MachineInstruction.RemoveOperand]
    · simp [MachineInstruction.SetOpcode, MachineInstruction.UpdateAttributes,
        MachineInstruction.AddImmediate, MachineInstruction.AddOperand,
        MachineInstruction.RemoveOperand, MachineInstruction.GetOperand, hops]
    · intro M hM
      rw [h0]
      subst hV
      unfold MaterializeMOVKs at hM
      cases h16 : IsInt 16 (toInt64 K) <;> cases h32 : IsInt 32 (toInt64 K) <;>
        simp [h16, h32] at hM <;>
        (try rcases hM with hM | hM | hM) <;> subst_vars <;>
        simp [MakeMOVK, MachineInstruction.SetOpcode, MachineInstruction.UpdateAttributes,
          MachineInstruction.AddImmediate, MachineInstruction.AddOperand,
          MachineInstruction.GetOperand]
  · refine ⟨_, MakeMOV (MaterializeDest TM MF.NextVReg d) (MOVImmediate K) ::
        MaterializeMOVKs K (MaterializeDest TM MF.NextVReg d),
      MaterializeConstant_insert TM MF b MBB pre post MI d K VReg hb hI h0,
      rfl, ?_, ?_, ?_, ?_, ?_, ?_⟩
    · have hb2 := get?_setBlock_self MF.GetNextAvailableVReg.2 b { MBB with Instructions :=
        pre ++ (MakeMOV (MaterializeDest TM MF.NextVReg d) (MOVImmediate K) ::
          MaterializeMOVKs K (MaterializeDest TM MF.NextVReg d)) ++ MI :: post } MBB
        (by simpa [MachineFunction.GetNextAvailableVReg] using hb)
      simp only [MachineFunction.instrAt, hb2]
      have := get?_length_append_cons (pre ++ (MakeMOV (MaterializeDest TM MF.NextVReg d)
        (MOVImmediate K) :: MaterializeMOVKs K (MaterializeDest TM MF.NextVReg d))) post MI
      simpa [Nat.add_assoc] using this
    · simp [MaterializeDest, MachineOperand.IsVirtualReg, MachineOperand.CreateVirtualRegister,
        MachineOperand.SetRegClass]
    · simp [MaterializeDest, MachineOperand.GetReg, MachineOperand.CreateVirtualRegister,
        MachineOperand.SetRegClass, MachineFunction.GetNextAvailableVReg]
    · simp [MachineFunction.setBlock, MachineFunction.GetNextAvailableVReg]
    · simp
    · intro M hM
      simp only [List.mem_cons] at hM
      rcases hM with hM | hM
      · subst hM
        simp [MakeMOV, MachineInstruction.SetOpcode, MachineInstruction.UpdateAttributes,
          MachineInstruction.AddImmediate, MachineInstruction.AddOperand,
          MachineInstruction.GetOperand]
      · unfold MaterializeMOVKs at hM
        cases h16 : IsInt 16 (toInt64 K) <;> cases h32 : IsInt 32 (toInt64 K) <;>
          simp [h16, h32] at hM <;>
          (try rcases hM with hM | hM | hM) <;> subst_vars <;>
          simp [MakeMOVK, MachineInstruction.SetOpcode, MachineInstruction.UpdateAttributes,
            MachineInstruction.AddImmediate, MachineInstruction.AddOperand,
            MachineInstruction.GetOperand]

/-- C4, at the constant `0x12345678`, at a `LOAD_IMM` into register 32 handed
in as `VReg`. -/
theorem C4_replace_and_insert_modes_witness :
    (MachineOperand.CreateRegister 32 32 = MachineOperand.CreateRegister 32 32 → ∃ r MI1 MOVKs,
      MaterializeConstant sampleTM (sampleMF (sampleLoadImm 32 32 305419896)) 0
        ([] : List MachineInstruction).length 305419896 (MachineOperand.CreateRegister 32 32)
        true = some r ∧
      r.MF = (sampleMF (sampleLoadImm 32 32 305419896)).setBlock 0
        { ({ Name := "entry", Instructions := [sampleLoadImm 32 32 305419896] } :
            MachineBasicBlock) with Instructions := [] ++ MI1 :: MOVKs ++ [] } ∧
      r.MF.NextVReg = (sampleMF (sampleLoadImm 32 32 305419896)).NextVReg ∧
      r.VReg = MachineOperand.CreateRegister 32 32 ∧
      MI1.Opcode = OperationCode.target AArch64.Opcodes.MOV_rc ∧
      MI1.GetOperand 0 = (sampleLoadImm 32 32 305419896).GetOperand 0 ∧
      ∀ M ∈ MOVKs, M.Opcode = OperationCode.target AArch64.Opcodes.MOVK_ri ∧
        M.GetOperand 0 = (sampleLoadImm 32 32 305419896).GetOperand 0) ∧
    (∃ r Seq,
      MaterializeConstant sampleTM (sampleMF (sampleLoadImm 32 32 305419896)) 0
        ([] : List MachineInstruction).length 305419896 (MachineOperand.CreateRegister 32 32)
        false = some r ∧
      r.MF = ((sampleMF (sampleLoadImm 32 32 305419896)).GetNextAvailableVReg.2).setBlock 0
        { ({ Name := "entry", Instructions := [sampleLoadImm 32 32 305419896] } :
            MachineBasicBlock) with
          Instructions := [] ++ Seq ++ sampleLoadImm 32 32 305419896 :: [] } ∧
      r.MF.instrAt 0 r.MI = some (sampleLoadImm 32 32 305419896) ∧
      r.VReg.IsVirtualReg = true ∧
      r.VReg.GetReg = (sampleMF (sampleLoadImm 32 32 305419896)).GetNextAvailableVReg.1 % 2 ^ 64 ∧
      r.MF.NextVReg = ((sampleMF (sampleLoadImm 32 32 305419896)).NextVReg + 1) % 2 ^ 32 ∧
      Seq ≠ [] ∧ ∀ M ∈ Seq, M.GetOperand 0 = some r.VReg) :=
  C4_replace_and_insert_modes sampleTM (sampleMF (sampleLoadImm 32 32 305419896)) 0
    { Name := "entry", Instructions := [sampleLoadImm 32 32 305419896] } [] []
    (sampleLoadImm 32 32 305419896) (MachineOperand.CreateRegister 32 32)
    [MachineOperand.CreateImmediate 305419896 32] 305419896 (MachineOperand.CreateRegister 32 32)
    (by decide) (by decide) (by decide)

theorem IsStackSlot_InsertStackSlot (SF : StackFrame) (ID Size Align : Nat) :
    (SF.InsertStackSlot ID Size Align).IsStackSlot ID = true := by
  unfold StackFrame.InsertStackSlot
  by_cases h : SF.IsStackSlot ID = true
  · simp [h]
  · rw [if_neg h]
    simp [StackFrame.IsStackSlot]

/-- C10 (counterexample). `NextVReg` is an `unsigned`: inserting the slot with
the largest id, `2^32 - 1`, sets the counter to `ID + 1`, which wraps to 0, so
the counter is not above the id afterwards. -/
theorem C10_counter_wraps_at_largest_id :
    (MachineFunction.InsertStackSlot {} 4294967295 4 4).NextVReg = 0 ∧
    ¬ (4294967295 < (MachineFunction.InsertStackSlot {} 4294967295 4 4).NextVReg) := by
  decide

/-- C10 (amended). For every function state and every id below the largest
`unsigned`, after `InsertStackSlot(ID, Size, Align)` the counter is strictly
above `ID`, not below its old value, and `IsStackSlot(ID)` holds. -/
theorem C10_InsertStackSlot_bumps_counter (MF : MachineFunction) (ID Size Align : Nat)
    (hID : ID < 2 ^ 32 - 1) :
    ID < (MF.InsertStackSlot ID Size Align).NextVReg ∧
    MF.NextVReg ≤ (MF.InsertStackSlot ID Size Align).NextVReg ∧
    (MF.InsertStackSlot ID Size Align).IsStackSlot ID = true := by
  have hmod : (ID + 1) % 2 ^ 32 = ID + 1 := Nat.mod_eq_of_lt (by omega)
  unfold MachineFunction.InsertStackSlot MachineFunction.IsStackSlot
  by_cases h : MF.NextVReg ≤ ID
  · simp only [h, if_true, hmod, IsStackSlot_InsertStackSlot]
    refine ⟨?_, ?_, trivial⟩ <;> omega
  · simp only [h, if_false, IsStackSlot_InsertStackSlot]
    refine ⟨?_, ?_, trivial⟩ <;> omega

/-- C10 (amended), at slot id 7 in a function whose counter is 3. -/
theorem C10_InsertStackSlot_bumps_counter_witness :
    7 < (MachineFunction.InsertStackSlot { NextVReg := 3 } 7 4 4).NextVReg ∧
    (3 : Nat) ≤ (MachineFunction.InsertStackSlot { NextVReg := 3 } 7 4 4).NextVReg ∧
    (MachineFunction.InsertStackSlot { NextVReg := 3 } 7 4 4).IsStackSlot 7 = true :=
  C10_InsertStackSlot_bumps_counter { NextVReg := 3 } 7 4 4 (by decide)

/-! ## Facts about the lowering state -/

theorem Instrs_InsertInstr (S : IRtoLLIR) (bb : Nat) (MI : MachineInstruction)
    (h : bb < S.MF.BasicBlocks.length) :
    (S.InsertInstr bb MI).Instrs bb = S.Instrs bb ++ [MI] := by
  simp [IRtoLLIR.Instrs, IRtoLLIR.InsertInstr, MachineFunction.InsertInstr,
    List.get?_eq_getElem?, List.getElem?_eq_getElem h, MachineBasicBlock.InsertInstr]

theorem Instrs_NextAvailableVReg (S : IRtoLLIR) (bb : Nat) :
    S.NextAvailableVReg.2.Instrs bb = S.Instrs bb := by
  simp [IRtoLLIR.Instrs, IRtoLLIR.NextAvailableVReg, MachineFunction.GetNextAvailableVReg]

theorem Instrs_EmitLoadFromSlot (S : IRtoLLIR) (bb W Slot : Nat)
    (h : bb < S.MF.BasicBlocks.length) :
    (EmitLoadFromSlot S bb W Slot).2.Instrs bb = S.Instrs bb ++
      [((MachineInstruction.create OperationCode.LOAD).AddVirtualRegister S.MF.NextVReg
        W).AddStackAccess Slot 0] := by
  unfold EmitLoadFromSlot
  rw [Instrs_InsertInstr _ _ _ (by simpa [IRtoLLIR.NextAvailableVReg,
    MachineFunction.GetNextAvailableVReg] using h), Instrs_NextAvailableVReg]
  simp [IRtoLLIR.NextAvailableVReg, MachineFunction.GetNextAvailableVReg]

theorem FrameOK_refl (S : IRtoLLIR) (bb ID : Nat) : FrameOK S S bb ID :=
  ⟨rfl, rfl, rfl, rfl, rfl, fun _ _ => rfl, fun _ => ⟨[], by simp, by simp⟩⟩

theorem FrameOK_EmitLoadFromSlot (S : IRtoLLIR) (bb ID W Slot : Nat) :
    FrameOK S (EmitLoadFromSlot S bb W Slot).2 bb ID := by
  refine ⟨rfl, rfl, rfl, ?_, rfl, fun _ _ => rfl, fun h => ⟨_, Instrs_EmitLoadFromSlot S bb W Slot h, ?_⟩⟩
  · simp [EmitLoadFromSlot, IRtoLLIR.InsertInstr, MachineFunction.InsertInstr,
      IRtoLLIR.NextAvailableVReg, MachineFunction.GetNextAvailableVReg]
  · intro M hM
    simp only [List.mem_singleton] at hM
    subst hM
    exact ⟨_, rfl, rfl⟩

theorem FrameOK_GetVRegForValue (S : IRtoLLIR) (Val : Value) (bb : Nat) (IsDef : Bool)
    (W : Nat) : FrameOK S (GetVRegForValue S Val bb IsDef W).2 bb Val.ID := by
  unfold GetVRegForValue
  split
  · exact FrameOK_EmitLoadFromSlot S bb Val.ID W Val.ID
  · split
    · split
      · exact FrameOK_EmitLoadFromSlot S bb Val.ID W _
      · exact FrameOK_refl S bb Val.ID
    · split
      · exact FrameOK_EmitLoadFromSlot S bb Val.ID W _
      · rename_i hsp
        refine ⟨rfl, rfl, rfl, rfl, rfl, ?_, fun _ => ⟨[], ?_, by simp⟩⟩
        · intro k hk
          rcases hk with hk | hk
          · simp [MapSet, hk, IRtoLLIR.NextAvailableVReg]
          · by_cases hkid : k = Val.ID
            · subst hkid; exact absurd hsp hk
            · simp [MapSet, hkid, IRtoLLIR.NextAvailableVReg]
        · simp [IRtoLLIR.Instrs, IRtoLLIR.NextAvailableVReg,
            MachineFunction.GetNextAvailableVReg]

/-- What an operand materialization leaves untouched, and what it appends. -/
theorem GetMachineOperandFromValue_frame (TM : TargetMachine) (S S' : IRtoLLIR) (Val : Value)
    (bb : Nat) (IsDef : Bool) (MO : MachineOperand)
    (h : GetMachineOperandFromValue TM S Val bb IsDef = some (MO, S')) :
    FrameOK S S' bb Val.ID := by
  unfold GetMachineOperandFromValue at h
  split at h
  · split at h <;> split at h <;> simp only [Option.some.injEq, Prod.mk.injEq] at h <;>
      rw [← h.2] <;> exact FrameOK_GetVRegForValue S Val bb IsDef _
  · split at h
    · split at h <;> simp only [Option.some.injEq, Prod.mk.injEq] at h <;> rw [← h.2] <;>
        exact FrameOK_refl S bb Val.ID
    · split at h
      · simp only [Option.some.injEq, Prod.mk.injEq] at h
        rw [← h.2]
        exact FrameOK_refl S bb Val.ID
      · split at h
        · simp only [Option.some.injEq, Prod.mk.injEq] at h
          rw [← h.2]
          refine ⟨rfl, rfl, rfl, ?_, rfl, fun _ _ => rfl, fun hb =>
            ⟨[((MachineInstruction.create OperationCode.GLOBAL_ADDRESS).AddVirtualRegister
              S.NextAvailableVReg.1 TM.PointerSize).AddGlobalSymbol Val.Name], ?_, ?_⟩⟩
          · simp [IRtoLLIR.InsertInstr, MachineFunction.InsertInstr,
              IRtoLLIR.NextAvailableVReg, MachineFunction.GetNextAvailableVReg]
          · rw [Instrs_InsertInstr _ _ _ (by simpa [IRtoLLIR.NextAvailableVReg,
              MachineFunction.GetNextAvailableVReg] using hb), Instrs_NextAvailableVReg]
          · intro M hM
            simp only [List.mem_singleton] at hM
            subst hM
            exact ⟨_, rfl, rfl⟩
        · cases h

theorem CallFrame_refl (S : IRtoLLIR) (IDs : List Nat) : CallFrame S S IDs :=
  ⟨rfl, rfl, rfl, rfl, fun _ _ => rfl⟩

theorem CallFrame_trans {S S1 S2 : IRtoLLIR} {A B : List Nat} (h1 : CallFrame S S1 A)
    (h2 : CallFrame S1 S2 B) : CallFrame S S2 (A ++ B) := by
  obtain ⟨a1, a2, a3, a4, a5⟩ := h1
  obtain ⟨b1, b2, b3, b4, b5⟩ := h2
  refine ⟨b1.trans a1, b2.trans a2, b3.trans a3, b4.trans a4, fun k hk => ?_⟩
  rw [b5 k (fun h => hk (List.mem_append_right A h)), a5 k (fun h => hk (List.mem_append_left B h))]

theorem CallFrame_of_FrameOK {S S' : IRtoLLIR} {bb ID : Nat} (h : FrameOK S S' bb ID) :
    CallFrame S S' [ID] :=
  ⟨h.1, h.2.1, h.2.2.1, h.2.2.2.1, fun k hk => h.2.2.2.2.2.1 k (Or.inl (by simpa using hk))⟩

theorem CallFrame_InsertInstr (S : IRtoLLIR) (bb : Nat) (MI : MachineInstruction)
    (IDs : List Nat) : CallFrame S (S.InsertInstr bb MI) IDs :=
  ⟨rfl, rfl, rfl, by simp [IRtoLLIR.InsertInstr, MachineFunction.InsertInstr], fun _ _ => rfl⟩

theorem LowerStructArg_frame (TM : TargetMachine) (bb : Nat) (VRegs : List Nat) :
    ∀ (S S' : IRtoLLIR) (pc pc' : Nat), LowerStructArg TM S bb VRegs pc = some (S', pc') →
      CallFrame S S' [] := by
  induction VRegs with
  | nil =>
    intro S S' pc pc' h
    simp only [LowerStructArg, Option.some.injEq, Prod.mk.injEq] at h
    rw [← h.1]
    exact CallFrame_refl S []
  | cons v rest ih =>
    intro S S' pc pc' h
    simp only [LowerStructArg] at h
    split at h
    · cases h
    · exact CallFrame_trans (CallFrame_InsertInstr S bb _ []) (ih _ _ _ _ h)

theorem LowerAddressArg_frame (TM : TargetMachine) (I : CallInstruction) (bb : Nat)
    (S S' : IRtoLLIR) (pc pc' : Nat) (Param : Value)
    (h : LowerAddressArg TM I bb S pc Param = some (S', pc')) : CallFrame S S' [Param.ID] := by
  unfold LowerAddressArg at h
  split at h
  · cases h
  · simp only [Option.some.injEq, Prod.mk.injEq] at h
    rw [← h.1]
    exact CallFrame_InsertInstr S bb _ _

theorem LowerScalarArg_frame (TM : TargetMachine) (bb : Nat)
    (S S' : IRtoLLIR) (pc pc' : Nat) (Param : Value)
    (h : LowerScalarArg TM bb S pc Param = some (S', pc')) : CallFrame S S' [Param.ID] := by
  unfold LowerScalarArg at h
  split at h
  · cases h
  · rename_i Src S1 hg
    have hf := CallFrame_of_FrameOK
      (GetMachineOperandFromValue_frame TM S S1 Param bb false Src hg)
    split at h
    · cases h
    · rename_i Dest hd
      simp only [Option.some.injEq, Prod.mk.injEq] at h
      rw [← h.1]
      have := CallFrame_trans hf (CallFrame_InsertInstr S1 bb
        (((ArgMoveInstr Param).AddOperand Dest).AddOperand Src) [])
      simpa using this

theorem LowerCallArg_frame (TM : TargetMachine) (I : CallInstruction) (bb : Nat)
    (S S' : IRtoLLIR) (pc pc' : Nat) (Param : Value)
    (h : LowerCallArg TM I bb S pc Param = some (S', pc')) : CallFrame S S' [Param.ID] := by
  unfold LowerCallArg at h
  split at h
  · split at h
    · cases h
    · have := LowerStructArg_frame TM bb _ _ _ _ _ h
      exact ⟨this.1, this.2.1, this.2.2.1, this.2.2.2.1, fun k _ => this.2.2.2.2 k (by simp)⟩
  · split at h
    · exact LowerAddressArg_frame TM I bb S S' pc pc' Param h
    · exact LowerScalarArg_frame TM bb S S' pc pc' Param h

theorem LowerCallArgs_frame (TM : TargetMachine) (I : CallInstruction) (bb : Nat)
    (Args : List Value) :
    ∀ (S S' : IRtoLLIR) (pc pc' : Nat), LowerCallArgs TM I bb S pc Args = some (S', pc') →
      CallFrame S S' (Args.map (fun a => a.ID)) := by
  induction Args with
  | nil =>
    intro S S' pc pc' h
    simp only [LowerCallArgs, Option.some.injEq, Prod.mk.injEq] at h
    rw [← h.1]
    exact CallFrame_refl S _
  | cons a rest ih =>
    intro S S' pc pc' h
    simp only [LowerCallArgs] at h
    split at h
    · cases h
    · rename_i S1 pc1 h1
      have := CallFrame_trans (LowerCallArg_frame TM I bb _ _ _ _ _ h1) (ih _ _ _ _ h)
      simpa using this

theorem SpillReturnValue_frame (TM : TargetMachine) (I : CallInstruction) (bb Slot : Nat)
    (n : Nat) : ∀ (i rb : Nat) (S S' : IRtoLLIR) (MI : MachineInstruction),
      SpillReturnValue TM I bb Slot n i rb S = some (MI, S') →
      S'.SpilledReturnValuesIDToStackID = S.SpilledReturnValuesIDToStackID ∧
      S'.IRVregToLLIRVreg = S.IRVregToLLIRVreg ∧ S'.MF.SF = S.MF.SF := by
  induction n with
  | zero => intro i rb S S' MI h; simp [SpillReturnValue] at h
  | succ n ih =>
    intro i rb S S' MI h
    simp only [SpillReturnValue] at h
    split at h
    · cases h
    · split at h
      · simp only [Option.some.injEq, Prod.mk.injEq] at h
        rw [← h.2]
        exact ⟨rfl, rfl, rfl⟩
      · have := ih _ _ _ _ _ h
        exact this

theorem LowerCall_records_slot (TM : TargetMachine) (S S' : IRtoLLIR) (I : CallInstruction)
    (bb : Nat) (h : LowerCall TM S I bb = some S') (hv : I.Ty.IsVoid = false)
    (hun : S.IRVregToLLIRVreg I.ID = none) (hargs : ∀ a ∈ I.Args, a.ID ≠ I.ID) :
    ∃ Slot, IsSpilledCallResult S' I.ID Slot ∧ S'.MF.IsStackSlot Slot = true := by
  unfold LowerCall at h
  split at h
  · cases h
  · rename_i MI S1 hc
    simp only [Option.some.injEq] at h
    unfold ConvertCall at hc
    simp only [hv, Bool.false_eq_true, if_false] at hc
    split at hc
    · cases hc
    · rename_i Sa pc ha
      have hf := LowerCallArgs_frame TM I bb I.Args _ _ _ _ ha
      split at hc
      · have hs := SpillReturnValue_frame TM I bb _ _ _ _ _ _ _ hc
        refine ⟨(Sa.InsertInstr bb ((MachineInstruction.create OperationCode.CALL).AddFunctionName
          I.Name)).NextAvailableVReg.1, ⟨?_, ?_⟩, ?_⟩
        · rw [← h]
          show S1.SpilledReturnValuesIDToStackID I.ID = _
          rw [hs.1]
          simp [MapSet]
        · rw [← h]
          show S1.IRVregToLLIRVreg I.ID = _
          rw [hs.2.1]
          show Sa.IRVregToLLIRVreg I.ID = none
          rw [hf.2.2.2.2 I.ID (by
            intro hm
            obtain ⟨a, ha1, ha2⟩ := List.mem_map.mp hm
            exact hargs a ha1 ha2)]
          exact hun
        · rw [← h]
          show S1.MF.SF.IsStackSlot _ = true
          rw [hs.2.2]
          simp only [MachineFunction.InsertStackSlot]
          exact IsStackSlot_InsertStackSlot _ _ _ _
      · cases hc

/-- C9. (a) Lowering a non-void call `c` records a stack slot for `c` and
leaves the register table without an entry for `c`. (b) In any such state a
use of `c` as a source operand appends exactly one `LOAD` of the register the
counter hands out from the recorded slot and returns that register, which
the `LOAD` defines; the record stays, so this holds for every later use.
(c) No operand materialization, of any value, removes the record. -/
theorem C9_call_result_is_loaded_from_its_slot (TM : TargetMachine) :
    (∀ (S S' : IRtoLLIR) (I : CallInstruction) (bb : Nat),
      LowerCall TM S I bb = some S' → I.Ty.IsVoid = false →
      S.IRVregToLLIRVreg I.ID = none → (∀ a ∈ I.Args, a.ID ≠ I.ID) →
      ∃ Slot, IsSpilledCallResult S' I.ID Slot ∧ S'.MF.IsStackSlot Slot = true) ∧
    (∀ (S : IRtoLLIR) (Val : Value) (bb Slot : Nat),
      Val.IsRegister = true → bb < S.MF.BasicBlocks.length →
      IsSpilledCallResult S Val.ID Slot →
      ∃ VReg S' Load W, GetMachineOperandFromValue TM S Val bb false = some (VReg, S') ∧
        S'.Instrs bb = S.Instrs bb ++ [Load] ∧
        Load.Opcode = OperationCode.LOAD ∧
        Load.Operands = [MachineOperand.CreateVirtualRegister S.MF.NextVReg W,
          MachineOperand.CreateStackAccess Slot 0] ∧
        VReg.IsVirtualReg = true ∧
        VReg.GetReg = (MachineOperand.CreateVirtualRegister S.MF.NextVReg W).GetReg ∧
        S'.MF.NextVReg = (S.MF.NextVReg + 1) % 2 ^ 32 ∧
        IsSpilledCallResult S' Val.ID Slot) ∧
    (∀ (S S' : IRtoLLIR) (V : Value) (bb : Nat) (IsDef : Bool) (MO : MachineOperand)
      (c Slot : Nat), GetMachineOperandFromValue TM S V bb IsDef = some (MO, S') →
      IsSpilledCallResult S c Slot → IsSpilledCallResult S' c Slot) := by
  refine ⟨fun S S' I bb h hv hun hargs => LowerCall_records_slot TM S S' I bb h hv hun hargs,
    ?_, ?_⟩
  · intro S Val bb Slot hreg hbb hinv
    obtain ⟨hsp, hun⟩ := hinv
    have hchain : ∀ W, GetVRegForValue S Val bb false W = EmitLoadFromSlot S bb W Slot := by
      intro W
      simp [GetVRegForValue, hsp, hun]
    have hload : ∀ W, (EmitLoadFromSlot S bb W Slot).1 = S.MF.NextVReg := fun W => rfl
    have hnext : ∀ W, (EmitLoadFromSlot S bb W Slot).2.MF.NextVReg
        = (S.MF.NextVReg + 1) % 2 ^ 32 := by
      intro W
      simp [EmitLoadFromSlot, IRtoLLIR.InsertInstr, MachineFunction.InsertInstr,
        IRtoLLIR.NextAvailableVReg, MachineFunction.GetNextAvailableVReg]
    have hinv' : ∀ W, IsSpilledCallResult (EmitLoadFromSlot S bb W Slot).2 Val.ID Slot :=
      fun W => ⟨hsp, hun⟩
    by_cases hp : Val.Ty.IsPTR = true
    · refine ⟨(MachineOperand.CreateVirtualRegister S.MF.NextVReg 32).SetType
        (LowLevelType.CreatePTR TM.PointerSize), _, _, _, ?_, Instrs_EmitLoadFromSlot S bb
        (if (Val.Ty.IsPTR && !Val.IsStackAllocation) = true then TM.PointerSize
          else Val.BitWidth) Slot hbb, rfl, rfl, ?_, ?_, hnext _, hinv' _⟩
      · simp only [GetMachineOperandFromValue, hreg, if_true, hp, hchain]
        rfl
      · rfl
      · simp [hload, MachineOperand.GetReg, MachineOperand.SetType,
          MachineOperand.CreateVirtualRegister]
    · refine ⟨(MachineOperand.CreateVirtualRegister S.MF.NextVReg 32).SetType
        (LowLevelType.CreateScalar (if (Val.Ty.IsPTR && !Val.IsStackAllocation) = true
          then TM.PointerSize else Val.BitWidth)), _, _, _, ?_, Instrs_EmitLoadFromSlot S bb
        (if (Val.Ty.IsPTR && !Val.IsStackAllocation) = true then TM.PointerSize
          else Val.BitWidth) Slot hbb, rfl, rfl, ?_, ?_, hnext _, hinv' _⟩
      · simp only [GetMachineOperandFromValue, hreg, if_true, hp, hchain]
        rfl
      · rfl
      · simp [hload, MachineOperand.GetReg, MachineOperand.SetType,
          MachineOperand.CreateVirtualRegister]
  · intro S S' V bb IsDef MO c Slot h hinv
    have hf := GetMachineOperandFromValue_frame TM S S' V bb IsDef MO h
    refine ⟨?_, ?_⟩
    · rw [hf.1]; exact hinv.1
    · rw [hf.2.2.2.2.2.1 c (Or.inr (by rw [hinv.1]; simp))]; exact hinv.2

/-- C9, for the call `%5 = call g()` lowered into an empty block: the use of
`%5` loads from slot 10 into register 11. -/
theorem C9_call_result_is_loaded_from_its_slot_witness :
    LowerCall sampleTM sampleState sampleIntCall 0 = some sampleStateAfterCall ∧
    ∃ VReg S' Load W,
      GetMachineOperandFromValue sampleTM sampleStateAfterCall (sampleIntReg 5 32) 0 false
        = some (VReg, S') ∧
      S'.Instrs 0 = sampleStateAfterCall.Instrs 0 ++ [Load] ∧
      Load.Opcode = OperationCode.LOAD ∧
      Load.Operands = [MachineOperand.CreateVirtualRegister sampleStateAfterCall.MF.NextVReg W,
        MachineOperand.CreateStackAccess 10 0] ∧
      VReg.IsVirtualReg = true ∧
      VReg.GetReg = (MachineOperand.CreateVirtualRegister sampleStateAfterCall.MF.NextVReg W).GetReg ∧
      S'.MF.NextVReg = (sampleStateAfterCall.MF.NextVReg + 1) % 2 ^ 32 ∧
      IsSpilledCallResult S' (sampleIntReg 5 32).ID 10 :=
  ⟨rfl, (C9_call_result_is_loaded_from_its_slot sampleTM).2.1 sampleStateAfterCall
    (sampleIntReg 5 32) 0 10 (by decide) (by decide) ⟨by decide, by decide⟩⟩

theorem Instrs_congr (S S' : IRtoLLIR) (bb : Nat)
    (h : S'.MF.BasicBlocks = S.MF.BasicBlocks) : S'.Instrs bb = S.Instrs bb := by
  simp [IRtoLLIR.Instrs, h]

theorem BasicBlocks_InsertStackSlot (MF : MachineFunction) (ID Size Align : Nat) :
    (MF.InsertStackSlot ID Size Align).BasicBlocks = MF.BasicBlocks := by
  unfold MachineFunction.InsertStackSlot
  split <;> rfl

theorem SF_InsertStackSlot (MF : MachineFunction) (ID Size Align : Nat) :
    (MF.InsertStackSlot ID Size Align).SF = MF.SF.InsertStackSlot ID Size Align := by
  unfold MachineFunction.InsertStackSlot
  split <;> rfl

theorem GetNextAlignedValue_div (b P : Nat) (hP : 0 < P) :
    GetNextAlignedValue b P / P = (b + P - 1) / P := by
  unfold GetNextAlignedValue
  exact Nat.mul_div_cancel _ hP

theorem chunks_one (b P : Nat) (hb : 0 < b) (h : b ≤ P) : (b + P - 1) / P = 1 :=
  Nat.div_eq_of_lt_le (by omega) (by omega)

theorem chunks_two (b P : Nat) (h1 : P < b) (h2 : b ≤ 2 * P) : (b + P - 1) / P = 2 :=
  Nat.div_eq_of_lt_le (by omega) (by omega)

theorem MakeReturnStore_eq_spec (TM : TargetMachine) (I : CallInstruction) (Slot b i : Nat) :
    MakeReturnStore TM I Slot (b - i * TM.PointerSize) i =
      SpecReturnStore TM (ReturnRegOffset TM I) Slot b i := by
  unfold MakeReturnStore SpecReturnStore ReturnRegOffset
  have hidx : (if I.Ty.IsFP = true then i + TM.FirstFPRetRegIdx else i) =
      i + (if I.Ty.IsFP = true then TM.FirstFPRetRegIdx else 0) := by
    split <;> simp
  simp only [hidx]
  cases TM.ReturnRegisters.get? (i + if I.Ty.IsFP = true then TM.FirstFPRetRegIdx else 0) with
  | none => rfl
  | some Reg =>
    simp only
    by_cases hlt : b - i * TM.PointerSize < TM.PointerSize
    · have hmin : ¬ (min (b - i * TM.PointerSize) TM.PointerSize ≥ TM.PointerSize) := by
        rw [Nat.min_eq_left (Nat.le_of_lt hlt)]; omega
      simp only [hmin, hlt, if_true, if_false]
      cases Reg.SubRegs.head? <;> rfl
    · have hmin : min (b - i * TM.PointerSize) TM.PointerSize ≥ TM.PointerSize := by
        rw [Nat.min_eq_right (by omega)]
      simp only [hmin, hlt, if_true, if_false]
      rfl

/-- C8 (counterexample). The call `%6 = call h()` returns a 64-bit
floating-point value: the single `STORE` reads register 64, which is return
register `0 + GetFirstFPRetRegIdx()`, not return register 0 (id 0) as the
`STORE` of the claim would. -/
theorem C8_fp_result_uses_fp_return_register :
    (LowerCall sampleTM sampleState sampleFPCall 0).map (fun S => seqView (S.Instrs 0)) =
      some [(OperationCode.CALL, [MachineOperand.CreateFunctionName "h"]),
        (OperationCode.STORE, [MachineOperand.CreateStackAccess 10 0,
          MachineOperand.CreateRegister 64 64])] ∧
    (SpecReturnStore sampleTM 0 10 64 0).map (fun MI => MI.Operands) =
      some [MachineOperand.CreateStackAccess 10 0, MachineOperand.CreateRegister 0 64] ∧
    (sampleTM.ReturnRegisters.get? 0).map (fun r => r.ID) = some 0 := by
  decide

/-- C8 (amended). After the arguments of a call have been lowered (state `S1`):
a void call yields the `CALL` only and leaves the frame alone; a call whose
type has `b = 8 * ByteSize` bits, `0 < b <= 2 * pointer width`, yields the
`CALL`, then `ceil(b / pointer width)` `STORE`s, the `i`-th storing return
register `i` of the class of the value (index `i + GetFirstFPRetRegIdx()` for
a floating-point value; its first sub-register when fewer than pointer-width
bits remain) to the slot at byte offset `i * (pointer width / 8)`; the slot
has the id the counter hands out, is `b / 8` bytes, and is recorded under the
id of the call. -/
theorem C8_call_result_is_spilled (TM : TargetMachine) (S S1 : IRtoLLIR) (I : CallInstruction)
    (bb pc : Nat)
    (hargs : LowerCallArgs TM I bb { S with MF := S.MF.SetToCaller } 0 I.Args = some (S1, pc))
    (hbb : bb < S1.MF.BasicBlocks.length) :
    (I.Ty.IsVoid = true →
      ∃ S', LowerCall TM S I bb = some S' ∧ S'.Instrs bb = S1.Instrs bb ++ [CallMI I] ∧
        S'.MF.SF = S1.MF.SF ∧
        S'.SpilledReturnValuesIDToStackID = S1.SpilledReturnValuesIDToStackID) ∧
    (I.Ty.IsVoid = false → 0 < I.Ty.ByteSize → 8 * I.Ty.ByteSize ≤ 2 * TM.PointerSize →
      TM.PointerSize < 2 ^ 31 →
      (∀ i, i < (8 * I.Ty.ByteSize + TM.PointerSize - 1) / TM.PointerSize →
        (SpecReturnStore TM (ReturnRegOffset TM I) S1.MF.NextVReg (8 * I.Ty.ByteSize) i).isSome) →
      ∃ S', LowerCall TM S I bb = some S' ∧
        S'.Instrs bb = S1.Instrs bb ++ CallMI I ::
          (List.range ((8 * I.Ty.ByteSize + TM.PointerSize - 1) / TM.PointerSize)).filterMap
            (SpecReturnStore TM (ReturnRegOffset TM I) S1.MF.NextVReg (8 * I.Ty.ByteSize)) ∧
        S'.SpilledReturnValuesIDToStackID I.ID = some S1.MF.NextVReg ∧
        S'.MF.SF = S1.MF.SF.InsertStackSlot S1.MF.NextVReg (8 * I.Ty.ByteSize / 8)
          (8 * I.Ty.ByteSize / 8) ∧
        S'.MF.IsStackSlot S1.MF.NextVReg = true ∧
        (S1.MF.IsStackSlot S1.MF.NextVReg = false →
          S'.MF.SF.StackSlots = S1.MF.SF.StackSlots ++
            [{ ID := S1.MF.NextVReg, Size := I.Ty.ByteSize, Align := I.Ty.ByteSize }])) := by
  constructor
  · intro hv
    refine ⟨S1.InsertInstr bb (CallMI I), ?_, Instrs_InsertInstr S1 bb _ hbb, rfl, rfl⟩
    simp only [LowerCall, ConvertCall, hargs, hv, if_true]
    rfl
  · intro hv hb0 hb2 hP hregs
    have hPpos : 0 < TM.PointerSize := by omega
    have hmod : I.Ty.ByteSize * 8 % 2 ^ 32 = 8 * I.Ty.ByteSize := by
      rw [Nat.mod_eq_of_lt (by omega)]; omega
    have hdiv8 : 8 * I.Ty.ByteSize / 8 = I.Ty.ByteSize := by omega
    have hbbC : bb < (S1.InsertInstr bb (CallMI I)).MF.BasicBlocks.length := by
      simpa [IRtoLLIR.InsertInstr, MachineFunction.InsertInstr] using hbb
    have hcall : (S1.InsertInstr bb (CallMI I)).Instrs bb = S1.Instrs bb ++ [CallMI I] :=
      Instrs_InsertInstr S1 bb _ hbb
    have hnext : (S1.InsertInstr bb (CallMI I)).MF.NextVReg = S1.MF.NextVReg := rfl
    have hslot : (S1.InsertInstr bb ((MachineInstruction.create
        OperationCode.CALL).AddFunctionName I.Name)).NextAvailableVReg.1 = S1.MF.NextVReg := rfl
    have h0 := MakeReturnStore_eq_spec TM I S1.MF.NextVReg (8 * I.Ty.ByteSize) 0
    simp only [Nat.zero_mul, Nat.sub_zero] at h0
    have hSF : ∀ (X : IRtoLLIR), X.MF.SF = S1.MF.SF.InsertStackSlot S1.MF.NextVReg
        (8 * I.Ty.ByteSize / 8) (8 * I.Ty.ByteSize / 8) →
        X.MF.IsStackSlot S1.MF.NextVReg = true ∧
        (S1.MF.IsStackSlot S1.MF.NextVReg = false →
          X.MF.SF.StackSlots = S1.MF.SF.StackSlots ++
            [{ ID := S1.MF.NextVReg, Size := I.Ty.ByteSize, Align := I.Ty.ByteSize }]) := by
      intro X hX
      refine ⟨?_, ?_⟩
      · unfold MachineFunction.IsStackSlot
        rw [hX]
        exact IsStackSlot_InsertStackSlot _ _ _ _
      · intro hn
        rw [hX, hdiv8]
        unfold MachineFunction.IsStackSlot at hn
        simp [StackFrame.InsertStackSlot, hn]
    rcases Nat.lt_or_ge TM.PointerSize (8 * I.Ty.ByteSize) with hbig | hsmall
    · -- two chunks
      have hn : (8 * I.Ty.ByteSize + TM.PointerSize - 1) / TM.PointerSize = 2 :=
        chunks_two _ _ hbig hb2
      have h1 := MakeReturnStore_eq_spec TM I S1.MF.NextVReg (8 * I.Ty.ByteSize) 1
      simp only [Nat.one_mul] at h1
      have hrb : (8 * I.Ty.ByteSize + 2 ^ 32 - TM.PointerSize) % 2 ^ 32
          = 8 * I.Ty.ByteSize - TM.PointerSize := by
        rw [show 8 * I.Ty.ByteSize + 2 ^ 32 - TM.PointerSize
          = (8 * I.Ty.ByteSize - TM.PointerSize) + 2 ^ 32 by omega, Nat.add_mod_right]
        exact Nat.mod_eq_of_lt (by omega)
      rw [hn] at hregs ⊢
      obtain ⟨St0, hs0⟩ := Option.isSome_iff_exists.mp (hregs 0 (by omega))
      obtain ⟨St1, hs1⟩ := Option.isSome_iff_exists.mp (hregs 1 (by omega))
      have hres : LowerCall TM S I bb = some
          ((({ (S1.InsertInstr bb (CallMI I)).NextAvailableVReg.2 with
              SpilledReturnValuesIDToStackID := MapSet S1.SpilledReturnValuesIDToStackID I.ID
                S1.MF.NextVReg,
              MF := ((S1.InsertInstr bb (CallMI I)).NextAvailableVReg.2.MF).InsertStackSlot
                S1.MF.NextVReg (8 * I.Ty.ByteSize / 8) (8 * I.Ty.ByteSize / 8) } :
              IRtoLLIR).InsertInstr bb St0).InsertInstr bb St1) := by
        simp only [LowerCall, ConvertCall, hargs, hv, Bool.false_eq_true, if_false, hmod,
          GetNextAlignedValue_div _ _ hPpos, hn]
        simp only [show (0 < 2 ∧ 2 ≤ 2) by omega, if_true, SpillReturnValue, hslot, h0, hs0,
          show ¬ (1 = 0) by omega, if_false, Nat.zero_add, hrb, h1, hs1]
        rfl
      refine ⟨_, hres, ?_, ?_, ?_, ?_⟩
      · rw [Instrs_InsertInstr, Instrs_InsertInstr]
        · have : List.range 2 = [0, 1] := rfl
          rw [this]
          simp only [List.filterMap_cons, hs0, hs1, List.filterMap_nil]
          have hI : (({ (S1.InsertInstr bb (CallMI I)).NextAvailableVReg.2 with
              SpilledReturnValuesIDToStackID := MapSet S1.SpilledReturnValuesIDToStackID I.ID
                S1.MF.NextVReg,
              MF := ((S1.InsertInstr bb (CallMI I)).NextAvailableVReg.2.MF).InsertStackSlot
                S1.MF.NextVReg (8 * I.Ty.ByteSize / 8) (8 * I.Ty.ByteSize / 8) } :
              IRtoLLIR).Instrs bb) = (S1.InsertInstr bb (CallMI I)).Instrs bb := by
            apply Instrs_congr
            show (MachineFunction.InsertStackSlot _ _ _ _).BasicBlocks = _
            rw [BasicBlocks_InsertStackSlot]
            rfl
          rw [hI, hcall]
          simp
        · simpa [BasicBlocks_InsertStackSlot, IRtoLLIR.NextAvailableVReg,
            MachineFunction.GetNextAvailableVReg, IRtoLLIR.InsertInstr,
            MachineFunction.InsertInstr] using hbb
        · simpa [BasicBlocks_InsertStackSlot, IRtoLLIR.NextAvailableVReg,
            MachineFunction.GetNextAvailableVReg, IRtoLLIR.InsertInstr,
            MachineFunction.InsertInstr] using hbb
      · simp [IRtoLLIR.InsertInstr, MapSet]
      · simp [IRtoLLIR.InsertInstr, MachineFunction.InsertInstr, SF_InsertStackSlot,
          IRtoLLIR.NextAvailableVReg, MachineFunction.GetNextAvailableVReg]
      · apply hSF
        simp [IRtoLLIR.InsertInstr, MachineFunction.InsertInstr, SF_InsertStackSlot,
          IRtoLLIR.NextAvailableVReg, MachineFunction.GetNextAvailableVReg]
    · -- one chunk
      have hn : (8 * I.Ty.ByteSize + TM.PointerSize - 1) / TM.PointerSize = 1 :=
        chunks_one _ _ (by omega) hsmall
      rw [hn] at hregs ⊢
      obtain ⟨St0, hs0⟩ := Option.isSome_iff_exists.mp (hregs 0 (by omega))
      have hres : LowerCall TM S I bb = some
          (({ (S1.InsertInstr bb (CallMI I)).NextAvailableVReg.2 with
              SpilledReturnValuesIDToStackID := MapSet S1.SpilledReturnValuesIDToStackID I.ID
                S1.MF.NextVReg,
              MF := ((S1.InsertInstr bb (CallMI I)).NextAvailableVReg.2.MF).InsertStackSlot
                S1.MF.NextVReg (8 * I.Ty.ByteSize / 8) (8 * I.Ty.ByteSize / 8) } :
              IRtoLLIR).InsertInstr bb St0) := by
        simp only [LowerCall, ConvertCall, hargs, hv, Bool.false_eq_true, if_false, hmod,
          GetNextAlignedValue_div _ _ hPpos, hn]
        simp only [show (0 < 1 ∧ 1 ≤ 2) by omega, if_true, SpillReturnValue, hslot, h0, hs0]
        rfl
      refine ⟨_, hres, ?_, ?_, ?_, ?_⟩
      · rw [Instrs_InsertInstr]
        · have : List.range 1 = [0] := rfl
          rw [this]
          simp only [List.filterMap_cons, hs0, List.filterMap_nil]
          have hI : (({ (S1.InsertInstr bb (CallMI I)).NextAvailableVReg.2 with
              SpilledReturnValuesIDToStackID := MapSet S1.SpilledReturnValuesIDToStackID I.ID
                S1.MF.NextVReg,
              MF := ((S1.InsertInstr bb (CallMI I)).NextAvailableVReg.2.MF).InsertStackSlot
                S1.MF.NextVReg (8 * I.Ty.ByteSize / 8) (8 * I.Ty.ByteSize / 8) } :
              IRtoLLIR).Instrs bb) = (S1.InsertInstr bb (CallMI I)).Instrs bb := by
            apply Instrs_congr
            show (MachineFunction.InsertStackSlot _ _ _ _).BasicBlocks = _
            rw [BasicBlocks_InsertStackSlot]
            rfl
          rw [hI, hcall]
          simp
        · simpa [BasicBlocks_InsertStackSlot, IRtoLLIR.NextAvailableVReg,
            MachineFunction.GetNextAvailableVReg, IRtoLLIR.InsertInstr,
            MachineFunction.InsertInstr] using hbb
      · simp [IRtoLLIR.InsertInstr, MapSet]
      · simp [IRtoLLIR.InsertInstr, MachineFunction.InsertInstr, SF_InsertStackSlot,
          IRtoLLIR.NextAvailableVReg, MachineFunction.GetNextAvailableVReg]
      · apply hSF
        simp [IRtoLLIR.InsertInstr, MachineFunction.InsertInstr, SF_InsertStackSlot,
          IRtoLLIR.NextAvailableVReg, MachineFunction.GetNextAvailableVReg]

/-- C8 (amended), for the call `%5 = call g()` with a 32-bit integer result,
lowered into an empty block. -/
theorem C8_call_result_is_spilled_witness :
    ∃ S', LowerCall sampleTM sampleState sampleIntCall 0 = some S' ∧
      S'.Instrs 0 = ({ sampleState with MF := sampleState.MF.SetToCaller } : IRtoLLIR).Instrs 0 ++
        CallMI sampleIntCall ::
          (List.range ((8 * sampleIntCall.Ty.ByteSize + sampleTM.PointerSize - 1) /
            sampleTM.PointerSize)).filterMap
            (SpecReturnStore sampleTM (ReturnRegOffset sampleTM sampleIntCall)
              ({ sampleState with MF := sampleState.MF.SetToCaller } : IRtoLLIR).MF.NextVReg
              (8 * sampleIntCall.Ty.ByteSize)) ∧
      S'.SpilledReturnValuesIDToStackID sampleIntCall.ID =
        some ({ sampleState with MF := sampleState.MF.SetToCaller } : IRtoLLIR).MF.NextVReg ∧
      S'.MF.SF = (({ sampleState with MF := sampleState.MF.SetToCaller } :
          IRtoLLIR).MF.SF).InsertStackSlot
        ({ sampleState with MF := sampleState.MF.SetToCaller } : IRtoLLIR).MF.NextVReg
        (8 * sampleIntCall.Ty.ByteSize / 8) (8 * sampleIntCall.Ty.ByteSize / 8) ∧
      S'.MF.IsStackSlot
        ({ sampleState with MF := sampleState.MF.SetToCaller } : IRtoLLIR).MF.NextVReg = true ∧
      (({ sampleState with MF := sampleState.MF.SetToCaller } : IRtoLLIR).MF.IsStackSlot
          ({ sampleState with MF := sampleState.MF.SetToCaller } : IRtoLLIR).MF.NextVReg = false →
        S'.MF.SF.StackSlots =
          ({ sampleState with MF := sampleState.MF.SetToCaller } : IRtoLLIR).MF.SF.StackSlots ++
          [{ ID := ({ sampleState with MF := sampleState.MF.SetToCaller } : IRtoLLIR).MF.NextVReg,
             Size := sampleIntCall.Ty.ByteSize, Align := sampleIntCall.Ty.ByteSize }]) :=
  (C8_call_result_is_spilled sampleTM sampleState
    { sampleState with MF := sampleState.MF.SetToCaller } sampleIntCall 0 0 rfl
    (by decide)).2 (by decide) (by decide) (by decide) (by decide) (by decide)

/-- C7 (the code departs from the claim). In `call big(%4, %3)` the by-value
struct `%4`, loaded into the registers 11 and 12, takes two argument
registers, so when the implicit struct argument `%3` (index 1) is reached the
register counter is 2: its address is put into argument register 2 by
`STACK_ADDRESS`, not into the struct-pointer register 8.  With no
multi-register argument before it (`call big0(%3)`) the struct-pointer
register is used. -/
theorem C7_struct_pointer_register_missed :
    (LowerCall sampleTM sampleStructState sampleStructRetCall 0).map
      (fun S => seqView (S.Instrs 0)) =
      some [(OperationCode.LOAD, [MachineOperand.CreateVirtualRegister 11 64,
              MachineOperand.CreateStackAccess 1 0]),
            (OperationCode.LOAD, [MachineOperand.CreateVirtualRegister 12 64,
              MachineOperand.CreateStackAccess 1 8]),
            (OperationCode.MOV, [MachineOperand.CreateRegister 0 64,
              MachineOperand.CreateVirtualRegister 11 64]),
            (OperationCode.MOV, [MachineOperand.CreateRegister 1 64,
              MachineOperand.CreateVirtualRegister 12 64]),
            (OperationCode.STACK_ADDRESS, [MachineOperand.CreateRegister 2 64,
              MachineOperand.CreateStackAccess 3 0]),
            (OperationCode.CALL, [MachineOperand.CreateFunctionName "big"])] ∧
    sampleTM.StructPtrRegister = 8 ∧
    sampleStructRetCall.ImplicitStructArgIndex = 1 ∧
    (LowerCall sampleTM sampleStructState sampleStructRetCall0 0).map
      (fun S => (seqView (S.Instrs 0)).drop 2) =
      some [(OperationCode.STACK_ADDRESS, [MachineOperand.CreateRegister 8 64,
              MachineOperand.CreateStackAccess 3 0]),
            (OperationCode.CALL, [MachineOperand.CreateFunctionName "big0"])] := by
  decide

theorem GetMachineOperandFromValue_isSome (TM : TargetMachine) (S : IRtoLLIR) (Val : Value)
    (bb : Nat) (IsDef : Bool) (h : Val.Kind ≠ ValueKind.LABEL) :
    ∃ MO S', GetMachineOperandFromValue TM S Val bb IsDef = some (MO, S') := by
  unfold GetMachineOperandFromValue
  cases hk : Val.Kind with
  | REGISTER =>
    simp only [Value.IsRegister, hk, beq_self_eq_true, if_true]
    split <;> exact ⟨_, _, rfl⟩
  | PARAM =>
    simp only [Value.IsRegister, Value.IsParameter, hk, beq_self_eq_true, if_true]
    split
    · rename_i h'; simp at h'
    · split <;> exact ⟨_, _, rfl⟩
  | CONST =>
    simp only [Value.IsRegister, Value.IsParameter, Value.IsConstant, hk, beq_self_eq_true,
      if_true]
    split
    · rename_i h'; simp at h'
    · split
      · rename_i h'; simp at h'
      · exact ⟨_, _, rfl⟩
  | GLOBALVAR =>
    simp only [Value.IsRegister, Value.IsParameter, Value.IsConstant, Value.IsGlobalVar, hk,
      beq_self_eq_true, if_true]
    split
    · rename_i h'; simp at h'
    · split
      · rename_i h'; simp at h'
      · split
        · rename_i h'; simp at h'
        · exact ⟨_, _, rfl⟩
  | LABEL => exact absurd hk h

/-- C5 (the code departs from the claim). In `int g; int f() { int a[4];
return a[g]; }` the instruction `%3 = gep %0, %2` has a stack slot as base and
its index in a register.  Its lowering appends `STACK_ADDRESS v12, slot 0` and
returns `ADD v12, v12, v15`: virtual register 12 is the defining operand of
two instructions of the block.  The renaming that keeps the address
instruction apart from the `ADD` is done for a global base only. -/
theorem C5_stack_gep_defines_register_twice :
    sampleArrayLowering.map (fun S => seqView (S.Instrs 0)) =
      some [(OperationCode.GLOBAL_ADDRESS,
              [MachineOperand.CreateVirtualRegister 10 64, MachineOperand.CreateGlobalSymbol "g"]),
            (OperationCode.LOAD,
              [MachineOperand.CreateVirtualRegister 11 32, MachineOperand.CreateMemory 10 0 64]),
            (OperationCode.STACK_ADDRESS,
              [(MachineOperand.CreateVirtualRegister 12 32).SetType (LowLevelType.CreatePTR 64),
               MachineOperand.CreateStackAccess 0 0]),
            (OperationCode.MOV,
              [MachineOperand.CreateVirtualRegister 13 64, MachineOperand.CreateImmediate 4 32]),
            (OperationCode.SEXT,
              [MachineOperand.CreateVirtualRegister 14 64,
               MachineOperand.CreateVirtualRegister 11 32]),
            (OperationCode.MUL,
              [MachineOperand.CreateVirtualRegister 15 64,
               MachineOperand.CreateVirtualRegister 14 64,
               MachineOperand.CreateVirtualRegister 13 64]),
            (OperationCode.ADD,
              [(MachineOperand.CreateVirtualRegister 12 32).SetType (LowLevelType.CreatePTR 64),
               (MachineOperand.CreateVirtualRegister 12 32).SetType (LowLevelType.CreatePTR 64),
               MachineOperand.CreateVirtualRegister 15 64])] ∧
    sampleArrayLowering.map (fun S => DefCount (S.Instrs 0) 12) = some 2 := by
  decide

/-! ## Facts about instruction selection -/

theorem modify_length_append_cons {α : Type} (f : α → α) (pre post : List α) (x : α) :
    (pre ++ x :: post).modify f pre.length = pre ++ f x :: post := by
  induction pre with
  | nil => simp
  | cons a t ih => simp [ih]

theorem modify_of_get?_eq_some {α : Type} (f : α → α) (l : List α) (n : Nat) (x : α)
    (h : l.get? n = some x) : l.modify f n = l.set n (f x) := by
  induction l generalizing n with
  | nil => cases h
  | cons a t ih =>
    cases n with
    | zero =>
      simp only [List.get?_cons_zero, Option.some.injEq] at h
      subst h
      simp
    | succ k =>
      simp only [List.get?_cons_succ] at h
      simp [ih k h]

theorem instrAt_of_split (MF : MachineFunction) (b : Nat) (MBB : MachineBasicBlock)
    (pre post : List MachineInstruction) (MI : MachineInstruction)
    (hb : MF.BasicBlocks.get? b = some MBB) (hI : MBB.Instructions = pre ++ MI :: post) :
    MF.instrAt b pre.length = some MI := by
  simp only [MachineFunction.instrAt, hb, hI]
  exact get?_length_append_cons pre post MI

theorem ModifyInstr_of_split (MF : MachineFunction) (b : Nat) (MBB : MachineBasicBlock)
    (pre post : List MachineInstruction) (MI : MachineInstruction)
    (f : MachineInstruction → MachineInstruction)
    (hb : MF.BasicBlocks.get? b = some MBB) (hI : MBB.Instructions = pre ++ MI :: post) :
    MF.ModifyInstr b pre.length f =
      MF.setBlock b { MBB with Instructions := pre ++ f MI :: post } := by
  simp only [MachineFunction.ModifyInstr, MachineFunction.setBlock]
  rw [modify_of_get?_eq_some _ _ _ _ hb, hI, modify_length_append_cons]

theorem setBlock_setBlock (MF : MachineFunction) (b : Nat) (X Y : MachineBasicBlock) :
    (MF.setBlock b X).setBlock b Y = MF.setBlock b Y := by
  simp [MachineFunction.setBlock]

theorem UpdateAttributes_Opcode (MI : MachineInstruction) :
    MI.UpdateAttributes.Opcode = MI.Opcode := by
  unfold MachineInstruction.UpdateAttributes MachineInstruction.AddAttribute
  split <;> try split
  all_goals rfl

theorem UpdateAttributes_Operands (MI : MachineInstruction) :
    MI.UpdateAttributes.Operands = MI.Operands := by
  unfold MachineInstruction.UpdateAttributes MachineInstruction.AddAttribute
  split <;> try split
  all_goals rfl

theorem UpdateAttributes_Relation (MI : MachineInstruction) :
    MI.UpdateAttributes.Relation = MI.Relation := by
  unfold MachineInstruction.UpdateAttributes MachineInstruction.AddAttribute
  split <;> try split
  all_goals rfl

theorem SetOpcode_Opcode (MI : MachineInstruction) (Op : OperationCode) :
    (MI.SetOpcode Op).Opcode = Op := by
  simp [MachineInstruction.SetOpcode, UpdateAttributes_Opcode]

theorem SetOpcode_Operands (MI : MachineInstruction) (Op : OperationCode) :
    (MI.SetOpcode Op).Operands = MI.Operands := by
  simp [MachineInstruction.SetOpcode, UpdateAttributes_Operands]

theorem SetOpcode_target (MI : MachineInstruction) (o : AArch64.Opcodes) :
    MI.SetOpcode (OperationCode.target o) = { MI with Opcode := OperationCode.target o } := rfl

/-- C11: `SelectThreeAddressInstruction(MI, rrr, rri, n)` on a three-operand
instruction `MI` (every caller asserts the three operands).  An immediate
operand 2 that fits in `n` signed bits: the opcode becomes `rri`, the operands
stay.  An immediate that does not fit: the materialization sequence of the
constant into the virtual register numbered by the function's counter (which
is advanced) is inserted before `MI`, the opcode becomes `rrr` and operand 2
becomes that register.  A physical or virtual register: the opcode becomes
`rrr`.  Anything else: the call returns false and changes nothing. -/
theorem C11_three_address_selection (TM : TargetMachine) (MF : MachineFunction) (b : Nat)
    (MBB : MachineBasicBlock) (pre post : List MachineInstruction) (MI : MachineInstruction)
    (D S Op2 : MachineOperand) (rrr rri : AArch64.Opcodes) (n : Nat)
    (hb : MF.BasicBlocks.get? b = some MBB) (hI : MBB.Instructions = pre ++ MI :: post)
    (hO : MI.Operands = [D, S, Op2]) :
    (Op2.IsImmediate = true → IsInt n (toInt64 Op2.GetImmediate) = true →
      ∃ MI1, MI1.Opcode = OperationCode.target rri ∧ MI1.Operands = [D, S, Op2] ∧
        SelectThreeAddressInstruction TM MF b pre.length rrr rri n =
          some (true, MF.setBlock b { MBB with Instructions := pre ++ MI1 :: post })) ∧
    (Op2.IsImmediate = true → IsInt n (toInt64 Op2.GetImmediate) = false →
      ∃ V MI1, V = MaterializeDest TM MF.NextVReg D ∧ V.IsVirtualReg = true ∧
        V.GetReg = MF.NextVReg % 2 ^ 64 ∧
        MI1.Opcode = OperationCode.target rrr ∧ MI1.Operands = [D, S, V] ∧
        SelectThreeAddressInstruction TM MF b pre.length rrr rri n =
          some (true, (MF.GetNextAvailableVReg.2).setBlock b { MBB with Instructions :=
            pre ++ (MakeMOV V (MOVImmediate Op2.GetImmediate) ::
              MaterializeMOVKs Op2.GetImmediate V) ++ MI1 :: post })) ∧
    (Op2.IsImmediate = false → (Op2.IsRegister || Op2.IsVirtualReg) = true →
      ∃ MI1, MI1.Opcode = OperationCode.target rrr ∧ MI1.Operands = [D, S, Op2] ∧
        SelectThreeAddressInstruction TM MF b pre.length rrr rri n =
          some (true, MF.setBlock b { MBB with Instructions := pre ++ MI1 :: post })) ∧
    (Op2.IsImmediate = false → (Op2.IsRegister || Op2.IsVirtualReg) = false →
      SelectThreeAddressInstruction TM MF b pre.length rrr rri n = some (false, MF)) := by
  have hat := instrAt_of_split MF b MBB pre post MI hb hI
  have h2 : MI.GetOperand 2 = some Op2 := by simp [MachineInstruction.GetOperand, hO]
  have h0 : MI.GetOperand 0 = some D := by simp [MachineInstruction.GetOperand, hO]
  refine ⟨?_, ?_, ?_, ?_⟩
  · intro him hfit
    refine ⟨MI.SetOpcode (OperationCode.target rri), rfl, hO, ?_⟩
    simp only [SelectThreeAddressInstruction, hat, h2, him, hfit, if_true]
    rw [ModifyInstr_of_split MF b MBB pre post MI _ hb hI]
  · intro him hfit
    refine ⟨MaterializeDest TM MF.NextVReg D,
      ((MI.SetOpcode (OperationCode.target rrr)).RemoveOperand 2).AddOperand
        (MaterializeDest TM MF.NextVReg D), rfl, rfl, rfl, rfl, ?_, ?_⟩
    · simp [MachineInstruction.AddOperand, MachineInstruction.RemoveOperand, SetOpcode_target, hO]
    · simp only [SelectThreeAddressInstruction, hat, h2, him, hfit, if_true]
      rw [MaterializeConstant_insert TM MF b MBB pre post MI D _ _ hb hI h0]
      simp only [Bool.false_eq_true, if_false]
      have hb1 := get?_setBlock_self (MF.GetNextAvailableVReg.2) b
        { MBB with Instructions := pre ++ (MakeMOV (MaterializeDest TM MF.NextVReg D)
            (MOVImmediate Op2.GetImmediate) ::
            MaterializeMOVKs Op2.GetImmediate (MaterializeDest TM MF.NextVReg D)) ++ MI :: post }
        MBB (by simpa [MachineFunction.GetNextAvailableVReg] using hb)
      have hlen : pre.length + ((MaterializeMOVKs Op2.GetImmediate
          (MaterializeDest TM MF.NextVReg D)).length + 1) =
          (pre ++ (MakeMOV (MaterializeDest TM MF.NextVReg D) (MOVImmediate Op2.GetImmediate) ::
            MaterializeMOVKs Op2.GetImmediate (MaterializeDest TM MF.NextVReg D))).length := by
        simp
      rw [hlen, ModifyInstr_of_split _ b _ _ post MI _ hb1 rfl, setBlock_setBlock]
  · intro him hreg
    refine ⟨MI.SetOpcode (OperationCode.target rrr), rfl, hO, ?_⟩
    simp only [SelectThreeAddressInstruction, hat, h2, him, hreg, if_true]
    simp only [Bool.false_eq_true, if_false]
    rw [ModifyInstr_of_split MF b MBB pre post MI _ hb hI]
  · intro him hreg
    simp only [SelectThreeAddressInstruction, hat, h2, him, hreg, if_true]
    simp

theorem C11_three_address_selection_witness :
    (∃ MF1, SelectThreeAddressInstruction sampleTM (sampleMF (sampleAnd 1 2 32 5)) 0 0
        AArch64.Opcodes.AND_rrr AArch64.Opcodes.AND_rri 12 = some (true, MF1) ∧
      (MF1.BasicBlocks.map (fun B => B.Instructions.map (fun M => (M.Opcode, M.Operands)))) =
        [[(OperationCode.target AArch64.Opcodes.AND_rri,
          [MachineOperand.CreateVirtualRegister 1 32, MachineOperand.CreateVirtualRegister 2 32,
            MachineOperand.CreateImmediate 5 32])]]) ∧
    (∃ MF1, SelectThreeAddressInstruction sampleTM (sampleMF (sampleAnd 1 2 32 70000)) 0 0
        AArch64.Opcodes.AND_rrr AArch64.Opcodes.AND_rri 12 = some (true, MF1) ∧
      MF1.NextVReg = 11 ∧
      (MF1.BasicBlocks.map (fun B => B.Instructions.map (fun M => (M.Opcode, M.Operands)))) =
        [[(OperationCode.target AArch64.Opcodes.MOV_rc,
            [(MachineOperand.CreateVirtualRegister 10 32).SetRegClass 0,
              MachineOperand.CreateImmediate 4464 32]),
          (OperationCode.target AArch64.Opcodes.MOVK_ri,
            [(MachineOperand.CreateVirtualRegister 10 32).SetRegClass 0,
              MachineOperand.CreateImmediate 1 32, MachineOperand.CreateImmediate 16 32]),
          (OperationCode.target AArch64.Opcodes.AND_rrr,
            [MachineOperand.CreateVirtualRegister 1 32, MachineOperand.CreateVirtualRegister 2 32,
              (MachineOperand.CreateVirtualRegister 10 32).SetRegClass 0])]]) := by
  constructor
  · obtain ⟨MI1, hop, hops, h⟩ := (C11_three_address_selection sampleTM
      (sampleMF (sampleAnd 1 2 32 5)) 0 { Name := "entry", Instructions := [sampleAnd 1 2 32 5] }
      [] [] (sampleAnd 1 2 32 5) (MachineOperand.CreateVirtualRegister 1 32)
      (MachineOperand.CreateVirtualRegister 2 32) (MachineOperand.CreateImmediate 5 32)
      AArch64.Opcodes.AND_rrr AArch64.Opcodes.AND_rri 12 rfl rfl rfl).1 (by decide) (by decide)
    refine ⟨_, h, ?_⟩
    simp [MachineFunction.setBlock, sampleMF, hop, hops]
  · obtain ⟨V, MI1, hV, _, _, hop, hops, h⟩ := (C11_three_address_selection sampleTM
      (sampleMF (sampleAnd 1 2 32 70000)) 0
      { Name := "entry", Instructions := [sampleAnd 1 2 32 70000] }
      [] [] (sampleAnd 1 2 32 70000) (MachineOperand.CreateVirtualRegister 1 32)
      (MachineOperand.CreateVirtualRegister 2 32) (MachineOperand.CreateImmediate 70000 32)
      AArch64.Opcodes.AND_rrr AArch64.Opcodes.AND_rri 12 rfl rfl rfl).2.1 (by decide) (by decide)
    subst hV
    have hK : MaterializeMOVKs (MachineOperand.CreateImmediate 70000 32).GetImmediate
        (MaterializeDest sampleTM (sampleMF (sampleAnd 1 2 32 70000)).NextVReg
          (MachineOperand.CreateVirtualRegister 1 32)) =
        [MakeMOVK ((MachineOperand.CreateVirtualRegister 10 32).SetRegClass 0) 1 16] := by
      decide
    rw [hK] at h
    refine ⟨_, h, rfl, ?_⟩
    simp only [MachineFunction.setBlock, sampleMF, MachineFunction.GetNextAvailableVReg,
      List.set_cons_zero, List.map_cons, List.map_nil, List.nil_append, List.cons_append, hop, hops]
    decide

theorem ExtendRegSize_size (MO : MachineOperand) : 32 ≤ (ExtendRegSize MO 32).GetSize := by
  unfold ExtendRegSize
  split
  · exact Nat.le_refl 32
  · omega

theorem ExtendRegSize_of_le (MO : MachineOperand) (h : 32 ≤ MO.GetSize) :
    ExtendRegSize MO 32 = MO := by
  unfold ExtendRegSize
  rw [if_neg (by omega)]

theorem ExtendRegSize_idem (MO : MachineOperand) :
    ExtendRegSize (ExtendRegSize MO 32) 32 = ExtendRegSize MO 32 :=
  ExtendRegSize_of_le _ (ExtendRegSize_size MO)

theorem ExtendDefAndFirstSource_three (MI : MachineInstruction) (D S X : MachineOperand)
    (hO : MI.Operands = [D, S, X]) :
    ExtendDefAndFirstSource MI =
      { MI with Operands := [ExtendRegSize D 32, ExtendRegSize S 32, X] } := by
  simp [ExtendDefAndFirstSource, MachineInstruction.ModifyOperand, hO]

theorem toInt64_bounds (x : Nat) : -(2 : Int) ^ 63 ≤ toInt64 x ∧ toInt64 x < 2 ^ 63 := by
  unfold toInt64
  norm_num
  split_ifs with h <;> omega

theorem toInt64_neg_toNat (v : Int) (h1 : 0 < v) (h2 : v < 2 ^ 63) :
    toInt64 (v.toNat % 2 ^ 64) = v := by
  unfold toInt64
  norm_num at h2 ⊢
  have h3 : (v.toNat : Int) = v := Int.toNat_of_nonneg (by omega)
  split_ifs with h <;> omega

theorem IsImmediate_of_int (MO : MachineOperand) (h : MO.Kind = MOKind.INT_IMMEDIATE) :
    MO.IsImmediate = true ∧ MO.IsGlobalSymbol = false := by
  simp [MachineOperand.IsImmediate, MachineOperand.IsGlobalSymbol, h]

/-- C12 (as stated, refuted): an `ADD`, `SUB`, `MUL` and `DIV` of 32-bit
virtual registers with the immediate 4096, which does not fit in 12 bits:
each selector stops at its assertion "Immediate must be 12 bit wide"; nothing
is materialized and no `rrr` form is selected. -/
theorem C12_out_of_range_immediate_aborts :
    SelectADD (sampleThreeAddress OperationCode.ADD 1 2 32 4096) = none ∧
    SelectSUB (sampleThreeAddress OperationCode.SUB 1 2 32 4096) = none ∧
    SelectMUL (sampleThreeAddress OperationCode.MUL 1 2 32 4096) = none ∧
    SelectDIV (sampleThreeAddress OperationCode.DIV 1 2 32 4096) = none := by
  decide

/-- C12 (amended): for a three-operand `ADD`, `SUB`, `MUL` or `DIV` whose
operand 2 is an integer immediate that does not fit in 12 unsigned bits,
`SelectSUB`, `SelectMUL` and `SelectDIV` abort on their assertion, and
`SelectADD` aborts exactly when the immediate is above 4095 or below -4095.
The selectors work on the instruction alone, so nothing is materialized. -/
theorem C12_out_of_range_immediate (MI : MachineInstruction) (D S Imm : MachineOperand)
    (hO : MI.Operands = [D, S, Imm]) (hK : Imm.Kind = MOKind.INT_IMMEDIATE)
    (hfit : IsUInt 12 (toInt64 Imm.GetImmediate) = false) :
    SelectSUB MI = none ∧ SelectMUL MI = none ∧ SelectDIV MI = none ∧
    (SelectADD MI = none ↔
      (4095 < toInt64 Imm.GetImmediate ∨ toInt64 Imm.GetImmediate < -4095)) := by
  obtain ⟨him, hgs⟩ := IsImmediate_of_int Imm hK
  have hE := ExtendDefAndFirstSource_three MI D S Imm hO
  have hlen : MI.GetOperandsNumber = 3 := by simp [MachineInstruction.GetOperandsNumber, hO]
  refine ⟨?_, ?_, ?_, ?_⟩
  · simp [SelectSUB, hlen, hE, MachineInstruction.GetOperand, him, hfit]
  · simp [SelectMUL, hlen, hE, MachineInstruction.GetOperand, him, hfit]
  · simp [SelectDIV, hlen, hE, MachineInstruction.GetOperand, him, hfit]
  · have hb := toInt64_bounds Imm.GetImmediate
    simp only [SelectADD, hlen, hE, MachineInstruction.GetOperand, bne_self_eq_false,
      Bool.false_eq_true, if_false, List.get?_cons_succ, List.get?_cons_zero, hgs, him, if_true,
      hfit]
    by_cases hneg : toInt64 Imm.GetImmediate < 0
    · simp only [hneg, if_true]
      simp only [SelectSUB, MachineInstruction.GetOperandsNumber, SetOpcode_target,
        MachineInstruction.ModifyOperand, List.modify_succ_cons, List.modify_zero_cons,
        List.length_cons, List.length_nil, ExtendDefAndFirstSource, MachineInstruction.GetOperand,
        List.get?_cons_succ, List.get?_cons_zero]
      have him2 : (Imm.SetValue (-(toInt64 Imm.GetImmediate)).toNat).IsImmediate = true := by
        simpa [MachineOperand.IsImmediate, MachineOperand.SetValue] using him
      simp only [him2, if_true]
      have hS : ∀ n, (Imm.SetValue n).GetImmediate = n % 2 ^ 64 := fun _ => rfl
      rw [hS]
      by_cases hm : toInt64 Imm.GetImmediate = -2 ^ 63
      · rw [hm]
        have : IsUInt 12 (toInt64 ((-(-2 ^ 63 : Int)).toNat % 2 ^ 64)) = false := by decide
        simp only [this]
        simp
      · have hv : toInt64 ((-(toInt64 Imm.GetImmediate)).toNat % 2 ^ 64) =
            -(toInt64 Imm.GetImmediate) := by
          apply toInt64_neg_toNat
          · omega
          · norm_num at hm hb ⊢
            omega
        rw [hv]
        unfold IsUInt
        simp
        constructor
        · intro h
          right
          omega
        · intro h
          rcases h with h | h <;> omega
    · simp only [hneg, if_false]
      unfold IsUInt at hfit
      simp at hfit ⊢
      left
      omega

theorem C12_out_of_range_immediate_witness :
    IsUInt 12 (toInt64 (MachineOperand.CreateImmediate 5000 32).GetImmediate) = false ∧
    SelectSUB (sampleThreeAddress OperationCode.ADD 1 2 32 5000) = none ∧
    SelectMUL (sampleThreeAddress OperationCode.ADD 1 2 32 5000) = none ∧
    SelectDIV (sampleThreeAddress OperationCode.ADD 1 2 32 5000) = none ∧
    (SelectADD (sampleThreeAddress OperationCode.ADD 1 2 32 5000) = none ↔
      (4095 < toInt64 (MachineOperand.CreateImmediate 5000 32).GetImmediate ∨
        toInt64 (MachineOperand.CreateImmediate 5000 32).GetImmediate < -4095)) :=
  ⟨by decide, C12_out_of_range_immediate (sampleThreeAddress OperationCode.ADD 1 2 32 5000)
    (MachineOperand.CreateVirtualRegister 1 32) (MachineOperand.CreateVirtualRegister 2 32)
    (MachineOperand.CreateImmediate 5000 32) rfl rfl (by decide)⟩

/-- C13 (as stated, refuted): the `ADD` of 32-bit registers with the negative
immediate -4096 is not turned into a `SUB_rri`: the assertion of `SelectSUB`
stops the selection; and the `XOR` of 8-bit registers with -1 becomes a
`MVN_rr` whose destination is no longer the original 8-bit operand, it has
been widened to 32 bits. -/
theorem C13_negative_add_can_abort :
    SelectADD (sampleThreeAddress OperationCode.ADD 1 2 32 (2 ^ 64 - 4096)) = none ∧
    (sampleThreeAddress OperationCode.XOR 1 2 8 (2 ^ 64 - 1)).Operands.take 2 =
      [MachineOperand.CreateVirtualRegister 1 8, MachineOperand.CreateVirtualRegister 2 8] ∧
    ((SelectXOR sampleTM (sampleMF (sampleThreeAddress OperationCode.XOR 1 2 8 (2 ^ 64 - 1)))
        0 0).bind (fun MF1 => MF1.instrAt 0 0)).map (fun M => (M.Opcode, M.Operands)) =
      some (OperationCode.target AArch64.Opcodes.MVN_rr,
        [MachineOperand.CreateVirtualRegister 1 32, MachineOperand.CreateVirtualRegister 2 32]) := by
  decide

/-- C13 (amended): for a three-operand `ADD` whose operand 2 is a negative
integer immediate `n` with `-4095 ≤ n`, `SelectADD` yields a `SUB_rri` whose
immediate is `-n` and whose destination and first source are the original
ones, widened to 32 bits when they were narrower; and for a three-operand
`XOR` whose operand 2 is the immediate -1, `SelectXOR` yields `MVN_rr` with
exactly the (likewise widened) original destination and first source. -/
theorem C13_negative_add_and_bitwise_not (TM : TargetMachine) (MI : MachineInstruction)
    (D S Imm : MachineOperand) (MF : MachineFunction) (b : Nat) (MBB : MachineBasicBlock)
    (pre post : List MachineInstruction) (MX : MachineInstruction) (XD XS X2 : MachineOperand)
    (hO : MI.Operands = [D, S, Imm]) (hK : Imm.Kind = MOKind.INT_IMMEDIATE)
    (hneg : toInt64 Imm.GetImmediate < 0) (hfit : -4095 ≤ toInt64 Imm.GetImmediate)
    (hb : MF.BasicBlocks.get? b = some MBB) (hI : MBB.Instructions = pre ++ MX :: post)
    (hX : MX.Operands = [XD, XS, X2]) (hXi : X2.IsImmediate = true)
    (hX1 : toInt64 X2.GetImmediate = -1) :
    (∃ MI1 NegImm, SelectADD MI = some MI1 ∧
      MI1.Opcode = OperationCode.target AArch64.Opcodes.SUB_rri ∧
      MI1.Operands = [ExtendRegSize D 32, ExtendRegSize S 32, NegImm] ∧
      NegImm.Kind = MOKind.INT_IMMEDIATE ∧
      toInt64 NegImm.GetImmediate = -(toInt64 Imm.GetImmediate)) ∧
    (∃ MX1, SelectXOR TM MF b pre.length =
        some (MF.setBlock b { MBB with Instructions := pre ++ MX1 :: post }) ∧
      MX1.Opcode = OperationCode.target AArch64.Opcodes.MVN_rr ∧
      MX1.Operands = [ExtendRegSize XD 32, ExtendRegSize XS 32]) := by
  constructor
  · obtain ⟨him, hgs⟩ := IsImmediate_of_int Imm hK
    have hE := ExtendDefAndFirstSource_three MI D S Imm hO
    have hlen : MI.GetOperandsNumber = 3 := by simp [MachineInstruction.GetOperandsNumber, hO]
    have hS : ∀ n, (Imm.SetValue n).GetImmediate = n % 2 ^ 64 := fun _ => rfl
    have hv : toInt64 ((-(toInt64 Imm.GetImmediate)).toNat % 2 ^ 64) =
        -(toInt64 Imm.GetImmediate) := by
      apply toInt64_neg_toNat
      · omega
      · norm_num
        omega
    have him2 : (Imm.SetValue (-(toInt64 Imm.GetImmediate)).toNat).IsImmediate = true := by
      simpa [MachineOperand.IsImmediate, MachineOperand.SetValue] using him
    have hu : IsUInt 12 (toInt64 ((-(toInt64 Imm.GetImmediate)).toNat % 2 ^ 64)) = true := by
      rw [hv]
      unfold IsUInt
      simp
      omega
    refine ⟨{ MI with
        Opcode := (OperationCode.target AArch64.Opcodes.SUB_rri)
        Operands := ([ExtendRegSize D 32, ExtendRegSize S 32,
          Imm.SetValue (-(toInt64 Imm.GetImmediate)).toNat]) },
      Imm.SetValue (-(toInt64 Imm.GetImmediate)).toNat, ?_, rfl, rfl, ?_, ?_⟩
    · simp only [SelectADD, hlen, hE, MachineInstruction.GetOperand, bne_self_eq_false,
        Bool.false_eq_true, if_false, List.get?_cons_succ, List.get?_cons_zero, hgs, him, if_true,
        hneg]
      simp only [SelectSUB, MachineInstruction.GetOperandsNumber, SetOpcode_target,
        MachineInstruction.ModifyOperand, List.modify_succ_cons, List.modify_zero_cons,
        List.length_cons, List.length_nil, ExtendDefAndFirstSource, MachineInstruction.GetOperand,
        List.get?_cons_succ, List.get?_cons_zero, him2, hS, hu, if_true, ExtendRegSize_idem]
      simp
    · simpa [MachineOperand.SetValue] using hK
    · rw [hS, hv]
  · have hat := instrAt_of_split MF b MBB pre post MX hb hI
    have hlen : MX.GetOperandsNumber = 3 := by simp [MachineInstruction.GetOperandsNumber, hX]
    have h2 : MX.GetOperand 2 = some X2 := by simp [MachineInstruction.GetOperand, hX]
    refine ⟨((ExtendDefAndFirstSource MX).RemoveOperand 2).SetOpcode
      (OperationCode.target AArch64.Opcodes.MVN_rr), ?_, rfl, ?_⟩
    · simp only [SelectXOR, hat, hlen, h2, hXi, hX1]
      simp only [bne_self_eq_false, Bool.false_eq_true, if_false, beq_self_eq_true, Bool.and_self,
        if_true]
      rw [ModifyInstr_of_split MF b MBB pre post MX _ hb hI]
    · rw [SetOpcode_Operands, ExtendDefAndFirstSource_three MX XD XS X2 hX]
      simp [MachineInstruction.RemoveOperand]

theorem C13_negative_add_and_bitwise_not_witness :
    (∃ MI1 NegImm, SelectADD (sampleThreeAddress OperationCode.ADD 1 2 8 (2 ^ 64 - 16)) = some MI1 ∧
      MI1.Opcode = OperationCode.target AArch64.Opcodes.SUB_rri ∧
      MI1.Operands = [ExtendRegSize (MachineOperand.CreateVirtualRegister 1 8) 32,
        ExtendRegSize (MachineOperand.CreateVirtualRegister 2 8) 32, NegImm] ∧
      NegImm.Kind = MOKind.INT_IMMEDIATE ∧
      toInt64 NegImm.GetImmediate =
        -(toInt64 (MachineOperand.CreateImmediate (2 ^ 64 - 16) 32).GetImmediate)) ∧
    (∃ MX1, SelectXOR sampleTM
        (sampleMF (sampleThreeAddress OperationCode.XOR 3 4 32 (2 ^ 64 - 1))) 0 0 =
        some ((sampleMF (sampleThreeAddress OperationCode.XOR 3 4 32 (2 ^ 64 - 1))).setBlock 0
          { Name := "entry", Instructions := [] ++ MX1 :: [] }) ∧
      MX1.Opcode = OperationCode.target AArch64.Opcodes.MVN_rr ∧
      MX1.Operands = [ExtendRegSize (MachineOperand.CreateVirtualRegister 3 32) 32,
        ExtendRegSize (MachineOperand.CreateVirtualRegister 4 32) 32]) :=
  C13_negative_add_and_bitwise_not sampleTM (sampleThreeAddress OperationCode.ADD 1 2 8 (2 ^ 64 - 16))
    (MachineOperand.CreateVirtualRegister 1 8) (MachineOperand.CreateVirtualRegister 2 8)
    (MachineOperand.CreateImmediate (2 ^ 64 - 16) 32)
    (sampleMF (sampleThreeAddress OperationCode.XOR 3 4 32 (2 ^ 64 - 1))) 0
    { Name := "entry", Instructions := [sampleThreeAddress OperationCode.XOR 3 4 32 (2 ^ 64 - 1)] }
    [] [] (sampleThreeAddress OperationCode.XOR 3 4 32 (2 ^ 64 - 1))
    (MachineOperand.CreateVirtualRegister 3 32) (MachineOperand.CreateVirtualRegister 4 32)
    (MachineOperand.CreateImmediate (2 ^ 64 - 1) 32)
    rfl rfl (by decide) (by decide) rfl rfl rfl rfl (by decide)

theorem instrAt_setBlock_split (MF : MachineFunction) (b : Nat) (Y : MachineBasicBlock)
    (Name : String) (pre post : List MachineInstruction) (MI : MachineInstruction)
    (hb : MF.BasicBlocks.get? b = some Y) :
    (MF.setBlock b { Name := Name, Instructions := pre ++ MI :: post }).instrAt b pre.length =
      some MI :=
  instrAt_of_split _ b _ pre post MI (get?_setBlock_self MF b _ Y hb) rfl

/-- C14 (as stated, refuted): the compare of two 8-bit registers keeps two
operands, but the first of them is not the original left operand: it has
been widened to 32 bits. -/
theorem C14_left_operand_is_widened :
    (sampleCompare (MachineOperand.CreateVirtualRegister 1 8)
        (MachineOperand.CreateVirtualRegister 2 8)).Operands =
      [MachineOperand.CreateVirtualRegister 0 32, MachineOperand.CreateVirtualRegister 1 8,
        MachineOperand.CreateVirtualRegister 2 8] ∧
    ((SelectCMP sampleTM (sampleMF (sampleCompare (MachineOperand.CreateVirtualRegister 1 8)
        (MachineOperand.CreateVirtualRegister 2 8))) 0 0).bind
          (fun r => r.1.instrAt 0 r.2)).map (fun M => (M.Opcode, M.Operands)) =
      some (OperationCode.target AArch64.Opcodes.CMP_rr,
        [MachineOperand.CreateVirtualRegister 1 32, MachineOperand.CreateVirtualRegister 2 8]) := by
  decide

/-- C14 (amended): for a three-operand `CMP` with destination `D`, left
operand `L` and right operand `R`, `SelectCMP` leaves exactly two operands:
the left operand, widened to 32 bits when it was narrower, then either `R`
itself or the register that holds its materialized value (the materialization
sequence then stands right before the compare); the opcode is `CMP_ri` when
that second operand is an immediate and `CMP_rr` otherwise. -/
theorem C14_compare_selection (TM : TargetMachine) (MF : MachineFunction) (b : Nat)
    (MBB : MachineBasicBlock) (pre post : List MachineInstruction) (MI : MachineInstruction)
    (D L R : MachineOperand)
    (hb : MF.BasicBlocks.get? b = some MBB) (hI : MBB.Instructions = pre ++ MI :: post)
    (hO : MI.Operands = [D, L, R]) :
    ∃ MF1 p MI1 R1, SelectCMP TM MF b pre.length = some (MF1, p) ∧
      MF1.instrAt b p = some MI1 ∧
      MI1.Operands = [ExtendRegSize L 32, R1] ∧
      (R1 = R ∨ (R.IsImmediate = true ∧ R1.IsVirtualReg = true ∧
        R1 = MaterializeDest TM MF.NextVReg (ExtendRegSize D 32) ∧
        (MF1.BasicBlocks.get? b).map (fun B => B.Instructions) =
          some (pre ++ (MakeMOV R1 (MOVImmediate R.GetImmediate) ::
            MaterializeMOVKs R.GetImmediate R1) ++ MI1 :: post))) ∧
      (if R1.IsImmediate then MI1.Opcode = OperationCode.target AArch64.Opcodes.CMP_ri
        else MI1.Opcode = OperationCode.target AArch64.Opcodes.CMP_rr) := by
  have hat := instrAt_of_split MF b MBB pre post MI hb hI
  have hlen : MI.GetOperandsNumber = 3 := by simp [MachineInstruction.GetOperandsNumber, hO]
  have h2 : MI.GetOperand 2 = some R := by simp [MachineInstruction.GetOperand, hO]
  have hE := ExtendDefAndFirstSource_three MI D L R hO
  have hM1 := ModifyInstr_of_split MF b MBB pre post MI ExtendDefAndFirstSource hb hI
  have hb1 := get?_setBlock_self MF b
    { MBB with Instructions := pre ++ ExtendDefAndFirstSource MI :: post } MBB hb
  by_cases him : R.IsImmediate = true
  · by_cases hfit : IsInt 12 (toInt64 R.GetImmediate) = true
    · refine ⟨MF.setBlock b { MBB with Instructions := pre ++
          ((ExtendDefAndFirstSource MI).SetOpcode
            (OperationCode.target AArch64.Opcodes.CMP_ri)).RemoveOperand 0 :: post },
        pre.length, ((ExtendDefAndFirstSource MI).SetOpcode
          (OperationCode.target AArch64.Opcodes.CMP_ri)).RemoveOperand 0, R, ?_, ?_, ?_,
        Or.inl rfl, ?_⟩
      · simp only [SelectCMP, hat, hlen, h2, him, hfit, bne_self_eq_false, Bool.false_eq_true,
          if_false, if_true, hM1]
        rw [ModifyInstr_of_split _ b _ pre post _ _ hb1 rfl, setBlock_setBlock]
      · exact instrAt_setBlock_split MF b MBB _ pre post _ hb
      · simp [MachineInstruction.RemoveOperand, SetOpcode_target, hE]
      · simp [him, MachineInstruction.RemoveOperand, SetOpcode_target]
    · have hfit2 : IsInt 12 (toInt64 R.GetImmediate) = false := by simpa using hfit
      have h0 : (ExtendDefAndFirstSource MI).GetOperand 0 = some (ExtendRegSize D 32) := by
        simp [MachineInstruction.GetOperand, hE]
      have hN : (MF.setBlock b
          { MBB with Instructions := pre ++ ExtendDefAndFirstSource MI :: post }).NextVReg =
          MF.NextVReg := rfl
      have hb2 := get?_setBlock_self
        ((MF.setBlock b { MBB with Instructions := pre ++ ExtendDefAndFirstSource MI :: post
          }).GetNextAvailableVReg.2) b
        { MBB with Instructions := pre ++ (MakeMOV (MaterializeDest TM MF.NextVReg
          (ExtendRegSize D 32)) (MOVImmediate R.GetImmediate) ::
          MaterializeMOVKs R.GetImmediate (MaterializeDest TM MF.NextVReg
            (ExtendRegSize D 32))) ++ ExtendDefAndFirstSource MI :: post }
        { MBB with Instructions := pre ++ ExtendDefAndFirstSource MI :: post }
        (by simpa [MachineFunction.GetNextAvailableVReg] using hb1)
      have hlen2 : pre.length + ((MaterializeMOVKs R.GetImmediate
          (MaterializeDest TM MF.NextVReg (ExtendRegSize D 32))).length + 1) =
          (pre ++ (MakeMOV (MaterializeDest TM MF.NextVReg (ExtendRegSize D 32))
            (MOVImmediate R.GetImmediate) ::
            MaterializeMOVKs R.GetImmediate
              (MaterializeDest TM MF.NextVReg (ExtendRegSize D 32)))).length := by
        simp
      refine ⟨((MF.setBlock b { MBB with Instructions := pre ++ ExtendDefAndFirstSource MI :: post
          }).GetNextAvailableVReg.2).setBlock b { MBB with Instructions :=
            (pre ++ (MakeMOV (MaterializeDest TM MF.NextVReg (ExtendRegSize D 32))
              (MOVImmediate R.GetImmediate) :: MaterializeMOVKs R.GetImmediate
                (MaterializeDest TM MF.NextVReg (ExtendRegSize D 32)))) ++
            ((((ExtendDefAndFirstSource MI).SetOpcode
              (OperationCode.target AArch64.Opcodes.CMP_rr)).RemoveOperand 2).AddOperand
                (MaterializeDest TM MF.NextVReg (ExtendRegSize D 32))).RemoveOperand 0 :: post },
        (pre ++ (MakeMOV (MaterializeDest TM MF.NextVReg (ExtendRegSize D 32))
            (MOVImmediate R.GetImmediate) :: MaterializeMOVKs R.GetImmediate
              (MaterializeDest TM MF.NextVReg (ExtendRegSize D 32)))).length,
        ((((ExtendDefAndFirstSource MI).SetOpcode
          (OperationCode.target AArch64.Opcodes.CMP_rr)).RemoveOperand 2).AddOperand
            (MaterializeDest TM MF.NextVReg (ExtendRegSize D 32))).RemoveOperand 0,
        MaterializeDest TM MF.NextVReg (ExtendRegSize D 32), ?_, ?_, ?_, Or.inr ⟨him, rfl, rfl, ?_⟩,
        ?_⟩
      · simp only [SelectCMP, hat, hlen, h2, him, hfit2, bne_self_eq_false, Bool.false_eq_true,
          if_false, if_true, hM1]
        rw [MaterializeConstant_insert TM _ b _ pre post _ (ExtendRegSize D 32) _ _ hb1 rfl h0]
        simp only [hN]
        rw [hlen2, ModifyInstr_of_split _ b _ _ post _ _ hb2 rfl, setBlock_setBlock]
      · exact instrAt_of_split _ b _ _ post _ (get?_setBlock_self _ b _ _
          (by simpa [MachineFunction.GetNextAvailableVReg] using hb1)) rfl
      · simp [MachineInstruction.RemoveOperand, MachineInstruction.AddOperand, SetOpcode_target, hE]
      · rw [get?_setBlock_self _ b _ _ (by simpa [MachineFunction.GetNextAvailableVReg] using hb1)]
        simp
      · have : (MaterializeDest TM MF.NextVReg (ExtendRegSize D 32)).IsImmediate = false := rfl
        simp [this, MachineInstruction.RemoveOperand, MachineInstruction.AddOperand,
          SetOpcode_target]
  · have him2 : R.IsImmediate = false := by simpa using him
    refine ⟨MF.setBlock b { MBB with Instructions := pre ++
        ((ExtendDefAndFirstSource MI).SetOpcode
          (OperationCode.target AArch64.Opcodes.CMP_rr)).RemoveOperand 0 :: post },
      pre.length, ((ExtendDefAndFirstSource MI).SetOpcode
        (OperationCode.target AArch64.Opcodes.CMP_rr)).RemoveOperand 0, R, ?_, ?_, ?_,
      Or.inl rfl, ?_⟩
    · simp only [SelectCMP, hat, hlen, h2, him2, bne_self_eq_false, Bool.false_eq_true,
        if_false, hM1]
      rw [ModifyInstr_of_split _ b _ pre post _ _ hb1 rfl, setBlock_setBlock]
    · exact instrAt_setBlock_split MF b MBB _ pre post _ hb
    · simp [MachineInstruction.RemoveOperand, SetOpcode_target, hE]
    · simp [him2, MachineInstruction.RemoveOperand, SetOpcode_target]

theorem C14_compare_selection_witness :
    ∃ MF1 p MI1 R1,
      SelectCMP sampleTM (sampleMF (sampleCompare (MachineOperand.CreateVirtualRegister 1 8)
        (MachineOperand.CreateImmediate 100000 32))) 0 ([] : List MachineInstruction).length =
        some (MF1, p) ∧
      MF1.instrAt 0 p = some MI1 ∧
      MI1.Operands = [ExtendRegSize (MachineOperand.CreateVirtualRegister 1 8) 32, R1] ∧
      (R1 = MachineOperand.CreateImmediate 100000 32 ∨
        ((MachineOperand.CreateImmediate 100000 32).IsImmediate = true ∧ R1.IsVirtualReg = true ∧
        R1 = MaterializeDest sampleTM
          (sampleMF (sampleCompare (MachineOperand.CreateVirtualRegister 1 8)
            (MachineOperand.CreateImmediate 100000 32))).NextVReg
          (ExtendRegSize (MachineOperand.CreateVirtualRegister 0 32) 32) ∧
        (MF1.BasicBlocks.get? 0).map (fun B => B.Instructions) =
          some ([] ++ (MakeMOV R1 (MOVImmediate (MachineOperand.CreateImmediate 100000 32).GetImmediate)
            :: MaterializeMOVKs (MachineOperand.CreateImmediate 100000 32).GetImmediate R1) ++
            MI1 :: []))) ∧
      (if R1.IsImmediate then MI1.Opcode = OperationCode.target AArch64.Opcodes.CMP_ri
        else MI1.Opcode = OperationCode.target AArch64.Opcodes.CMP_rr) :=
  C14_compare_selection sampleTM
    (sampleMF (sampleCompare (MachineOperand.CreateVirtualRegister 1 8)
      (MachineOperand.CreateImmediate 100000 32))) 0
    { Name := "entry", Instructions := [sampleCompare (MachineOperand.CreateVirtualRegister 1 8)
      (MachineOperand.CreateImmediate 100000 32)] } [] []
    (sampleCompare (MachineOperand.CreateVirtualRegister 1 8)
      (MachineOperand.CreateImmediate 100000 32))
    (MachineOperand.CreateVirtualRegister 0 32) (MachineOperand.CreateVirtualRegister 1 8)
    (MachineOperand.CreateImmediate 100000 32) rfl rfl rfl

/-- C15 (as stated, refuted): a `BRANCH` that is not a fall-through branch and
stands right after a compare with relation `NE`: `SelectBRANCH` returns false
and leaves the instruction as it was, a `BRANCH` with its condition operand. -/
theorem C15_branch_without_fall_through :
    ((sampleBranchMF CMPRelation.NE false).instrAt 0 0).map
        (fun M => (M.Opcode, M.Relation)) =
      some (OperationCode.target AArch64.Opcodes.CMP_rr, CMPRelation.NE) ∧
    (sampleBranchMF CMPRelation.NE false).instrAt 0 1 = some (sampleBranch false) ∧
    SelectBRANCH (sampleBranchMF CMPRelation.NE false) 0 1 =
      some (false, sampleBranchMF CMPRelation.NE false) ∧
    (sampleBranch false).Opcode = OperationCode.BRANCH ∧
    (sampleBranch false).Operands = [MachineOperand.CreateVirtualRegister 0 32,
      MachineOperand.CreateLabel "then", MachineOperand.CreateLabel "then"] := by
  decide

/-- C15 (amended): for a fall-through `BRANCH` that stands right after an
instruction `P`, `SelectBRANCH` returns true, sets the opcode to the
conditional branch of the relation of `P` (`BEQ`, `BNE`, `BLT`, `BLE`, `BGT`,
`BGE` for `EQ`, `NE`, `LT`, `LE`, `GT`, `GE`, and `BEQ` when `P` carries no
relation) and removes the first operand, the condition, leaving the rest;
for a `BRANCH` that is not a fall-through branch it returns false and changes
nothing. -/
theorem C15_branch_selection (MF : MachineFunction) (b : Nat) (MBB : MachineBasicBlock)
    (pre post : List MachineInstruction) (P MI : MachineInstruction)
    (hb : MF.BasicBlocks.get? b = some MBB) (hI : MBB.Instructions = pre ++ P :: MI :: post) :
    (MI.IsFallThroughBranch = true →
      ∃ MI1, SelectBRANCH MF b (pre.length + 1) =
          some (true, MF.setBlock b { MBB with Instructions := pre ++ P :: MI1 :: post }) ∧
        MI1.Operands = MI.Operands.tail ∧
        (P.GetRelation = CMPRelation.EQ → MI1.Opcode = OperationCode.target AArch64.Opcodes.BEQ) ∧
        (P.GetRelation = CMPRelation.NE → MI1.Opcode = OperationCode.target AArch64.Opcodes.BNE) ∧
        (P.GetRelation = CMPRelation.LT → MI1.Opcode = OperationCode.target AArch64.Opcodes.BLT) ∧
        (P.GetRelation = CMPRelation.LE → MI1.Opcode = OperationCode.target AArch64.Opcodes.BLE) ∧
        (P.GetRelation = CMPRelation.GT → MI1.Opcode = OperationCode.target AArch64.Opcodes.BGT) ∧
        (P.GetRelation = CMPRelation.GE → MI1.Opcode = OperationCode.target AArch64.Opcodes.BGE) ∧
        (P.GetRelation = CMPRelation.INVALID →
          MI1.Opcode = OperationCode.target AArch64.Opcodes.BEQ)) ∧
    (MI.IsFallThroughBranch = false → SelectBRANCH MF b (pre.length + 1) = some (false, MF)) := by
  have hI2 : MBB.Instructions = (pre ++ [P]) ++ MI :: post := by simp [hI]
  have hat : MF.instrAt b (pre.length + 1) = some MI := by
    have := instrAt_of_split MF b MBB (pre ++ [P]) post MI hb hI2
    simpa using this
  have hP : MF.instrAt b pre.length = some P := instrAt_of_split MF b MBB pre (MI :: post) P hb hI
  constructor
  · intro hft
    refine ⟨(MI.SetOpcode (OperationCode.target (BranchOpcode P.GetRelation))).RemoveOperand 0,
      ?_, ?_, ?_⟩
    · simp only [SelectBRANCH, hat, hft, if_true, Nat.lt_add_left_iff_pos, Nat.lt_one_iff,
        Nat.add_sub_cancel, hP, Nat.zero_lt_succ]
      have := ModifyInstr_of_split MF b MBB (pre ++ [P]) post MI
        (fun M => (M.SetOpcode (OperationCode.target (BranchOpcode P.GetRelation))).RemoveOperand 0)
        hb hI2
      simp only [List.length_append, List.length_singleton, List.append_assoc,
        List.singleton_append] at this
      rw [this]
    · cases h : MI.Operands <;> simp [MachineInstruction.RemoveOperand, SetOpcode_target, h]
    · refine ⟨?_, ?_, ?_, ?_, ?_, ?_, ?_⟩ <;> intro h <;>
        simp [MachineInstruction.RemoveOperand, SetOpcode_target, h, BranchOpcode]
  · intro hft
    simp [SelectBRANCH, hat, hft]

theorem C15_branch_selection_witness :
    ∃ MI1, SelectBRANCH (sampleBranchMF CMPRelation.LT true) 0 1 =
        some (true, (sampleBranchMF CMPRelation.LT true).setBlock 0
          { Name := "entry", Instructions :=
            [(((sampleBranchMF CMPRelation.LT true).instrAt 0 0).getD {}), MI1] }) ∧
      MI1.Operands = [MachineOperand.CreateLabel "then"] ∧
      MI1.Opcode = OperationCode.target AArch64.Opcodes.BLT := by
  obtain ⟨MI1, h, hops, _, _, hlt, _⟩ := (C15_branch_selection (sampleBranchMF CMPRelation.LT true) 0
    { Name := "entry", Instructions :=
      [(((sampleBranchMF CMPRelation.LT true).instrAt 0 0).getD {}), sampleBranch true] }
    [] [] (((sampleBranchMF CMPRelation.LT true).instrAt 0 0).getD {}) (sampleBranch true)
    (by decide) (by decide)).1 (by decide)
  exact ⟨MI1, h, hops, hlt (by decide)⟩

theorem not_IsImmediate_of_register (MO : MachineOperand)
    (h : (MO.IsRegister || MO.IsVirtualReg) = true) : MO.IsImmediate = false := by
  cases hk : MO.Kind <;>
    simp_all [MachineOperand.IsRegister, MachineOperand.IsVirtualReg, MachineOperand.IsImmediate]

/-- C16: for a two-operand `SEXT` (respectively `ZEXT`) whose source is a
register of width 8, 16 or 32, the selection yields `SXTB`, `SXTH`, `SXTW`
(respectively `UXTB`, `UXTH`, `UXTW`) according to the source width and to
nothing else; the source operand stays and the destination operand is at
least 32 bits wide afterwards. -/
theorem C16_extension_selection (MI : MachineInstruction) (Dst Src : MachineOperand)
    (hO : MI.Operands = [Dst, Src]) (hreg : (Src.IsRegister || Src.IsVirtualReg) = true)
    (hw : Src.LLT.BitWidth = 8 ∨ Src.LLT.BitWidth = 16 ∨ Src.LLT.BitWidth = 32) :
    ∃ MS MZ D1, SelectSEXT MI = some MS ∧ SelectZEXT MI = some MZ ∧
      MS.Operands = [D1, Src] ∧ MZ.Operands = [D1, Src] ∧ 32 ≤ D1.GetSize ∧
      (Src.LLT.BitWidth = 8 → MS.Opcode = OperationCode.target AArch64.Opcodes.SXTB ∧
        MZ.Opcode = OperationCode.target AArch64.Opcodes.UXTB) ∧
      (Src.LLT.BitWidth = 16 → MS.Opcode = OperationCode.target AArch64.Opcodes.SXTH ∧
        MZ.Opcode = OperationCode.target AArch64.Opcodes.UXTH) ∧
      (Src.LLT.BitWidth = 32 → MS.Opcode = OperationCode.target AArch64.Opcodes.SXTW ∧
        MZ.Opcode = OperationCode.target AArch64.Opcodes.UXTW) := by
  have him := not_IsImmediate_of_register Src hreg
  have hlen : MI.GetOperandsNumber = 2 := by simp [MachineInstruction.GetOperandsNumber, hO]
  have hM : MI.ModifyOperand 0 (fun MO => ExtendRegSize MO 32) =
      { MI with Operands := [ExtendRegSize Dst 32, Src] } := by
    simp [MachineInstruction.ModifyOperand, hO]
  rcases hw with h | h | h
  · refine ⟨{ MI with Opcode := (OperationCode.target AArch64.Opcodes.SXTB)
                      Operands := [ExtendRegSize Dst 32, Src] },
      { MI with Opcode := (OperationCode.target AArch64.Opcodes.UXTB)
                Operands := [ExtendRegSize Dst 32, Src] }, ExtendRegSize Dst 32, ?_, ?_, rfl, rfl,
      ExtendRegSize_size Dst, ?_, ?_, ?_⟩
    · simp [SelectSEXT, hlen, hM, MachineInstruction.GetOperand, him, h, SetOpcode_target]
    · simp [SelectZEXT, hlen, hM, MachineInstruction.GetOperand, him, h, SetOpcode_target]
    all_goals simp [h]
  · refine ⟨{ MI with Opcode := (OperationCode.target AArch64.Opcodes.SXTH)
                      Operands := [ExtendRegSize Dst 32, Src] },
      { MI with Opcode := (OperationCode.target AArch64.Opcodes.UXTH)
                Operands := [ExtendRegSize Dst 32, Src] }, ExtendRegSize Dst 32, ?_, ?_, rfl, rfl,
      ExtendRegSize_size Dst, ?_, ?_, ?_⟩
    · simp [SelectSEXT, hlen, hM, MachineInstruction.GetOperand, him, h, SetOpcode_target]
    · simp [SelectZEXT, hlen, hM, MachineInstruction.GetOperand, him, h, SetOpcode_target]
    all_goals simp [h]
  · refine ⟨{ MI with Opcode := (OperationCode.target AArch64.Opcodes.SXTW)
                      Operands := [ExtendRegSize Dst 32, Src] },
      { MI with Opcode := (OperationCode.target AArch64.Opcodes.UXTW)
                Operands := [ExtendRegSize Dst 32, Src] }, ExtendRegSize Dst 32, ?_, ?_, rfl, rfl,
      ExtendRegSize_size Dst, ?_, ?_, ?_⟩
    · simp [SelectSEXT, hlen, hM, MachineInstruction.GetOperand, him, h, SetOpcode_target]
    · simp [SelectZEXT, hlen, hM, MachineInstruction.GetOperand, him, h, SetOpcode_target]
    all_goals simp [h]

theorem C16_extension_selection_witness :
    ∃ MS MZ D1, SelectSEXT (sampleTwoAddress OperationCode.SEXT 1 16 2 8) = some MS ∧
      SelectZEXT (sampleTwoAddress OperationCode.SEXT 1 16 2 8) = some MZ ∧
      MS.Operands = [D1, MachineOperand.CreateVirtualRegister 2 8] ∧
      MZ.Operands = [D1, MachineOperand.CreateVirtualRegister 2 8] ∧ 32 ≤ D1.GetSize ∧
      MS.Opcode = OperationCode.target AArch64.Opcodes.SXTB ∧
      MZ.Opcode = OperationCode.target AArch64.Opcodes.UXTB := by
  obtain ⟨MS, MZ, D1, h1, h2, h3, h4, h5, h8, _, _⟩ := C16_extension_selection
    (sampleTwoAddress OperationCode.SEXT 1 16 2 8) (MachineOperand.CreateVirtualRegister 1 16)
    (MachineOperand.CreateVirtualRegister 2 8) rfl (by decide) (Or.inl rfl)
  exact ⟨MS, MZ, D1, h1, h2, h3, h4, h5, (h8 rfl).1, (h8 rfl).2⟩

theorem toInt64_emod (x k : Nat) (hk : k ≤ 64) :
    toInt64 x % 2 ^ k = ((x % 2 ^ k : Nat) : Int) := by
  have hd : (2 : Int) ^ k ∣ 2 ^ 64 := pow_dvd_pow 2 hk
  have hdn : (2 : Nat) ^ k ∣ 2 ^ 64 := pow_dvd_pow 2 hk
  have hx : ((x % 2 ^ 64 : Nat) : Int) % 2 ^ k = ((x % 2 ^ k : Nat) : Int) := by
    have h1 : (x % 2 ^ 64) % 2 ^ k = x % 2 ^ k := Nat.mod_mod_of_dvd _ hdn
    rw [← h1]
    push_cast
    rfl
  unfold toInt64
  split
  · exact hx
  · rw [Int.sub_emod, Int.emod_eq_zero_of_dvd hd, sub_zero, Int.emod_emod_of_dvd _ (dvd_refl _)]
    exact hx

/-- C17: `SelectTRUNC` on a two-operand `TRUNC`.  With a register source and a
destination of width `w` in {8, 16} the result is `AND_rri` with the operands
followed by the immediate `2^w - 1`, the destination widened to 32 bits; with
a register source of 64 bits and a destination of 32 bits it is `MOV_rr` with
the operands unchanged; with an immediate source `v` and a destination of
width `w` in {8, 16} it is `MOV_rc` whose immediate is `v mod 2^w` (for `v`
read as an unsigned or as a signed number alike). -/
theorem C17_truncation_selection (MI : MachineInstruction) (Dst Src : MachineOperand)
    (hO : MI.Operands = [Dst, Src]) :
    ((Src.IsRegister || Src.IsVirtualReg) = true →
      (Dst.LLT.BitWidth = 8 ∨ Dst.LLT.BitWidth = 16) →
      ∃ MI1 D1, SelectTRUNC MI = some MI1 ∧
        MI1.Opcode = OperationCode.target AArch64.Opcodes.AND_rri ∧
        MI1.Operands = [D1, Src, MachineOperand.CreateImmediate (2 ^ Dst.LLT.BitWidth - 1) 32] ∧
        D1 = { Dst with LLT := Dst.LLT.SetBitWidth 32 } ∧ D1.GetSize = 32) ∧
    ((Src.IsRegister || Src.IsVirtualReg) = true →
      Dst.LLT.BitWidth = 32 → Src.LLT.BitWidth = 64 →
      ∃ MI1, SelectTRUNC MI = some MI1 ∧
        MI1.Opcode = OperationCode.target AArch64.Opcodes.MOV_rr ∧ MI1.Operands = [Dst, Src]) ∧
    (Src.IsImmediate = true → (Dst.LLT.BitWidth = 8 ∨ Dst.LLT.BitWidth = 16) →
      ∃ MI1 D1 Imm1, SelectTRUNC MI = some MI1 ∧
        MI1.Opcode = OperationCode.target AArch64.Opcodes.MOV_rc ∧
        MI1.Operands = [D1, Imm1] ∧ Imm1.IsImmediate = true ∧
        Imm1.GetImmediate = Src.GetImmediate % 2 ^ Dst.LLT.BitWidth ∧
        (Imm1.GetImmediate : Int) = toInt64 Src.GetImmediate % 2 ^ Dst.LLT.BitWidth) := by
  have hlen : MI.GetOperandsNumber = 2 := by simp [MachineInstruction.GetOperandsNumber, hO]
  have hE : ∀ w, w < 32 → Dst.LLT.BitWidth = w →
      ExtendRegSize Dst 32 = { Dst with LLT := Dst.LLT.SetBitWidth 32 } := by
    intro w hw h
    unfold ExtendRegSize
    rw [if_pos (by simp only [MachineOperand.GetSize, h]; exact hw)]
  refine ⟨?_, ?_, ?_⟩
  · intro hreg hw
    have him := not_IsImmediate_of_register Src hreg
    rcases hw with h | h
    · refine ⟨TruncNarrow MI Src 0xFF, { Dst with LLT := Dst.LLT.SetBitWidth 32 }, ?_, ?_, ?_,
        rfl, rfl⟩
      · simp [SelectTRUNC, hlen, MachineInstruction.GetOperand, hO, h]
      · simp [TruncNarrow, him, MachineInstruction.ModifyOperand, MachineInstruction.AddImmediate,
          MachineInstruction.AddOperand, SetOpcode_target]
      · simp [TruncNarrow, him, MachineInstruction.ModifyOperand, MachineInstruction.AddImmediate,
          MachineInstruction.AddOperand, SetOpcode_target, hO, hE 8 (by decide) h, h]
    · refine ⟨TruncNarrow MI Src 0xFFFF, { Dst with LLT := Dst.LLT.SetBitWidth 32 }, ?_, ?_, ?_,
        rfl, rfl⟩
      · simp [SelectTRUNC, hlen, MachineInstruction.GetOperand, hO, h]
      · simp [TruncNarrow, him, MachineInstruction.ModifyOperand, MachineInstruction.AddImmediate,
          MachineInstruction.AddOperand, SetOpcode_target]
      · simp [TruncNarrow, him, MachineInstruction.ModifyOperand, MachineInstruction.AddImmediate,
          MachineInstruction.AddOperand, SetOpcode_target, hO, hE 16 (by decide) h, h]
  · intro hreg hd hs
    have him := not_IsImmediate_of_register Src hreg
    refine ⟨MI.SetOpcode (OperationCode.target AArch64.Opcodes.MOV_rr), ?_, rfl, hO⟩
    simp [SelectTRUNC, hlen, MachineInstruction.GetOperand, hO, hd, hs, him]
  · intro him hw
    have hk : ∀ n, (Src.SetValue n).IsImmediate = true := by
      intro n
      simpa [MachineOperand.IsImmediate, MachineOperand.SetValue] using him
    rcases hw with h | h
    · refine ⟨TruncNarrow MI Src 0xFF, ExtendRegSize Dst 32,
        Src.SetValue (Src.GetImmediate &&& 0xFF), ?_, ?_, ?_, hk _, ?_, ?_⟩
      · simp [SelectTRUNC, hlen, MachineInstruction.GetOperand, hO, h]
      · simp [TruncNarrow, him, MachineInstruction.ModifyOperand, SetOpcode_target]
      · simp [TruncNarrow, him, MachineInstruction.ModifyOperand, SetOpcode_target, hO]
      · have := Nat.and_pow_two_sub_one_eq_mod Src.GetImmediate 8
        simp only [MachineOperand.SetValue, MachineOperand.GetImmediate, h] at this ⊢
        norm_num at this ⊢
        rw [this]
        omega
      · have := Nat.and_pow_two_sub_one_eq_mod Src.GetImmediate 8
        rw [h, toInt64_emod _ 8 (by decide)]
        simp only [MachineOperand.SetValue, MachineOperand.GetImmediate] at this ⊢
        norm_num at this ⊢
        rw [this]
        omega
    · refine ⟨TruncNarrow MI Src 0xFFFF, ExtendRegSize Dst 32,
        Src.SetValue (Src.GetImmediate &&& 0xFFFF), ?_, ?_, ?_, hk _, ?_, ?_⟩
      · simp [SelectTRUNC, hlen, MachineInstruction.GetOperand, hO, h]
      · simp [TruncNarrow, him, MachineInstruction.ModifyOperand, SetOpcode_target]
      · simp [TruncNarrow, him, MachineInstruction.ModifyOperand, SetOpcode_target, hO]
      · have := Nat.and_pow_two_sub_one_eq_mod Src.GetImmediate 16
        simp only [MachineOperand.SetValue, MachineOperand.GetImmediate, h] at this ⊢
        norm_num at this ⊢
        rw [this]
        omega
      · have := Nat.and_pow_two_sub_one_eq_mod Src.GetImmediate 16
        rw [h, toInt64_emod _ 16 (by decide)]
        simp only [MachineOperand.SetValue, MachineOperand.GetImmediate] at this ⊢
        norm_num at this ⊢
        rw [this]
        omega

theorem C17_truncation_selection_witness :
    (∃ MI1 D1, SelectTRUNC (sampleTwoAddress OperationCode.TRUNC 1 8 2 32) = some MI1 ∧
      MI1.Opcode = OperationCode.target AArch64.Opcodes.AND_rri ∧
      MI1.Operands = [D1, MachineOperand.CreateVirtualRegister 2 32,
        MachineOperand.CreateImmediate 255 32] ∧
      D1 = MachineOperand.CreateVirtualRegister 1 32) ∧
    (∃ MI1, SelectTRUNC (sampleTwoAddress OperationCode.TRUNC 1 32 2 64) = some MI1 ∧
      MI1.Opcode = OperationCode.target AArch64.Opcodes.MOV_rr ∧
      MI1.Operands = [MachineOperand.CreateVirtualRegister 1 32,
        MachineOperand.CreateVirtualRegister 2 64]) ∧
    (∃ MI1 D1 Imm1,
      SelectTRUNC (((MachineInstruction.create OperationCode.TRUNC).AddVirtualRegister 1 16).AddImmediate
        (2 ^ 64 - 2) 32) = some MI1 ∧
      MI1.Opcode = OperationCode.target AArch64.Opcodes.MOV_rc ∧
      MI1.Operands = [D1, Imm1] ∧ Imm1.GetImmediate = 65534) := by
  refine ⟨?_, ?_, ?_⟩
  · obtain ⟨MI1, D1, h1, h2, h3, h4, _⟩ := (C17_truncation_selection
      (sampleTwoAddress OperationCode.TRUNC 1 8 2 32) (MachineOperand.CreateVirtualRegister 1 8)
      (MachineOperand.CreateVirtualRegister 2 32) rfl).1 (by decide) (Or.inl rfl)
    exact ⟨MI1, D1, h1, h2, h3, h4⟩
  · exact (C17_truncation_selection
      (sampleTwoAddress OperationCode.TRUNC 1 32 2 64) (MachineOperand.CreateVirtualRegister 1 32)
      (MachineOperand.CreateVirtualRegister 2 64) rfl).2.1 (by decide) rfl rfl
  · obtain ⟨MI1, D1, Imm1, h1, h2, h3, _, h5, _⟩ := (C17_truncation_selection
      (((MachineInstruction.create OperationCode.TRUNC).AddVirtualRegister 1 16).AddImmediate
        (2 ^ 64 - 2) 32) (MachineOperand.CreateVirtualRegister 1 16)
      (MachineOperand.CreateImmediate (2 ^ 64 - 2) 32) rfl).2.2 (by decide) (Or.inr rfl)
    exact ⟨MI1, D1, Imm1, h1, h2, h3, h5.trans (by decide)⟩

/-- C18 (code defect): the load of a 16-bit register through a pointer held
in a register is selected as `LDR`, the word form, while the store of a
16-bit register through the same pointer is selected as `STRH`: `SelectLOAD`
tests the width of the loaded register for 8 bits only. -/
theorem C18_half_word_load_through_pointer :
    (sampleHalfLoadMF.instrAt 0 0).map (fun M => (M.Opcode, M.Operands)) =
      some (OperationCode.LOAD,
        [MachineOperand.CreateVirtualRegister 10 16, MachineOperand.CreateMemory 3 0 64]) ∧
    ((sampleHalfLoadMF.instrAt 0 0).bind (SelectLOAD sampleHalfLoadMF)).map
        (fun M => (M.Opcode, M.Operands)) =
      some (OperationCode.target AArch64.Opcodes.LDR,
        [MachineOperand.CreateVirtualRegister 10 16, MachineOperand.CreateMemory 3 0 64]) ∧
    sampleHalfStore.Operands =
      [MachineOperand.CreateMemory 3 0 64, MachineOperand.CreateVirtualRegister 10 16] ∧
    (SelectSTORE sampleHalfLoadMF sampleHalfStore).map (fun M => M.Opcode) =
      some (OperationCode.target AArch64.Opcodes.STRH) := by
  decide

/-! ## The shape of the lowered module -/

theorem map_Name_modify (f : MachineBasicBlock → MachineBasicBlock) (hf : ∀ B, (f B).Name = B.Name)
    (l : List MachineBasicBlock) (b : Nat) :
    (l.modify f b).map (fun B => B.Name) = l.map (fun B => B.Name) := by
  induction l generalizing b with
  | nil => cases b <;> rfl
  | cons a t ih =>
    cases b with
    | zero => simp [hf]
    | succ k => simp [ih k]

theorem Shape_InsertInstr (MF : MachineFunction) (b : Nat) (MI : MachineInstruction) :
    (MF.InsertInstr b MI).Shape = MF.Shape := by
  simp only [MachineFunction.Shape, MachineFunction.InsertInstr]
  rw [map_Name_modify (fun BB => BB.InsertInstr MI) (fun _ => rfl)]

theorem Shape_ModifyInstr (MF : MachineFunction) (b i : Nat)
    (f : MachineInstruction → MachineInstruction) : (MF.ModifyInstr b i f).Shape = MF.Shape := by
  simp only [MachineFunction.Shape, MachineFunction.ModifyInstr]
  rw [map_Name_modify (fun BB => { BB with Instructions := BB.Instructions.modify f i })
    (fun _ => rfl)]

theorem Shape_InsertStackSlot (MF : MachineFunction) (ID Size Align : Nat) :
    (MF.InsertStackSlot ID Size Align).Shape = MF.Shape := by
  unfold MachineFunction.InsertStackSlot MachineFunction.Shape
  split <;> rfl

theorem Shape_S_InsertInstr (S : IRtoLLIR) (bb : Nat) (MI : MachineInstruction) :
    (S.InsertInstr bb MI).MF.Shape = S.MF.Shape := Shape_InsertInstr _ _ _

theorem Shape_S_NextAvailableVReg (S : IRtoLLIR) : S.NextAvailableVReg.2.MF.Shape = S.MF.Shape :=
  rfl

theorem Shape_S_ModifyInstr (S : IRtoLLIR) (bb i : Nat)
    (f : MachineInstruction → MachineInstruction) : (S.ModifyInstr bb i f).MF.Shape = S.MF.Shape := by
  simp only [MachineFunction.Shape, IRtoLLIR.ModifyInstr]
  rw [map_Name_modify (fun BB => { BB with Instructions := BB.Instructions.modify f i })
    (fun _ => rfl)]

theorem Shape_EmitLoadFromSlot (S : IRtoLLIR) (bb BitWidth Slot : Nat) :
    (EmitLoadFromSlot S bb BitWidth Slot).2.MF.Shape = S.MF.Shape := by
  simp [EmitLoadFromSlot, Shape_S_InsertInstr, Shape_S_NextAvailableVReg]

theorem Shape_GetVRegForValue (S : IRtoLLIR) (Val : Value) (bb : Nat) (IsDef : Bool)
    (BitWidth : Nat) : (GetVRegForValue S Val bb IsDef BitWidth).2.MF.Shape = S.MF.Shape := by
  unfold GetVRegForValue
  split
  · exact Shape_EmitLoadFromSlot _ _ _ _
  · split
    · split
      · exact Shape_EmitLoadFromSlot _ _ _ _
      · rfl
    · split
      · exact Shape_EmitLoadFromSlot _ _ _ _
      · rfl

theorem Shape_GetMachineOperandFromValue (TM : TargetMachine) (S S' : IRtoLLIR) (Val : Value)
    (bb : Nat) (IsDef : Bool) (MO : MachineOperand)
    (h : GetMachineOperandFromValue TM S Val bb IsDef = some (MO, S')) :
    S'.MF.Shape = S.MF.Shape := by
  unfold GetMachineOperandFromValue at h
  split at h
  · split at h <;> split at h <;> simp only [Option.some.injEq, Prod.mk.injEq] at h <;>
      rw [← h.2] <;> exact Shape_GetVRegForValue _ _ _ _ _
  · split at h
    · split at h <;> simp only [Option.some.injEq, Prod.mk.injEq] at h <;> rw [← h.2]
    · split at h
      · simp only [Option.some.injEq, Prod.mk.injEq] at h
        rw [← h.2]
      · split at h
        · simp only [Option.some.injEq, Prod.mk.injEq] at h
          rw [← h.2]
          simp [Shape_S_InsertInstr, Shape_S_NextAvailableVReg]
        · cases h

theorem Shape_LowerStructArg (TM : TargetMachine) (bb : Nat) (l : List Nat) :
    ∀ (S S' : IRtoLLIR) (c c' : Nat), LowerStructArg TM S bb l c = some (S', c') →
      S'.MF.Shape = S.MF.Shape := by
  induction l with
  | nil =>
    intro S S' c c' h
    simp only [LowerStructArg, Option.some.injEq, Prod.mk.injEq] at h
    rw [← h.1]
  | cons a t ih =>
    intro S S' c c' h
    simp only [LowerStructArg] at h
    split at h
    · cases h
    · rw [ih _ _ _ _ h, Shape_S_InsertInstr]

theorem Shape_LowerAddressArg (TM : TargetMachine) (I : CallInstruction) (bb : Nat)
    (S S' : IRtoLLIR) (c c' : Nat) (Param : Value)
    (h : LowerAddressArg TM I bb S c Param = some (S', c')) : S'.MF.Shape = S.MF.Shape := by
  unfold LowerAddressArg at h
  split at h
  · cases h
  · simp only [Option.some.injEq, Prod.mk.injEq] at h
    rw [← h.1, Shape_S_InsertInstr]

theorem Shape_LowerScalarArg (TM : TargetMachine) (bb : Nat) (S S' : IRtoLLIR) (c c' : Nat)
    (Param : Value) (h : LowerScalarArg TM bb S c Param = some (S', c')) :
    S'.MF.Shape = S.MF.Shape := by
  unfold LowerScalarArg at h
  split at h
  · cases h
  · rename_i Src S1 h1
    split at h
    · cases h
    · simp only [Option.some.injEq, Prod.mk.injEq] at h
      rw [← h.1, Shape_S_InsertInstr, Shape_GetMachineOperandFromValue _ _ _ _ _ _ _ h1]

theorem Shape_LowerCallArg (TM : TargetMachine) (I : CallInstruction) (bb : Nat)
    (S S' : IRtoLLIR) (c c' : Nat) (Param : Value)
    (h : LowerCallArg TM I bb S c Param = some (S', c')) : S'.MF.Shape = S.MF.Shape := by
  unfold LowerCallArg at h
  split at h
  · split at h
    · cases h
    · exact Shape_LowerStructArg _ _ _ _ _ _ _ h
  · split at h
    · exact Shape_LowerAddressArg _ _ _ _ _ _ _ _ h
    · exact Shape_LowerScalarArg _ _ _ _ _ _ _ h

theorem Shape_LowerCallArgs (TM : TargetMachine) (I : CallInstruction) (bb : Nat)
    (l : List Value) : ∀ (S S' : IRtoLLIR) (c c' : Nat),
      LowerCallArgs TM I bb S c l = some (S', c') → S'.MF.Shape = S.MF.Shape := by
  induction l with
  | nil =>
    intro S S' c c' h
    simp only [LowerCallArgs, Option.some.injEq, Prod.mk.injEq] at h
    rw [← h.1]
  | cons a t ih =>
    intro S S' c c' h
    simp only [LowerCallArgs] at h
    split at h
    · cases h
    · rename_i S1 c1 h1
      rw [ih _ _ _ _ h, Shape_LowerCallArg _ _ _ _ _ _ _ _ h1]

theorem Shape_SpillReturnValue (TM : TargetMachine) (I : CallInstruction) (bb StackSlot : Nat)
    (n : Nat) : ∀ (i RetBitSize : Nat) (S S' : IRtoLLIR) (MI : MachineInstruction),
      SpillReturnValue TM I bb StackSlot n i RetBitSize S = some (MI, S') →
      S'.MF.Shape = S.MF.Shape := by
  induction n with
  | zero =>
    intro i R S S' MI h
    simp [SpillReturnValue] at h
  | succ k ih =>
    intro i R S S' MI h
    simp only [SpillReturnValue] at h
    split at h
    · cases h
    · split at h
      · simp only [Option.some.injEq, Prod.mk.injEq] at h
        rw [← h.2]
      · rw [ih _ _ _ _ _ h, Shape_S_InsertInstr]

theorem Shape_ConvertCall (TM : TargetMachine) (S S' : IRtoLLIR) (I : CallInstruction) (bb : Nat)
    (MI : MachineInstruction) (h : ConvertCall TM S I bb = some (MI, S')) :
    S'.MF.Shape = S.MF.Shape := by
  cases hL : LowerCallArgs TM I bb { S with MF := S.MF.SetToCaller } 0 I.Args with
  | none => simp [ConvertCall, hL] at h
  | some r =>
    obtain ⟨S1, c1⟩ := r
    have hS1 : S1.MF.Shape = S.MF.Shape := (Shape_LowerCallArgs _ _ _ _ _ _ _ _ hL).trans rfl
    simp only [ConvertCall, hL] at h
    split at h
    · simp only [Option.some.injEq, Prod.mk.injEq] at h
      rw [← h.2, hS1]
    · split at h
      · rw [Shape_SpillReturnValue _ _ _ _ _ _ _ _ _ _ h]
        simp only [Shape_InsertStackSlot]
        rw [Shape_S_NextAvailableVReg, Shape_S_InsertInstr, hS1]
      · cases h

theorem Shape_LoadStructChunks (TM : TargetMachine) (I : LoadInstruction) (bb AddressReg : Nat)
    (n : Nat) : ∀ (i : Nat) (S S' : IRtoLLIR) (MI : MachineInstruction),
      LoadStructChunks TM I bb AddressReg n i S = some (MI, S') → S'.MF.Shape = S.MF.Shape := by
  induction n with
  | zero =>
    intro i S S' MI h
    simp [LoadStructChunks] at h
  | succ k ih =>
    intro i S S' MI h
    simp only [LoadStructChunks] at h
    split at h
    · simp only [Option.some.injEq, Prod.mk.injEq] at h
      rw [← h.2]
      rfl
    · rw [ih _ _ _ _ h, Shape_S_InsertInstr]
      rfl

theorem Shape_ConvertLoad (TM : TargetMachine) (S S' : IRtoLLIR) (I : LoadInstruction) (bb : Nat)
    (MI : MachineInstruction) (h : ConvertLoad TM S I bb = some (MI, S')) :
    S'.MF.Shape = S.MF.Shape := by
  unfold ConvertLoad at h
  split at h
  · cases h
  · have hA : ∀ A : Nat × IRtoLLIR, A = (if I.MemoryLocation.IsGlobalVar = true then
          (S.NextAvailableVReg.1, S.NextAvailableVReg.2.InsertInstr bb
            (((MachineInstruction.create OperationCode.GLOBAL_ADDRESS).AddVirtualRegister
              S.NextAvailableVReg.1 TM.PointerSize).AddGlobalSymbol I.MemoryLocation.Name))
        else (GetIDFromValue S I.MemoryLocation, S)) → A.2.MF.Shape = S.MF.Shape := by
      intro A hA
      rw [hA]
      split
      · exact Shape_S_InsertInstr _ _ _
      · rfl
    simp only at h
    split at h
    · cases h
    · rename_i Dest S1 h1
      have hS1 := (Shape_GetMachineOperandFromValue _ _ _ _ _ _ _ h1).trans (hA _ rfl)
      split at h
      · split at h
        · simp only [Option.some.injEq, Prod.mk.injEq] at h
          rw [← h.2, hS1]
        · rw [Shape_LoadStructChunks _ _ _ _ _ _ _ _ _ h, hS1]
      · simp only [Option.some.injEq, Prod.mk.injEq] at h
        rw [← h.2, hS1]

theorem Shape_LowerScaledIndex (TM : TargetMachine) (S : IRtoLLIR) (bb Multiplier : Nat)
    (IndexReg : MachineOperand) :
    (LowerScaledIndex TM S bb Multiplier IndexReg).2.MF.Shape = S.MF.Shape := by
  unfold LowerScaledIndex
  split
  · exact Shape_S_InsertInstr _ _ _
  · split
    · simp only [Shape_S_InsertInstr, Shape_S_NextAvailableVReg]
    · simp only [Shape_S_InsertInstr, Shape_S_NextAvailableVReg]

theorem Shape_RenameGoalDef (S S' : IRtoLLIR) (bb : Nat) (GoalInstr G1 : MachineInstruction)
    (GoalInstrIdx : Option Nat) (IsGlobal IndexIsInReg : Bool)
    (h : RenameGoalDef S bb GoalInstr GoalInstrIdx IsGlobal IndexIsInReg = some (G1, S')) :
    S'.MF.Shape = S.MF.Shape := by
  unfold RenameGoalDef at h
  split at h
  · split at h
    · simp only [Option.some.injEq, Prod.mk.injEq] at h
      rw [← h.2]
      rfl
    · split at h
      · cases h
      · simp only [Option.some.injEq, Prod.mk.injEq] at h
        rw [← h.2, Shape_S_ModifyInstr]
        rfl
  · simp only [Option.some.injEq, Prod.mk.injEq] at h
    rw [← h.2]

theorem Shape_FinishGEP (TM : TargetMachine) (S S' : IRtoLLIR) (I : GetElementPointerInstruction)
    (bb : Nat) (Dest : MachineOperand) (GoalInstr : MachineInstruction) (GoalInstrIdx : Option Nat)
    (IndexIsInReg : Bool) (MULResVReg ConstantIndexPart : Nat) (IsGlobal IsReg : Bool)
    (MI : MachineInstruction)
    (h : FinishGEP TM S I bb Dest GoalInstr GoalInstrIdx IndexIsInReg MULResVReg ConstantIndexPart
      IsGlobal IsReg = some (MI, S')) : S'.MF.Shape = S.MF.Shape := by
  cases hR : RenameGoalDef S bb GoalInstr GoalInstrIdx IsGlobal IndexIsInReg with
  | none => simp [FinishGEP, hR] at h
  | some r =>
    obtain ⟨Goal1, S1⟩ := r
    have hS1 := Shape_RenameGoalDef _ _ _ _ _ _ _ _ hR
    have hS2 : (if (!Goal1.IsInvalid && !IndexIsInReg) = true then S1.InsertInstr bb Goal1
        else S1).MF.Shape = S.MF.Shape := by
      split
      · rw [Shape_S_InsertInstr, hS1]
      · exact hS1
    simp only [FinishGEP, hR] at h
    split at h
    · cases h
    · rename_i B S3 hB
      have hS3 : S3.MF.Shape = S.MF.Shape := by
        split at hB
        · rw [Shape_GetMachineOperandFromValue _ _ _ _ _ _ _ hB, hS2]
        · split at hB
          · split at hB
            · simp only [Option.map_eq_some', Prod.mk.injEq] at hB
              obtain ⟨d, _, _, hd⟩ := hB
              rw [← hd, hS2]
            · cases hB
          · simp only [Option.map_eq_some', Prod.mk.injEq] at hB
            obtain ⟨d, _, _, hd⟩ := hB
            rw [← hd, hS2]
      split at h <;> simp only [Option.some.injEq, Prod.mk.injEq] at h <;> rw [← h.2, hS3]

theorem Shape_ConvertGEP (TM : TargetMachine) (S S' : IRtoLLIR) (I : GetElementPointerInstruction)
    (bb : Nat) (MI : MachineInstruction) (h : ConvertGEP TM S I bb = some (MI, S')) :
    S'.MF.Shape = S.MF.Shape := by
  cases h1 : GetMachineOperandFromValue TM S I.Self bb true with
  | none => simp [ConvertGEP, h1] at h
  | some r1 =>
    obtain ⟨Dest, S1⟩ := r1
    have hS1 := Shape_GetMachineOperandFromValue _ _ _ _ _ _ _ h1
    cases h2 : GetMachineOperandFromValue TM S1 I.Index bb false with
    | none => simp [ConvertGEP, h1, h2] at h
    | some r2 =>
      obtain ⟨IndexReg, S2⟩ := r2
      have hS2 := (Shape_GetMachineOperandFromValue _ _ _ _ _ _ _ h2).trans hS1
      have hS3 : ∀ (c : Prop) [Decidable c] (G : MachineInstruction),
          (if c then S2.InsertInstr bb G else S2).MF.Shape = S.MF.Shape := by
        intro c _ G
        split
        · rw [Shape_S_InsertInstr, hS2]
        · exact hS2
      cases hG : I.Source.IsGlobalVar <;> cases hSt : S.MF.IsStackSlot (GetIDFromValue S I.Source) <;>
        simp only [ConvertGEP, h1, h2, hG, hSt, Bool.false_eq_true, if_true, if_false] at h <;>
        split at h <;> split at h
      all_goals try split at h
      all_goals first
        | (simp only [Option.some.injEq, Prod.mk.injEq] at h
           rw [← h.2, hS2])
        | (rw [Shape_FinishGEP _ _ _ _ _ _ _ _ _ _ _ _ _ _ h]
           simp only [Shape_LowerScaledIndex, Shape_S_InsertInstr, hS2, hS3])
        | cases h

theorem Shape_MaterializeAddress (TM : TargetMachine) (S S' : IRtoLLIR) (Val : Value) (bb : Nat)
    (MO : MachineOperand) (h : MaterializeAddress TM S Val bb = some (MO, S')) :
    S'.MF.Shape = S.MF.Shape := by
  unfold MaterializeAddress at h
  simp only at h
  split at h
  · simp only [Option.some.injEq, Prod.mk.injEq] at h
    rw [← h.2, Shape_S_InsertInstr]
    rfl
  · exact Shape_GetMachineOperandFromValue _ _ _ _ _ _ _ h

theorem Shape_ConvertBinary (TM : TargetMachine) (S S' : IRtoLLIR) (I : BinaryInstruction)
    (bb : Nat) (MI : MachineInstruction) (h : ConvertBinary TM S I bb = some (MI, S')) :
    S'.MF.Shape = S.MF.Shape := by
  unfold ConvertBinary at h
  split at h
  · cases h
  · rename_i R S1 h1
    split at h
    · cases h
    · rename_i F S2 h2
      split at h
      · cases h
      · rename_i X S3 h3
        simp only [Option.some.injEq, Prod.mk.injEq] at h
        rw [← h.2, Shape_GetMachineOperandFromValue _ _ _ _ _ _ _ h3,
          Shape_GetMachineOperandFromValue _ _ _ _ _ _ _ h2,
          Shape_GetMachineOperandFromValue _ _ _ _ _ _ _ h1]

theorem Shape_ConvertCompare (TM : TargetMachine) (S S' : IRtoLLIR) (I : CompareInstruction)
    (bb : Nat) (MI : MachineInstruction) (h : ConvertCompare TM S I bb = some (MI, S')) :
    S'.MF.Shape = S.MF.Shape := by
  unfold ConvertCompare at h
  split at h
  · cases h
  · rename_i R S1 h1
    split at h
    · cases h
    · rename_i F S2 h2
      split at h
      · cases h
      · rename_i X S3 h3
        simp only [Option.some.injEq, Prod.mk.injEq] at h
        rw [← h.2, Shape_GetMachineOperandFromValue _ _ _ _ _ _ _ h3,
          Shape_GetMachineOperandFromValue _ _ _ _ _ _ _ h2,
          Shape_GetMachineOperandFromValue _ _ _ _ _ _ _ h1]

theorem Shape_ConvertBitcastOperand (TM : TargetMachine) (S S' : IRtoLLIR) (I : UnaryInstruction)
    (bb : Nat) (r : OperationCode × MachineOperand)
    (h : ConvertBitcastOperand TM S I bb = some (r, S')) : S'.MF.Shape = S.MF.Shape := by
  unfold ConvertBitcastOperand at h
  split at h
  · split at h <;> simp only [Option.some.injEq, Prod.mk.injEq] at h <;> rw [← h.2]
  · split at h
    · cases h
    · rename_i Op S1 h1
      simp only [Option.some.injEq, Prod.mk.injEq] at h
      rw [← h.2, Shape_GetMachineOperandFromValue _ _ _ _ _ _ _ h1]

theorem Shape_ConvertUnary (TM : TargetMachine) (S S' : IRtoLLIR) (I : UnaryInstruction)
    (bb : Nat) (MI : MachineInstruction) (h : ConvertUnary TM S I bb = some (MI, S')) :
    S'.MF.Shape = S.MF.Shape := by
  unfold ConvertUnary at h
  split at h
  · cases h
  · rename_i R S1 h1
    have hS1 := Shape_GetMachineOperandFromValue _ _ _ _ _ _ _ h1
    split at h
    · split at h
      · cases h
      · rename_i Op MO S2 h2
        simp only [Option.some.injEq, Prod.mk.injEq] at h
        rw [← h.2, Shape_ConvertBitcastOperand _ _ _ _ _ _ h2, hS1]
    · split at h
      · cases h
      · rename_i MO S2 h2
        simp only [Option.some.injEq, Prod.mk.injEq] at h
        rw [← h.2, Shape_GetMachineOperandFromValue _ _ _ _ _ _ _ h2, hS1]

theorem Shape_ConvertJump (S S' : IRtoLLIR) (I : JumpInstruction) (MI : MachineInstruction)
    (h : ConvertJump S I = some (MI, S')) : S'.MF.Shape = S.MF.Shape := by
  unfold ConvertJump at h
  split at h <;> simp only [Option.some.injEq, Prod.mk.injEq] at h <;> rw [← h.2]

theorem Shape_ConvertBranch (TM : TargetMachine) (S S' : IRtoLLIR) (I : BranchInstruction)
    (bb : Nat) (MI : MachineInstruction) (h : ConvertBranch TM S I bb = some (MI, S')) :
    S'.MF.Shape = S.MF.Shape := by
  unfold ConvertBranch at h
  simp only at h
  split at h
  · cases h
  · rename_i C S1 h1
    simp only [Option.some.injEq, Prod.mk.injEq] at h
    rw [← h.2, Shape_GetMachineOperandFromValue _ _ _ _ _ _ _ h1]

theorem Shape_StoreRegisterChunks (bb AddressReg RegSize : Nat) (l : List Nat) :
    ∀ (c : Nat) (S S' : IRtoLLIR) (MI : MachineInstruction),
      StoreRegisterChunks bb AddressReg RegSize l c S = some (MI, S') →
      S'.MF.Shape = S.MF.Shape := by
  induction l with
  | nil =>
    intro c S S' MI h
    simp [StoreRegisterChunks] at h
  | cons a t ih =>
    intro c S S' MI h
    simp only [StoreRegisterChunks] at h
    split at h
    · simp only [Option.some.injEq, Prod.mk.injEq] at h
      rw [← h.2]
    · rw [ih _ _ _ _ h, Shape_S_InsertInstr]

theorem Shape_StoreReturnedStruct (TM : TargetMachine) (bb AddressReg : Nat) (n : Nat) :
    ∀ (i : Nat) (S S' : IRtoLLIR) (MI : MachineInstruction),
      StoreReturnedStruct TM bb AddressReg n i S = some (MI, S') → S'.MF.Shape = S.MF.Shape := by
  induction n with
  | zero =>
    intro i S S' MI h
    simp [StoreReturnedStruct] at h
  | succ k ih =>
    intro i S S' MI h
    simp only [StoreReturnedStruct] at h
    split at h
    · cases h
    · split at h
      · simp only [Option.some.injEq, Prod.mk.injEq] at h
        rw [← h.2]
      · rw [ih _ _ _ _ h, Shape_S_InsertInstr]

theorem Shape_ConvertStoreAddress (TM : TargetMachine) (S : IRtoLLIR) (I : StoreInstruction)
    (bb : Nat) : (ConvertStoreAddress TM S I bb).2.MF.Shape = S.MF.Shape := by
  unfold ConvertStoreAddress
  simp only
  split
  · exact Shape_S_InsertInstr _ _ _
  · rfl

theorem Shape_ConvertStructStore (TM : TargetMachine) (S S' : IRtoLLIR) (I : StoreInstruction)
    (bb AddressReg : Nat) (ResultMI MI : MachineInstruction)
    (h : ConvertStructStore TM S I bb AddressReg ResultMI = some (MI, S')) :
    S'.MF.Shape = S.MF.Shape := by
  unfold ConvertStructStore at h
  split at h
  · split at h
    · cases h
    · exact Shape_StoreRegisterChunks _ _ _ _ _ _ _ _ h
  · simp only at h
    split at h
    · cases h
    · split at h
      · simp only [Option.some.injEq, Prod.mk.injEq] at h
        rw [← h.2]
      · exact Shape_StoreReturnedStruct _ _ _ _ _ _ _ _ h

theorem Shape_ConvertStoreSource (TM : TargetMachine) (S S' : IRtoLLIR) (I : StoreInstruction)
    (bb : Nat) (ResultMI MI : MachineInstruction)
    (h : ConvertStoreSource TM S I bb ResultMI = some (MI, S')) : S'.MF.Shape = S.MF.Shape := by
  unfold ConvertStoreSource at h
  split at h
  · simp only [Option.some.injEq, Prod.mk.injEq] at h
    rw [← h.2, Shape_S_InsertInstr]
    rfl
  · split at h
    · split at h
      · cases h
      · simp only [Option.some.injEq, Prod.mk.injEq] at h
        rw [← h.2, Shape_S_InsertInstr]
        rfl
    · split at h
      · cases h
      · rename_i MO S1 h1
        simp only [Option.some.injEq, Prod.mk.injEq] at h
        rw [← h.2, Shape_GetMachineOperandFromValue _ _ _ _ _ _ _ h1]

theorem Shape_ConvertStore (TM : TargetMachine) (S S' : IRtoLLIR) (I : StoreInstruction)
    (bb : Nat) (MI : MachineInstruction) (h : ConvertStore TM S I bb = some (MI, S')) :
    S'.MF.Shape = S.MF.Shape := by
  unfold ConvertStore at h
  split at h
  · cases h
  · simp only at h
    split at h
    · rw [Shape_ConvertStructStore _ _ _ _ _ _ _ _ h, Shape_ConvertStoreAddress]
    · split at h
      · split at h
        · cases h
        · rw [Shape_StoreRegisterChunks _ _ _ _ _ _ _ _ h, Shape_ConvertStoreAddress]
      · rw [Shape_ConvertStoreSource _ _ _ _ _ _ _ h, Shape_ConvertStoreAddress]

theorem Shape_ReturnStructRegisters (TM : TargetMachine) (bb : Nat) (l : List Nat) :
    ∀ (c : Nat) (S S' : IRtoLLIR), ReturnStructRegisters TM bb l c S = some S' →
      S'.MF.Shape = S.MF.Shape := by
  induction l with
  | nil =>
    intro c S S' h
    simp only [ReturnStructRegisters, Option.some.injEq] at h
    rw [← h]
  | cons a t ih =>
    intro c S S' h
    simp only [ReturnStructRegisters] at h
    split at h
    · cases h
    · rw [ih _ _ _ h, Shape_S_InsertInstr]

theorem Shape_ConvertReturnConstant (TM : TargetMachine) (S S' : IRtoLLIR) (I : ReturnInstruction)
    (RetVal : Value) (bb : Nat) (ResultMI MI : MachineInstruction)
    (h : ConvertReturnConstant TM S I RetVal bb ResultMI = some (MI, S')) :
    S'.MF.Shape = S.MF.Shape ∧ MI.Attributes = ResultMI.Attributes := by
  unfold ConvertReturnConstant at h
  simp only at h
  split at h
  · split at h
    · cases h
    · split at h
      · cases h
      · rename_i MO S1 h1
        simp only [Option.some.injEq, Prod.mk.injEq] at h
        rw [← h.2, ← h.1, Shape_S_InsertInstr, Shape_GetMachineOperandFromValue _ _ _ _ _ _ _ h1]
        exact ⟨rfl, rfl⟩
  · split at h
    · cases h
    · split at h
      · cases h
      · split at h
        · cases h
        · rename_i MO S1 h1
          split at h
          · simp only [Option.some.injEq, Prod.mk.injEq] at h
            rw [← h.2, ← h.1, Shape_S_InsertInstr, Shape_S_InsertInstr,
              Shape_GetMachineOperandFromValue _ _ _ _ _ _ _ h1]
            exact ⟨rfl, rfl⟩
          · cases h

theorem Shape_ConvertReturnSplit (TM : TargetMachine) (S S' : IRtoLLIR) (I : ReturnInstruction)
    (RetVal : Value) (bb : Nat) (ResultMI MI : MachineInstruction)
    (h : ConvertReturnSplit TM S I RetVal bb ResultMI = some (MI, S')) :
    S'.MF.Shape = S.MF.Shape ∧ MI.Attributes = ResultMI.Attributes := by
  unfold ConvertReturnSplit at h
  simp only at h
  split at h
  · cases h
  · split at h
    · cases h
    · rename_i MO S1 h1
      split at h
      · cases h
      · split at h
        · simp only [Option.some.injEq, Prod.mk.injEq] at h
          rw [← h.2, ← h.1, Shape_S_InsertInstr, Shape_S_InsertInstr, Shape_S_InsertInstr,
            Shape_GetMachineOperandFromValue _ _ _ _ _ _ _ h1]
          exact ⟨rfl, rfl⟩
        · cases h

theorem Shape_ConvertReturn (TM : TargetMachine) (S S' : IRtoLLIR) (I : ReturnInstruction)
    (bb : Nat) (MI : MachineInstruction) (h : ConvertReturn TM S I bb = some (MI, S')) :
    S'.MF.Shape = S.MF.Shape ∧ MI.IsReturn = true := by
  have hR : ∀ M : MachineInstruction,
      M.Attributes = (MachineInstruction.create OperationCode.RET).Attributes →
      M.IsReturn = true := by
    intro M hM
    simp only [MachineInstruction.IsReturn, hM]
    decide
  unfold ConvertReturn at h
  simp only at h
  split at h
  · simp only [Option.some.injEq, Prod.mk.injEq] at h
    rw [← h.2, ← h.1]
    exact ⟨rfl, hR _ rfl⟩
  · split at h
    · split at h
      · cases h
      · split at h
        · cases h
        · rename_i S1 h1
          simp only [Option.some.injEq, Prod.mk.injEq] at h
          rw [← h.2, ← h.1]
          exact ⟨Shape_ReturnStructRegisters _ _ _ _ _ _ h1, hR _ rfl⟩
    · split at h
      · have := Shape_ConvertReturnConstant _ _ _ _ _ _ _ _ h
        exact ⟨this.1, hR _ this.2⟩
      · split at h
        · have := Shape_ConvertReturnSplit _ _ _ _ _ _ _ _ h
          exact ⟨this.1, hR _ this.2⟩
        · split at h
          · cases h
          · rename_i R S1 h1
            simp only [Option.some.injEq, Prod.mk.injEq] at h
            rw [← h.2, ← h.1]
            exact ⟨Shape_GetMachineOperandFromValue _ _ _ _ _ _ _ h1, hR _ rfl⟩

theorem Shape_CopyChunks (TM : TargetMachine) (bb SrcId DestId : Nat) (n : Nat) :
    ∀ (i : Nat) (S S' : IRtoLLIR) (MI : MachineInstruction),
      CopyChunks TM bb SrcId DestId n i S = some (MI, S') → S'.MF.Shape = S.MF.Shape := by
  induction n with
  | zero =>
    intro i S S' MI h
    simp [CopyChunks] at h
  | succ k ih =>
    intro i S S' MI h
    simp only [CopyChunks] at h
    split at h
    · simp only [Option.some.injEq, Prod.mk.injEq] at h
      rw [← h.2, Shape_S_InsertInstr]
      rfl
    · rw [ih _ _ _ _ h, Shape_S_InsertInstr, Shape_S_InsertInstr]
      rfl

theorem Shape_ConvertMemcpyCall (TM : TargetMachine) (S S' : IRtoLLIR) (I : MemoryCopyInstruction)
    (bb : Nat) (ResultMI MI : MachineInstruction)
    (h : ConvertMemcpyCall TM S I bb ResultMI = some (MI, S')) : S'.MF.Shape = S.MF.Shape := by
  unfold ConvertMemcpyCall at h
  simp only at h
  split at h
  · split at h
    · cases h
    · rename_i Dest S1 h1
      split at h
      · cases h
      · rename_i Src S3 h3
        split at h
        · cases h
        · simp only [Option.some.injEq, Prod.mk.injEq] at h
          rw [← h.2, Shape_S_InsertInstr, Shape_S_InsertInstr,
            Shape_MaterializeAddress _ _ _ _ _ _ h3, Shape_S_InsertInstr,
            Shape_MaterializeAddress _ _ _ _ _ _ h1]
          rfl
  · cases h

theorem Shape_CopyAddress (TM : TargetMachine) (S S' : IRtoLLIR) (Val : Value) (bb : Nat)
    (MO : MachineOperand) (h : CopyAddress TM S Val bb = some (MO, S')) :
    S'.MF.Shape = S.MF.Shape := by
  unfold CopyAddress at h
  split at h
  · exact Shape_MaterializeAddress _ _ _ _ _ _ h
  · simp only [Option.some.injEq, Prod.mk.injEq] at h
    rw [← h.2]

theorem Shape_ConvertMemoryCopy (TM : TargetMachine) (S S' : IRtoLLIR) (I : MemoryCopyInstruction)
    (bb : Nat) (MI : MachineInstruction) (h : ConvertMemoryCopy TM S I bb = some (MI, S')) :
    S'.MF.Shape = S.MF.Shape := by
  unfold ConvertMemoryCopy at h
  simp only at h
  split at h
  · exact Shape_ConvertMemcpyCall _ _ _ _ _ _ _ h
  · split at h
    · cases h
    · rename_i Src S1 h1
      split at h
      · cases h
      · rename_i Dest S2 h2
        have hS2 := (Shape_CopyAddress _ _ _ _ _ _ h2).trans (Shape_CopyAddress _ _ _ _ _ _ h1)
        split at h
        · simp only [Option.some.injEq, Prod.mk.injEq] at h
          rw [← h.2, hS2]
        · rw [Shape_CopyChunks _ _ _ _ _ _ _ _ _ h, hS2]

theorem Shape_ConvertToMachineInstr (TM : TargetMachine) (S S' : IRtoLLIR) (Instr : Instruction)
    (bb : Nat) (MI : MachineInstruction) (h : ConvertToMachineInstr TM S Instr bb = some (MI, S')) :
    S'.MF.Shape = S.MF.Shape := by
  cases Instr with
  | Binary I => exact Shape_ConvertBinary _ _ _ _ _ _ h
  | Unary I => exact Shape_ConvertUnary _ _ _ _ _ _ h
  | Store I => exact Shape_ConvertStore _ _ _ _ _ _ h
  | Load I => exact Shape_ConvertLoad _ _ _ _ _ _ h
  | GetElementPointer I => exact Shape_ConvertGEP _ _ _ _ _ _ h
  | Jump I => exact Shape_ConvertJump _ _ _ _ h
  | Branch I => exact Shape_ConvertBranch _ _ _ _ _ _ h
  | Compare I => exact Shape_ConvertCompare _ _ _ _ _ _ h
  | Call I => exact Shape_ConvertCall _ _ _ _ _ _ h
  | Return I => exact (Shape_ConvertReturn _ _ _ _ _ _ h).1
  | MemoryCopy I => exact Shape_ConvertMemoryCopy _ _ _ _ _ _ h
  | StackAllocation I => cases h

theorem Shape_LowerInstructions (TM : TargetMachine) (bb : Nat) (l : List Instruction) :
    ∀ (S S' : IRtoLLIR), LowerInstructions TM bb l S = some S' → S'.MF.Shape = S.MF.Shape := by
  induction l with
  | nil =>
    intro S S' h
    simp only [LowerInstructions, Option.some.injEq] at h
    rw [← h]
  | cons a t ih =>
    intro S S' h
    unfold LowerInstructions at h
    split at h
    · rw [ih _ _ h]
      exact Shape_InsertStackSlot _ _ _ _
    · split at h
      · cases h
      · rename_i MI S1 h1
        have hS1 := Shape_ConvertToMachineInstr _ _ _ _ _ _ h1
        split at h
        · simp only [Option.some.injEq] at h
          rw [← h, Shape_S_InsertInstr, hS1]
        · rw [ih _ _ h, Shape_S_InsertInstr, hS1]

theorem Shape_LowerBlocks (TM : TargetMachine) (l : List BasicBlock) :
    ∀ (c : Nat) (S S' : IRtoLLIR), LowerBlocks TM l c S = some S' → S'.MF.Shape = S.MF.Shape := by
  induction l with
  | nil =>
    intro c S S' h
    simp only [LowerBlocks, Option.some.injEq] at h
    rw [← h]
  | cons a t ih =>
    intro c S S' h
    simp only [LowerBlocks] at h
    split at h
    · cases h
    · rename_i S1 h1
      rw [ih _ _ _ h, Shape_LowerInstructions _ _ _ _ _ h1]

theorem Shape_SplitParameter (TM : TargetMachine) (Record : IRtoLLIR → Nat → IRtoLLIR)
    (hR : ∀ T r, (Record T r).MF = T.MF) (IsStructPtr IsFP : Bool) (n : Nat) :
    ∀ S : IRtoLLIR, (SplitParameter TM Record IsStructPtr IsFP n S).MF.Shape = S.MF.Shape := by
  induction n with
  | zero =>
    intro S
    rfl
  | succ k ih =>
    intro S
    simp only [SplitParameter]
    rw [ih]
    simp only [MachineFunction.Shape, MachineFunction.InsertParameter, hR]
    rfl

theorem Shape_HandleFunctionParam (TM : TargetMachine) (S : IRtoLLIR) (Param : FunctionParameter) :
    (HandleFunctionParam TM S Param).MF.Shape = S.MF.Shape := by
  unfold HandleFunctionParam
  simp only
  split
  · apply Shape_SplitParameter
    intro T r
    rfl
  · split
    · rfl
    · split
      · rfl
      · apply Shape_SplitParameter
        intro T r
        rfl

theorem Shape_HandleFunctionParams (TM : TargetMachine) (F : Function) :
    ∀ S : IRtoLLIR, (HandleFunctionParams TM S F).MF.Shape = S.MF.Shape := by
  unfold HandleFunctionParams
  induction F.Parameters with
  | nil =>
    intro S
    rfl
  | cons a t ih =>
    intro S
    rw [List.foldl_cons, ih, Shape_HandleFunctionParam]

theorem Shape_LowerFunction (TM : TargetMachine) (Fun : Function) (MF : MachineFunction)
    (h : LowerFunction TM Fun = some MF) : MF.Shape = Function.Shape Fun := by
  unfold LowerFunction at h
  simp only [Option.map_eq_some'] at h
  obtain ⟨S, hS, hMF⟩ := h
  rw [← hMF, Shape_LowerBlocks _ _ _ _ _ hS]
  have h0 := Shape_HandleFunctionParams TM Fun { MF := { Name := Fun.Name } }
  simp only [MachineFunction.Shape, Prod.mk.injEq] at h0
  simp only [MachineFunction.Shape, Function.Shape, h0.1, h0.2, List.map_append, List.map_map,
    List.map_nil, List.nil_append, Prod.mk.injEq, true_and]
  rfl

theorem Shape_LowerFunctions (TM : TargetMachine) (l : List Function) :
    ∀ MFs : List MachineFunction, LowerFunctions TM l = some MFs →
      MFs.map (fun MF => MF.Shape) =
        (l.filter (fun F => !F.IsDeclarationOnly)).map (fun F => Function.Shape F) := by
  induction l with
  | nil =>
    intro MFs h
    simp only [LowerFunctions, Option.some.injEq] at h
    rw [← h]
    rfl
  | cons a t ih =>
    intro MFs h
    simp only [LowerFunctions] at h
    split at h
    · rename_i hd
      rw [ih _ h]
      simp [hd]
    · rename_i hd
      split at h
      · cases h
      · rename_i MF hMF
        split at h
        · cases h
        · rename_i Rest hRest
          simp only [Option.some.injEq] at h
          rw [← h]
          simp [hd, ih _ hRest, Shape_LowerFunction _ _ _ hMF]

/-- C19: for every stack allocation with id `v` and allocated type `T`, in
every state: the lowering of the allocation returns a state, the loop of
`GenerateLLIRFromIR` goes on from that state with the rest of the block, the
blocks and the side tables of that state are the old ones, so no instruction is
emitted, and its frame is the old frame after the insertion of the slot `v`
with the size `TM.PointerSize / 8` when `T` is a pointer and the byte size of
`T` otherwise, and with the alignment `TM.PointerSize / 8` when `T` is a
pointer, the maximum member alignment when `T` is a struct and the base-type
byte size otherwise; `v` is a slot of that frame, and when the old frame has no
slot `v` the new frame is the old one followed by that slot. -/
theorem C19_stack_allocation (TM : TargetMachine) (S : IRtoLLIR) (bb : Nat)
    (SA : StackAllocationInstruction) (rest : List Instruction) :
    ∃ S1 : IRtoLLIR,
      LowerInstructions TM bb [Instruction.StackAllocation SA] S = some S1 ∧
      LowerInstructions TM bb (Instruction.StackAllocation SA :: rest) S =
        LowerInstructions TM bb rest S1 ∧
      S1.MF.BasicBlocks = S.MF.BasicBlocks ∧
      S1.MF.SF = S.MF.SF.InsertStackSlot SA.ID
        (if 0 < SA.ReferredType.PointerLevel then TM.PointerSize / 8
          else SA.ReferredType.ByteSize)
        (if 0 < SA.ReferredType.PointerLevel then TM.PointerSize / 8
          else if SA.ReferredType.IsStruct then SA.ReferredType.StructMaxAlignment
          else SA.ReferredType.BaseTypeByteSize) ∧
      S1.MF.IsStackSlot SA.ID = true ∧
      (S.MF.IsStackSlot SA.ID = false →
        S1.MF.SF.StackSlots = S.MF.SF.StackSlots ++
          [{ ID := SA.ID,
             Size := (if 0 < SA.ReferredType.PointerLevel then TM.PointerSize / 8
               else SA.ReferredType.ByteSize),
             Align := (if 0 < SA.ReferredType.PointerLevel then TM.PointerSize / 8
               else if SA.ReferredType.IsStruct then SA.ReferredType.StructMaxAlignment
               else SA.ReferredType.BaseTypeByteSize) }]) ∧
      S1.MF.Name = S.MF.Name ∧ S1.MF.Parameters = S.MF.Parameters ∧
      S1.MF.HasCall = S.MF.HasCall ∧
      S1.IRVregToLLIRVreg = S.IRVregToLLIRVreg ∧
      S1.SpilledReturnValuesIDToStackID = S.SpilledReturnValuesIDToStackID ∧
      S1.StructToRegMap = S.StructToRegMap ∧ S1.StructByIDToRegMap = S.StructByIDToRegMap ∧
      S1.ParamByIDToRegMap = S.ParamByIDToRegMap := by
  have hSF : (HandleStackAllocation TM SA.ID SA.ReferredType S.MF).SF =
      S.MF.SF.InsertStackSlot SA.ID
        (if 0 < SA.ReferredType.PointerLevel then TM.PointerSize / 8
          else SA.ReferredType.ByteSize)
        (if 0 < SA.ReferredType.PointerLevel then TM.PointerSize / 8
          else if SA.ReferredType.IsStruct then SA.ReferredType.StructMaxAlignment
          else SA.ReferredType.BaseTypeByteSize) := by
    simp only [HandleStackAllocation, SF_InsertStackSlot, decide_eq_true_eq]
  refine ⟨{ S with MF := HandleStackAllocation TM SA.ID SA.ReferredType S.MF }, ?_, ?_, ?_, hSF,
    ?_, ?_, ?_, ?_, ?_, rfl, rfl, rfl, rfl, rfl⟩
  · simp only [LowerInstructions]
  · simp only [LowerInstructions]
  · exact BasicBlocks_InsertStackSlot _ _ _ _
  · show (HandleStackAllocation TM SA.ID SA.ReferredType S.MF).SF.IsStackSlot SA.ID = true
    rw [hSF]
    exact IsStackSlot_InsertStackSlot _ _ _ _
  · intro hnew
    have hs : S.MF.SF.IsStackSlot SA.ID = false := hnew
    show (HandleStackAllocation TM SA.ID SA.ReferredType S.MF).SF.StackSlots = _
    rw [hSF]
    simp only [StackFrame.InsertStackSlot, hs, Bool.false_eq_true, if_false]
  · unfold HandleStackAllocation MachineFunction.InsertStackSlot
    simp only
    split <;> rfl
  · unfold HandleStackAllocation MachineFunction.InsertStackSlot
    simp only
    split <;> rfl
  · unfold HandleStackAllocation MachineFunction.InsertStackSlot
    simp only
    split <;> rfl

/-- C19 on the allocation `%7` of a struct of 12 bytes whose members are
aligned to 4, followed by a return, and on the allocation `%8` of a pointer on
a 64-bit target. -/
theorem C19_stack_allocation_witness :
    (∃ S1 S2 : IRtoLLIR,
      LowerInstructions sampleTM 0
        [Instruction.StackAllocation
          { ID := 7, ReferredType := { IsStruct := true, BitSize := 96, ByteSize := 12,
                                       BaseTypeByteSize := 12, StructMaxAlignment := 4 } }]
        sampleState = some S1 ∧
      S1.MF.BasicBlocks = sampleState.MF.BasicBlocks ∧
      S1.MF.SF.StackSlots = [{ ID := 7, Size := 12, Align := 4 }] ∧
      LowerInstructions sampleTM 0
        [Instruction.StackAllocation
          { ID := 8, ReferredType := { PointerLevel := 1, BitSize := 64, ByteSize := 8 } }]
        S1 = some S2 ∧
      S2.MF.SF.StackSlots = [{ ID := 7, Size := 12, Align := 4 }, { ID := 8, Size := 8, Align := 8 }]) := by
  obtain ⟨S1, h1, _, h2, h3, _⟩ := C19_stack_allocation sampleTM sampleState 0
    { ID := 7, ReferredType := { IsStruct := true, BitSize := 96, ByteSize := 12,
                                 BaseTypeByteSize := 12, StructMaxAlignment := 4 } } []
  obtain ⟨S2, k1, _, _, k3, _⟩ := C19_stack_allocation sampleTM S1 0
    { ID := 8, ReferredType := { PointerLevel := 1, BitSize := 64, ByteSize := 8 } } []
  refine ⟨S1, S2, h1, h2, ?_, k1, ?_⟩
  · rw [h3]
    decide
  · rw [k3, h3]
    decide

theorem LowerInstructions_return (TM : TargetMachine) (bb : Nat) (I : ReturnInstruction)
    (rest : List Instruction) (S : IRtoLLIR) :
    LowerInstructions TM bb (Instruction.Return I :: rest) S =
      LowerInstructions TM bb [Instruction.Return I] S := by
  simp only [LowerInstructions, ConvertToMachineInstr]
  cases h : ConvertReturn TM S I bb with
  | none => rfl
  | some r =>
    obtain ⟨MI, S1⟩ := r
    simp only [(Shape_ConvertReturn _ _ _ _ _ _ h).2, if_true]

theorem LowerInstructions_cut (TM : TargetMachine) (bb : Nat) (l : List Instruction) :
    ∀ S : IRtoLLIR, LowerInstructions TM bb (CutAfterFirstReturn l) S =
      LowerInstructions TM bb l S := by
  induction l with
  | nil =>
    intro S
    rfl
  | cons a t ih =>
    intro S
    cases a with
    | Return I =>
      simp only [CutAfterFirstReturn]
      exact (LowerInstructions_return TM bb I t S).symm
    | StackAllocation I => simp only [CutAfterFirstReturn, LowerInstructions, ih]
    | Binary I =>
      simp only [CutAfterFirstReturn, LowerInstructions, ih]
    | Unary I =>
      simp only [CutAfterFirstReturn, LowerInstructions, ih]
    | Store I =>
      simp only [CutAfterFirstReturn, LowerInstructions, ih]
    | Load I =>
      simp only [CutAfterFirstReturn, LowerInstructions, ih]
    | GetElementPointer I =>
      simp only [CutAfterFirstReturn, LowerInstructions, ih]
    | Jump I =>
      simp only [CutAfterFirstReturn, LowerInstructions, ih]
    | Branch I =>
      simp only [CutAfterFirstReturn, LowerInstructions, ih]
    | Compare I =>
      simp only [CutAfterFirstReturn, LowerInstructions, ih]
    | Call I =>
      simp only [CutAfterFirstReturn, LowerInstructions, ih]
    | MemoryCopy I =>
      simp only [CutAfterFirstReturn, LowerInstructions, ih]

theorem LowerBlocks_cut (TM : TargetMachine) (l : List BasicBlock) :
    ∀ (c : Nat) (S : IRtoLLIR),
      LowerBlocks TM (l.map (fun BB =>
        { BB with Instructions := CutAfterFirstReturn BB.Instructions })) c S =
      LowerBlocks TM l c S := by
  induction l with
  | nil =>
    intro c S
    rfl
  | cons a t ih =>
    intro c S
    simp only [List.map_cons, LowerBlocks, LowerInstructions_cut]
    cases LowerInstructions TM c a.Instructions S with
    | none => rfl
    | some S1 => exact ih _ _

theorem LowerFunction_cut (TM : TargetMachine) (F : Function) :
    LowerFunction TM { F with BasicBlocks := F.BasicBlocks.map (fun BB =>
      { BB with Instructions := CutAfterFirstReturn BB.Instructions }) } =
    LowerFunction TM F := by
  simp only [LowerFunction, LowerBlocks_cut, List.map_map]
  rfl

theorem LowerFunctions_cut (TM : TargetMachine) (l : List Function) :
    LowerFunctions TM (l.map (fun F =>
      { F with BasicBlocks := F.BasicBlocks.map (fun BB =>
          { BB with Instructions := CutAfterFirstReturn BB.Instructions }) })) =
    LowerFunctions TM l := by
  induction l with
  | nil => rfl
  | cons a t ih =>
    simp only [List.map_cons, LowerFunctions, LowerFunction_cut, ih]

theorem LowerInstructions_plain (TM : TargetMachine) (bb : Nat) (l : List Instruction)
    (hl : ∀ I ∈ l, IsPlainControl I = true) :
    ∀ S : IRtoLLIR, (LowerInstructions TM bb l S).isSome = true := by
  induction l with
  | nil =>
    intro S
    rfl
  | cons a t ih =>
    intro S
    have ht : ∀ I ∈ t, IsPlainControl I = true := fun I hI => hl I (List.mem_cons_of_mem a hI)
    have ha : IsPlainControl a = true := hl a (List.mem_cons_self a t)
    cases a with
    | StackAllocation I =>
      simp only [LowerInstructions]
      exact ih ht _
    | Jump I =>
      cases hF : FindLabel S I.TargetLabelName <;>
        simp only [LowerInstructions, ConvertToMachineInstr, ConvertJump, hF] <;>
        split <;> first | rfl | exact ih ht _
    | Return I =>
      simp only [IsPlainControl, Option.isNone_iff_eq_none] at ha
      simp only [LowerInstructions, ConvertToMachineInstr, ConvertReturn, ha]
      split <;> first | rfl | exact ih ht _
    | Binary I => cases ha
    | Unary I => cases ha
    | Store I => cases ha
    | Load I => cases ha
    | GetElementPointer I => cases ha
    | Branch I =>
      simp only [IsPlainControl, bne_iff_ne, ne_eq] at ha
      obtain ⟨C, S1, hC⟩ := GetMachineOperandFromValue_isSome TM S I.Condition bb false ha
      simp only [LowerInstructions, ConvertToMachineInstr, ConvertBranch, hC]
      split <;> first | rfl | exact ih ht _
    | Compare I =>
      simp only [IsPlainControl, Bool.and_eq_true, bne_iff_ne, ne_eq] at ha
      obtain ⟨R, S1, hR⟩ := GetMachineOperandFromValue_isSome TM S I.Self bb true ha.1.1
      obtain ⟨A, S2, hA⟩ := GetMachineOperandFromValue_isSome TM S1 I.LHS bb false ha.1.2
      obtain ⟨B, S3, hB⟩ := GetMachineOperandFromValue_isSome TM S2 I.RHS bb false ha.2
      simp only [LowerInstructions, ConvertToMachineInstr, ConvertCompare, hR, hA, hB]
      split <;> first | rfl | exact ih ht _
    | Call I => cases ha
    | MemoryCopy I => cases ha

theorem LowerBlocks_plain (TM : TargetMachine) (l : List BasicBlock)
    (hl : ∀ BB ∈ l, ∀ I ∈ BB.Instructions, IsPlainControl I = true) :
    ∀ (c : Nat) (S : IRtoLLIR), (LowerBlocks TM l c S).isSome = true := by
  induction l with
  | nil =>
    intro c S
    rfl
  | cons a t ih =>
    intro c S
    have h1 := LowerInstructions_plain TM c a.Instructions (hl a (List.mem_cons_self a t)) S
    obtain ⟨S1, hS1⟩ := Option.isSome_iff_exists.mp h1
    simp only [LowerBlocks, hS1]
    exact ih (fun BB hBB => hl BB (List.mem_cons_of_mem a hBB)) _ _

theorem LowerFunctions_plain (TM : TargetMachine) (l : List Function)
    (hl : ∀ F ∈ l, ∀ BB ∈ F.BasicBlocks, ∀ I ∈ BB.Instructions, IsPlainControl I = true) :
    (LowerFunctions TM l).isSome = true := by
  induction l with
  | nil => rfl
  | cons a t ih =>
    have iht := ih (fun F hF => hl F (List.mem_cons_of_mem a hF))
    obtain ⟨Rest, hRest⟩ := Option.isSome_iff_exists.mp iht
    simp only [LowerFunctions]
    split
    · exact iht
    · have hB := LowerBlocks_plain TM a.BasicBlocks (hl a (List.mem_cons_self a t)) 0
        { HandleFunctionParams TM { MF := { Name := a.Name } } a with
          MF := { (HandleFunctionParams TM { MF := { Name := a.Name } } a).MF with
            BasicBlocks := ((HandleFunctionParams TM { MF := { Name := a.Name } } a).MF.BasicBlocks ++
              a.BasicBlocks.map (fun BB => ({ Name := BB.Name } : MachineBasicBlock))) } }
      obtain ⟨S1, hS1⟩ := Option.isSome_iff_exists.mp hB
      have hF : LowerFunction TM a = some S1.MF := by
        simp only [LowerFunction, hS1, Option.map_some']
      simp only [hF, hRest]
      rfl

/-- C20: when `GenerateLLIRFromIR` runs to its end (no assertion fails), the
shapes of the machine functions it produces (name, and names of the blocks in
order) are, in the same order, the shapes of the functions of the module that
are not declarations: one machine function for each of them and none for a
declaration.  Whatever the module, the result is that of the module in which
every block is cut after its first return instruction: nothing after it is
lowered.  And the run does reach its end on every module made of stack
allocations, jumps, branches and compares on values and returns without a
value, whatever its functions and blocks are and whether or not the labels
name blocks. -/
theorem C20_module_shape (TM : TargetMachine) (IRM : IRModule) :
    (∀ MFs : List MachineFunction, GenerateLLIRFromIR TM IRM = some MFs →
      MFs.map (fun MF => MF.Shape) =
        (IRM.Functions.filter (fun F => !F.IsDeclarationOnly)).map (fun F => Function.Shape F)) ∧
    GenerateLLIRFromIR TM IRM.CutBlocksAfterReturn = GenerateLLIRFromIR TM IRM ∧
    ((∀ F ∈ IRM.Functions, ∀ BB ∈ F.BasicBlocks, ∀ I ∈ BB.Instructions,
        IsPlainControl I = true) → (GenerateLLIRFromIR TM IRM).isSome = true) :=
  ⟨fun MFs h => Shape_LowerFunctions TM IRM.Functions MFs h, LowerFunctions_cut TM IRM.Functions,
    fun h => LowerFunctions_plain TM IRM.Functions h⟩

theorem C20_module_shape_witness :
    (∃ MFs : List MachineFunction, GenerateLLIRFromIR sampleTM sampleModule = some MFs ∧
      MFs.map (fun MF => MF.Shape) = [("main", ["entry", "then", "done"]), ("nop", ["entry"])] ∧
      GenerateLLIRFromIR sampleTM sampleModule.CutBlocksAfterReturn = some MFs) ∧
    (GenerateLLIRFromIR sampleTM samplePlainModule).isSome = true ∧
    (∃ MFs : List MachineFunction, GenerateLLIRFromIR sampleTM sampleDanglingModule = some MFs ∧
      MFs.map (fun MF => MF.Shape) = [("f", ["entry", "out"])]) := by
  have hs : (GenerateLLIRFromIR sampleTM sampleModule).isSome = true := by decide
  obtain ⟨MFs, h⟩ := Option.isSome_iff_exists.mp hs
  have hd := (C20_module_shape sampleTM sampleDanglingModule).2.2 (by decide)
  obtain ⟨MFd, hMFd⟩ := Option.isSome_iff_exists.mp hd
  exact ⟨⟨MFs, h, ((C20_module_shape sampleTM sampleModule).1 MFs h).trans (by decide),
    (C20_module_shape sampleTM sampleModule).2.1.trans h⟩,
    (C20_module_shape sampleTM samplePlainModule).2.2 (by decide),
    ⟨MFd, hMFd, ((C20_module_shape sampleTM sampleDanglingModule).1 MFd hMFd).trans (by decide)⟩⟩

/-- The first block with the name `Name` has that very name. -/
theorem FindLabel_of_mem (S : IRtoLLIR) (Name : String)
    (h : Name ∈ S.MF.BasicBlocks.map (fun BB => BB.Name)) : FindLabel S Name = some Name := by
  unfold FindLabel
  cases hF : S.MF.BasicBlocks.find? (fun BB => Name == BB.Name) with
  | none =>
    rw [List.find?_eq_none] at hF
    rw [List.mem_map] at h
    obtain ⟨BB, hBB, hN⟩ := h
    exact absurd (by simp [hN]) (hF BB hBB)
  | some BB =>
    have := List.find?_some hF
    simp only [beq_iff_eq] at this
    simp [this]

/-- The operand of a value is never a label. -/
theorem GetMachineOperandFromValue_not_label (TM : TargetMachine) (S : IRtoLLIR) (Val : Value)
    (bb : Nat) (IsDef : Bool) (MO : MachineOperand) (S1 : IRtoLLIR)
    (h : GetMachineOperandFromValue TM S Val bb IsDef = some (MO, S1)) :
    MO.Kind ≠ MOKind.LABEL := by
  unfold GetMachineOperandFromValue at h
  repeat' split at h
  all_goals first
    | (simp only [Option.some.injEq, Prod.mk.injEq] at h
       rw [← h.1]
       intro hk
       cases hk)
    | cases h

/-- C30: a conditional branch whose true label names a block of the function,
and whose condition has a machine operand, is lowered to a BRANCH whose
operands are the condition operand, then the true label and, when a false label
is present, the true label once more; no operand is a label with the name of a
false label that differs from the true label.  A jump whose target names a
block of the function is lowered to a JUMP whose only operand is the label of
that block. -/
theorem C30_branch_and_jump_operands (TM : TargetMachine) (S S1 : IRtoLLIR)
    (B : BranchInstruction) (J : JumpInstruction) (bb : Nat) (Cond : MachineOperand)
    (hT : B.TrueLabelName ∈ S.MF.BasicBlocks.map (fun BB => BB.Name))
    (hC : GetMachineOperandFromValue TM S B.Condition bb false = some (Cond, S1))
    (hJ : J.TargetLabelName ∈ S.MF.BasicBlocks.map (fun BB => BB.Name)) :
    (∃ MI, ConvertBranch TM S B bb = some (MI, S1) ∧
      MI.Opcode = OperationCode.BRANCH ∧
      MI.Operands = [Cond, MachineOperand.CreateLabel B.TrueLabelName] ++
        (if B.FalseLabelName.isSome then [MachineOperand.CreateLabel B.TrueLabelName] else []) ∧
      ∀ F, B.FalseLabelName = some F → F ≠ B.TrueLabelName →
        MachineOperand.CreateLabel F ∉ MI.Operands) ∧
    (∃ MI, ConvertJump S J = some (MI, S) ∧ MI.Opcode = OperationCode.JUMP ∧
      MI.Operands = [MachineOperand.CreateLabel J.TargetLabelName]) := by
  refine ⟨?_, ?_⟩
  · simp only [ConvertBranch, FindLabel_of_mem S _ hT, hC]
    cases hF : B.FalseLabelName with
    | none =>
      refine ⟨_, rfl, rfl, rfl, ?_⟩
      intro F hF2
      cases hF2
    | some F0 =>
      refine ⟨_, rfl, rfl, rfl, ?_⟩
      intro F hF2 hne
      simp only [Option.some.injEq] at hF2
      subst hF2
      show MachineOperand.CreateLabel F0 ∉ [Cond, MachineOperand.CreateLabel B.TrueLabelName,
        MachineOperand.CreateLabel B.TrueLabelName]
      have hK := GetMachineOperandFromValue_not_label TM S B.Condition bb false Cond S1 hC
      intro hmem
      simp only [List.mem_cons, List.mem_singleton, List.not_mem_nil, or_false, or_self] at hmem
      rcases hmem with h1 | h1
      · rw [← h1] at hK
        exact hK rfl
      · exact hne (congrArg MachineOperand.Label h1)
  · simp only [ConvertJump, FindLabel_of_mem S _ hJ]
    exact ⟨_, rfl, rfl, rfl⟩

/-- C30 on `br %2, <then>, <else>` and `j <else>` in a function with the blocks
`entry`, `then` and `else`. -/
theorem C30_branch_and_jump_operands_witness :
    (∃ MI, ConvertBranch sampleTM sampleBranchState sampleCondBranch 0 =
        some (MI, (GetVRegForValue sampleBranchState (sampleIntReg 2 32) 0 false 32).2) ∧
      MI.Opcode = OperationCode.BRANCH ∧
      MI.Operands = [(MachineOperand.CreateVirtualRegister 10 32).SetType
          (LowLevelType.CreateScalar 32), MachineOperand.CreateLabel "then",
        MachineOperand.CreateLabel "then"] ∧
      MachineOperand.CreateLabel "else" ∉ MI.Operands) ∧
    (∃ MI, ConvertJump sampleBranchState { TargetLabelName := "else" } =
        some (MI, sampleBranchState) ∧ MI.Opcode = OperationCode.JUMP ∧
      MI.Operands = [MachineOperand.CreateLabel "else"]) := by
  have h := C30_branch_and_jump_operands sampleTM sampleBranchState _ sampleCondBranch
    { TargetLabelName := "else" } 0 _ (by decide) rfl (by decide)
  obtain ⟨⟨MI, h1, h2, h3, h4⟩, hJ⟩ := h
  exact ⟨⟨MI, h1, h2, h3, h4 "else" rfl (by decide)⟩, hJ⟩

/-! ## Lowering of memory copies -/

theorem map_modify_of_invariant {α β : Type} (g : α → β) (f : α → α) (hf : ∀ a, g (f a) = g a)
    (l : List α) (b : Nat) : (l.modify f b).map g = l.map g := by
  induction l generalizing b with
  | nil => cases b <;> rfl
  | cons a t ih =>
    cases b with
    | zero => simp [hf]
    | succ k => simp [ih k]

theorem CallView_S_InsertInstr (S : IRtoLLIR) (bb : Nat) (MI : MachineInstruction)
    (h : MI.Opcode ≠ OperationCode.CALL) : (S.InsertInstr bb MI).MF.CallView = S.MF.CallView := by
  unfold MachineFunction.CallView IRtoLLIR.InsertInstr MachineFunction.InsertInstr
  simp only [Prod.mk.injEq, true_and]
  apply map_modify_of_invariant
  intro B
  simp [MachineBasicBlock.InsertInstr, List.filter_append, h]

theorem Opcode_ite (c : Prop) [Decidable c] (A B : MachineInstruction) (Op : OperationCode)
    (hA : A.Opcode = Op) (hB : B.Opcode = Op) : (if c then A else B).Opcode = Op := by
  split <;> assumption

theorem Opcode_ite_vreg (c : Prop) [Decidable c] (A B : MachineInstruction) (r W : Nat)
    (Op : OperationCode) (hA : A.Opcode = Op) (hB : B.Opcode = Op) :
    ((if c then A else B).AddVirtualRegister r W).Opcode = Op :=
  Opcode_ite c A B Op hA hB

theorem CallView_S_InsertInstr_of (S : IRtoLLIR) (bb : Nat) (MI : MachineInstruction)
    (Op : OperationCode) (h : MI.Opcode = Op) (hne : Op ≠ OperationCode.CALL) :
    (S.InsertInstr bb MI).MF.CallView = S.MF.CallView :=
  CallView_S_InsertInstr S bb MI (h ▸ hne)

theorem CallView_EmitLoadFromSlot (S : IRtoLLIR) (bb W Slot : Nat) :
    (EmitLoadFromSlot S bb W Slot).2.MF.CallView = S.MF.CallView := by
  unfold EmitLoadFromSlot
  simp only
  rw [CallView_S_InsertInstr _ _ _ (by intro h; cases h)]
  rfl

theorem CallView_GetVRegForValue (S : IRtoLLIR) (Val : Value) (bb : Nat) (IsDef : Bool)
    (BitWidth : Nat) :
    (GetVRegForValue S Val bb IsDef BitWidth).2.MF.CallView = S.MF.CallView := by
  unfold GetVRegForValue
  split
  · exact CallView_EmitLoadFromSlot _ _ _ _
  · split
    · split
      · exact CallView_EmitLoadFromSlot _ _ _ _
      · rfl
    · split
      · exact CallView_EmitLoadFromSlot _ _ _ _
      · rfl

theorem CallView_GetMachineOperandFromValue (TM : TargetMachine) (S S' : IRtoLLIR) (Val : Value)
    (bb : Nat) (IsDef : Bool) (MO : MachineOperand)
    (h : GetMachineOperandFromValue TM S Val bb IsDef = some (MO, S')) :
    S'.MF.CallView = S.MF.CallView := by
  unfold GetMachineOperandFromValue at h
  repeat' split at h
  all_goals cases h
  all_goals first
    | rfl
    | exact CallView_GetVRegForValue _ _ _ _ _
    | (rw [CallView_S_InsertInstr _ _ _ (by intro h; cases h)]; rfl)

theorem CallView_MaterializeAddress (TM : TargetMachine) (S S' : IRtoLLIR) (Val : Value) (bb : Nat)
    (MO : MachineOperand) (h : MaterializeAddress TM S Val bb = some (MO, S')) :
    S'.MF.CallView = S.MF.CallView := by
  unfold MaterializeAddress at h
  simp only at h
  split at h
  · simp only [Option.some.injEq, Prod.mk.injEq] at h
    rw [← h.2, CallView_S_InsertInstr]
    · rfl
    · cases Val.IsGlobalVar <;> (intro h; cases h)
  · exact CallView_GetMachineOperandFromValue _ _ _ _ _ _ _ h

theorem MaterializeAddress_isSome (TM : TargetMachine) (S : IRtoLLIR) (Val : Value) (bb : Nat)
    (h : Val.Kind ≠ ValueKind.LABEL) : ∃ MO S', MaterializeAddress TM S Val bb = some (MO, S') := by
  unfold MaterializeAddress
  simp only
  split
  · exact ⟨_, _, rfl⟩
  · exact GetMachineOperandFromValue_isSome TM S Val bb false h

theorem CopyAddress_result (TM : TargetMachine) (S : IRtoLLIR) (Val : Value) (bb : Nat)
    (h : Val.Kind ≠ ValueKind.LABEL) :
    ∃ MO S', CopyAddress TM S Val bb = some (MO, S') ∧ S'.MF.CallView = S.MF.CallView := by
  unfold CopyAddress
  split
  · obtain ⟨MO, S', hM⟩ := MaterializeAddress_isSome TM S Val bb h
    exact ⟨MO, S', hM, CallView_MaterializeAddress _ _ _ _ _ _ hM⟩
  · exact ⟨_, _, rfl, rfl⟩

theorem CopyChunks_result (TM : TargetMachine) (bb SrcId DestId : Nat) (n : Nat) :
    ∀ (i : Nat) (S : IRtoLLIR), ∃ MI S',
      CopyChunks TM bb SrcId DestId (n + 1) i S = some (MI, S') ∧
      MI.Opcode = OperationCode.STORE ∧ S'.MF.CallView = S.MF.CallView := by
  induction n with
  | zero =>
    intro i S
    refine ⟨_, _, rfl, Opcode_ite_vreg _ _ _ _ _ _ rfl rfl, ?_⟩
    exact (CallView_S_InsertInstr_of _ _ _ OperationCode.LOAD (Opcode_ite _ _ _ _ rfl rfl)
      (by decide)).trans rfl
  | succ k ih =>
    intro i S
    obtain ⟨MI, S', h1, h2, h3⟩ := ih (i + 1) ((S.NextAvailableVReg.2.InsertInstr bb
      (if S.NextAvailableVReg.2.MF.IsStackSlot SrcId then
        ((MachineInstruction.create OperationCode.LOAD).AddVirtualRegister S.NextAvailableVReg.1
          32).AddStackAccess SrcId (i * 4 : Nat)
       else ((MachineInstruction.create OperationCode.LOAD).AddVirtualRegister
          S.NextAvailableVReg.1 32).AddMemory SrcId (i * 4 : Nat) TM.PointerSize)).InsertInstr bb
      ((if (S.NextAvailableVReg.2.InsertInstr bb
          (if S.NextAvailableVReg.2.MF.IsStackSlot SrcId then
            ((MachineInstruction.create OperationCode.LOAD).AddVirtualRegister
              S.NextAvailableVReg.1 32).AddStackAccess SrcId (i * 4 : Nat)
           else ((MachineInstruction.create OperationCode.LOAD).AddVirtualRegister
              S.NextAvailableVReg.1 32).AddMemory SrcId (i * 4 : Nat)
                TM.PointerSize)).MF.IsStackSlot DestId then
          (MachineInstruction.create OperationCode.STORE).AddStackAccess DestId (i * 4 : Nat)
        else ((MachineInstruction.create OperationCode.STORE).AddMemory DestId 0
          TM.PointerSize).ModifyOperand 0 (fun MO => MO.SetOffset (i * 4 : Nat))).AddVirtualRegister
        S.NextAvailableVReg.1 32))
    refine ⟨MI, S', ?_, h2, ?_⟩
    · rw [← h1]
      rfl
    · exact h3.trans ((CallView_S_InsertInstr_of _ _ _ OperationCode.STORE
        (Opcode_ite_vreg _ _ _ _ _ _ rfl rfl) (by decide)).trans
        ((CallView_S_InsertInstr_of _ _ _ OperationCode.LOAD (Opcode_ite _ _ _ _ rfl rfl)
          (by decide)).trans rfl))

/-- C21, as the claim has it, fails: for `memcopy %1, %2, 32` on a target
whose argument register 2 has the id 2 and the first sub-register 34, the
lowering is a CALL of memcpy and the third move before it writes the size to
register 34, not to register 2. -/
theorem C21_size_goes_to_sub_register :
    (sampleTM.ArgumentRegisters.get? 2).map (fun R => (R.ID, R.SubRegs)) = some (2, [34]) ∧
    (ConvertMemoryCopy sampleTM sampleState (sampleMemcpy 32) 0).map
      (fun r => (r.1.Opcode, r.1.Operands, r.2.MF.HasCall, seqView (r.2.Instrs 0))) =
      some (OperationCode.CALL, [MachineOperand.CreateFunctionName "memcpy"], true,
        [(OperationCode.MOV, [MachineOperand.CreateRegister 0 64,
            (MachineOperand.CreateVirtualRegister 10 32).SetType (LowLevelType.CreatePTR 64)]),
         (OperationCode.MOV, [MachineOperand.CreateRegister 1 64,
            (MachineOperand.CreateVirtualRegister 11 32).SetType (LowLevelType.CreatePTR 64)]),
         (OperationCode.MOV, [MachineOperand.CreateRegister 34 64,
            MachineOperand.CreateImmediate 32 32])]) := by
  decide

/-- C21, amended: on a target with argument registers 0, 1 and 2, the last
with a sub-register, a memcpy of `n` bytes whose addresses have machine
operands is lowered, and the result is a CALL whose only operand is the
function name memcpy if and only if `n >= 32` and the target declares memcpy
support.  In that case the function is marked as a caller and the state is the
one after the destination address has been materialized and moved to argument
register 0, the source address materialized and moved to argument register 1,
and the immediate `n` moved to the first sub-register of argument register 2
(taken with the width of argument register 2).  Otherwise the result is not a
CALL, no CALL is added to any block and the caller flag keeps its value. -/
theorem C21_memcpy_call (TM : TargetMachine) (S : IRtoLLIR) (I : MemoryCopyInstruction)
    (bb : Nat) (A0 A1 A2 : TargetRegister) (Sub : Nat)
    (hD : I.Destination.Kind ≠ ValueKind.LABEL) (hS : I.Source.Kind ≠ ValueKind.LABEL)
    (h0 : TM.ArgumentRegisters.get? 0 = some A0) (h1 : TM.ArgumentRegisters.get? 1 = some A1)
    (h2 : TM.ArgumentRegisters.get? 2 = some A2) (hSub : A2.SubRegs.head? = some Sub) :
    ∃ MI S', ConvertMemoryCopy TM S I bb = some (MI, S') ∧
      ((MI.Opcode = OperationCode.CALL ∧
          MI.Operands = [MachineOperand.CreateFunctionName "memcpy"]) ↔
        (32 ≤ I.Size ∧ TM.MemcpySupported = true)) ∧
      ((32 ≤ I.Size ∧ TM.MemcpySupported = true) →
        S'.MF.HasCall = true ∧
        ∃ Dest Src S1 S3,
          MaterializeAddress TM { S with MF := S.MF.SetToCaller } I.Destination bb =
            some (Dest, S1) ∧
          MaterializeAddress TM (S1.InsertInstr bb
            (((MachineInstruction.create OperationCode.MOV).AddRegister A0.ID
              A0.BitWidth).AddOperand Dest)) I.Source bb = some (Src, S3) ∧
          S' = (S3.InsertInstr bb
            (((MachineInstruction.create OperationCode.MOV).AddRegister A1.ID
              A1.BitWidth).AddOperand Src)).InsertInstr bb
            (((MachineInstruction.create OperationCode.MOV).AddRegister Sub
              A2.BitWidth).AddImmediate I.Size 32)) ∧
      (¬ (32 ≤ I.Size ∧ TM.MemcpySupported = true) →
        MI.Opcode ≠ OperationCode.CALL ∧ S'.MF.CallView = S.MF.CallView) := by
  by_cases hc : 32 ≤ I.Size ∧ TM.MemcpySupported = true
  · obtain ⟨Dest, S1, hM1⟩ := MaterializeAddress_isSome TM { S with MF := S.MF.SetToCaller }
      I.Destination bb hD
    obtain ⟨Src, S3, hM3⟩ := MaterializeAddress_isSome TM (S1.InsertInstr bb
      (((MachineInstruction.create OperationCode.MOV).AddRegister A0.ID
        A0.BitWidth).AddOperand Dest)) I.Source bb hS
    have hcb : (decide (I.Size ≥ 32) && TM.MemcpySupported) = true := by
      simp [hc.1, hc.2]
    refine ⟨((MachineInstruction.create OperationCode.INVALID_OP).SetOpcode
        OperationCode.CALL).AddFunctionName "memcpy",
      (S3.InsertInstr bb (((MachineInstruction.create OperationCode.MOV).AddRegister A1.ID
        A1.BitWidth).AddOperand Src)).InsertInstr bb
        (((MachineInstruction.create OperationCode.MOV).AddRegister Sub
          A2.BitWidth).AddImmediate I.Size 32), ?_, ?_, ?_, fun hn => absurd hc hn⟩
    · simp only [ConvertMemoryCopy, hcb, if_true, ConvertMemcpyCall, h0, h1, h2, hM1, hM3, hSub]
    · exact ⟨fun _ => hc, fun _ => ⟨rfl, rfl⟩⟩
    · intro _
      refine ⟨?_, Dest, Src, S1, S3, hM1, hM3, rfl⟩
      have e1 := congrArg Prod.fst (CallView_MaterializeAddress _ _ _ _ _ _ hM1)
      have e3 := congrArg Prod.fst (CallView_MaterializeAddress _ _ _ _ _ _ hM3)
      exact e3.trans e1
  · have hcb : (decide (I.Size ≥ 32) && TM.MemcpySupported) = false := by
      cases hm : TM.MemcpySupported
      · simp
      · simp only [hm, and_true, not_le] at hc
        simp [hc]
    obtain ⟨Src, S1, hA1, hV1⟩ := CopyAddress_result TM S I.Source bb hS
    obtain ⟨Dest, S2, hA2, hV2⟩ := CopyAddress_result TM S1 I.Destination bb hD
    cases hn : I.Size / 4 with
    | zero =>
      refine ⟨MachineInstruction.create OperationCode.INVALID_OP, S2, ?_, ?_, fun h => absurd h hc,
        fun _ => ⟨by decide, hV2.trans hV1⟩⟩
      · simp [ConvertMemoryCopy, hcb, hA1, hA2, hn]
      · exact ⟨fun h => absurd h.1 (by decide), fun h => absurd h hc⟩
    | succ k =>
      obtain ⟨MI, S', hK, hOp, hV⟩ := CopyChunks_result TM bb
        (if S2.IRVregToLLIRVreg I.Source.ID == none then Src.GetReg
          else GetIDFromValue S2 I.Source)
        (if S2.IRVregToLLIRVreg I.Destination.ID == none then Dest.GetReg
          else GetIDFromValue S2 I.Destination) k 0 S2
      refine ⟨MI, S', ?_, ?_, fun h => absurd h hc,
        fun _ => ⟨by rw [hOp]; decide, hV.trans (hV2.trans hV1)⟩⟩
      · simp only [ConvertMemoryCopy, hcb, hA1, hA2, hn]
        simpa using hK
      · exact ⟨fun h => absurd (hOp.symm.trans h.1) (by decide), fun h => absurd h hc⟩

/-- C21 on `memcopy %1, %2, 32` and the sample target. -/
theorem C21_memcpy_call_witness :
    ∃ MI S', ConvertMemoryCopy sampleTM sampleState (sampleMemcpy 32) 0 = some (MI, S') ∧
      MI.Opcode = OperationCode.CALL ∧
      MI.Operands = [MachineOperand.CreateFunctionName "memcpy"] ∧ S'.MF.HasCall = true := by
  obtain ⟨MI, S', h, hiff, hcall, _⟩ := C21_memcpy_call sampleTM sampleState (sampleMemcpy 32) 0
    { ID := 0, BitWidth := 64, SubRegs := [32] } { ID := 1, BitWidth := 64, SubRegs := [33] }
    { ID := 2, BitWidth := 64, SubRegs := [34] } 34 (by decide) (by decide) (by decide)
    (by decide) (by decide) (by decide)
  have hc : 32 ≤ (sampleMemcpy 32).Size ∧ sampleTM.MemcpySupported = true := by decide
  exact ⟨MI, S', h, (hiff.mpr hc).1, (hiff.mpr hc).2, (hcall hc).1⟩

theorem CopyChunks_succ (TM : TargetMachine) (bb SrcId DestId n i : Nat) (S : IRtoLLIR) :
    CopyChunks TM bb SrcId DestId (n + 1) i S =
      if n = 0 then
        some (ChunkStore TM S DestId i, S.NextAvailableVReg.2.InsertInstr bb (ChunkLoad TM S SrcId i))
      else CopyChunks TM bb SrcId DestId n (i + 1)
        ((S.NextAvailableVReg.2.InsertInstr bb (ChunkLoad TM S SrcId i)).InsertInstr bb
          (ChunkStore TM S DestId i)) := rfl

theorem ChunkPair_spec (TM : TargetMachine) (S : IRtoLLIR) (SrcId DestId i : Nat) :
    IsCopyPair TM (S.MF.IsStackSlot SrcId) (S.MF.IsStackSlot DestId) SrcId DestId i
      (ChunkLoad TM S SrcId i) (ChunkStore TM S DestId i) := by
  refine ⟨S.MF.NextVReg, ?_, ?_, ?_, ?_⟩
  · unfold ChunkLoad; split <;> rfl
  · unfold ChunkLoad; rw [Nat.mul_comm]; cases S.MF.IsStackSlot SrcId <;> rfl
  · unfold ChunkStore; cases S.MF.IsStackSlot DestId <;> rfl
  · unfold ChunkStore; rw [Nat.mul_comm]; cases S.MF.IsStackSlot DestId <;> rfl

theorem CopyChunks_pairs (TM : TargetMachine) (bb SrcId DestId : Nat) (SrcSlot DestSlot : Bool)
    (n : Nat) :
    ∀ (i : Nat) (S : IRtoLLIR), bb < S.MF.BasicBlocks.length →
      S.MF.IsStackSlot SrcId = SrcSlot → S.MF.IsStackSlot DestId = DestSlot →
      ∃ MI S' L, CopyChunks TM bb SrcId DestId (n + 1) i S = some (MI, S') ∧
        S'.Instrs bb ++ [MI] = S.Instrs bb ++ L ∧
        CopyPairs TM SrcSlot DestSlot SrcId DestId (n + 1) i L := by
  induction n with
  | zero =>
    intro i S hbb hs hd
    refine ⟨ChunkStore TM S DestId i,
      S.NextAvailableVReg.2.InsertInstr bb (ChunkLoad TM S SrcId i),
      [ChunkLoad TM S SrcId i, ChunkStore TM S DestId i], ?_, ?_, ?_, rfl⟩
    · rw [CopyChunks_succ, if_pos rfl]
    · rw [Instrs_InsertInstr _ _ _ (by simpa [IRtoLLIR.NextAvailableVReg,
        MachineFunction.GetNextAvailableVReg] using hbb), Instrs_NextAvailableVReg]
      simp only [List.append_assoc, List.singleton_append]
    · rw [← hs, ← hd]
      exact ChunkPair_spec TM S SrcId DestId i
  | succ k ih =>
    intro i S hbb hs hd
    obtain ⟨MI, S', L, h1, h2, h3⟩ := ih (i + 1)
      ((S.NextAvailableVReg.2.InsertInstr bb (ChunkLoad TM S SrcId i)).InsertInstr bb
        (ChunkStore TM S DestId i))
      (by simpa [IRtoLLIR.InsertInstr, MachineFunction.InsertInstr, IRtoLLIR.NextAvailableVReg,
        MachineFunction.GetNextAvailableVReg] using hbb) hs hd
    refine ⟨MI, S', ChunkLoad TM S SrcId i :: ChunkStore TM S DestId i :: L, ?_, ?_, ?_, h3⟩
    · rw [CopyChunks_succ, if_neg (Nat.succ_ne_zero k)]
      exact h1
    · rw [h2, Instrs_InsertInstr _ _ _ (by simpa [IRtoLLIR.InsertInstr,
        MachineFunction.InsertInstr, IRtoLLIR.NextAvailableVReg,
        MachineFunction.GetNextAvailableVReg] using hbb),
        Instrs_InsertInstr _ _ _ (by simpa [IRtoLLIR.NextAvailableVReg,
        MachineFunction.GetNextAvailableVReg] using hbb), Instrs_NextAvailableVReg]
      simp only [List.append_assoc, List.singleton_append, List.cons_append, List.nil_append]
    · rw [← hs, ← hd]
      exact ChunkPair_spec TM S SrcId DestId i

theorem CopyAddress_blocks (TM : TargetMachine) (S S' : IRtoLLIR) (Val : Value) (bb : Nat)
    (MO : MachineOperand) (h : CopyAddress TM S Val bb = some (MO, S')) :
    S'.MF.BasicBlocks.length = S.MF.BasicBlocks.length := by
  have hSh := congrArg (fun p => p.2.length) (Shape_CopyAddress TM S S' Val bb MO h)
  simpa [MachineFunction.Shape] using hSh

/-- C22, as the claim has it, fails: the inline lowering of `memcopy %1, %2, 6`
is the single pair at byte offset 0, which leaves bytes 4 and 5 uncopied. -/
theorem C22_six_bytes_copy_four :
    (ConvertMemoryCopy sampleTM sampleState (sampleMemcpy 6) 0).map
      (fun r => seqView (r.2.Instrs 0 ++ [r.1])) =
      some [(OperationCode.LOAD, [MachineOperand.CreateVirtualRegister 12 32,
          MachineOperand.CreateMemory 10 0 64]),
        (OperationCode.STORE, [MachineOperand.CreateMemory 11 0 64,
          MachineOperand.CreateVirtualRegister 12 32])] := by
  decide

/-- C22, amended: a memcpy of `n >= 4` bytes that is lowered inline, whose
addresses have machine operands, is lowered to `n / 4` LOAD/STORE pairs that
follow the instructions of the two addresses, the last STORE being the
returned instruction: pair `i` loads a 32-bit virtual register from the source
at byte offset `4 * i` and stores that same register to the destination at
byte offset `4 * i`.  The pairs cover every byte below `4 * (n / 4)`, which is
`n` when `n` is a multiple of 4. -/
theorem C22_inline_copy (TM : TargetMachine) (S : IRtoLLIR) (I : MemoryCopyInstruction)
    (bb : Nat) (hD : I.Destination.Kind ≠ ValueKind.LABEL)
    (hS : I.Source.Kind ≠ ValueKind.LABEL) (hbb : bb < S.MF.BasicBlocks.length)
    (hin : ¬ (32 ≤ I.Size ∧ TM.MemcpySupported = true)) (hn : 4 ≤ I.Size) :
    ∃ Src Dest S1 S2 MI S' L,
      CopyAddress TM S I.Source bb = some (Src, S1) ∧
      CopyAddress TM S1 I.Destination bb = some (Dest, S2) ∧
      ConvertMemoryCopy TM S I bb = some (MI, S') ∧
      S'.Instrs bb ++ [MI] = S2.Instrs bb ++ L ∧
      CopyPairs TM
        (S2.MF.IsStackSlot (if S2.IRVregToLLIRVreg I.Source.ID == none then Src.GetReg
          else GetIDFromValue S2 I.Source))
        (S2.MF.IsStackSlot (if S2.IRVregToLLIRVreg I.Destination.ID == none then Dest.GetReg
          else GetIDFromValue S2 I.Destination))
        (if S2.IRVregToLLIRVreg I.Source.ID == none then Src.GetReg
          else GetIDFromValue S2 I.Source)
        (if S2.IRVregToLLIRVreg I.Destination.ID == none then Dest.GetReg
          else GetIDFromValue S2 I.Destination) (I.Size / 4) 0 L ∧
      (∀ b, b < 4 * (I.Size / 4) → ∃ i, i < I.Size / 4 ∧ 4 * i ≤ b ∧ b < 4 * i + 4) ∧
      (I.Size % 4 = 0 → 4 * (I.Size / 4) = I.Size) := by
  have hcb : (decide (I.Size ≥ 32) && TM.MemcpySupported) = false := by
    cases hm : TM.MemcpySupported
    · simp
    · simp only [hm, and_true, not_le] at hin
      simp [hin]
  obtain ⟨Src, S1, hA1, _⟩ := CopyAddress_result TM S I.Source bb hS
  obtain ⟨Dest, S2, hA2, _⟩ := CopyAddress_result TM S1 I.Destination bb hD
  have hbb2 : bb < S2.MF.BasicBlocks.length := by
    rw [CopyAddress_blocks _ _ _ _ _ _ hA2, CopyAddress_blocks _ _ _ _ _ _ hA1]
    exact hbb
  obtain ⟨k, hk⟩ : ∃ k, I.Size / 4 = k + 1 := ⟨I.Size / 4 - 1, by omega⟩
  obtain ⟨MI, S', L, hC, hL, hP⟩ := CopyChunks_pairs TM bb
    (if S2.IRVregToLLIRVreg I.Source.ID == none then Src.GetReg else GetIDFromValue S2 I.Source)
    (if S2.IRVregToLLIRVreg I.Destination.ID == none then Dest.GetReg
      else GetIDFromValue S2 I.Destination) _ _ k 0 S2 hbb2 rfl rfl
  refine ⟨Src, Dest, S1, S2, MI, S', L, hA1, hA2, ?_, hL, ?_, ?_, ?_⟩
  · simp only [ConvertMemoryCopy, hcb, hA1, hA2, hk]
    simpa using hC
  · rw [hk]
    exact hP
  · intro b hb
    exact ⟨b / 4, by omega, by omega, by omega⟩
  · intro h4
    omega

/-- C22 on `memcopy %1, %2, 8`: two pairs, at the byte offsets 0 and 4. -/
theorem C22_inline_copy_witness :
    ∃ Src Dest S1 S2 MI S' L,
      CopyAddress sampleTM sampleState (sampleMemcpy 8).Source 0 = some (Src, S1) ∧
      CopyAddress sampleTM S1 (sampleMemcpy 8).Destination 0 = some (Dest, S2) ∧
      ConvertMemoryCopy sampleTM sampleState (sampleMemcpy 8) 0 = some (MI, S') ∧
      S'.Instrs 0 ++ [MI] = S2.Instrs 0 ++ L ∧
      CopyPairs sampleTM
        (S2.MF.IsStackSlot (if S2.IRVregToLLIRVreg (sampleMemcpy 8).Source.ID == none
          then Src.GetReg else GetIDFromValue S2 (sampleMemcpy 8).Source))
        (S2.MF.IsStackSlot (if S2.IRVregToLLIRVreg (sampleMemcpy 8).Destination.ID == none
          then Dest.GetReg else GetIDFromValue S2 (sampleMemcpy 8).Destination))
        (if S2.IRVregToLLIRVreg (sampleMemcpy 8).Source.ID == none then Src.GetReg
          else GetIDFromValue S2 (sampleMemcpy 8).Source)
        (if S2.IRVregToLLIRVreg (sampleMemcpy 8).Destination.ID == none then Dest.GetReg
          else GetIDFromValue S2 (sampleMemcpy 8).Destination) ((sampleMemcpy 8).Size / 4) 0 L ∧
      (∀ b, b < 4 * ((sampleMemcpy 8).Size / 4) →
        ∃ i, i < (sampleMemcpy 8).Size / 4 ∧ 4 * i ≤ b ∧ b < 4 * i + 4) ∧
      ((sampleMemcpy 8).Size % 4 = 0 → 4 * ((sampleMemcpy 8).Size / 4) = (sampleMemcpy 8).Size) :=
  C22_inline_copy sampleTM sampleState (sampleMemcpy 8) 0 (by decide) (by decide) (by decide)
    (by decide) (by decide)

/-! ## Lowering of GEP instructions -/

/-- C26 (the code departs from the claim). For `%3 = gep %0, %2` with the stack
slot `%0` as base and the index in a register, the lowering appends
`STACK_ADDRESS v10, slot 0`, the scaled index, and returns `ADD v10, v10, v14`:
the address instruction defines the destination of the GEP itself, not a fresh
register, so the `ADD` is not the only instruction that defines it.  With the
global `t` as base the address instruction is renamed to the fresh `v15`. -/
theorem C26_stack_address_defines_the_destination :
    (ConvertGEP sampleTM sampleSlotState (sampleGEP sampleArray (sampleIntReg 2 32)) 0).map
      (fun r => seqView (r.2.Instrs 0 ++ [r.1])) =
      some [(OperationCode.STACK_ADDRESS,
              [(MachineOperand.CreateVirtualRegister 10 32).SetType (LowLevelType.CreatePTR 64),
               MachineOperand.CreateStackAccess 0 0]),
            (OperationCode.MOV,
              [MachineOperand.CreateVirtualRegister 12 64, MachineOperand.CreateImmediate 4 32]),
            (OperationCode.SEXT,
              [MachineOperand.CreateVirtualRegister 13 64,
               MachineOperand.CreateVirtualRegister 11 32]),
            (OperationCode.MUL,
              [MachineOperand.CreateVirtualRegister 14 64,
               MachineOperand.CreateVirtualRegister 13 64,
               MachineOperand.CreateVirtualRegister 12 64]),
            (OperationCode.ADD,
              [(MachineOperand.CreateVirtualRegister 10 32).SetType (LowLevelType.CreatePTR 64),
               (MachineOperand.CreateVirtualRegister 10 32).SetType (LowLevelType.CreatePTR 64),
               MachineOperand.CreateVirtualRegister 14 64])] ∧
    (ConvertGEP sampleTM sampleSlotState (sampleGEP sampleGlobalArray (sampleIntReg 2 32)) 0).map
      (fun r => seqView (r.2.Instrs 0 ++ [r.1])) =
      some [(OperationCode.GLOBAL_ADDRESS,
              [(MachineOperand.CreateVirtualRegister 15 32).SetType (LowLevelType.CreatePTR 64),
               MachineOperand.CreateGlobalSymbol "t"]),
            (OperationCode.MOV,
              [MachineOperand.CreateVirtualRegister 12 64, MachineOperand.CreateImmediate 4 32]),
            (OperationCode.SEXT,
              [MachineOperand.CreateVirtualRegister 13 64,
               MachineOperand.CreateVirtualRegister 11 32]),
            (OperationCode.MUL,
              [MachineOperand.CreateVirtualRegister 14 64,
               MachineOperand.CreateVirtualRegister 13 64,
               MachineOperand.CreateVirtualRegister 12 64]),
            (OperationCode.ADD,
              [(MachineOperand.CreateVirtualRegister 10 32).SetType (LowLevelType.CreatePTR 64),
               (MachineOperand.CreateVirtualRegister 15 32).SetType (LowLevelType.CreatePTR 64),
               MachineOperand.CreateVirtualRegister 14 64])] := by
  decide

/-- C28 (the code departs from the claim). For `%3 = gep %1, -1` over 32-bit
elements with the base in a register, on a 64-bit target, the lowering returns
`ADD v10, v11, #4294967292`: the offset is held in a 32-bit `unsigned` and
zero-extended into the immediate, which read as a signed 64-bit integer is
4294967292 and not `-1 * 4 = -4`.  With the stack slot `%0` as base the offset
of the stack access is `-4`. -/
theorem C28_negative_index_is_zero_extended :
    toInt64 sampleMinusOne.IntValue * 4 = -4 ∧
    (ConvertGEP sampleTM sampleSlotState (sampleGEP (samplePtrReg 1) sampleMinusOne) 0).map
      (fun r => (seqView (r.2.Instrs 0 ++ [r.1]),
        (r.1.Operands.get? 2).map (fun MO => toInt64 MO.GetImmediate))) =
      some ([(OperationCode.ADD,
              [(MachineOperand.CreateVirtualRegister 10 32).SetType (LowLevelType.CreatePTR 64),
               (MachineOperand.CreateVirtualRegister 11 32).SetType (LowLevelType.CreatePTR 64),
               MachineOperand.CreateImmediate 4294967292 64])], some 4294967292) ∧
    (ConvertGEP sampleTM sampleSlotState (sampleGEP sampleArray sampleMinusOne) 0).map
      (fun r => seqView (r.2.Instrs 0 ++ [r.1])) =
      some [(OperationCode.STACK_ADDRESS,
              [(MachineOperand.CreateVirtualRegister 10 32).SetType (LowLevelType.CreatePTR 64),
               MachineOperand.CreateStackAccess 0 (-4)])] := by
  decide

theorem GetMachineOperandFromValue_def (TM : TargetMachine) (S : IRtoLLIR) (Val : Value)
    (bb : Nat) (hR : Val.IsRegister = true)
    (hN : S.SpilledReturnValuesIDToStackID Val.ID = none) :
    ∃ Dest S1, GetMachineOperandFromValue TM S Val bb true = some (Dest, S1) ∧
      S1.MF.BasicBlocks = S.MF.BasicBlocks ∧ S1.MF.SF = S.MF.SF ∧
      S1.SpilledReturnValuesIDToStackID = S.SpilledReturnValuesIDToStackID ∧
      Dest.Kind = MOKind.REGISTER := by
  have hV : ∀ W, (GetVRegForValue S Val bb true W).2.MF.BasicBlocks = S.MF.BasicBlocks ∧
      (GetVRegForValue S Val bb true W).2.MF.SF = S.MF.SF ∧
      (GetVRegForValue S Val bb true W).2.SpilledReturnValuesIDToStackID =
        S.SpilledReturnValuesIDToStackID := by
    intro W
    unfold GetVRegForValue
    simp only [Bool.not_true, Bool.false_and, Bool.false_eq_true, if_false, hN]
    split <;> exact ⟨rfl, rfl, rfl⟩
  unfold GetMachineOperandFromValue
  simp only [hR, if_true]
  split
  · exact ⟨_, _, rfl, (hV _).1, (hV _).2.1, (hV _).2.2, rfl⟩
  · exact ⟨_, _, rfl, (hV _).1, (hV _).2.1, (hV _).2.2, rfl⟩

theorem GetMachineOperandFromValue_const (TM : TargetMachine) (S : IRtoLLIR) (Val : Value)
    (bb : Nat) (IsDef : Bool) (hC : Val.IsConstant = true) :
    ∃ Imm, GetMachineOperandFromValue TM S Val bb IsDef = some (Imm, S) := by
  have hK : Val.Kind = ValueKind.CONST := by simpa [Value.IsConstant] using hC
  unfold GetMachineOperandFromValue
  simp only [Value.IsRegister, Value.IsParameter, Value.IsConstant, hK]
  exact ⟨_, rfl⟩

theorem seqView_append (A B : List MachineInstruction) :
    seqView (A ++ B) = seqView A ++ seqView B := by
  simp [seqView]

theorem LowerScaledIndex_spec (TM : TargetMachine) (S : IRtoLLIR) (bb s : Nat)
    (IndexReg : MachineOperand) (hbb : bb < S.MF.BasicBlocks.length) :
    ∃ L, (LowerScaledIndex TM S bb s IndexReg).2.Instrs bb = S.Instrs bb ++ L ∧
      seqView L = (SpecScaledIndex TM s IndexReg S.MF.NextVReg).1 ∧
      (LowerScaledIndex TM S bb s IndexReg).1 = (SpecScaledIndex TM s IndexReg S.MF.NextVReg).2 ∧
      (LowerScaledIndex TM S bb s IndexReg).2.MF.SF = S.MF.SF ∧
      (LowerScaledIndex TM S bb s IndexReg).2.MF.BasicBlocks.length = S.MF.BasicBlocks.length ∧
      (LowerScaledIndex TM S bb s IndexReg).2.IRVregToLLIRVreg = S.IRVregToLLIRVreg ∧
      (LowerScaledIndex TM S bb s IndexReg).2.SpilledReturnValuesIDToStackID =
        S.SpilledReturnValuesIDToStackID := by
  have hlen : ∀ (X : IRtoLLIR), X.NextAvailableVReg.2.MF.BasicBlocks.length =
      X.MF.BasicBlocks.length := fun _ => rfl
  have hins : ∀ (X : IRtoLLIR) (MI : MachineInstruction),
      (X.InsertInstr bb MI).MF.BasicBlocks.length = X.MF.BasicBlocks.length := by
    intro X MI
    simp [IRtoLLIR.InsertInstr, MachineFunction.InsertInstr]
  unfold LowerScaledIndex SpecScaledIndex
  by_cases h1 : s = 1
  · simp only [h1, if_true]
    refine ⟨_, Instrs_InsertInstr _ _ _ (by rw [hlen]; exact hbb) |>.trans
      (by rw [Instrs_NextAvailableVReg]), ?_, rfl, rfl, ?_, rfl, rfl⟩
    · split <;> rfl
    · rw [hins, hlen]
  · simp only [h1, if_false]
    by_cases h2 : IndexReg.GetSize < TM.PointerSize
    · simp only [h2, if_true]
      refine ⟨[((MachineInstruction.create OperationCode.MOV).AddVirtualRegister S.MF.NextVReg
          TM.PointerSize).AddImmediate s 32,
        ((MachineInstruction.create OperationCode.SEXT).AddVirtualRegister
          ((S.MF.NextVReg + 1) % 2 ^ 32) TM.PointerSize).AddOperand IndexReg,
        (((MachineInstruction.create OperationCode.MUL).AddVirtualRegister
          (((S.MF.NextVReg + 1) % 2 ^ 32 + 1) % 2 ^ 32) TM.PointerSize).AddVirtualRegister
          ((S.MF.NextVReg + 1) % 2 ^ 32) TM.PointerSize).AddVirtualRegister S.MF.NextVReg
          TM.PointerSize], ?_, ?_, rfl, rfl, ?_, rfl, rfl⟩
      · rw [Instrs_InsertInstr _ _ _ (by simp only [hins, hlen]; exact hbb),
          Instrs_NextAvailableVReg,
          Instrs_InsertInstr _ _ _ (by simp only [hins, hlen]; exact hbb),
          Instrs_NextAvailableVReg,
          Instrs_InsertInstr _ _ _ (by simp only [hins, hlen]; exact hbb),
          Instrs_NextAvailableVReg]
        simp only [List.append_assoc, List.singleton_append]
        rfl
      · rfl
      · simp only [hins, hlen]
    · simp only [h2, if_false]
      refine ⟨[((MachineInstruction.create OperationCode.MOV).AddVirtualRegister S.MF.NextVReg
          TM.PointerSize).AddImmediate s 32,
        (((MachineInstruction.create OperationCode.MUL).AddVirtualRegister
          ((S.MF.NextVReg + 1) % 2 ^ 32) TM.PointerSize).AddOperand IndexReg).AddVirtualRegister
          S.MF.NextVReg TM.PointerSize], ?_, ?_, rfl, rfl, ?_, rfl, rfl⟩
      · rw [Instrs_InsertInstr _ _ _ (by simp only [hins, hlen]; exact hbb),
          Instrs_NextAvailableVReg,
          Instrs_InsertInstr _ _ _ (by simp only [hins, hlen]; exact hbb),
          Instrs_NextAvailableVReg]
        simp only [List.append_assoc, List.singleton_append]
        rfl
      · rfl
      · simp only [hins, hlen]

theorem Instrs_ModifyInstr (S : IRtoLLIR) (bb Idx : Nat)
    (f : MachineInstruction → MachineInstruction) :
    (S.ModifyInstr bb Idx f).Instrs bb = (S.Instrs bb).modify f Idx := by
  unfold IRtoLLIR.Instrs IRtoLLIR.ModifyInstr
  simp only [List.get?_eq_getElem?, List.getElem?_modify, if_true]
  cases S.MF.BasicBlocks[bb]? <;> simp

theorem modify_append_singleton_append {α : Type} (f : α → α) (A L : List α) (g : α) :
    ((A ++ [g]) ++ L).modify f A.length = (A ++ [f g]) ++ L := by
  induction A with
  | nil => rfl
  | cons a t ih => simpa using ih

theorem get?_append_singleton_append {α : Type} (A L : List α) (g : α) :
    ((A ++ [g]) ++ L).get? A.length = some g := by
  induction A with
  | nil => rfl
  | cons a t ih => simpa using ih

theorem LowerScaledIndex_NextVReg (TM : TargetMachine) (S : IRtoLLIR) (bb s : Nat)
    (IndexReg : MachineOperand) :
    (LowerScaledIndex TM S bb s IndexReg).2.MF.NextVReg =
      ((SpecScaledIndex TM s IndexReg S.MF.NextVReg).2 + 1) % 2 ^ 32 := by
  unfold LowerScaledIndex SpecScaledIndex
  by_cases h1 : s = 1
  · simp only [h1, if_true]
    rfl
  · simp only [h1, if_false]
    split <;> rfl

/-- C29: a GEP with its index in a register over a non-struct source of element
size `s`, whose own value is a register that is not a spilled call result and
whose index and source have machine operands, is lowered.  With `r` the counter
of virtual registers after the operands of the GEP itself and of the index, the
block gets the scaled index `L` as the specification words it, on the fresh
registers from `r` on (for `s = 1` one `MOV` of the index into a fresh
pointer-width register, a `SEXT` when the index is narrower than a pointer;
otherwise a `MOV` of the immediate `s`, a `SEXT` of the index if and only if it
is narrower than a pointer, and a `MUL`), and the result is
`ADD dest, base, scaled-index` on the register of that sequence, where: for a
register as base, `L` is appended to the block and `base` is the operand of the
source, computed after `L`; for a stack slot as base, the block gets
`STACK_ADDRESS dest, slot` and then `L`, and `base` is `dest`; for a global as
base, the block gets `GLOBAL_ADDRESS b, symbol` and then `L`, and `base` is `b`,
the register `dest` renamed to the first fresh register after `L`. -/
theorem C29_register_index_gep (TM : TargetMachine) (S : IRtoLLIR)
    (I : GetElementPointerInstruction) (bb : Nat) (hSelf : I.Self.IsRegister = true)
    (hNS : S.SpilledReturnValuesIDToStackID I.Self.ID = none)
    (hIdx : I.Index.IsConstant = false) (hIdxK : I.Index.Kind ≠ ValueKind.LABEL)
    (hNoStruct : I.Source.Ty.IsStruct = false) (hSrc : I.Source.Kind ≠ ValueKind.LABEL)
    (hbb : bb < S.MF.BasicBlocks.length) :
    ∃ Dest S1 IndexReg S2 MI S' L,
      GetMachineOperandFromValue TM S I.Self bb true = some (Dest, S1) ∧
      GetMachineOperandFromValue TM S1 I.Index bb false = some (IndexReg, S2) ∧
      ConvertGEP TM S I bb = some (MI, S') ∧
      seqView L = (SpecScaledIndex TM I.Source.Ty.CalcElemSize IndexReg S2.MF.NextVReg).1 ∧
      MI.Opcode = OperationCode.ADD ∧
      (I.Source.IsGlobalVar = false → S.MF.IsStackSlot (GetIDFromValue S I.Source) = false →
        (LowerScaledIndex TM S2 bb I.Source.Ty.CalcElemSize IndexReg).2.Instrs bb =
          S2.Instrs bb ++ L ∧
        ∃ Base, GetMachineOperandFromValue TM
            (LowerScaledIndex TM S2 bb I.Source.Ty.CalcElemSize IndexReg).2 I.Source bb false =
              some (Base, S') ∧
          MI.Operands = [Dest, Base, MachineOperand.CreateVirtualRegister
            (SpecScaledIndex TM I.Source.Ty.CalcElemSize IndexReg S2.MF.NextVReg).2 TM.PointerSize]) ∧
      (I.Source.IsGlobalVar = false → S.MF.IsStackSlot (GetIDFromValue S I.Source) = true →
        ∃ SA, S'.Instrs bb = S2.Instrs bb ++ [SA] ++ L ∧
          SA.Opcode = OperationCode.STACK_ADDRESS ∧
          SA.Operands = [Dest, MachineOperand.CreateStackAccess (GetIDFromValue S I.Source) 0] ∧
          MI.Operands = [Dest, Dest, MachineOperand.CreateVirtualRegister
            (SpecScaledIndex TM I.Source.Ty.CalcElemSize IndexReg S2.MF.NextVReg).2 TM.PointerSize]) ∧
      (I.Source.IsGlobalVar = true →
        ∃ GA, S'.Instrs bb = S2.Instrs bb ++ [GA] ++ L ∧
          GA.Opcode = OperationCode.GLOBAL_ADDRESS ∧
          GA.Operands = [Dest.SetReg (((SpecScaledIndex TM I.Source.Ty.CalcElemSize IndexReg S2.MF.NextVReg).2 + 1) % 2 ^ 32),
            MachineOperand.CreateGlobalSymbol I.Source.Name] ∧
          MI.Operands = [Dest, Dest.SetReg (((SpecScaledIndex TM I.Source.Ty.CalcElemSize IndexReg S2.MF.NextVReg).2 + 1) % 2 ^ 32),
            MachineOperand.CreateVirtualRegister
            (SpecScaledIndex TM I.Source.Ty.CalcElemSize IndexReg S2.MF.NextVReg).2 TM.PointerSize]) := by
  obtain ⟨Dest, S1, hD, hB, hSF, _, hK⟩ := GetMachineOperandFromValue_def TM S I.Self bb hSelf hNS
  obtain ⟨IndexReg, S2, hI⟩ := GetMachineOperandFromValue_isSome TM S1 I.Index bb false hIdxK
  have hF2 := GetMachineOperandFromValue_frame TM S1 S2 I.Index bb false IndexReg hI
  have hbb2 : bb < S2.MF.BasicBlocks.length := by
    rw [hF2.2.2.2.1, hB]; exact hbb
  cases hG : I.Source.IsGlobalVar <;>
    cases hSt : S.MF.IsStackSlot (GetIDFromValue S I.Source)
  · -- a register as base
    obtain ⟨L, hL, hSpec, hR, _, hLen, _, _⟩ := LowerScaledIndex_spec TM S2 bb
      I.Source.Ty.CalcElemSize IndexReg hbb2
    obtain ⟨Base, S4, hBase⟩ := GetMachineOperandFromValue_isSome TM
      (LowerScaledIndex TM S2 bb I.Source.Ty.CalcElemSize IndexReg).2 I.Source bb false hSrc
    refine ⟨Dest, S1, IndexReg, S2, (((MachineInstruction.create OperationCode.ADD).AddOperand
      Dest).AddOperand Base).AddVirtualRegister
        (LowerScaledIndex TM S2 bb I.Source.Ty.CalcElemSize IndexReg).1 TM.PointerSize, S4,
      L, hD, hI, ?_, hSpec, rfl, ?_, ?_, ?_⟩
    · simp only [ConvertGEP, hD, hI, hIdx, hG, hSt, hNoStruct, Bool.false_eq_true, if_false,
        Bool.not_false, Bool.true_or, if_true, Bool.and_self, FinishGEP, RenameGoalDef]
      simp [MachineInstruction.IsInvalid, MachineInstruction.AddOperand, hBase]
    · intro _ _
      refine ⟨hL, Base, hBase, ?_⟩
      rw [← hR]
      rfl
    · intro _ h
      exact absurd h (by decide)
    · intro h
      exact absurd h (by decide)
  · -- a stack slot as base
    have h3 : (S2.InsertInstr bb (((MachineInstruction.create OperationCode.STACK_ADDRESS).AddOperand
      Dest).AddStackAccess (GetIDFromValue S I.Source) 0)).Instrs bb = S2.Instrs bb ++ [(((MachineInstruction.create OperationCode.STACK_ADDRESS).AddOperand
      Dest).AddStackAccess (GetIDFromValue S I.Source) 0)] :=
      Instrs_InsertInstr _ _ _ hbb2
    obtain ⟨L, hL, hSpec, hR, _, hLen, _, _⟩ := LowerScaledIndex_spec TM
      (S2.InsertInstr bb (((MachineInstruction.create OperationCode.STACK_ADDRESS).AddOperand
      Dest).AddStackAccess (GetIDFromValue S I.Source) 0)) bb
      I.Source.Ty.CalcElemSize IndexReg (by
        simpa [IRtoLLIR.InsertInstr, MachineFunction.InsertInstr] using hbb2)
    have hIdxEq : ((S2.InsertInstr bb (((MachineInstruction.create OperationCode.STACK_ADDRESS).AddOperand
      Dest).AddStackAccess (GetIDFromValue S I.Source) 0)).Instrs bb).length - 1 = (S2.Instrs bb).length := by
      rw [h3]; simp
    have hInv : ((((MachineInstruction.create OperationCode.STACK_ADDRESS).AddOperand
      Dest).AddStackAccess (GetIDFromValue S I.Source) 0)).IsInvalid = false := rfl
    have hget := get?_append_singleton_append (S2.Instrs bb) L (((MachineInstruction.create OperationCode.STACK_ADDRESS).AddOperand
      Dest).AddStackAccess (GetIDFromValue S I.Source) 0)
    rw [← h3, ← hL] at hget
    refine ⟨Dest, S1, IndexReg, S2, (((MachineInstruction.create OperationCode.ADD).AddOperand
      Dest).AddOperand Dest).AddVirtualRegister
        (LowerScaledIndex TM (S2.InsertInstr bb (((MachineInstruction.create OperationCode.STACK_ADDRESS).AddOperand
      Dest).AddStackAccess (GetIDFromValue S I.Source) 0)) bb I.Source.Ty.CalcElemSize IndexReg).1
        TM.PointerSize,
      (LowerScaledIndex TM (S2.InsertInstr bb (((MachineInstruction.create OperationCode.STACK_ADDRESS).AddOperand
      Dest).AddStackAccess (GetIDFromValue S I.Source) 0)) bb I.Source.Ty.CalcElemSize IndexReg).2,
      L, hD, hI, ?_, hSpec, rfl, ?_, ?_, ?_⟩
    · simp only [ConvertGEP, hD, hI, hIdx, hG, hSt, hNoStruct, Bool.false_eq_true, if_false,
        Bool.not_false, Bool.true_or, if_true, hInv, Bool.not_false, hIdxEq]
      simp only [FinishGEP, RenameGoalDef, Bool.false_eq_true, if_false, hInv, Bool.not_true,
        Bool.and_false, Bool.and_self, hget, MachineInstruction.GetDef]
      rfl
    · intro _ h
      exact absurd h (by decide)
    · intro _ _
      refine ⟨(((MachineInstruction.create OperationCode.STACK_ADDRESS).AddOperand
      Dest).AddStackAccess (GetIDFromValue S I.Source) 0), ?_, rfl, rfl, ?_⟩
      · rw [hL, h3]
      · rw [hR]
        rfl
    · intro h
      exact absurd h (by decide)
  · -- a global as base
    have h3 : (S2.InsertInstr bb (((MachineInstruction.create OperationCode.GLOBAL_ADDRESS).AddOperand
      Dest).AddGlobalSymbol I.Source.Name)).Instrs bb = S2.Instrs bb ++ [(((MachineInstruction.create OperationCode.GLOBAL_ADDRESS).AddOperand
      Dest).AddGlobalSymbol I.Source.Name)] :=
      Instrs_InsertInstr _ _ _ hbb2
    obtain ⟨L, hL, hSpec, hR, _, hLen, _, _⟩ := LowerScaledIndex_spec TM
      (S2.InsertInstr bb (((MachineInstruction.create OperationCode.GLOBAL_ADDRESS).AddOperand
      Dest).AddGlobalSymbol I.Source.Name)) bb
      I.Source.Ty.CalcElemSize IndexReg (by
        simpa [IRtoLLIR.InsertInstr, MachineFunction.InsertInstr] using hbb2)
    have hN : (LowerScaledIndex TM (S2.InsertInstr bb (((MachineInstruction.create OperationCode.GLOBAL_ADDRESS).AddOperand
      Dest).AddGlobalSymbol I.Source.Name)) bb I.Source.Ty.CalcElemSize IndexReg).2.NextAvailableVReg.1 = ((SpecScaledIndex TM I.Source.Ty.CalcElemSize IndexReg S2.MF.NextVReg).2 + 1) % 2 ^ 32 :=
      LowerScaledIndex_NextVReg TM (S2.InsertInstr bb (((MachineInstruction.create OperationCode.GLOBAL_ADDRESS).AddOperand
      Dest).AddGlobalSymbol I.Source.Name)) bb
        I.Source.Ty.CalcElemSize IndexReg
    have hIdxEq : ((S2.InsertInstr bb (((MachineInstruction.create OperationCode.GLOBAL_ADDRESS).AddOperand
      Dest).AddGlobalSymbol I.Source.Name)).Instrs bb).length - 1 = (S2.Instrs bb).length := by
      rw [h3]; simp
    have hInv : (((MachineInstruction.create OperationCode.GLOBAL_ADDRESS).AddOperand
      Dest).AddGlobalSymbol I.Source.Name).IsInvalid = false := rfl
    have hMod : ((LowerScaledIndex TM (S2.InsertInstr bb (((MachineInstruction.create OperationCode.GLOBAL_ADDRESS).AddOperand
      Dest).AddGlobalSymbol I.Source.Name)) bb I.Source.Ty.CalcElemSize IndexReg).2.NextAvailableVReg.2.ModifyInstr bb (S2.Instrs bb).length
        (fun MI => MI.SetDefReg (LowerScaledIndex TM (S2.InsertInstr bb (((MachineInstruction.create OperationCode.GLOBAL_ADDRESS).AddOperand
      Dest).AddGlobalSymbol I.Source.Name)) bb I.Source.Ty.CalcElemSize IndexReg).2.NextAvailableVReg.1)).Instrs bb =
        (S2.Instrs bb ++ [(((MachineInstruction.create OperationCode.GLOBAL_ADDRESS).AddOperand
      Dest).AddGlobalSymbol I.Source.Name).SetDefReg (LowerScaledIndex TM (S2.InsertInstr bb (((MachineInstruction.create OperationCode.GLOBAL_ADDRESS).AddOperand
      Dest).AddGlobalSymbol I.Source.Name)) bb I.Source.Ty.CalcElemSize IndexReg).2.NextAvailableVReg.1]) ++ L := by
      rw [Instrs_ModifyInstr, Instrs_NextAvailableVReg, hL, h3,
        modify_append_singleton_append]
    have hget : (((LowerScaledIndex TM (S2.InsertInstr bb (((MachineInstruction.create OperationCode.GLOBAL_ADDRESS).AddOperand
      Dest).AddGlobalSymbol I.Source.Name)) bb I.Source.Ty.CalcElemSize IndexReg).2.NextAvailableVReg.2.ModifyInstr bb (S2.Instrs bb).length
        (fun MI => MI.SetDefReg (LowerScaledIndex TM (S2.InsertInstr bb (((MachineInstruction.create OperationCode.GLOBAL_ADDRESS).AddOperand
      Dest).AddGlobalSymbol I.Source.Name)) bb I.Source.Ty.CalcElemSize IndexReg).2.NextAvailableVReg.1)).Instrs bb).get?
          (S2.Instrs bb).length = some ((((MachineInstruction.create OperationCode.GLOBAL_ADDRESS).AddOperand
      Dest).AddGlobalSymbol I.Source.Name).SetDefReg (LowerScaledIndex TM (S2.InsertInstr bb (((MachineInstruction.create OperationCode.GLOBAL_ADDRESS).AddOperand
      Dest).AddGlobalSymbol I.Source.Name)) bb I.Source.Ty.CalcElemSize IndexReg).2.NextAvailableVReg.1) := by
      rw [hMod]
      exact get?_append_singleton_append _ _ _
    refine ⟨Dest, S1, IndexReg, S2, (((MachineInstruction.create OperationCode.ADD).AddOperand
      Dest).AddOperand (Dest.SetReg (LowerScaledIndex TM (S2.InsertInstr bb (((MachineInstruction.create OperationCode.GLOBAL_ADDRESS).AddOperand
      Dest).AddGlobalSymbol I.Source.Name)) bb I.Source.Ty.CalcElemSize IndexReg).2.NextAvailableVReg.1)).AddVirtualRegister
        (LowerScaledIndex TM (S2.InsertInstr bb (((MachineInstruction.create OperationCode.GLOBAL_ADDRESS).AddOperand
      Dest).AddGlobalSymbol I.Source.Name)) bb I.Source.Ty.CalcElemSize IndexReg).1 TM.PointerSize,
      (LowerScaledIndex TM (S2.InsertInstr bb (((MachineInstruction.create OperationCode.GLOBAL_ADDRESS).AddOperand
      Dest).AddGlobalSymbol I.Source.Name)) bb I.Source.Ty.CalcElemSize IndexReg).2.NextAvailableVReg.2.ModifyInstr bb (S2.Instrs bb).length
        (fun MI => MI.SetDefReg (LowerScaledIndex TM (S2.InsertInstr bb (((MachineInstruction.create OperationCode.GLOBAL_ADDRESS).AddOperand
      Dest).AddGlobalSymbol I.Source.Name)) bb I.Source.Ty.CalcElemSize IndexReg).2.NextAvailableVReg.1), L,
      hD, hI, ?_, hSpec, rfl, ?_, ?_, ?_⟩
    · simp only [ConvertGEP, hD, hI, hIdx, hG, hSt, hNoStruct, Bool.false_eq_true, if_false,
        Bool.not_false, Bool.true_or, if_true, hInv, Bool.not_false, hIdxEq]
      simp only [FinishGEP, RenameGoalDef, Bool.false_eq_true, if_false, if_true, hInv,
        Bool.not_true, Bool.and_false, Bool.and_self, Bool.false_and, hget,
        MachineInstruction.GetDef]
      rfl
    · intro h
      exact absurd h (by decide)
    · intro h
      exact absurd h (by decide)
    · intro _
      refine ⟨(((MachineInstruction.create OperationCode.GLOBAL_ADDRESS).AddOperand
      Dest).AddGlobalSymbol I.Source.Name).SetDefReg (LowerScaledIndex TM (S2.InsertInstr bb (((MachineInstruction.create OperationCode.GLOBAL_ADDRESS).AddOperand
      Dest).AddGlobalSymbol I.Source.Name)) bb I.Source.Ty.CalcElemSize IndexReg).2.NextAvailableVReg.1, hMod, rfl, ?_, ?_⟩
      · rw [hN]
        rfl
      · rw [hN, hR]
        rfl
  · -- a global whose id is the id of a stack slot
    have h3 : (S2.InsertInstr bb (((MachineInstruction.create OperationCode.GLOBAL_ADDRESS).AddOperand
      Dest).AddGlobalSymbol I.Source.Name)).Instrs bb = S2.Instrs bb ++ [(((MachineInstruction.create OperationCode.GLOBAL_ADDRESS).AddOperand
      Dest).AddGlobalSymbol I.Source.Name)] :=
      Instrs_InsertInstr _ _ _ hbb2
    obtain ⟨L, hL, hSpec, hR, _, hLen, _, _⟩ := LowerScaledIndex_spec TM
      (S2.InsertInstr bb (((MachineInstruction.create OperationCode.GLOBAL_ADDRESS).AddOperand
      Dest).AddGlobalSymbol I.Source.Name)) bb
      I.Source.Ty.CalcElemSize IndexReg (by
        simpa [IRtoLLIR.InsertInstr, MachineFunction.InsertInstr] using hbb2)
    have hN : (LowerScaledIndex TM (S2.InsertInstr bb (((MachineInstruction.create OperationCode.GLOBAL_ADDRESS).AddOperand
      Dest).AddGlobalSymbol I.Source.Name)) bb I.Source.Ty.CalcElemSize IndexReg).2.NextAvailableVReg.1 = ((SpecScaledIndex TM I.Source.Ty.CalcElemSize IndexReg S2.MF.NextVReg).2 + 1) % 2 ^ 32 :=
      LowerScaledIndex_NextVReg TM (S2.InsertInstr bb (((MachineInstruction.create OperationCode.GLOBAL_ADDRESS).AddOperand
      Dest).AddGlobalSymbol I.Source.Name)) bb
        I.Source.Ty.CalcElemSize IndexReg
    have hIdxEq : ((S2.InsertInstr bb (((MachineInstruction.create OperationCode.GLOBAL_ADDRESS).AddOperand
      Dest).AddGlobalSymbol I.Source.Name)).Instrs bb).length - 1 = (S2.Instrs bb).length := by
      rw [h3]; simp
    have hInv : (((MachineInstruction.create OperationCode.GLOBAL_ADDRESS).AddOperand
      Dest).AddGlobalSymbol I.Source.Name).IsInvalid = false := rfl
    have hMod : ((LowerScaledIndex TM (S2.InsertInstr bb (((MachineInstruction.create OperationCode.GLOBAL_ADDRESS).AddOperand
      Dest).AddGlobalSymbol I.Source.Name)) bb I.Source.Ty.CalcElemSize IndexReg).2.NextAvailableVReg.2.ModifyInstr bb (S2.Instrs bb).length
        (fun MI => MI.SetDefReg (LowerScaledIndex TM (S2.InsertInstr bb (((MachineInstruction.create OperationCode.GLOBAL_ADDRESS).AddOperand
      Dest).AddGlobalSymbol I.Source.Name)) bb I.Source.Ty.CalcElemSize IndexReg).2.NextAvailableVReg.1)).Instrs bb =
        (S2.Instrs bb ++ [(((MachineInstruction.create OperationCode.GLOBAL_ADDRESS).AddOperand
      Dest).AddGlobalSymbol I.Source.Name).SetDefReg (LowerScaledIndex TM (S2.InsertInstr bb (((MachineInstruction.create OperationCode.GLOBAL_ADDRESS).AddOperand
      Dest).AddGlobalSymbol I.Source.Name)) bb I.Source.Ty.CalcElemSize IndexReg).2.NextAvailableVReg.1]) ++ L := by
      rw [Instrs_ModifyInstr, Instrs_NextAvailableVReg, hL, h3,
        modify_append_singleton_append]
    have hget : (((LowerScaledIndex TM (S2.InsertInstr bb (((MachineInstruction.create OperationCode.GLOBAL_ADDRESS).AddOperand
      Dest).AddGlobalSymbol I.Source.Name)) bb I.Source.Ty.CalcElemSize IndexReg).2.NextAvailableVReg.2.ModifyInstr bb (S2.Instrs bb).length
        (fun MI => MI.SetDefReg (LowerScaledIndex TM (S2.InsertInstr bb (((MachineInstruction.create OperationCode.GLOBAL_ADDRESS).AddOperand
      Dest).AddGlobalSymbol I.Source.Name)) bb I.Source.Ty.CalcElemSize IndexReg).2.NextAvailableVReg.1)).Instrs bb).get?
          (S2.Instrs bb).length = some ((((MachineInstruction.create OperationCode.GLOBAL_ADDRESS).AddOperand
      Dest).AddGlobalSymbol I.Source.Name).SetDefReg (LowerScaledIndex TM (S2.InsertInstr bb (((MachineInstruction.create OperationCode.GLOBAL_ADDRESS).AddOperand
      Dest).AddGlobalSymbol I.Source.Name)) bb I.Source.Ty.CalcElemSize IndexReg).2.NextAvailableVReg.1) := by
      rw [hMod]
      exact get?_append_singleton_append _ _ _
    refine ⟨Dest, S1, IndexReg, S2, (((MachineInstruction.create OperationCode.ADD).AddOperand
      Dest).AddOperand (Dest.SetReg (LowerScaledIndex TM (S2.InsertInstr bb (((MachineInstruction.create OperationCode.GLOBAL_ADDRESS).AddOperand
      Dest).AddGlobalSymbol I.Source.Name)) bb I.Source.Ty.CalcElemSize IndexReg).2.NextAvailableVReg.1)).AddVirtualRegister
        (LowerScaledIndex TM (S2.InsertInstr bb (((MachineInstruction.create OperationCode.GLOBAL_ADDRESS).AddOperand
      Dest).AddGlobalSymbol I.Source.Name)) bb I.Source.Ty.CalcElemSize IndexReg).1 TM.PointerSize,
      (LowerScaledIndex TM (S2.InsertInstr bb (((MachineInstruction.create OperationCode.GLOBAL_ADDRESS).AddOperand
      Dest).AddGlobalSymbol I.Source.Name)) bb I.Source.Ty.CalcElemSize IndexReg).2.NextAvailableVReg.2.ModifyInstr bb (S2.Instrs bb).length
        (fun MI => MI.SetDefReg (LowerScaledIndex TM (S2.InsertInstr bb (((MachineInstruction.create OperationCode.GLOBAL_ADDRESS).AddOperand
      Dest).AddGlobalSymbol I.Source.Name)) bb I.Source.Ty.CalcElemSize IndexReg).2.NextAvailableVReg.1), L,
      hD, hI, ?_, hSpec, rfl, ?_, ?_, ?_⟩
    · simp only [ConvertGEP, hD, hI, hIdx, hG, hSt, hNoStruct, Bool.false_eq_true, if_false,
        Bool.not_false, Bool.true_or, if_true, hInv, Bool.not_false, hIdxEq]
      simp only [FinishGEP, RenameGoalDef, Bool.false_eq_true, if_false, if_true, hInv,
        Bool.not_true, Bool.and_false, Bool.and_self, Bool.false_and, hget,
        MachineInstruction.GetDef]
      rfl
    · intro h
      exact absurd h (by decide)
    · intro h
      exact absurd h (by decide)
    · intro _
      refine ⟨(((MachineInstruction.create OperationCode.GLOBAL_ADDRESS).AddOperand
      Dest).AddGlobalSymbol I.Source.Name).SetDefReg (LowerScaledIndex TM (S2.InsertInstr bb (((MachineInstruction.create OperationCode.GLOBAL_ADDRESS).AddOperand
      Dest).AddGlobalSymbol I.Source.Name)) bb I.Source.Ty.CalcElemSize IndexReg).2.NextAvailableVReg.1, hMod, rfl, ?_, ?_⟩
      · rw [hN]
        rfl
      · rw [hN, hR]
        rfl

/-- C29 on `%3 = gep %0, %2` over 32-bit elements with the index in a 32-bit
register and the stack slot `%0` as base, on a 64-bit target: the block gets
`STACK_ADDRESS v10, slot 0`, `MOV v12, #4`, `SEXT v13, v11` and
`MUL v14, v13, v12`, and the result is `ADD v10, v10, v14`. -/
theorem C29_register_index_gep_witness :
    ∃ MI S', ConvertGEP sampleTM sampleSlotState (sampleGEP sampleArray (sampleIntReg 2 32)) 0 =
        some (MI, S') ∧
      seqView (S'.Instrs 0) = seqView (sampleSlotState.Instrs 0) ++
        [(OperationCode.STACK_ADDRESS,
            [(MachineOperand.CreateVirtualRegister 10 64).SetType (LowLevelType.CreatePTR 64),
             MachineOperand.CreateStackAccess 0 0]),
         (OperationCode.MOV, [MachineOperand.CreateVirtualRegister 12 64,
            MachineOperand.CreateImmediate 4 32]),
         (OperationCode.SEXT, [MachineOperand.CreateVirtualRegister 13 64,
            MachineOperand.CreateVirtualRegister 11 32]),
         (OperationCode.MUL, [MachineOperand.CreateVirtualRegister 14 64,
            MachineOperand.CreateVirtualRegister 13 64,
            MachineOperand.CreateVirtualRegister 12 64])] ∧
      MI.Opcode = OperationCode.ADD ∧
      MI.Operands =
        [(MachineOperand.CreateVirtualRegister 10 64).SetType (LowLevelType.CreatePTR 64),
         (MachineOperand.CreateVirtualRegister 10 64).SetType (LowLevelType.CreatePTR 64),
         MachineOperand.CreateVirtualRegister 14 64] := by
  obtain ⟨Dest, S1, IndexReg, S2, MI, S', L, hD, hI, hC, hL, hOp, _, hStack, _⟩ :=
    C29_register_index_gep sampleTM sampleSlotState (sampleGEP sampleArray (sampleIntReg 2 32)) 0
      (by decide) rfl (by decide) (by decide) (by decide) (by decide) (by decide)
  have e : ((GetMachineOperandFromValue sampleTM sampleSlotState
      (sampleGEP sampleArray (sampleIntReg 2 32)).Self 0 true).bind
      (fun p => (GetMachineOperandFromValue sampleTM p.2
        (sampleGEP sampleArray (sampleIntReg 2 32)).Index 0 false).map
          (fun q => (p.1, q.1, q.2.MF.NextVReg, q.2.Instrs 0)))) =
      some ((MachineOperand.CreateVirtualRegister 10 64).SetType (LowLevelType.CreatePTR 64),
        MachineOperand.CreateVirtualRegister 11 32, 12, sampleSlotState.Instrs 0) := by
    decide
  rw [hD, Option.some_bind, hI, Option.map_some'] at e
  simp only [Option.some.injEq, Prod.mk.injEq] at e
  obtain ⟨e1, e2, e3, e4⟩ := e
  subst e1 e2
  rw [e3] at hL hStack
  obtain ⟨SA, h1, h2, h3, h4⟩ := hStack (by decide) (by decide)
  refine ⟨MI, S', hC, ?_, hOp, ?_⟩
  · rw [h1, e4, seqView_append, seqView_append, hL]
    simp only [seqView, List.map_cons, List.map_nil, h2, h3, List.append_assoc]
    rfl
  · rw [h4]
    rfl

/-! ## Equality of machine operands -/

/-- C23, as the claim has it, fails: a parameter operand does not compare
equal to itself, the comparison of two operands of the variant `NONE` fails the
assertion, a floating-point immediate that is a NaN does not compare equal to
itself, two stack accesses with the same slot and offset but different register
classes compare unequal, and the comparison of a label that is the null pointer
with itself has no result. -/
theorem C23_parameter_is_not_equal_to_itself :
    (MachineOperand.CreateParameter 0).operatorEq (MachineOperand.CreateParameter 0) =
      some false ∧
    (MachineOperand.CreateParameter 0).operatorNe (MachineOperand.CreateParameter 0) =
      some true ∧
    ({} : MachineOperand).operatorEq {} = none ∧
    (MachineOperand.CreateFPImmediate 0x7FF8000000000000 64).operatorEq
      (MachineOperand.CreateFPImmediate 0x7FF8000000000000 64) = some false ∧
    (MachineOperand.CreateStackAccess 1 8).operatorEq
      ((MachineOperand.CreateStackAccess 1 8).SetRegClass 0) = some false ∧
    (MachineOperand.CreateLabelPtr none).operatorEq (MachineOperand.CreateLabelPtr none) =
      none := by
  decide

/-- C23, amended: operands of different variants never compare equal, and
neither do two parameter operands; the comparison of two operands of the
variant `NONE` fails the assertion; two operands of one of the other variants
compare equal exactly when their payloads are equal (for floating-point
immediates: when the payloads are equal and not a NaN, they compare equal), so
such an operand compares equal to itself, a label or a function name when it
is not the null pointer; the comparison of two labels or two function names one
of which is the null pointer has no result; `operator!=` is the negation of
`operator==`. -/
theorem C23_operand_equality (a b : MachineOperand) :
    (a.Kind ≠ b.Kind → a.operatorEq b = some false) ∧
    (a.Kind = MOKind.PARAMETER → a.operatorEq b = some false) ∧
    (a.Kind = MOKind.NONE → b.Kind = MOKind.NONE → a.operatorEq b = none) ∧
    (a.Kind = b.Kind → a.Kind ≠ MOKind.NONE → a.Kind ≠ MOKind.PARAMETER →
      a.Kind ≠ MOKind.FP_IMMEDIATE → (a.operatorEq b = some true ↔ SamePayload a b)) ∧
    (a.Kind = b.Kind → a.Kind = MOKind.FP_IMMEDIATE → DoubleIsNaN a.FloatVal = false →
      SamePayload a b → a.operatorEq b = some true) ∧
    (a.Kind ≠ MOKind.NONE → a.Kind ≠ MOKind.PARAMETER →
      (a.Kind = MOKind.FP_IMMEDIATE → DoubleIsNaN a.FloatVal = false) →
      (a.Kind = MOKind.LABEL ∨ a.Kind = MOKind.FUNCTION_NAME → a.LabelIsNull = false) →
      a.operatorEq a = some true) ∧
    (a.Kind = b.Kind → (a.Kind = MOKind.LABEL ∨ a.Kind = MOKind.FUNCTION_NAME) →
      (a.LabelIsNull = true ∨ b.LabelIsNull = true) → a.operatorEq b = none) ∧
    a.operatorNe b = (a.operatorEq b).map (fun r => !r) := by
  refine ⟨?_, ?_, ?_, ?_, ?_, ?_, ?_, rfl⟩
  · intro h
    simp [MachineOperand.operatorEq, h]
  · intro h
    unfold MachineOperand.operatorEq
    split
    · rfl
    · rw [h]
  · intro ha hb
    simp [MachineOperand.operatorEq, ha, hb]
  · intro hab h1 h2 h3
    unfold MachineOperand.operatorEq SamePayload
    simp only [hab, bne_self_eq_false, Bool.false_eq_true, if_false]
    rw [← hab]
    cases hk : a.Kind <;> simp_all <;> tauto
  · intro hab hk hn hp
    unfold SamePayload at hp
    rw [hk] at hp
    simp only at hp
    unfold MachineOperand.operatorEq
    simp only [hab, bne_self_eq_false, Bool.false_eq_true, if_false]
    rw [← hab, hk]
    simp [DoubleEq, ← hp, hn]
  · intro h1 h2 h3 h4
    unfold MachineOperand.operatorEq
    simp only [bne_self_eq_false, Bool.false_eq_true, if_false]
    cases hk : a.Kind <;> simp_all [DoubleEq]
  · intro hab hk hn
    unfold MachineOperand.operatorEq
    simp only [hab, bne_self_eq_false, Bool.false_eq_true, if_false]
    rw [← hab]
    rcases hk with hk | hk <;> rcases hn with hn | hn <;> simp [hk, hn]

/-- C23 on the registers `v3` and `v3`, on a register and an immediate, and on
the immediate 1.0. -/
theorem C23_operand_equality_witness :
    (MachineOperand.CreateVirtualRegister 3 64).operatorEq
      (MachineOperand.CreateVirtualRegister 3 64) = some true ∧
    (MachineOperand.CreateVirtualRegister 3 64).operatorEq
      (MachineOperand.CreateImmediate 3 64) = some false ∧
    (MachineOperand.CreateFPImmediate 0x3FF0000000000000 64).operatorEq
      (MachineOperand.CreateFPImmediate 0x3FF0000000000000 64) = some true ∧
    (MachineOperand.CreateLabel "then").operatorEq (MachineOperand.CreateLabel "then") =
      some true :=
  ⟨(C23_operand_equality (MachineOperand.CreateVirtualRegister 3 64)
      (MachineOperand.CreateVirtualRegister 3 64)).2.2.2.2.2.1 (by decide) (by decide)
      (fun h => absurd h (by decide)) (fun _ => rfl),
   (C23_operand_equality (MachineOperand.CreateVirtualRegister 3 64)
      (MachineOperand.CreateImmediate 3 64)).1 (by decide),
   (C23_operand_equality (MachineOperand.CreateFPImmediate 0x3FF0000000000000 64)
      (MachineOperand.CreateFPImmediate 0x3FF0000000000000 64)).2.2.2.2.1 rfl rfl (by decide)
      rfl,
   ((C23_operand_equality (MachineOperand.CreateLabel "then")
      (MachineOperand.CreateLabel "then")).2.2.2.1 rfl (by decide) (by decide)
      (by decide)).mpr ⟨rfl, rfl, rfl⟩⟩

/-! ## Implicit casts -/

/-- C24 (code defect): on a target whose `long` is 32 bits wide, `long` and
`long long` are signed integer types of 32 and 64 bits, and the implicit cast
of a value in a register from `long` to `long long` returns the value
unchanged, where a SEXT to 64 bits is due; the cast from `long` to
`unsigned long long` returns it unchanged where a ZEXT to 64 bits is due, and
the cast from `long long` to `long` returns it unchanged where a TRUNC to 32
bits is due. -/
theorem C24_long_to_long_long_is_unchanged :
    GetIRTypeFromASTType (sampleType VariantKind.Long) sampleTM32 =
      some { Kind := IRTypeKind.SINT, BitSize := 32 } ∧
    GetIRTypeFromASTType (sampleType VariantKind.LongLong) sampleTM32 =
      some { Kind := IRTypeKind.SINT, BitSize := 64 } ∧
    GetIRTypeFromASTType (sampleType VariantKind.UnsignedLongLong) sampleTM32 =
      some { Kind := IRTypeKind.UINT, BitSize := 64 } ∧
    ImplicitCastExpression.IRCodegen sampleTM32 (sampleType VariantKind.Long)
      (sampleType VariantKind.LongLong) (sampleIntReg 1 32) = some CastCode.Unchanged ∧
    ImplicitCastExpression.IRCodegen sampleTM32 (sampleType VariantKind.Long)
      (sampleType VariantKind.LongLong) (sampleIntReg 1 32) ≠
        some (CastCode.Unary UnaryKind.SEXT 64) ∧
    ImplicitCastExpression.IRCodegen sampleTM32 (sampleType VariantKind.Long)
      (sampleType VariantKind.UnsignedLongLong) (sampleIntReg 1 32) =
        some CastCode.Unchanged ∧
    ImplicitCastExpression.IRCodegen sampleTM32 (sampleType VariantKind.LongLong)
      (sampleType VariantKind.Long) (sampleIntReg 1 64) = some CastCode.Unchanged := by
  decide

theorem GetIRTypeFromASTType_integer (TM : TargetMachine) (T : ASTType) (IT : IRBaseType)
    (hI : T.IsIntegerType = true) (h : GetIRTypeFromASTType T TM = some IT) :
    IT.IsINT = true ∧ IT.IsFP = false ∧ IT.IsSInt = !T.IsUnsigned ∧
      T.IsFloatingPoint = false := by
  unfold GetIRTypeFromASTType at h
  unfold ASTType.IsIntegerType at hI
  unfold ASTType.IsUnsigned ASTType.IsFloatingPoint
  cases hk : T.Ty <;> rw [hk] at hI h <;> simp [GetIRTypeFromVK] at hI h <;>
    (subst h; exact ⟨rfl, rfl, rfl, rfl⟩)

/-- The implicit casts between integer types outside the pairs of
`OnlySigndnessDifference`.  For every implicit cast of a non-constant value
between integer types (not pointers, not arrays) of different bit widths that
`OnlySigndnessDifference` does not pair (it pairs `long` and `long long` of
either signedness whatever their widths), IR generation emits SEXT to the
destination width when the destination is wider and both types are signed,
ZEXT when the destination is wider and either type is unsigned, and TRUNC when
the destination is narrower.  With a 32-bit `int`, a signed char in a register
widened to `int` yields a SEXT to 32 bits, which is lowered to
`SEXT dest, source` with an 8-bit source and which AArch64 selection turns into
`SXTB`. -/
theorem ImplicitCast_between_unpaired_integer_types (TM : TargetMachine) (SourceType DestType : ASTType) (Val : Value)
    (SourceIRType DestIRType : IRBaseType) (S : IRtoLLIR) (bb ID : Nat) :
    (SourceType.IsIntegerType = true → DestType.IsIntegerType = true →
      SourceType.IsArray = false → SourceType.IsPointerType = false →
      DestType.IsPointerType = false → Val.IsConstant = false →
      GetIRTypeFromASTType SourceType TM = some SourceIRType →
      GetIRTypeFromASTType DestType TM = some DestIRType →
      SourceIRType.BitSize ≠ DestIRType.BitSize →
      ASTType.OnlySigndnessDifference SourceType.Ty DestType.Ty = false →
      ImplicitCastExpression.IRCodegen TM SourceType DestType Val =
        some (if SourceIRType.BitSize < DestIRType.BitSize then
            (if !SourceType.IsUnsigned && !DestType.IsUnsigned then
              CastCode.Unary UnaryKind.SEXT DestIRType.BitSize
            else CastCode.Unary UnaryKind.ZEXT DestIRType.BitSize)
          else CastCode.Unary UnaryKind.TRUNC DestIRType.BitSize)) ∧
    (TM.IntSize = 32 → Val.IsRegister = true → Val.Ty.IsPTR = false → Val.BitWidth = 8 →
      ImplicitCastExpression.IRCodegen TM { Ty := VariantKind.Char } { Ty := VariantKind.Int }
        Val = some (CastCode.Unary UnaryKind.SEXT 32) ∧
      ∃ MI S',
        ConvertUnary TM S (CreateUnary UnaryKind.SEXT ID Val 32) bb = some (MI, S') ∧
        MI.Opcode = OperationCode.SEXT ∧
        MI.Operands.map (fun MO => (MO.IsVirtualReg, MO.GetSize)) = [(true, 32), (true, 8)] ∧
        (SelectSEXT MI).map (fun M => M.Opcode) =
          some (OperationCode.target AArch64.Opcodes.SXTB)) := by
  refine ⟨?_, ?_⟩
  · intro hS hD hSA hSP hDP hV hSI hDI hW hO
    obtain ⟨s1, s2, s3, s4⟩ := GetIRTypeFromASTType_integer TM SourceType SourceIRType hS hSI
    obtain ⟨d1, d2, d3, d4⟩ := GetIRTypeFromASTType_integer TM DestType DestIRType hD hDI
    have hne : (SourceType == DestType) = false := by
      rw [beq_eq_false_iff_ne]
      intro heq
      rw [heq, hDI] at hSI
      simp only [Option.some.injEq] at hSI
      exact hW (by rw [hSI])
    unfold ImplicitCastExpression.IRCodegen
    simp only [hSI, hDI, hne, hSA, hSP, hDP, hV, hO, s1, d1, s3, d3, Bool.false_and,
      Bool.false_eq_true, if_false, Bool.and_false, Bool.and_self, if_true, beq_iff_eq,
      gt_iff_lt]
    rw [if_neg (fun h => hW h.symm)]
    split
    · split <;> rfl
    · rfl
  · intro hI hR hP hW
    have hK : Val.Kind = ValueKind.REGISTER := by simpa [Value.IsRegister] using hR
    have hC : Val.IsConstant = false := by simp [Value.IsConstant, hK]
    refine ⟨?_, ?_⟩
    · simp [ImplicitCastExpression.IRCodegen, GetIRTypeFromASTType, GetIRTypeFromVK, hI, hC,
        ASTType.IsArray, ASTType.IsPointerType, ASTType.IsIntegerType,
        ASTType.OnlySigndnessDifference, IRBaseType.IsINT, IRBaseType.IsSInt]
    · refine ⟨((MachineInstruction.create OperationCode.SEXT).AddOperand
          ((MachineOperand.CreateVirtualRegister
            (GetVRegForValue S (CreateUnary UnaryKind.SEXT ID Val 32).Self bb true 32).1 32).SetType
              (LowLevelType.CreateScalar 32))).AddOperand
          ((MachineOperand.CreateVirtualRegister
            (GetVRegForValue (GetVRegForValue S (CreateUnary UnaryKind.SEXT ID Val 32).Self bb
              true 32).2 Val bb false 8).1 32).SetType (LowLevelType.CreateScalar 8)),
        (GetVRegForValue (GetVRegForValue S (CreateUnary UnaryKind.SEXT ID Val 32).Self bb
          true 32).2 Val bb false 8).2, ?_, rfl, rfl, ?_⟩
      · have hP2 : Val.Ty.PointerLevel = 0 := by simpa [IRType.IsPTR] using hP
        simp [ConvertUnary, CreateUnary, GetMachineOperandFromValue, Value.IsRegister, hK, hP2,
          hW, IRType.IsPTR, UnaryKind.toOpcode]
      · simp [SelectSEXT, MachineInstruction.GetOperandsNumber, MachineInstruction.GetOperand,
          MachineInstruction.ModifyOperand, MachineInstruction.AddOperand,
          MachineInstruction.create, MachineInstruction.UpdateAttributes,
          MachineOperand.IsImmediate, MachineOperand.SetType,
          MachineOperand.CreateVirtualRegister, LowLevelType.CreateScalar]
        rfl

/-- The cast of an 8-bit register from `short` to `unsigned long` (a ZEXT to 64
bits) and from `char` to `int` on the sample target. -/
theorem ImplicitCast_between_unpaired_integer_types_witness :
    ImplicitCastExpression.IRCodegen sampleTM (sampleType VariantKind.Short)
      (sampleType VariantKind.UnsignedLong) (sampleIntReg 1 8) =
        some (CastCode.Unary UnaryKind.ZEXT 64) ∧
    ImplicitCastExpression.IRCodegen sampleTM (sampleType VariantKind.Char)
      (sampleType VariantKind.Int) (sampleIntReg 1 8) =
        some (CastCode.Unary UnaryKind.SEXT 32) ∧
    ∃ MI S', ConvertUnary sampleTM sampleState
        (CreateUnary UnaryKind.SEXT 2 (sampleIntReg 1 8) 32) 0 = some (MI, S') ∧
      MI.Opcode = OperationCode.SEXT ∧
      MI.Operands.map (fun MO => (MO.IsVirtualReg, MO.GetSize)) = [(true, 32), (true, 8)] ∧
      (SelectSEXT MI).map (fun M => M.Opcode) =
        some (OperationCode.target AArch64.Opcodes.SXTB) :=
  ⟨(ImplicitCast_between_unpaired_integer_types sampleTM (sampleType VariantKind.Short)
      (sampleType VariantKind.UnsignedLong) (sampleIntReg 1 8)
      { Kind := IRTypeKind.SINT, BitSize := 16 } { Kind := IRTypeKind.UINT, BitSize := 64 }
      sampleState 0 2).1 (by decide) (by decide) (by decide) (by decide) (by decide) (by decide)
      (by decide) (by decide) (by decide) (by decide),
   ((ImplicitCast_between_unpaired_integer_types sampleTM (sampleType VariantKind.Char) (sampleType VariantKind.Int)
      (sampleIntReg 1 8) { Kind := IRTypeKind.SINT, BitSize := 8 }
      { Kind := IRTypeKind.SINT, BitSize := 32 } sampleState 0 2).2 (by decide) (by decide)
      (by decide) (by decide)).1,
   ((ImplicitCast_between_unpaired_integer_types sampleTM (sampleType VariantKind.Char) (sampleType VariantKind.Int)
      (sampleIntReg 1 8) { Kind := IRTypeKind.SINT, BitSize := 8 }
      { Kind := IRTypeKind.SINT, BitSize := 32 } sampleState 0 2).2 (by decide) (by decide)
      (by decide) (by decide)).2⟩

/-! ## The linked-list stack program -/

theorem StackHeap_setBlock (s : StackState) (p a : Nat) (v : Option Node) :
    (s.setBlock p v).heap a = if a = p then v else s.heap a := by
  unfold StackState.heap StackState.setBlock
  simp only [List.find?_cons]
  by_cases h : a = p
  · simp [h]
  · have : (p == a) = false := by simpa using fun h2 => h h2.symm
    simp [this, h]

theorem StackHeap_store (s : StackState) (p : Nat) (f : Node → Node) (n : Node) (hp : p ≠ 0)
    (h : s.heap p = some n) : s.store p f = some (s.setBlock p (some (f n))) := by
  simp [StackState.store, StackState.load, hp, h]

theorem Chain_agree (s s' : StackState) (l : List Int) :
    ∀ a, (∀ b, b ≤ a → s'.heap b = s.heap b) → Chain s a l → Chain s' a l := by
  induction l with
  | nil => intro a _ h; exact h
  | cons x t ih =>
    intro a hag h
    obtain ⟨ha, n, hn, hd, hlt, hc, hnext⟩ := h
    refine ⟨ha, n, by rw [hag a (Nat.le_refl a)]; exact hn, hd, hlt,
      ih _ (fun b hb => hag b (by omega)) hc, fun hne => ?_⟩
    obtain ⟨m, hm, hmn⟩ := hnext hne
    exact ⟨m, by rw [hag _ (by omega)]; exact hm, hmn⟩

theorem Chain_zero (s : StackState) (l : List Int) (h : Chain s 0 l) : l = [] := by
  cases l with
  | nil => rfl
  | cons x t => exact absurd rfl h.1

theorem Chain_nonzero (s : StackState) (a : Nat) (l : List Int) (ha : a ≠ 0) (h : Chain s a l) :
    ∃ x t, l = x :: t := by
  cases l with
  | nil => exact absurd h ha
  | cons x t => exact ⟨x, t, rfl⟩

theorem heap_blocks (s s' : StackState) (h : s'.blocks = s.blocks) (a : Nat) :
    s'.heap a = s.heap a := by
  unfold StackState.heap
  rw [h]

theorem push_null (s : StackState) (x : Int) (h0 : s.head = 0) (hb : 0 < s.brk)
    (hc : s.count + 1 < 2 ^ 31) :
    StackC.push s x = some ⟨(s.brk, some ⟨x, 0, 0⟩) :: (s.brk, some ⟨0, 0, 0⟩) ::
        (s.brk, some ⟨0, 0, 0⟩) :: (s.brk, some ⟨0, 0, 0⟩) :: s.blocks,
      s.brk + 1, s.brk, s.tmp, s.count + 1⟩ := by
  have hb0 : s.brk ≠ 0 := by omega
  have hc2 : s.count + 1 < 2147483648 := by norm_num at hc; exact hc
  simp [StackC.push, h0, StackState.malloc, StackState.store, StackState.load,
      StackState.heap, StackState.setBlock, hb0, hc2]

theorem push_nonnull (s : StackState) (x : Int) (n : Node) (h0 : s.head ≠ 0)
    (hn : s.heap s.head = some n) (hlt : s.head < s.brk) (hc : s.count + 1 < 2 ^ 31) :
    StackC.push s x = some ⟨(s.head, some ⟨n.data, s.brk, n.pre⟩) ::
        (s.brk, some ⟨x, 0, s.head⟩) :: (s.brk, some ⟨x, 0, 0⟩) ::
        (s.brk, some ⟨x, 0, 0⟩) :: (s.brk, some ⟨0, 0, 0⟩) :: s.blocks,
      s.brk + 1, s.brk, s.brk, s.count + 1⟩ := by
  have hb0 : s.brk ≠ 0 := by omega
  have hne : (s.brk == s.head) = false := by simpa using (by omega : s.brk ≠ s.head)
  have hn2 := hn
  unfold StackState.heap at hn2
  have hc2 : s.count + 1 < 2147483648 := by norm_num at hc; exact hc
  simp [StackC.push, h0, StackState.malloc, StackState.store, StackState.load,
      StackState.heap, StackState.setBlock, hb0, hc2, hne]
  rw [hn2]
  simp [hc2]

theorem pop_last (s : StackState) (n : Node) (h0 : s.head ≠ 0)
    (hn : s.heap s.head = some n) (hp : n.pre = 0) (hc : -(2 : Int) ^ 31 ≤ s.count - 1) :
    StackC.pop s = some (n.data, ⟨(s.head, none) :: s.blocks, s.brk, 0, s.tmp, s.count - 1⟩) := by
  have hc2 : (1 : Int) ≤ s.count + 2147483648 := by norm_num at hc; exact hc
  simp [StackC.pop, h0, StackState.load, hn, hp, StackState.free, StackState.setBlock, hc2]

theorem pop_more (s : StackState) (n m : Node) (h0 : s.head ≠ 0)
    (hn : s.heap s.head = some n) (hp : n.pre ≠ 0) (hm : s.heap n.pre = some m)
    (hnext : m.next = s.head) (hc : -(2 : Int) ^ 31 ≤ s.count - 1) :
    StackC.pop s =
      some (n.data, ⟨(s.head, none) :: s.blocks, s.brk, n.pre, s.tmp, s.count - 1⟩) := by
  have hc2 : (1 : Int) ≤ s.count + 2147483648 := by norm_num at hc; exact hc
  have hm2 : StackState.heap ⟨s.blocks, s.brk, n.pre, s.tmp, s.count⟩ n.pre = some m := hm
  have hn3 : StackState.heap ⟨s.blocks, s.brk, n.pre, s.tmp, s.count⟩ s.head = some n := hn
  simp [StackC.pop, h0, StackState.load, hn, hp, StackState.free, StackState.setBlock, hc2, hm2,
    hnext, hn3]

theorem peek_top (s : StackState) (n : Node) (h0 : s.head ≠ 0) (hn : s.heap s.head = some n) :
    StackC.peek s = some n.data := by
  simp [StackC.peek, h0, StackState.load, hn]

theorem heap_mk_cons (p a : Nat) (v : Option Node) (bs : List (Nat × Option Node))
    (b h t : Nat) (c : Int) :
    StackState.heap ⟨(p, v) :: bs, b, h, t, c⟩ a =
      if a = p then v else StackState.heap ⟨bs, b, h, t, c⟩ a :=
  StackHeap_setBlock ⟨bs, b, h, t, c⟩ p a v

theorem heap_mk (s : StackState) (b h t : Nat) (c : Int) (a : Nat) :
    StackState.heap ⟨s.blocks, b, h, t, c⟩ a = s.heap a := rfl

theorem exec_refines (s : StackState) (L L' : LifoStack) (c : StackCall) (r : Option Int)
    (hR : Represents s L) (hC : L.call c = some (r, L'))
    (hB : ∀ x, c = StackCall.push x → s.count + 1 < 2 ^ 31) :
    ∃ s', c.exec s = some (r, s') ∧ Represents s' L' := by
  obtain ⟨hCh, hlt, hbrk, hfree, hcnt, hlen⟩ := hR
  have hlen0 : (0 : Int) ≤ (L.items.length : Int) := Int.natCast_nonneg _
  cases c with
  | create =>
    simp only [LifoStack.call, Option.some.injEq, Prod.mk.injEq] at hC
    obtain ⟨hr, hL⟩ := hC
    subst hr; subst hL
    refine ⟨StackC.create s, rfl, ?_, hbrk, hbrk, hfree, hcnt, ?_⟩
    · exact rfl
    · show ((0 : Nat) : Int) ≤ s.count
      omega
  | push x =>
    simp only [LifoStack.call, Option.some.injEq, Prod.mk.injEq] at hC
    obtain ⟨hr, hL⟩ := hC
    subst hr; subst hL
    have hc := hB x rfl
    by_cases h0 : s.head = 0
    · rw [h0] at hCh
      have hnil := Chain_zero s _ hCh
      refine ⟨⟨(s.brk, some ⟨x, 0, 0⟩) :: (s.brk, some ⟨0, 0, 0⟩) ::
        (s.brk, some ⟨0, 0, 0⟩) :: (s.brk, some ⟨0, 0, 0⟩) :: s.blocks,
        s.brk + 1, s.brk, s.tmp, s.count + 1⟩,
        by simp only [StackCall.exec, push_null s x h0 hbrk hc, Option.map], ?_⟩
      refine ⟨?_, ?_, ?_, ?_, ?_, ?_⟩
      · rw [hnil]
        refine ⟨Nat.pos_iff_ne_zero.mp hbrk, ⟨x, 0, 0⟩, ?_, rfl, hbrk, rfl,
          fun h => absurd rfl h⟩
        show StackState.heap _ s.brk = _
        rw [heap_mk_cons, if_pos rfl]
      · show s.brk < s.brk + 1
        omega
      · show 0 < s.brk + 1
        omega
      · intro a ha
        have ha' : s.brk + 1 ≤ a := ha
        show StackState.heap _ a = none
        rw [heap_mk_cons, if_neg (by omega), heap_mk_cons, if_neg (by omega), heap_mk_cons,
          if_neg (by omega), heap_mk_cons, if_neg (by omega), heap_mk]
        exact hfree a (by omega)
      · show s.count + 1 = ((L.pushes + 1 : Nat) : Int) - L.pops
        rw [hcnt]
        push_cast
        ring
      · show ((L.items.length + 1 : Nat) : Int) ≤ s.count + 1
        push_cast
        omega
    · obtain ⟨y, t, hyt⟩ := Chain_nonzero s _ _ h0 hCh
      rw [hyt] at hCh
      obtain ⟨_, n, hn, hd, hpre, hct, hnext⟩ := hCh
      have hheap : ∀ a, StackState.heap ⟨(s.head, some ⟨n.data, s.brk, n.pre⟩) ::
          (s.brk, some ⟨x, 0, s.head⟩) :: (s.brk, some ⟨x, 0, 0⟩) ::
          (s.brk, some ⟨x, 0, 0⟩) :: (s.brk, some ⟨0, 0, 0⟩) :: s.blocks,
          s.brk + 1, s.brk, s.brk, s.count + 1⟩ a =
          if a = s.head then some ⟨n.data, s.brk, n.pre⟩
          else if a = s.brk then some ⟨x, 0, s.head⟩ else s.heap a := by
        intro a
        rw [heap_mk_cons, heap_mk_cons, heap_mk_cons, heap_mk_cons, heap_mk_cons, heap_mk]
        by_cases h1 : a = s.head
        · simp [h1]
        · by_cases h2 : a = s.brk
          · simp [h1, h2]
          · simp [h1, h2]
      refine ⟨⟨(s.head, some ⟨n.data, s.brk, n.pre⟩) ::
          (s.brk, some ⟨x, 0, s.head⟩) :: (s.brk, some ⟨x, 0, 0⟩) ::
          (s.brk, some ⟨x, 0, 0⟩) :: (s.brk, some ⟨0, 0, 0⟩) :: s.blocks,
          s.brk + 1, s.brk, s.brk, s.count + 1⟩,
        by simp only [StackCall.exec, push_nonnull s x n h0 hn hlt hc, Option.map], ?_⟩
      refine ⟨?_, ?_, ?_, ?_, ?_, ?_⟩
      · rw [hyt]
        refine ⟨Nat.pos_iff_ne_zero.mp hbrk, ⟨x, 0, s.head⟩, ?_, rfl, hlt, ?_,
          fun _ => ⟨⟨n.data, s.brk, n.pre⟩, ?_, rfl⟩⟩
        · show StackState.heap _ s.brk = _
          rw [hheap, if_neg (by omega), if_pos rfl]
        · refine ⟨h0, ⟨n.data, s.brk, n.pre⟩, ?_, hd, hpre, ?_, fun hne => ?_⟩
          · show StackState.heap _ s.head = _
            rw [hheap, if_pos rfl]
          · refine Chain_agree s _ t _ (fun b hb => ?_) hct
            have hb' : b ≤ n.pre := hb
            rw [hheap, if_neg (by omega), if_neg (by omega)]
          · obtain ⟨m, hm, hmn⟩ := hnext hne
            refine ⟨m, ?_, hmn⟩
            show StackState.heap _ n.pre = _
            rw [hheap, if_neg (by omega), if_neg (by omega)]
            exact hm
        · show StackState.heap _ s.head = _
          rw [hheap, if_pos rfl]
      · show s.brk < s.brk + 1
        omega
      · show 0 < s.brk + 1
        omega
      · intro a ha
        have ha' : s.brk + 1 ≤ a := ha
        show StackState.heap _ a = none
        rw [hheap, if_neg (by omega), if_neg (by omega)]
        exact hfree a (by omega)
      · show s.count + 1 = ((L.pushes + 1 : Nat) : Int) - L.pops
        rw [hcnt]
        push_cast
        ring
      · show ((L.items.length + 1 : Nat) : Int) ≤ s.count + 1
        push_cast
        omega
  | pop =>
    cases hit : L.items with
    | nil => simp [LifoStack.call, hit] at hC
    | cons y t =>
      simp only [LifoStack.call, hit, Option.some.injEq, Prod.mk.injEq] at hC
      obtain ⟨hr, hL⟩ := hC
      subst hr; subst hL
      rw [hit] at hCh hlen
      obtain ⟨h0, n, hn, hd, hpre, hct, hnext⟩ := hCh
      have hlen1 : ((y :: t).length : Int) = (t.length : Int) + 1 := by
        simp
      have hc : -(2 : Int) ^ 31 ≤ s.count - 1 := by
        have : (0 : Int) ≤ (t.length : Int) := Int.natCast_nonneg _
        norm_num
        omega
      have hheap : ∀ a, StackState.heap ⟨(s.head, none) :: s.blocks, s.brk, n.pre, s.tmp,
          s.count - 1⟩ a = if a = s.head then none else s.heap a := by
        intro a
        rw [heap_mk_cons, heap_mk]
      have hheap0 : ∀ a, StackState.heap ⟨(s.head, none) :: s.blocks, s.brk, 0, s.tmp,
          s.count - 1⟩ a = if a = s.head then none else s.heap a := by
        intro a
        rw [heap_mk_cons, heap_mk]
      by_cases hp : n.pre = 0
      · rw [hp] at hct
        have hnil := Chain_zero s _ hct
        refine ⟨⟨(s.head, none) :: s.blocks, s.brk, 0, s.tmp, s.count - 1⟩,
          by simp only [StackCall.exec, pop_last s n h0 hn hp hc, Option.map, hd], ?_⟩
        refine ⟨?_, hbrk, hbrk, ?_, ?_, ?_⟩
        · rw [hnil]
          exact rfl
        · intro a ha
          have ha' : s.brk ≤ a := ha
          show StackState.heap _ a = none
          rw [hheap0]
          split
          · rfl
          · exact hfree a ha'
        · show s.count - 1 = (L.pushes : Int) - ((L.pops + 1 : Nat) : Int)
          rw [hcnt]
          push_cast
          ring
        · show ((t.length : Nat) : Int) ≤ s.count - 1
          omega
      · obtain ⟨m, hm, hmn⟩ := hnext hp
        refine ⟨⟨(s.head, none) :: s.blocks, s.brk, n.pre, s.tmp, s.count - 1⟩,
          by simp only [StackCall.exec, pop_more s n m h0 hn hp hm hmn hc, Option.map, hd], ?_⟩
        refine ⟨?_, ?_, hbrk, ?_, ?_, ?_⟩
        · refine Chain_agree s _ t _ (fun b hb => ?_) hct
          have hb' : b ≤ n.pre := hb
          rw [hheap, if_neg (by omega)]
        · show n.pre < s.brk
          omega
        · intro a ha
          have ha' : s.brk ≤ a := ha
          show StackState.heap _ a = none
          rw [hheap]
          split
          · rfl
          · exact hfree a ha'
        · show s.count - 1 = (L.pushes : Int) - ((L.pops + 1 : Nat) : Int)
          rw [hcnt]
          push_cast
          ring
        · show ((t.length : Nat) : Int) ≤ s.count - 1
          omega
  | peek =>
    cases hit : L.items with
    | nil => simp [LifoStack.call, hit] at hC
    | cons y t =>
      simp only [LifoStack.call, hit, Option.some.injEq, Prod.mk.injEq] at hC
      obtain ⟨hr, hL⟩ := hC
      subst hr; subst hL
      have hCh2 := hCh
      rw [hit] at hCh2
      obtain ⟨h0, n, hn, hd, _, _, _⟩ := hCh2
      exact ⟨s, by simp only [StackCall.exec, peek_top s n h0 hn, Option.map, hd],
        hCh, hlt, hbrk, hfree, hcnt, hlen⟩
  | size =>
    simp only [LifoStack.call, Option.some.injEq, Prod.mk.injEq] at hC
    obtain ⟨hr, hL⟩ := hC
    subst hr; subst hL
    exact ⟨s, by simp only [StackCall.exec, StackC.size, hcnt],
      hCh, hlt, hbrk, hfree, hcnt, hlen⟩
  | isEmpty =>
    simp only [LifoStack.call, Option.some.injEq, Prod.mk.injEq] at hC
    obtain ⟨hr, hL⟩ := hC
    subst hr; subst hL
    exact ⟨s, by simp only [StackCall.exec, StackC.isEmpty, hcnt],
      hCh, hlt, hbrk, hfree, hcnt, hlen⟩

theorem call_delta (L L' : LifoStack) (c : StackCall) (r : Option Int)
    (hC : L.call c = some (r, L')) :
    (L'.pushes : Int) - L'.pops = (L.pushes : Int) - L.pops + c.delta := by
  cases c with
  | create =>
    simp only [LifoStack.call, Option.some.injEq, Prod.mk.injEq] at hC
    rw [← hC.2]
    simp [StackCall.delta]
  | push x =>
    simp only [LifoStack.call, Option.some.injEq, Prod.mk.injEq] at hC
    rw [← hC.2]
    simp only [StackCall.delta]
    push_cast
    ring
  | pop =>
    cases hit : L.items with
    | nil => simp [LifoStack.call, hit] at hC
    | cons y t =>
      simp only [LifoStack.call, hit, Option.some.injEq, Prod.mk.injEq] at hC
      rw [← hC.2]
      simp only [StackCall.delta]
      push_cast
      ring
  | peek =>
    cases hit : L.items with
    | nil => simp [LifoStack.call, hit] at hC
    | cons y t =>
      simp only [LifoStack.call, hit, Option.some.injEq, Prod.mk.injEq] at hC
      rw [← hC.2]
      simp [StackCall.delta]
  | size =>
    simp only [LifoStack.call, Option.some.injEq, Prod.mk.injEq] at hC
    rw [← hC.2]
    simp [StackCall.delta]
  | isEmpty =>
    simp only [LifoStack.call, Option.some.injEq, Prod.mk.injEq] at hC
    rw [← hC.2]
    simp [StackCall.delta]

theorem run_refines (calls : List StackCall) :
    ∀ (s : StackState) (L L' : LifoStack) (obs : List (Option Int)),
      Represents s L → L.run calls = some (obs, L') →
      SizeStaysBelow (2 ^ 31) s.count calls = true →
      ∃ s', StackCall.run s calls = some (obs, s') ∧ Represents s' L' := by
  induction calls with
  | nil =>
    intro s L L' obs hR hL _
    simp only [LifoStack.run, Option.some.injEq, Prod.mk.injEq] at hL
    rw [← hL.1, ← hL.2]
    exact ⟨s, rfl, hR⟩
  | cons c rest ih =>
    intro s L L' obs hR hL hB
    simp only [SizeStaysBelow, Bool.and_eq_true, decide_eq_true_eq] at hB
    cases hC : L.call c with
    | none => simp [LifoStack.run, hC] at hL
    | some p =>
      obtain ⟨r, L1⟩ := p
      cases hrest : LifoStack.run L1 rest with
      | none => simp [LifoStack.run, hC, hrest] at hL
      | some q =>
        obtain ⟨rs, L2⟩ := q
        simp only [LifoStack.run, hC, hrest, Option.some.injEq, Prod.mk.injEq] at hL
        obtain ⟨s1, hE, hR1⟩ := exec_refines s L L1 c r hR hC (fun x hx => by
          have := hB.1
          rw [hx] at this
          exact this)
        have hcount : s1.count = s.count + c.delta := by
          rw [hR1.2.2.2.2.1, hR.2.2.2.2.1]
          exact call_delta L L1 c r hC
        obtain ⟨s2, hrun, hR2⟩ := ih s1 L1 L2 rs hR1 hrest (by rw [hcount]; exact hB.2)
        refine ⟨s2, ?_, by rw [← hL.2]; exact hR2⟩
        simp only [StackCall.run, hE, hrun]
        rw [← hL.1]

theorem Represents_init : Represents {} {} :=
  ⟨rfl, by decide, by decide, fun _ _ => rfl, by decide, by decide⟩

theorem push_overflow (s : StackState) (L : LifoStack) (x : Int) (hR : Represents s L)
    (hc : ¬ s.count + 1 < 2 ^ 31) : StackC.push s x = none := by
  obtain ⟨hCh, hlt, hbrk, _, _, _⟩ := hR
  have hb0 : s.brk ≠ 0 := by omega
  have hc2 : ¬ s.count + 1 < 2147483648 := by norm_num at hc ⊢; exact hc
  by_cases h0 : s.head = 0
  · simp [StackC.push, h0, StackState.malloc, StackState.store, StackState.load,
      StackState.heap, StackState.setBlock, hb0, hc2]
  · obtain ⟨y, t, hyt⟩ := Chain_nonzero s _ _ h0 hCh
    rw [hyt] at hCh
    obtain ⟨_, n, hn, _, _, _, _⟩ := hCh
    have hne : (s.brk == s.head) = false := by simpa using (by omega : s.brk ≠ s.head)
    unfold StackState.heap at hn
    simp [StackC.push, h0, StackState.malloc, StackState.store, StackState.load,
      StackState.heap, StackState.setBlock, hb0, hne]
    rw [hn]
    simp
    omega

theorem run_append (A B : List StackCall) :
    ∀ (s : StackState), StackCall.run s (A ++ B) =
      match StackCall.run s A with
      | none => none
      | some (o, s1) =>
        match StackCall.run s1 B with
        | none => none
        | some (o2, s2) => some (o ++ o2, s2) := by
  induction A with
  | nil =>
    intro s
    simp only [List.nil_append, StackCall.run]
    cases StackCall.run s B with
    | none => rfl
    | some p => rfl
  | cons c rest ih =>
    intro s
    rw [List.cons_append, StackCall.run, StackCall.run]
    cases hE : c.exec s with
    | none => rfl
    | some p =>
      obtain ⟨r, s1⟩ := p
      simp only
      rw [ih s1]
      cases StackCall.run s1 rest with
      | none => rfl
      | some q =>
        obtain ⟨o, s2⟩ := q
        simp only
        cases StackCall.run s2 B with
        | none => rfl
        | some q2 => rfl

theorem Lifo_run_pushes (n : Nat) :
    ∀ (L : LifoStack), L.run (List.replicate n (StackCall.push 0)) =
      some (List.replicate n none,
        ⟨List.replicate n 0 ++ L.items, L.pushes + n, L.pops⟩) := by
  induction n with
  | zero => intro L; rfl
  | succ k ih =>
    intro L
    simp only [List.replicate_succ, LifoStack.run, LifoStack.call, ih]
    simp only [Option.some.injEq, Prod.mk.injEq, true_and, LifoStack.mk.injEq, and_true]
    refine ⟨?_, by omega⟩
    rw [← List.replicate_succ, List.replicate_succ', List.append_assoc]
    rfl

theorem SizeStaysBelow_pushes (N : Int) (n : Nat) :
    ∀ (c : Int), c + n < N → SizeStaysBelow N c (List.replicate n (StackCall.push 0)) = true := by
  induction n with
  | zero => intro c _; rfl
  | succ k ih =>
    intro c h
    simp only [List.replicate_succ, SizeStaysBelow, StackCall.delta, Bool.and_eq_true,
      decide_eq_true_eq]
    push_cast at h
    exact ⟨by omega, ih (c + 1) (by omega)⟩

/-- C25, as the claim has it, fails: after `2 ^ 31 - 1` calls of `push`, which
the stack of the specification accepts as it accepts the next one, the counter
`count` holds `INT_MAX` and one more `push` increments it past the range of
`int`. -/
theorem C25_count_overflows :
    (LifoStack.run {} (List.replicate (2 ^ 31) (StackCall.push 0))).isSome = true ∧
    (∃ s, StackCall.run {} (List.replicate (2 ^ 31 - 1) (StackCall.push 0)) =
        some (List.replicate (2 ^ 31 - 1) none, s) ∧ StackC.size s = 2 ^ 31 - 1) ∧
    StackCall.run {} (List.replicate (2 ^ 31) (StackCall.push 0)) = none := by
  obtain ⟨s, hrun, hR⟩ := run_refines (List.replicate (2 ^ 31 - 1) (StackCall.push 0)) {} {} _ _
    Represents_init (Lifo_run_pushes (2 ^ 31 - 1) {})
    (SizeStaysBelow_pushes (2 ^ 31) (2 ^ 31 - 1) 0 (by norm_num))
  have hcount : s.count = 2 ^ 31 - 1 := by
    rw [hR.2.2.2.2.1]
    norm_num
  refine ⟨by rw [Lifo_run_pushes]; rfl, ⟨s, hrun, hcount⟩, ?_⟩
  have hsplit : List.replicate (2 ^ 31) (StackCall.push 0) =
      List.replicate (2 ^ 31 - 1) (StackCall.push 0) ++ [StackCall.push 0] := by
    have e : (2 : Nat) ^ 31 = (2 ^ 31 - 1) + 1 := by norm_num
    conv_lhs => rw [e]
    exact List.replicate_succ' _ _
  rw [hsplit, run_append, hrun]
  have hpush := push_overflow s _ 0 hR (by rw [hcount]; norm_num)
  simp [StackCall.run, StackCall.exec, hpush]

/-- C25, amended: for every sequence of calls of create, push, pop, peek, size
and isEmpty that never pops or peeks an empty stack and during which pushes
minus pops stays below `2 ^ 31`, the program, started with its globals zero,
returns call by call the values of the LIFO list of the specification: pop
returns the most recently pushed value not yet popped and removes it, peek
returns it without removing it, size is pushes minus pops and isEmpty is 1
exactly when size is 0; the chain of nodes from `head` holds the list. -/
theorem C25_stack_is_lifo (calls : List StackCall) (obs : List (Option Int)) (L : LifoStack)
    (hSpec : LifoStack.run {} calls = some (obs, L))
    (hRange : SizeStaysBelow (2 ^ 31) 0 calls = true) :
    ∃ s, StackCall.run {} calls = some (obs, s) ∧ Represents s L :=
  run_refines calls {} {} L obs Represents_init hSpec hRange

/-- C25 on the calls of `test()`: the pops return 4, then 3 and 2, the peek 6,
the last pops 7 and 8, the last size is 2, and `test()` returns 1. -/
theorem C25_stack_is_lifo_witness :
    (∃ s, StackCall.run {} testCalls =
      some ([none, none, some 4, some 0, some 1, none, none, none, some 3, some 2, some 1,
        some 0, some 1, none, none, some 6, none, some 7, none, some 8, some 2, some 0], s) ∧
      Represents s { items := [6, 5], pushes := 8, pops := 6 }) ∧
    StackC.test {} = some 1 :=
  ⟨C25_stack_is_lifo testCalls _ _ (by decide) (by decide), by decide⟩

/-! ## The order of machine operands -/

/-- C36 (code defect): virtual register 5 and the integer immediate 5 are not
equal for `operator==`, yet neither is below the other for `operator<`, which
compares the `IntVal` only: an ordered set keyed by `operator<` takes the two
operands for one. -/
theorem C36_register_and_immediate_are_unordered :
    (MachineOperand.CreateVirtualRegister 5 32).operatorEq (MachineOperand.CreateImmediate 5 32) =
      some false ∧
    (MachineOperand.CreateVirtualRegister 5 32).operatorLt (MachineOperand.CreateImmediate 5 32) =
      false ∧
    (MachineOperand.CreateImmediate 5 32).operatorLt (MachineOperand.CreateVirtualRegister 5 32) =
      false := by
  decide

/-! ## Selection of the zero-extending load -/

/-- C35 (code defect): the zero-extending load of a 16-bit value is selected
as `LDR`, the word form, not as `LDRH`: `SelectZEXT_LOAD` tests the source
width for 8 bits only.  The width operand is removed, the destination and the
address stay; the 8-bit load is selected as `LDRB`. -/
theorem C35_half_word_zext_load_selects_LDR :
    (SelectZEXT_LOAD (sampleZextLoad 16)).map (fun M => (M.Opcode, M.Operands)) =
      some (OperationCode.target AArch64.Opcodes.LDR,
        [MachineOperand.CreateVirtualRegister 1 32, MachineOperand.CreateMemory 3 0 64]) ∧
    (SelectZEXT_LOAD (sampleZextLoad 8)).map (fun M => (M.Opcode, M.Operands)) =
      some (OperationCode.target AArch64.Opcodes.LDRB,
        [MachineOperand.CreateVirtualRegister 1 32, MachineOperand.CreateMemory 3 0 64]) := by
  decide

/-! ## Types that differ in signedness only -/

/-- C32 (code defect): on a target whose `long` has 32 bits,
`OnlySigndnessDifference` holds of `long` and `long long`, in both orders, and
of `long` and `unsigned long long`, while `GetIRTypeFromVK` gives `long` 32
bits and the two others 64 bits, and the implicit cast of a non-constant
`long` to `long long` returns the 32-bit operand unchanged. -/
theorem C32_long_and_long_long_differ_in_width :
    ASTType.OnlySigndnessDifference VariantKind.Long VariantKind.LongLong = true ∧
    ASTType.OnlySigndnessDifference VariantKind.LongLong VariantKind.Long = true ∧
    ASTType.OnlySigndnessDifference VariantKind.Long VariantKind.UnsignedLongLong = true ∧
    (GetIRTypeFromVK VariantKind.Long sampleTM32).map (fun T => T.BitSize) = some 32 ∧
    (GetIRTypeFromVK VariantKind.LongLong sampleTM32).map (fun T => T.BitSize) = some 64 ∧
    (GetIRTypeFromVK VariantKind.UnsignedLongLong sampleTM32).map (fun T => T.BitSize) =
      some 64 ∧
    ImplicitCastExpression.IRCodegen sampleTM32 (sampleType VariantKind.Long)
      (sampleType VariantKind.LongLong) { ID := 7, BitWidth := 32 } = some CastCode.Unchanged := by
  decide

/-! ## Return of a constant wider than a register -/

/-- C34: on a 32-bit target, the return of an integer constant `c` of 64 bits
(the return instruction having that type) appends exactly two `LOAD_IMM`, into
return register 0 with the immediate `lo` and into return register 1 with the
immediate `hi`, where `lo` and `hi` are below `2 ^ 32` and `lo + 2 ^ 32 * hi` is
`c` modulo `2 ^ 64`; the `RET` that is returned has no operand. -/
theorem C34_wide_constant_return (TM : TargetMachine) (S : IRtoLLIR) (I : ReturnInstruction)
    (c : Value) (bb : Nat) (Reg0 Reg1 : TargetRegister)
    (hP : TM.PointerSize = 32) (hRet : I.RetVal = some c) (hC : c.IsConstant = true)
    (hStruct : c.Ty.IsStruct = false) (hFP : c.Ty.IsFP = false) (hW : c.Ty.BitSize = 64)
    (hI : I.Self.Ty.ByteSize = 8)
    (h0 : TM.ReturnRegisters.get? 0 = some Reg0) (h1 : TM.ReturnRegisters.get? 1 = some Reg1)
    (hb : bb < S.MF.BasicBlocks.length) :
    ∃ S1 lo hi, ConvertReturn TM S I bb = some (MachineInstruction.create OperationCode.RET, S1) ∧
      (MachineInstruction.create OperationCode.RET).Operands = [] ∧
      S1.Instrs bb = S.Instrs bb ++
        [((MachineInstruction.create OperationCode.LOAD_IMM).AddRegister Reg0.ID
            Reg0.BitWidth).AddImmediate lo 32,
         ((MachineInstruction.create OperationCode.LOAD_IMM).AddRegister Reg1.ID
            Reg1.BitWidth).AddImmediate hi 32] ∧
      lo < 2 ^ 32 ∧ hi < 2 ^ 32 ∧ lo + 2 ^ 32 * hi = c.IntValue % 2 ^ 64 := by
  obtain ⟨Imm, hImm⟩ := GetMachineOperandFromValue_const TM S c bb false hC
  have hCount : ReturnRegsCount TM I = 2 := by
    unfold ReturnRegsCount GetNextAlignedValue
    rw [hI, hP]
    norm_num
  refine ⟨(S.InsertInstr bb
      (((MachineInstruction.create OperationCode.LOAD_IMM).AddRegister Reg0.ID
        Reg0.BitWidth).AddImmediate (c.IntValue % 2 ^ 64 % 2 ^ 32) 32)).InsertInstr bb
      (((MachineInstruction.create OperationCode.LOAD_IMM).AddRegister Reg1.ID
        Reg1.BitWidth).AddImmediate (c.IntValue % 2 ^ 64 / 2 ^ 32 % 2 ^ 32) 32),
    c.IntValue % 2 ^ 64 % 2 ^ 32, c.IntValue % 2 ^ 64 / 2 ^ 32 % 2 ^ 32, ?_, rfl, ?_,
    Nat.mod_lt _ (by norm_num), Nat.mod_lt _ (by norm_num), ?_⟩
  · unfold ConvertReturn
    simp only [hRet, hStruct, Bool.false_and, Bool.false_eq_true, if_false, hC, if_true]
    unfold ConvertReturnConstant
    simp only [hW, hP, hFP, hCount, hImm, h0, h1]
    rfl
  · have hb1 : bb < (S.InsertInstr bb
        (((MachineInstruction.create OperationCode.LOAD_IMM).AddRegister Reg0.ID
          Reg0.BitWidth).AddImmediate (c.IntValue % 2 ^ 64 % 2 ^ 32) 32)).MF.BasicBlocks.length := by
      simpa [IRtoLLIR.InsertInstr, MachineFunction.InsertInstr] using hb
    rw [Instrs_InsertInstr _ _ _ hb1, Instrs_InsertInstr _ _ _ hb, List.append_assoc]
    rfl
  · omega

theorem C34_wide_constant_return_witness :
    ∃ S1 lo hi, ConvertReturn sampleRV32 sampleState sampleWideReturn 0 =
        some (MachineInstruction.create OperationCode.RET, S1) ∧
      (MachineInstruction.create OperationCode.RET).Operands = [] ∧
      S1.Instrs 0 = sampleState.Instrs 0 ++
        [((MachineInstruction.create OperationCode.LOAD_IMM).AddRegister 10 32).AddImmediate lo 32,
         ((MachineInstruction.create OperationCode.LOAD_IMM).AddRegister 11 32).AddImmediate hi 32] ∧
      lo < 2 ^ 32 ∧ hi < 2 ^ 32 ∧ lo + 2 ^ 32 * hi = 0x123456789ABCDEF0 % 2 ^ 64 :=
  C34_wide_constant_return sampleRV32 sampleState sampleWideReturn
    { Kind := ValueKind.CONST, ID := 0, BitWidth := 64, IntValue := 0x123456789ABCDEF0,
      Ty := { BitSize := 64, ByteSize := 8, BaseTypeByteSize := 8 } } 0
    { ID := 10, BitWidth := 32 } { ID := 11, BitWidth := 32 }
    rfl rfl rfl rfl rfl rfl rfl rfl rfl (by decide)

/-! ## The virtual register of an IR register -/

theorem GetVRegForValue_keeps (S : IRtoLLIR) (w : Value) (bb : Nat) (IsDef : Bool) (W k N : Nat)
    (h : S.IRVregToLLIRVreg k = some N) :
    (GetVRegForValue S w bb IsDef W).2.IRVregToLLIRVreg k = some N := by
  unfold GetVRegForValue
  split
  · exact h
  · split
    · split
      · exact h
      · exact h
    · split
      · exact h
      · rename_i hw _ _
        have hk : k ≠ w.ID := by
          intro e
          rw [e, hw] at h
          cases h
        simp [MapSet, hk, IRtoLLIR.NextAvailableVReg, h]

theorem GetMachineOperandFromValue_keeps (TM : TargetMachine) (S S' : IRtoLLIR) (w : Value)
    (bb : Nat) (IsDef : Bool) (MO : MachineOperand) (k N : Nat)
    (hk : S.IRVregToLLIRVreg k = some N)
    (h : GetMachineOperandFromValue TM S w bb IsDef = some (MO, S')) :
    S'.IRVregToLLIRVreg k = some N := by
  unfold GetMachineOperandFromValue at h
  split at h
  · split at h <;> split at h <;> simp only [Option.some.injEq, Prod.mk.injEq] at h <;>
      rw [← h.2] <;> exact GetVRegForValue_keeps S w bb IsDef _ k N hk
  · split at h
    · split at h <;> simp only [Option.some.injEq, Prod.mk.injEq] at h <;> rw [← h.2] <;> exact hk
    · split at h
      · simp only [Option.some.injEq, Prod.mk.injEq] at h
        rw [← h.2]
        exact hk
      · split at h
        · simp only [Option.some.injEq, Prod.mk.injEq] at h
          rw [← h.2]
          exact hk
        · cases h

/-- C31: for an IR register `v` that is neither a stack slot nor a spilled call
result and has no entry in the register table, `GetMachineOperandFromValue`
hands out the next available virtual register `N` of the function (the counter
is advanced, no instruction is appended, the frame is untouched) and records
`v.ID ↦ N`; `N` is not a stack slot when the slot ids are below the counter, as
`InsertStackSlot` keeps them.  The entry stays through every call of
`GetMachineOperandFromValue`, and every later call on `v`, in a state where the
register recorded for `v` is not a stack slot, returns the same operand and
leaves the state as it is.  The type of the operand is a pointer of the pointer
width of the target when `v` is pointer-typed and a scalar of the bit width of
`v` otherwise. -/
theorem C31_register_value_mapping (TM : TargetMachine) (S : IRtoLLIR) (v : Value) (bb : Nat)
    (IsDef : Bool) (hReg : v.IsRegister = true) (hNew : S.IRVregToLLIRVreg v.ID = none)
    (hSlot : S.MF.IsStackSlot v.ID = false)
    (hSpill : S.SpilledReturnValuesIDToStackID v.ID = none) :
    ∃ S1, GetMachineOperandFromValue TM S v bb IsDef =
        some ((MachineOperand.CreateVirtualRegister S.MF.NextVReg 32).SetType
          (if v.Ty.IsPTR then LowLevelType.CreatePTR TM.PointerSize
           else LowLevelType.CreateScalar v.BitWidth), S1) ∧
      S1.IRVregToLLIRVreg v.ID = some S.MF.NextVReg ∧
      S1.MF.NextVReg = (S.MF.NextVReg + 1) % 2 ^ 32 ∧
      S1.MF.BasicBlocks = S.MF.BasicBlocks ∧ S1.MF.SF = S.MF.SF ∧
      ((∀ id, S.MF.IsStackSlot id = true → id < S.MF.NextVReg) →
        S1.MF.IsStackSlot S.MF.NextVReg = false) ∧
      (∀ (S2 S3 : IRtoLLIR) (w : Value) (bb2 : Nat) (d : Bool) (MO : MachineOperand),
        S2.IRVregToLLIRVreg v.ID = some S.MF.NextVReg →
        GetMachineOperandFromValue TM S2 w bb2 d = some (MO, S3) →
        S3.IRVregToLLIRVreg v.ID = some S.MF.NextVReg) ∧
      (∀ (S2 : IRtoLLIR) (bb2 : Nat) (d : Bool),
        S2.IRVregToLLIRVreg v.ID = some S.MF.NextVReg →
        S2.MF.IsStackSlot S.MF.NextVReg = false →
        GetMachineOperandFromValue TM S2 v bb2 d =
          some ((MachineOperand.CreateVirtualRegister S.MF.NextVReg 32).SetType
            (if v.Ty.IsPTR then LowLevelType.CreatePTR TM.PointerSize
             else LowLevelType.CreateScalar v.BitWidth), S2)) := by
  have hFirst : ∀ W, GetVRegForValue S v bb IsDef W =
      (S.MF.NextVReg, { S.NextAvailableVReg.2 with
        IRVregToLLIRVreg := MapSet S.IRVregToLLIRVreg v.ID S.MF.NextVReg }) := by
    intro W
    unfold GetVRegForValue
    simp only [hNew, hSlot, hSpill, Bool.and_false, Bool.false_and, Bool.false_eq_true, if_false]
    rfl
  have hLater : ∀ (S2 : IRtoLLIR) (bb2 : Nat) (d : Bool) (W : Nat),
      S2.IRVregToLLIRVreg v.ID = some S.MF.NextVReg →
      S2.MF.IsStackSlot S.MF.NextVReg = false →
      GetVRegForValue S2 v bb2 d W = (S.MF.NextVReg, S2) := by
    intro S2 bb2 d W hm hs
    unfold GetVRegForValue
    simp [hm, hs]
  refine ⟨{ S.NextAvailableVReg.2 with
      IRVregToLLIRVreg := MapSet S.IRVregToLLIRVreg v.ID S.MF.NextVReg }, ?_, ?_, rfl, rfl, rfl,
    ?_, ?_, ?_⟩
  · unfold GetMachineOperandFromValue
    simp only [hReg, if_true, hFirst]
    by_cases hp : v.Ty.IsPTR = true
    · simp [hp]
    · simp [hp]
  · simp [MapSet]
  · intro hInv
    cases hs : S.MF.IsStackSlot S.MF.NextVReg with
    | false => exact hs
    | true => exact absurd (hInv _ hs) (Nat.lt_irrefl _)
  · intro S2 S3 w bb2 d MO hm h
    exact GetMachineOperandFromValue_keeps TM S2 S3 w bb2 d MO _ _ hm h
  · intro S2 bb2 d hm hs
    unfold GetMachineOperandFromValue
    simp only [hReg, if_true, hLater S2 bb2 d _ hm hs]
    by_cases hp : v.Ty.IsPTR = true
    · simp [hp]
    · simp [hp]

theorem C31_register_value_mapping_witness :
    ∃ S1, GetMachineOperandFromValue sampleTM sampleState (sampleIntReg 5 32) 0 true =
        some ((MachineOperand.CreateVirtualRegister 10 32).SetType (LowLevelType.CreateScalar 32),
          S1) ∧
      S1.IRVregToLLIRVreg 5 = some 10 ∧ S1.MF.NextVReg = 11 ∧
      S1.MF.BasicBlocks = sampleState.MF.BasicBlocks ∧
      GetMachineOperandFromValue sampleTM S1 (sampleIntReg 5 32) 0 false =
        some ((MachineOperand.CreateVirtualRegister 10 32).SetType (LowLevelType.CreateScalar 32),
          S1) := by
  obtain ⟨S1, h1, h2, h3, h4, _, h6, _, h8⟩ :=
    C31_register_value_mapping sampleTM sampleState (sampleIntReg 5 32) 0 true rfl rfl rfl rfl
  exact ⟨S1, h1, h2, h3, h4, h8 S1 0 false h2 (h6 (fun id h => by cases h))⟩

/-! ## Stack-access operands of by-value struct loads -/

/-- C33 (code defect): the by-value load of a 16-byte struct through the
pointer that the virtual register 10 holds is lowered to two `LOAD`s whose
address operands are stack accesses of the "slot" 10, at the offsets 0 and 8,
while the frame of the function has the one slot 1: the chunk loop adds a
stack-access operand whatever the address is. -/
theorem C33_struct_load_through_pointer :
    sampleStructThroughPointer.map (fun S => (seqView (S.Instrs 0),
        S.MF.SF.StackSlots.map (fun s => s.ID), S.MF.IsStackSlot 10)) =
      some ([(OperationCode.LOAD,
          [(MachineOperand.CreateVirtualRegister 10 32).SetType (LowLevelType.CreatePTR 64),
            MachineOperand.CreateStackAccess 1 0]),
        (OperationCode.LOAD,
          [MachineOperand.CreateVirtualRegister 12 64, MachineOperand.CreateStackAccess 10 0]),
        (OperationCode.LOAD,
          [MachineOperand.CreateVirtualRegister 13 64, MachineOperand.CreateStackAccess 10 8])],
        [1], false) := by
  decide

/-! ## The lexer -/

/-- C37 (code defect): when the two slashes of a comment are the last
characters of their line, `Lex` discards the following line as well: after
`x = 1; //` the next token is the `z` of the third line, the line `y = 2;` is
lost.  With one character after the slashes the next token is the `y` of the
second line. -/
theorem C37_empty_comment_skips_the_next_line :
    (LexAll 20 20 { Source := ["x = 1; //", "y = 2;", "z = 3;"] }).map (List.map Token.View) =
      some [(TokenKind.Identifier, "x", 0), (TokenKind.Equal, "=", 0),
        (TokenKind.Integer, "1", 0), (TokenKind.SemiColon, ";", 0),
        (TokenKind.Identifier, "z", 2), (TokenKind.Equal, "=", 2),
        (TokenKind.Integer, "3", 2), (TokenKind.SemiColon, ";", 2)] ∧
    (LexAll 20 20 { Source := ["x = 1; //c", "y = 2;", "z = 3;"] }).map (List.map Token.View) =
      some [(TokenKind.Identifier, "x", 0), (TokenKind.Equal, "=", 0),
        (TokenKind.Integer, "1", 0), (TokenKind.SemiColon, ";", 0),
        (TokenKind.Identifier, "y", 1), (TokenKind.Equal, "=", 1),
        (TokenKind.Integer, "2", 1), (TokenKind.SemiColon, ";", 1),
        (TokenKind.Identifier, "z", 2), (TokenKind.Equal, "=", 2),
        (TokenKind.Integer, "3", 2), (TokenKind.SemiColon, ";", 2)] := by
  decide

/-- C38 (code defect): the character literal of the escape `\t` gets the value
11 (`0x0B`, the vertical tab), not 9, the code of the horizontal tab in C.
The escape `\n` gets 10, the unescaped `a` its code 97, the escapes `a`, `b`,
`e`, `f`, `r` and the octal digit 7 the values 7, 8, 27, 12, 13 and 7, and the
literal without a closing quote an `Invalid` token. -/
theorem C38_tab_escape_is_vertical_tab :
    Lexer.EscapeValue (some 't') = some 11 ∧
    [some 'a', some 'b', some 'e', some 'f', some 'n', some 'r', some '7'].map
        Lexer.EscapeValue = [some 7, some 8, some 27, some 12, some 10, some 13, some 7] ∧
    (Lexer.LexCharLiteral { Source := ["'a"] }).map (fun R => R.1.map (fun T => T.Kind)) =
      some (some TokenKind.Invalid) ∧
    (Lexer.LexCharLiteral { Source := ["'\\t'"] }).map
        (fun R => R.1.map (fun T => (T.Kind, T.Value))) =
      some (some (TokenKind.CharacterLiteral, 11)) ∧
    (Lexer.LexCharLiteral { Source := ["'\\n'"] }).map
        (fun R => R.1.map (fun T => (T.Kind, T.Value))) =
      some (some (TokenKind.CharacterLiteral, 10)) ∧
    (Lexer.LexCharLiteral { Source := ["'a'"] }).map
        (fun R => R.1.map (fun T => (T.Kind, T.Value))) =
      some (some (TokenKind.CharacterLiteral, 97)) ∧
    (LexAll 20 20 { Source := ["c = '\\t';"] }).map (List.map (fun T => (T.Kind, T.Value))) =
      some [(TokenKind.Identifier, 0), (TokenKind.Equal, 0), (TokenKind.CharacterLiteral, 11),
        (TokenKind.SemiColon, 0)] := by
  decide

/-- C39 (code defect): in `int f(int, char);` the keyword `int` that a comma
follows is returned as an `Identifier` token, while the `int` before a blank
and the `char` before a parenthesis are keyword tokens; likewise the `return`
of `return-1;` is an `Identifier`.  `LexKeyword` ends the word at the
characters of its list only, which has neither the comma nor the operators. -/
theorem C39_keyword_before_comma_is_identifier :
    (LexAll 20 20 { Source := ["int f(int, char);"] }).map (List.map Token.View) =
      some [(TokenKind.Int, "int", 0), (TokenKind.Identifier, "f", 0),
        (TokenKind.LeftParen, "(", 0), (TokenKind.Identifier, "int", 0),
        (TokenKind.Comma, ",", 0), (TokenKind.Char, "char", 0),
        (TokenKind.RightParen, ")", 0), (TokenKind.SemiColon, ";", 0)] ∧
    (LexAll 20 20 { Source := ["return-1;"] }).map (List.map Token.View) =
      some [(TokenKind.Identifier, "return", 0), (TokenKind.Minus, "-", 0),
        (TokenKind.Integer, "1", 0), (TokenKind.SemiColon, ";", 0)] := by
  decide
